import Mathlib

/-!
# A Lean model of three sbrk/mmap based allocators

The development embeds the three allocators of the repository
(`malloc_1.cpp`, `malloc_2.cpp`, `malloc_3.cpp`).

Conventions of the embedding.

* A pointer is a natural number, `0` is `NULL`.  Pointer arithmetic is plain
  addition and subtraction of natural numbers.
* `size_t` values are natural numbers; every `size_t` addition, subtraction
  and multiplication of the source is performed modulo `2^64`
  (`add64`, `sub64`, `mul64`).
* Memory has two views.  `Memory.hdr a` is the `MallocMetadata` object that
  lives at address `a`; `Memory.byte a` is the byte stored at address `a`.
  A store to a header field updates the object and the bytes the field
  occupies (LP64 layout: `size[0]` at offset 0, `size[1]` at 8, `is_free`
  at 16, `next` at 24, `prev` at 32, `sizeof(MallocMetadata) = 40`).
  `memmove` and `memset` act on the byte view.
  The object at an address follows the stores made at that address only, which
  is how the program reads it as long as no two headers share bytes.
* `Malloc3Bytes` holds the functions of `malloc_3.cpp` once more, on a memory
  that is bytes only (`ByteMemory`): the object at an address is read from the
  40 bytes that start there.  It is used for the runs on which headers overlap.
* The operating system is an input: `OS.sbrk_ok delta` tells whether a call
  `sbrk(delta)` with `delta ≠ 0` succeeds, `OS.mmap_result` is the address
  returned by `mmap` (`none` for `MAP_FAILED`).  Fresh mappings are
  zero-filled.
* The only loop of the source, `findFreeBlock`, is run with an explicit
  bound on the number of iterations.  A function returns `none` when that
  bound is exhausted or when the source would write through a null pointer.
-/

/-- Number of values of the 64-bit type `size_t`. -/
def W : Nat := 18446744073709551616

/-- Addition of two `size_t` values. -/
def add64 (a b : Nat) : Nat := (a + b) % W

/-- Subtraction of two `size_t` values (wraps below zero). -/
def sub64 (a b : Nat) : Nat := (a + (W - b % W)) % W

/-- Multiplication of two `size_t` values. -/
def mul64 (a b : Nat) : Nat := (a * b) % W

/-- The metadata record stored in front of every payload
(`class MallocMetadata`, with `size[2]` split in its two entries). -/
structure MallocMetadata where
  size_TOTAL_PAYLOAD : Nat
  size_ACTIVE_PAYLOAD : Nat
  is_free : Bool
  next : Nat
  prev : Nat
deriving DecidableEq, Repr

/-- The value of `sizeof(MallocMetadata)`. -/
def sizeofMallocMetadata : Nat := 40

/-- The record read from zero-filled memory. -/
def zeroMetadata : MallocMetadata :=
  { size_TOTAL_PAYLOAD := 0, size_ACTIVE_PAYLOAD := 0, is_free := false, next := 0, prev := 0 }

/-- Memory: the metadata object at each address and the byte at each address. -/
structure Memory where
  hdr : Nat → MallocMetadata
  byte : Nat → Nat

/-- Store of an 8-byte little-endian value `v` at address `a`. -/
def store64 (a v : Nat) (b : Nat → Nat) : Nat → Nat :=
  fun x => if a ≤ x ∧ x < a + 8 then (v / 256 ^ (x - a)) % 256 else b x

/-- Store of the one-byte value `v` at address `a`. -/
def store8 (a v : Nat) (b : Nat → Nat) : Nat → Nat :=
  fun x => if x = a then v else b x

/-- The statement `p->size[TOTAL_PAYLOAD] = v`. -/
def Memory.setTotal (m : Memory) (p v : Nat) : Memory :=
  { hdr := fun x => if x = p then { m.hdr p with size_TOTAL_PAYLOAD := v } else m.hdr x,
    byte := store64 p v m.byte }

/-- The statement `p->size[ACTIVE_PAYLOAD] = v`. -/
def Memory.setActive (m : Memory) (p v : Nat) : Memory :=
  { hdr := fun x => if x = p then { m.hdr p with size_ACTIVE_PAYLOAD := v } else m.hdr x,
    byte := store64 (p + 8) v m.byte }

/-- The statement `p->is_free = v`. -/
def Memory.setIsFree (m : Memory) (p : Nat) (v : Bool) : Memory :=
  { hdr := fun x => if x = p then { m.hdr p with is_free := v } else m.hdr x,
    byte := store8 (p + 16) (if v then 1 else 0) m.byte }

/-- The statement `p->next = v`. -/
def Memory.setNext (m : Memory) (p v : Nat) : Memory :=
  { hdr := fun x => if x = p then { m.hdr p with next := v } else m.hdr x,
    byte := store64 (p + 24) v m.byte }

/-- The statement `p->prev = v`. -/
def Memory.setPrev (m : Memory) (p v : Nat) : Memory :=
  { hdr := fun x => if x = p then { m.hdr p with prev := v } else m.hdr x,
    byte := store64 (p + 32) v m.byte }

/-- The call `memmove(dst, src, len)`: the bytes are read before any is written. -/
def Memory.memmove (m : Memory) (dst src len : Nat) : Memory :=
  { m with byte := fun x => if dst ≤ x ∧ x < dst + len then m.byte (src + (x - dst)) else m.byte x }

/-- The call `memset(dst, 0, len)`. -/
def Memory.memsetZero (m : Memory) (dst len : Nat) : Memory :=
  { m with byte := fun x => if dst ≤ x ∧ x < dst + len then 0 else m.byte x }

/-- Zero-filled pages delivered by `mmap` at `[addr, addr + len)`. -/
def Memory.zeroFill (m : Memory) (addr len : Nat) : Memory :=
  { hdr := fun x => if addr ≤ x ∧ x < addr + len then zeroMetadata else m.hdr x,
    byte := fun x => if addr ≤ x ∧ x < addr + len then 0 else m.byte x }

/-- Memory as the operating system hands it out: all zero. -/
def Memory.zero : Memory :=
  { hdr := fun _ => zeroMetadata, byte := fun _ => 0 }

/-- Outcomes of the operating-system calls made during one public call. -/
structure OS where
  sbrk_ok : Nat → Bool
  mmap_result : Option Nat

/-- An operating system that grants every request and maps at `addr`. -/
def OS.grant (addr : Nat) : OS :=
  { sbrk_ok := fun _ => true, mmap_result := some addr }

/-- An operating system that refuses every request. -/
def OS.refuse : OS :=
  { sbrk_ok := fun _ => false, mmap_result := none }

/-- The getter `getPayloadBlockAddr`: `(void*)(this + 1)`. -/
def getPayloadBlockAddr (block_metadata : Nat) : Nat :=
  block_metadata + sizeofMallocMetadata

/-- The cast `(MallocMetadata*)payload_addr - 1`. -/
def metadataOf (payload_addr : Nat) : Nat :=
  payload_addr - sizeofMallocMetadata

/-- The value `(void*)-1` returned by a failed `sbrk` or `mmap`. -/
def voidMinusOne : Nat := W - 1

/-- The bound `1e8` of the size validation. -/
def maxSize : Nat := 100000000

/-! ## malloc_3 -/

namespace Malloc3

/-- The constant `KB`. -/
def KB : Nat := 1024

/-- The member `SPLITTING_THRESHOLD`. -/
def SPLITTING_THRESHOLD : Nat := 128

/-- Data members of `class HeapBlocksList`. -/
structure HeapBlocksList where
  head : Nat
  tail : Nat
  blocks_count_FREE : Nat
  blocks_count_TOTAL : Nat
  bytes_count_FREE : Nat
  bytes_count_TOTAL : Nat
deriving DecidableEq, Repr

/-- Data members of `class MMappedBlocksManager`. -/
structure MMappedBlocksManager where
  total_blocks_count : Nat
  total_bytes_count : Nat
deriving DecidableEq, Repr

/-- The global `memory_manager` together with the memory it manages, the
program break and the list of mappings `(address, length)` currently held. -/
structure State where
  mem : Memory
  brk : Nat
  mappings : List (Nat × Nat)
  heap_blocks_list : HeapBlocksList
  mmapped_blocks : MMappedBlocksManager

/-- The allocator before its first call, the program break being `brk0`. -/
def State.init (brk0 : Nat) : State :=
  { mem := Memory.zero, brk := brk0, mappings := [],
    heap_blocks_list := { head := 0, tail := 0, blocks_count_FREE := 0, blocks_count_TOTAL := 0,
                          bytes_count_FREE := 0, bytes_count_TOTAL := 0 },
    mmapped_blocks := { total_blocks_count := 0, total_bytes_count := 0 } }

/-- The metadata object at address `p`. -/
def State.hdr (s : State) (p : Nat) : MallocMetadata := s.mem.hdr p

def State.head (s : State) : Nat := s.heap_blocks_list.head
def State.tail (s : State) : Nat := s.heap_blocks_list.tail

def State.setTotal (s : State) (p v : Nat) : State := { s with mem := s.mem.setTotal p v }
def State.setActive (s : State) (p v : Nat) : State := { s with mem := s.mem.setActive p v }
def State.setIsFree (s : State) (p : Nat) (v : Bool) : State := { s with mem := s.mem.setIsFree p v }
def State.setNext (s : State) (p v : Nat) : State := { s with mem := s.mem.setNext p v }
def State.setPrev (s : State) (p v : Nat) : State := { s with mem := s.mem.setPrev p v }

def State.setHead (s : State) (v : Nat) : State :=
  { s with heap_blocks_list := { s.heap_blocks_list with head := v } }
def State.setTail (s : State) (v : Nat) : State :=
  { s with heap_blocks_list := { s.heap_blocks_list with tail := v } }
def State.setBlocksFREE (s : State) (v : Nat) : State :=
  { s with heap_blocks_list := { s.heap_blocks_list with blocks_count_FREE := v } }
def State.setBlocksTOTAL (s : State) (v : Nat) : State :=
  { s with heap_blocks_list := { s.heap_blocks_list with blocks_count_TOTAL := v } }
def State.setBytesFREE (s : State) (v : Nat) : State :=
  { s with heap_blocks_list := { s.heap_blocks_list with bytes_count_FREE := v } }
def State.setBytesTOTAL (s : State) (v : Nat) : State :=
  { s with heap_blocks_list := { s.heap_blocks_list with bytes_count_TOTAL := v } }

/-- The system call `sbrk(delta)`: the old break on success, `(void*)-1` on
failure.  `sbrk(0)` always succeeds; the increment is added modulo `2^64`
(a `size_t` argument converted to `intptr_t`). -/
def sbrk (os : OS) (delta : Nat) (s : State) : Nat × State :=
  if delta = 0 then (s.brk, s)
  else if os.sbrk_ok delta then (s.brk, { s with brk := (s.brk + delta) % W })
  else (voidMinusOne, s)

/-- The system call `mmap(NULL, len, ...)` for a private anonymous mapping:
the address of `len` zero-filled bytes, or `(void*)-1`. -/
def mmap (os : OS) (len : Nat) (s : State) : Nat × State :=
  match os.mmap_result with
  | none => (voidMinusOne, s)
  | some addr => (addr, { s with mem := s.mem.zeroFill addr len,
                                 mappings := (addr, len) :: s.mappings })

/-- The system call `munmap(addr, len)`: the mapping that starts at `addr` is
released; an address that starts no mapping makes the call fail, which the
allocator does not check. -/
def munmap (addr _len : Nat) (s : State) : State :=
  { s with mappings := s.mappings.filter (fun m => !(m.1 == addr)) }

namespace HeapBlocksList

/-- The loop of `findFreeBlock`, run for at most `fuel` iterations from `curr`. -/
def findFreeBlockLoop (m : Memory) (payload_size : Nat) : Nat → Nat → Option Nat
  | 0, curr => if curr = 0 then some 0 else none
  | fuel + 1, curr =>
    if curr = 0 then some 0
    else if (m.hdr curr).is_free ∧ (m.hdr curr).size_TOTAL_PAYLOAD ≥ payload_size then some curr
    else findFreeBlockLoop m payload_size fuel (m.hdr curr).next

def findFreeBlock (fuel payload_size : Nat) (s : State) : Option Nat :=
  findFreeBlockLoop s.mem payload_size fuel s.head

def setNewBlockMetaData (payload_size block_metadata : Nat) (s : State) : State :=
  let s := s.setIsFree block_metadata false
  let s := s.setTotal block_metadata payload_size
  let s := s.setActive block_metadata payload_size
  let s := s.setNext block_metadata 0
  s.setPrev block_metadata s.tail

def createNewBlock (os : OS) (payload_size : Nat) (s : State) : Option (Nat × State) :=
  let old_prog_break := (sbrk os 0 s).1
  let total_allocation_size := add64 sizeofMallocMetadata payload_size
  let r := sbrk os total_allocation_size s
  if r.1 = voidMinusOne then some (0, r.2)
  else
    let s := r.2
    let new_block_metadata := old_prog_break
    let s := setNewBlockMetaData payload_size new_block_metadata s
    if s.head = 0 then
      let s := s.setHead new_block_metadata
      let s := s.setTail s.head
      let s := s.setBlocksTOTAL (add64 s.heap_blocks_list.blocks_count_TOTAL 1)
      let s := s.setBytesTOTAL (add64 s.heap_blocks_list.bytes_count_TOTAL total_allocation_size)
      some (getPayloadBlockAddr new_block_metadata, s)
    else if s.tail = 0 then none
    else
      let s := s.setNext s.tail new_block_metadata
      let s := s.setTail new_block_metadata
      let s := s.setBlocksTOTAL (add64 s.heap_blocks_list.blocks_count_TOTAL 1)
      let s := s.setBytesTOTAL (add64 s.heap_blocks_list.bytes_count_TOTAL total_allocation_size)
      some (getPayloadBlockAddr new_block_metadata, s)

def useFreeBlockWithoutSplit (original_block_metadata new_active_payload_size : Nat)
    (s : State) : State :=
  let s := s.setIsFree original_block_metadata false
  let s := s.setActive original_block_metadata new_active_payload_size
  let s := s.setBlocksFREE (sub64 s.heap_blocks_list.blocks_count_FREE 1)
  s.setBytesFREE (sub64 s.heap_blocks_list.bytes_count_FREE
    (s.hdr original_block_metadata).size_TOTAL_PAYLOAD)

def updateMetaDataAfterFreeBlockSplit (original_block_metadata remaining_block_metadata
    new_active_payload_size remaining_payload_size : Nat) (s : State) : State :=
  let s := s.setIsFree original_block_metadata false
  let s := s.setActive original_block_metadata new_active_payload_size
  let s := s.setTotal original_block_metadata new_active_payload_size
  let s := s.setNext remaining_block_metadata (s.hdr original_block_metadata).next
  let s := if (s.hdr original_block_metadata).next ≠ 0 then
      s.setPrev (s.hdr original_block_metadata).next remaining_block_metadata
    else s
  let s := s.setNext original_block_metadata remaining_block_metadata
  let s := s.setPrev remaining_block_metadata original_block_metadata
  let s := s.setIsFree remaining_block_metadata true
  let s := s.setTotal remaining_block_metadata remaining_payload_size
  s.setActive remaining_block_metadata 0

def useFreeBlockWithSplit (original_block_metadata new_active_payload_size
    remaining_payload_size : Nat) (s : State) : State :=
  let remaining_block_metadata :=
    original_block_metadata + sizeofMallocMetadata + new_active_payload_size
  let s := updateMetaDataAfterFreeBlockSplit original_block_metadata remaining_block_metadata
    new_active_payload_size remaining_payload_size s
  let s := if s.tail = original_block_metadata then s.setTail remaining_block_metadata else s
  let s := s.setBlocksTOTAL (add64 s.heap_blocks_list.blocks_count_TOTAL 1)
  s.setBytesFREE (sub64 s.heap_blocks_list.bytes_count_FREE
    (add64 new_active_payload_size sizeofMallocMetadata))

def useFreeBlock (free_block_metadata new_active_payload_size : Nat) (s : State) :
    Nat × State :=
  let remaining_payload_size :=
    if sub64 (s.hdr free_block_metadata).size_TOTAL_PAYLOAD new_active_payload_size
        > sizeofMallocMetadata then
      sub64 (sub64 (s.hdr free_block_metadata).size_TOTAL_PAYLOAD new_active_payload_size)
        sizeofMallocMetadata
    else 0
  let s := if remaining_payload_size < SPLITTING_THRESHOLD then
      useFreeBlockWithoutSplit free_block_metadata new_active_payload_size s
    else
      useFreeBlockWithSplit free_block_metadata new_active_payload_size remaining_payload_size s
  (getPayloadBlockAddr free_block_metadata, s)

def useWildernessBlock (os : OS) (payload_size : Nat) (s : State) : Nat × State :=
  let wilderness_block_metadata := s.tail
  let extra_needed_size :=
    sub64 payload_size (s.hdr wilderness_block_metadata).size_TOTAL_PAYLOAD
  let r := sbrk os extra_needed_size s
  if r.1 = voidMinusOne then (0, r.2)
  else
    let s := r.2
    let s := s.setBlocksFREE (sub64 s.heap_blocks_list.blocks_count_FREE 1)
    let s := s.setBytesTOTAL (add64 s.heap_blocks_list.bytes_count_TOTAL extra_needed_size)
    let s := s.setBytesFREE (sub64 s.heap_blocks_list.bytes_count_FREE
      (s.hdr wilderness_block_metadata).size_TOTAL_PAYLOAD)
    let s := s.setIsFree wilderness_block_metadata false
    let s := s.setTotal wilderness_block_metadata payload_size
    let s := s.setActive wilderness_block_metadata payload_size
    (getPayloadBlockAddr wilderness_block_metadata, s)

def allocateBlock (fuel : Nat) (os : OS) (payload_size : Nat) (s : State) :
    Option (Nat × State) :=
  match findFreeBlock fuel payload_size s with
  | none => none
  | some free_block_metadata =>
    if free_block_metadata = 0 ∧ s.tail ≠ 0 ∧ (s.hdr s.tail).is_free then
      some (useWildernessBlock os payload_size s)
    else if free_block_metadata = 0 then
      createNewBlock os payload_size s
    else
      some (useFreeBlock free_block_metadata payload_size s)

def allocateZeroedBlock (fuel : Nat) (os : OS) (payload_size : Nat) (s : State) :
    Option (Nat × State) :=
  match allocateBlock fuel os payload_size s with
  | none => none
  | some (payload_block_addr, s) =>
    if payload_block_addr ≠ 0 then
      some (payload_block_addr, { s with mem := s.mem.memsetZero payload_block_addr payload_size })
    else some (payload_block_addr, s)

def combineFreeBlockWithSucc (block_metadata : Nat) (s : State) : State :=
  let succ_metadata := (s.hdr block_metadata).next
  let s := if (s.hdr succ_metadata).next ≠ 0 then
      s.setPrev (s.hdr succ_metadata).next block_metadata
    else s
  let s := s.setNext block_metadata (s.hdr succ_metadata).next
  let s := if s.tail = succ_metadata then s.setTail block_metadata else s
  let s := s.setBlocksTOTAL (sub64 s.heap_blocks_list.blocks_count_TOTAL 1)
  let s := s.setBytesFREE (add64 s.heap_blocks_list.bytes_count_FREE
    (add64 sizeofMallocMetadata (s.hdr block_metadata).size_TOTAL_PAYLOAD))
  let s := s.setIsFree block_metadata true
  let s := s.setTotal block_metadata (add64 (s.hdr block_metadata).size_TOTAL_PAYLOAD
    (add64 sizeofMallocMetadata (s.hdr succ_metadata).size_TOTAL_PAYLOAD))
  s.setActive block_metadata 0

def combineFreeBlockWithPred (block_metadata : Nat) (s : State) : State :=
  let pred_metadata := (s.hdr block_metadata).prev
  let s := if (s.hdr block_metadata).next ≠ 0 then
      s.setPrev (s.hdr block_metadata).next pred_metadata
    else s
  let s := s.setNext pred_metadata (s.hdr block_metadata).next
  let s := if s.tail = block_metadata then s.setTail pred_metadata else s
  let s := s.setTotal pred_metadata (add64 (s.hdr pred_metadata).size_TOTAL_PAYLOAD
    (add64 sizeofMallocMetadata (s.hdr block_metadata).size_TOTAL_PAYLOAD))
  let s := s.setBlocksTOTAL (sub64 s.heap_blocks_list.blocks_count_TOTAL 1)
  s.setBytesFREE (add64 s.heap_blocks_list.bytes_count_FREE
    (add64 sizeofMallocMetadata (s.hdr block_metadata).size_TOTAL_PAYLOAD))

def combineFreeBlockWithSuccAndPred (block_metadata : Nat) (s : State) : State :=
  let s := combineFreeBlockWithSucc block_metadata s
  let s := combineFreeBlockWithPred block_metadata s
  let s := s.setBlocksFREE (sub64 s.heap_blocks_list.blocks_count_FREE 1)
  s.setBytesFREE (sub64 s.heap_blocks_list.bytes_count_FREE
    (s.hdr block_metadata).size_TOTAL_PAYLOAD)

def freeBlockWithoutCombining (block_metadata : Nat) (s : State) : State :=
  let s := s.setIsFree block_metadata true
  let s := s.setActive block_metadata 0
  let s := s.setBlocksFREE (add64 s.heap_blocks_list.blocks_count_FREE 1)
  s.setBytesFREE (add64 s.heap_blocks_list.bytes_count_FREE
    (s.hdr block_metadata).size_TOTAL_PAYLOAD)

def releaseUsedBlock (payload_addr : Nat) (s : State) : State :=
  let block_metadata := metadataOf payload_addr
  if (s.hdr block_metadata).is_free then s
  else
    let combine_with_succ : Bool :=
      decide ((s.hdr block_metadata).next ≠ 0) && (s.hdr (s.hdr block_metadata).next).is_free
    let combine_with_pred : Bool :=
      decide ((s.hdr block_metadata).prev ≠ 0) && (s.hdr (s.hdr block_metadata).prev).is_free
    if combine_with_succ && combine_with_pred then
      combineFreeBlockWithSuccAndPred block_metadata s
    else if combine_with_succ then
      combineFreeBlockWithSucc block_metadata s
    else if combine_with_pred then
      combineFreeBlockWithPred block_metadata s
    else
      freeBlockWithoutCombining block_metadata s

def splitUsedBlock (old_block_metadata new_payload_size remaining_payload_size : Nat)
    (s : State) : State :=
  let remaining_block_metadata := old_block_metadata + sizeofMallocMetadata + new_payload_size
  let s := s.setTotal old_block_metadata new_payload_size
  let s := s.setIsFree remaining_block_metadata true
  let s := s.setTotal remaining_block_metadata remaining_payload_size
  let s := s.setActive remaining_block_metadata 0
  let s := if (s.hdr old_block_metadata).next ≠ 0 then
      s.setPrev (s.hdr old_block_metadata).next remaining_block_metadata
    else s
  let s := s.setPrev remaining_block_metadata old_block_metadata
  let s := s.setNext remaining_block_metadata (s.hdr old_block_metadata).next
  let s := s.setNext old_block_metadata remaining_block_metadata
  let s := if s.tail = old_block_metadata then s.setTail remaining_block_metadata else s
  let s := s.setBlocksTOTAL (add64 s.heap_blocks_list.blocks_count_TOTAL 1)
  let s := s.setBlocksFREE (add64 s.heap_blocks_list.blocks_count_FREE 1)
  s.setBytesFREE (add64 s.heap_blocks_list.bytes_count_FREE remaining_payload_size)

def reallocateWithSameBlock (old_block_metadata new_payload_size : Nat) (s : State) :
    Nat × State :=
  let remaining_payload_size :=
    if sub64 (s.hdr old_block_metadata).size_TOTAL_PAYLOAD new_payload_size
        > sizeofMallocMetadata then
      sub64 (sub64 (s.hdr old_block_metadata).size_TOTAL_PAYLOAD new_payload_size)
        sizeofMallocMetadata
    else 0
  let s := if remaining_payload_size ≥ SPLITTING_THRESHOLD then
      splitUsedBlock old_block_metadata new_payload_size remaining_payload_size s
    else s
  let s := s.setActive old_block_metadata new_payload_size
  (getPayloadBlockAddr old_block_metadata, s)

def reallocateWildernessBlock (os : OS) (new_payload_size : Nat) (s : State) : Nat × State :=
  let wilderness_block_metadata := s.tail
  let extra_needed_size :=
    sub64 new_payload_size (s.hdr wilderness_block_metadata).size_TOTAL_PAYLOAD
  let r := sbrk os extra_needed_size s
  if r.1 = voidMinusOne then (0, r.2)
  else
    let s := r.2
    let s := s.setTotal wilderness_block_metadata new_payload_size
    let s := s.setActive wilderness_block_metadata new_payload_size
    let s := s.setBytesTOTAL (add64 s.heap_blocks_list.bytes_count_TOTAL extra_needed_size)
    (getPayloadBlockAddr wilderness_block_metadata, s)

def canReallocateUsingPredOnly (old_block_metadata new_payload_size : Nat) (s : State) : Bool :=
  if (s.hdr old_block_metadata).prev = 0 then false
  else if !(s.hdr (s.hdr old_block_metadata).prev).is_free then false
  else
    let pred_payload_size := (s.hdr (s.hdr old_block_metadata).prev).size_TOTAL_PAYLOAD
    let total_avail_payload_size := add64 (add64 pred_payload_size sizeofMallocMetadata)
      (s.hdr old_block_metadata).size_TOTAL_PAYLOAD
    decide (total_avail_payload_size ≥ new_payload_size)

def canReallocateUsingSuccOnly (old_block_metadata new_payload_size : Nat) (s : State) : Bool :=
  if (s.hdr old_block_metadata).next = 0 then false
  else if !(s.hdr (s.hdr old_block_metadata).next).is_free then false
  else
    let succ_payload_size := (s.hdr (s.hdr old_block_metadata).next).size_TOTAL_PAYLOAD
    let total_avail_payload_size := add64
      (add64 (s.hdr old_block_metadata).size_TOTAL_PAYLOAD sizeofMallocMetadata)
      succ_payload_size
    decide (total_avail_payload_size ≥ new_payload_size)

def canReallocateUsingPredAndSucc (old_block_metadata new_payload_size : Nat) (s : State) :
    Bool :=
  if (s.hdr old_block_metadata).prev = 0 ∨ (s.hdr old_block_metadata).next = 0 then false
  else if !(s.hdr (s.hdr old_block_metadata).prev).is_free
      || !(s.hdr (s.hdr old_block_metadata).next).is_free then false
  else
    let pred_payload_size := (s.hdr (s.hdr old_block_metadata).prev).size_TOTAL_PAYLOAD
    let succ_payload_size := (s.hdr (s.hdr old_block_metadata).next).size_TOTAL_PAYLOAD
    let total_avail_payload_size := add64 (add64 (add64 (add64 pred_payload_size
      sizeofMallocMetadata) (s.hdr old_block_metadata).size_TOTAL_PAYLOAD)
      sizeofMallocMetadata) succ_payload_size
    decide (total_avail_payload_size ≥ new_payload_size)

def canReallocateUsingPredOrSucc (old_block_metadata new_payload_size : Nat) (s : State) :
    Bool :=
  canReallocateUsingPredOnly old_block_metadata new_payload_size s
    || canReallocateUsingSuccOnly old_block_metadata new_payload_size s
    || canReallocateUsingPredAndSucc old_block_metadata new_payload_size s

def reallocateUsingPredOnly (old_block_metadata new_payload_size : Nat) (s : State) :
    Option (Nat × State) :=
  let pred_metadata := (s.hdr old_block_metadata).prev
  let pred_payload_size := (s.hdr pred_metadata).size_TOTAL_PAYLOAD
  let total_avail_payload_size := add64 (add64 pred_payload_size sizeofMallocMetadata)
    (s.hdr old_block_metadata).size_TOTAL_PAYLOAD
  let s := s.setNext pred_metadata (s.hdr old_block_metadata).next
  let unlinked : Option State :=
    if s.tail = old_block_metadata then some (s.setTail pred_metadata)
    else if (s.hdr old_block_metadata).next = 0 then none
    else some (s.setPrev (s.hdr old_block_metadata).next pred_metadata)
  match unlinked with
  | none => none
  | some s =>
  let s := s.setIsFree pred_metadata false
  let s := s.setTotal pred_metadata total_avail_payload_size
  let s := s.setActive pred_metadata new_payload_size
  let remaining_payload_size :=
    if sub64 total_avail_payload_size new_payload_size > sizeofMallocMetadata then
      sub64 (sub64 total_avail_payload_size new_payload_size) sizeofMallocMetadata
    else 0
  let split : Option State :=
    if remaining_payload_size ≥ SPLITTING_THRESHOLD then
      let remaining_block_metadata := pred_metadata + sizeofMallocMetadata + new_payload_size
      let s := s.setIsFree remaining_block_metadata true
      let s := s.setActive remaining_block_metadata 0
      let s := s.setTotal remaining_block_metadata remaining_payload_size
      let s := s.setPrev remaining_block_metadata pred_metadata
      let s := s.setNext remaining_block_metadata (s.hdr pred_metadata).next
      let linked : Option State :=
        if pred_metadata = s.tail then some (s.setTail remaining_block_metadata)
        else if (s.hdr pred_metadata).next = 0 then none
        else some (s.setPrev (s.hdr pred_metadata).next remaining_block_metadata)
      match linked with
      | none => none
      | some s =>
        let s := s.setNext pred_metadata remaining_block_metadata
        let s := s.setBytesFREE (sub64 s.heap_blocks_list.bytes_count_FREE
          pred_payload_size)
        some (s.setBytesFREE (add64 s.heap_blocks_list.bytes_count_FREE remaining_payload_size))
    else
      let s := s.setBlocksTOTAL (sub64 s.heap_blocks_list.blocks_count_TOTAL 1)
      let s := s.setBlocksFREE (sub64 s.heap_blocks_list.blocks_count_FREE 1)
      some (s.setBytesFREE (sub64 s.heap_blocks_list.bytes_count_FREE
        pred_payload_size))
  match split with
  | none => none
  | some s =>
    let s := { s with mem := (s.mem.memmove (getPayloadBlockAddr pred_metadata)
      (getPayloadBlockAddr old_block_metadata) (s.hdr old_block_metadata).size_TOTAL_PAYLOAD) }
    some (getPayloadBlockAddr pred_metadata, s)

def reallocateUsingSuccOnly (old_block_metadata new_payload_size : Nat) (s : State) :
    Option (Nat × State) :=
  let succ_metadata := (s.hdr old_block_metadata).next
  let original_succ_payload_size := (s.hdr succ_metadata).size_TOTAL_PAYLOAD
  let total_avail_payload_size := add64
    (add64 (s.hdr old_block_metadata).size_TOTAL_PAYLOAD sizeofMallocMetadata)
    original_succ_payload_size
  let s := s.setNext old_block_metadata (s.hdr succ_metadata).next
  let unlinked : Option State :=
    if s.tail = succ_metadata then some (s.setTail old_block_metadata)
    else if (s.hdr succ_metadata).next = 0 then none
    else some (s.setPrev (s.hdr succ_metadata).next old_block_metadata)
  match unlinked with
  | none => none
  | some s =>
  let s := s.setTotal old_block_metadata total_avail_payload_size
  let s := s.setActive old_block_metadata new_payload_size
  let remaining_payload_size :=
    if sub64 total_avail_payload_size new_payload_size > sizeofMallocMetadata then
      sub64 (sub64 total_avail_payload_size new_payload_size) sizeofMallocMetadata
    else 0
  let split : Option State :=
    if remaining_payload_size ≥ SPLITTING_THRESHOLD then
      let remaining_block_metadata := old_block_metadata + sizeofMallocMetadata + new_payload_size
      let s := s.setIsFree remaining_block_metadata true
      let s := s.setActive remaining_block_metadata 0
      let s := s.setTotal remaining_block_metadata remaining_payload_size
      let s := s.setPrev remaining_block_metadata old_block_metadata
      let s := s.setNext remaining_block_metadata (s.hdr old_block_metadata).next
      let linked : Option State :=
        if old_block_metadata = s.tail then some (s.setTail remaining_block_metadata)
        else if (s.hdr old_block_metadata).next = 0 then none
        else some (s.setPrev (s.hdr old_block_metadata).next remaining_block_metadata)
      match linked with
      | none => none
      | some s =>
        let s := s.setNext old_block_metadata remaining_block_metadata
        let s := s.setBytesFREE (sub64 s.heap_blocks_list.bytes_count_FREE
          original_succ_payload_size)
        some (s.setBytesFREE (add64 s.heap_blocks_list.bytes_count_FREE remaining_payload_size))
    else
      let s := s.setBlocksTOTAL (sub64 s.heap_blocks_list.blocks_count_TOTAL 1)
      let s := s.setBlocksFREE (sub64 s.heap_blocks_list.blocks_count_FREE 1)
      some (s.setBytesFREE (sub64 s.heap_blocks_list.bytes_count_FREE
        original_succ_payload_size))
  match split with
  | none => none
  | some s => some (getPayloadBlockAddr old_block_metadata, s)

def reallocateUsingPredAndSucc (old_block_metadata new_payload_size : Nat) (s : State) :
    Option (Nat × State) :=
  let pred_metadata := (s.hdr old_block_metadata).prev
  let succ_metadata := (s.hdr old_block_metadata).next
  let original_pred_payload_size := (s.hdr pred_metadata).size_TOTAL_PAYLOAD
  let original_succ_payload_size := (s.hdr succ_metadata).size_TOTAL_PAYLOAD
  let total_avail_payload_size := add64 (add64 (add64 (add64 original_pred_payload_size
    sizeofMallocMetadata) (s.hdr old_block_metadata).size_TOTAL_PAYLOAD)
    sizeofMallocMetadata) original_succ_payload_size
  let s := s.setNext pred_metadata (s.hdr succ_metadata).next
  let unlinked : Option State :=
    if s.tail = succ_metadata then some (s.setTail pred_metadata)
    else if (s.hdr succ_metadata).next = 0 then none
    else some (s.setPrev (s.hdr succ_metadata).next pred_metadata)
  match unlinked with
  | none => none
  | some s =>
  let s := s.setIsFree pred_metadata false
  let s := s.setTotal pred_metadata total_avail_payload_size
  let s := s.setActive pred_metadata new_payload_size
  let remaining_payload_size :=
    if sub64 total_avail_payload_size new_payload_size > sizeofMallocMetadata then
      sub64 (sub64 total_avail_payload_size new_payload_size) sizeofMallocMetadata
    else 0
  let split : Option State :=
    if remaining_payload_size ≥ SPLITTING_THRESHOLD then
      let remaining_block_metadata := pred_metadata + sizeofMallocMetadata + new_payload_size
      let s := s.setIsFree remaining_block_metadata true
      let s := s.setActive remaining_block_metadata 0
      let s := s.setTotal remaining_block_metadata remaining_payload_size
      let s := s.setPrev remaining_block_metadata pred_metadata
      let s := s.setNext remaining_block_metadata (s.hdr pred_metadata).next
      let linked : Option State :=
        if pred_metadata = s.tail then some (s.setTail remaining_block_metadata)
        else if (s.hdr pred_metadata).next = 0 then none
        else some (s.setPrev (s.hdr pred_metadata).next remaining_block_metadata)
      match linked with
      | none => none
      | some s =>
        let s := s.setNext pred_metadata remaining_block_metadata
        let s := s.setBlocksTOTAL (add64 s.heap_blocks_list.blocks_count_TOTAL (W - 1))
        let s := s.setBlocksFREE (add64 s.heap_blocks_list.blocks_count_FREE (W - 1))
        let s := s.setBytesFREE (sub64 s.heap_blocks_list.bytes_count_FREE
          (add64 original_pred_payload_size original_succ_payload_size))
        some (s.setBytesFREE (add64 s.heap_blocks_list.bytes_count_FREE remaining_payload_size))
    else
      let s := s.setBlocksTOTAL (sub64 s.heap_blocks_list.blocks_count_TOTAL 2)
      let s := s.setBlocksFREE (sub64 s.heap_blocks_list.blocks_count_FREE 2)
      some (s.setBytesFREE (sub64 s.heap_blocks_list.bytes_count_FREE
        (add64 original_pred_payload_size original_succ_payload_size)))
  match split with
  | none => none
  | some s =>
    let s := { s with mem := (s.mem.memmove (getPayloadBlockAddr pred_metadata)
      (getPayloadBlockAddr old_block_metadata) (s.hdr old_block_metadata).size_TOTAL_PAYLOAD) }
    some (getPayloadBlockAddr pred_metadata, s)

def reallocateUsingPredOrSucc (old_block_metadata new_payload_size : Nat) (s : State) :
    Option (Nat × State) :=
  if canReallocateUsingPredOnly old_block_metadata new_payload_size s then
    reallocateUsingPredOnly old_block_metadata new_payload_size s
  else if canReallocateUsingSuccOnly old_block_metadata new_payload_size s then
    reallocateUsingSuccOnly old_block_metadata new_payload_size s
  else
    reallocateUsingPredAndSucc old_block_metadata new_payload_size s

def reallocateToOtherBlock (fuel : Nat) (os : OS) (old_block_metadata old_payload_addr
    new_payload_size : Nat) (s : State) : Option (Nat × State) :=
  match findFreeBlock fuel new_payload_size s with
  | none => none
  | some free_block_metadata =>
    let allocated : Option (Nat × State) :=
      if free_block_metadata = 0 then createNewBlock os new_payload_size s
      else some (useFreeBlock free_block_metadata new_payload_size s)
    match allocated with
    | none => none
    | some (new_payload_block_addr, s) =>
      if free_block_metadata = 0 ∧ new_payload_block_addr = 0 then some (0, s)
      else
        let s := { s with mem := (s.mem.memmove new_payload_block_addr old_payload_addr
          (s.hdr old_block_metadata).size_TOTAL_PAYLOAD) }
        let s := releaseUsedBlock old_payload_addr s
        some (new_payload_block_addr, s)

def reallocateActiveBlock (fuel : Nat) (os : OS) (old_payload_addr new_payload_size : Nat)
    (s : State) : Option (Nat × State) :=
  if old_payload_addr = 0 then allocateBlock fuel os new_payload_size s
  else
    let old_block_metadata := metadataOf old_payload_addr
    if (s.hdr old_block_metadata).size_TOTAL_PAYLOAD ≥ new_payload_size then
      some (reallocateWithSameBlock old_block_metadata new_payload_size s)
    else
      let grown : Nat × State :=
        if s.tail = old_block_metadata then reallocateWildernessBlock os new_payload_size s
        else (0, s)
      if s.tail = old_block_metadata ∧ grown.1 ≠ 0 then some (old_payload_addr, grown.2)
      else
        let s := grown.2
        if canReallocateUsingPredOrSucc old_block_metadata new_payload_size s then
          reallocateUsingPredOrSucc old_block_metadata new_payload_size s
        else
          reallocateToOtherBlock fuel os old_block_metadata old_payload_addr new_payload_size s

end HeapBlocksList

namespace MMappedBlocksManager

def setNewBlockMetaData (payload_size block_metadata : Nat) (s : State) : State :=
  let s := s.setTotal block_metadata payload_size
  s.setActive block_metadata payload_size

def createNewBlock (os : OS) (payload_size : Nat) (s : State) : Nat × State :=
  let needed_allocation_size := add64 payload_size sizeofMallocMetadata
  let r := mmap os needed_allocation_size s
  if r.1 = voidMinusOne then (0, r.2)
  else
    let s := r.2
    let metadata_addr := r.1
    let s := setNewBlockMetaData payload_size metadata_addr s
    let s := { s with mmapped_blocks := { s.mmapped_blocks with
      total_blocks_count := add64 s.mmapped_blocks.total_blocks_count 1 } }
    let s := { s with mmapped_blocks := { s.mmapped_blocks with
      total_bytes_count := add64 s.mmapped_blocks.total_bytes_count needed_allocation_size } }
    (getPayloadBlockAddr metadata_addr, s)

def allocateBlock (os : OS) (payload_size : Nat) (s : State) : Nat × State :=
  createNewBlock os payload_size s

def releaseUsedBlock (payload_addr : Nat) (s : State) : State :=
  let block_metadata := metadataOf payload_addr
  let block_size := add64 (s.hdr block_metadata).size_TOTAL_PAYLOAD sizeofMallocMetadata
  let s := munmap block_metadata block_size s
  let s := { s with mmapped_blocks := { s.mmapped_blocks with
    total_blocks_count := sub64 s.mmapped_blocks.total_blocks_count 1 } }
  { s with mmapped_blocks := { s.mmapped_blocks with
    total_bytes_count := sub64 s.mmapped_blocks.total_bytes_count block_size } }

def reallocateActiveBlock (os : OS) (old_payload_addr new_payload_size : Nat) (s : State) :
    Nat × State :=
  let old_block_metadata := if old_payload_addr ≠ 0 then metadataOf old_payload_addr else 0
  let r := allocateBlock os new_payload_size s
  let new_payload_addr := r.1
  let s := r.2
  if new_payload_addr ≠ 0 ∧ old_payload_addr ≠ 0 then
    let s := { s with mem := (s.mem.memmove new_payload_addr old_payload_addr
      (min new_payload_size (s.hdr old_block_metadata).size_ACTIVE_PAYLOAD)) }
    let s := releaseUsedBlock old_payload_addr s
    (new_payload_addr, s)
  else (new_payload_addr, s)

end MMappedBlocksManager

/-- The enumeration `BytesType`. -/
inductive BytesType where
  | FREE
  | TOTAL
deriving DecidableEq, Repr

namespace MemoryManager

def allocateBlock (fuel : Nat) (os : OS) (payload_size : Nat) (s : State) :
    Option (Nat × State) :=
  if payload_size ≥ 128 * KB then some (MMappedBlocksManager.allocateBlock os payload_size s)
  else HeapBlocksList.allocateBlock fuel os payload_size s

def allocateZeroedBlock (fuel : Nat) (os : OS) (payload_size : Nat) (s : State) :
    Option (Nat × State) :=
  if payload_size ≥ 128 * KB then some (MMappedBlocksManager.allocateBlock os payload_size s)
  else HeapBlocksList.allocateZeroedBlock fuel os payload_size s

def releaseUsedBlock (payload_addr : Nat) (s : State) : State :=
  let block_metadata := metadataOf payload_addr
  if (s.hdr block_metadata).size_ACTIVE_PAYLOAD < 128 * KB then
    HeapBlocksList.releaseUsedBlock payload_addr s
  else MMappedBlocksManager.releaseUsedBlock payload_addr s

def reallocateActiveBlock (fuel : Nat) (os : OS) (old_payload_addr new_payload_size : Nat)
    (s : State) : Option (Nat × State) :=
  if new_payload_size ≥ 128 * KB then
    some (MMappedBlocksManager.reallocateActiveBlock os old_payload_addr new_payload_size s)
  else HeapBlocksList.reallocateActiveBlock fuel os old_payload_addr new_payload_size s

def getMetaDataSize : Nat := sizeofMallocMetadata

def getBlocksCount (type : BytesType) (s : State) : Nat :=
  match type with
  | BytesType.FREE => s.heap_blocks_list.blocks_count_FREE
  | BytesType.TOTAL =>
    add64 s.heap_blocks_list.blocks_count_TOTAL s.mmapped_blocks.total_blocks_count

end MemoryManager

def _num_meta_data_bytes (s : State) : Nat :=
  mul64 (MemoryManager.getBlocksCount BytesType.TOTAL s) MemoryManager.getMetaDataSize

def MemoryManager.getBytesCount (type : BytesType) (s : State) : Nat :=
  match type with
  | BytesType.FREE => s.heap_blocks_list.bytes_count_FREE
  | BytesType.TOTAL =>
    sub64 (add64 s.heap_blocks_list.bytes_count_TOTAL s.mmapped_blocks.total_bytes_count)
      (_num_meta_data_bytes s)

def smalloc (fuel : Nat) (os : OS) (size : Nat) (s : State) : Option (Nat × State) :=
  if size = 0 ∨ size > maxSize then some (0, s)
  else MemoryManager.allocateBlock fuel os size s

def scalloc (fuel : Nat) (os : OS) (num size : Nat) (s : State) : Option (Nat × State) :=
  if size = 0 ∨ num = 0 ∨ size > maxSize ∨ num > maxSize ∨ mul64 size num > maxSize then
    some (0, s)
  else MemoryManager.allocateZeroedBlock fuel os (mul64 size num) s

def sfree (p : Nat) (s : State) : State :=
  if p = 0 then s else MemoryManager.releaseUsedBlock p s

def srealloc (fuel : Nat) (os : OS) (oldp size : Nat) (s : State) : Option (Nat × State) :=
  if size = 0 ∨ size > maxSize then some (0, s)
  else MemoryManager.reallocateActiveBlock fuel os oldp size s

def _num_free_blocks (s : State) : Nat := MemoryManager.getBlocksCount BytesType.FREE s

def _num_free_bytes (s : State) : Nat := MemoryManager.getBytesCount BytesType.FREE s

def _num_allocated_blocks (s : State) : Nat := MemoryManager.getBlocksCount BytesType.TOTAL s

def _num_allocated_bytes (s : State) : Nat := MemoryManager.getBytesCount BytesType.TOTAL s

def _size_meta_data : Nat := MemoryManager.getMetaDataSize

end Malloc3

/-! ## malloc_1 -/

namespace Malloc1

/-- The only state of `malloc_1.cpp` is the program break. -/
structure State where
  brk : Nat
deriving DecidableEq, Repr

/-- The system call `sbrk(delta)`: the old break on success, `(void*)-1` on failure. -/
def sbrk (os : OS) (delta : Nat) (s : State) : Nat × State :=
  if delta = 0 then (s.brk, s)
  else if os.sbrk_ok delta then (s.brk, { s with brk := (s.brk + delta) % W })
  else (voidMinusOne, s)

def smalloc (os : OS) (size : Nat) (s : State) : Nat × State :=
  if size = 0 ∨ size > maxSize then (0, s)
  else
    let r := sbrk os size s
    let pointer := r.1
    if pointer = voidMinusOne then (0, r.2) else (pointer, r.2)

end Malloc1

/-! ## malloc_2

The record `MallocMetadata` of `malloc_2.cpp` has the fields of the one of
`malloc_3.cpp`; `payload_size[INITIAL]` is kept in `size_TOTAL_PAYLOAD` and
`payload_size[ACTIVE]` in `size_ACTIVE_PAYLOAD`. -/

namespace Malloc2

/-- Data members of `class BlocksList`. -/
structure BlocksList where
  head : Nat
  tail : Nat
  blocks_count_FREE : Nat
  blocks_count_TOTAL : Nat
  bytes_count_FREE : Nat
  bytes_count_TOTAL : Nat
deriving DecidableEq, Repr

/-- The global `blocks_list` together with the memory and the program break. -/
structure State where
  mem : Memory
  brk : Nat
  blocks_list : BlocksList

/-- The allocator before its first call, the program break being `brk0`. -/
def State.init (brk0 : Nat) : State :=
  { mem := Memory.zero, brk := brk0,
    blocks_list := { head := 0, tail := 0, blocks_count_FREE := 0, blocks_count_TOTAL := 0,
                     bytes_count_FREE := 0, bytes_count_TOTAL := 0 } }

/-- The metadata object at address `p`. -/
def State.hdr (s : State) (p : Nat) : MallocMetadata := s.mem.hdr p

def State.head (s : State) : Nat := s.blocks_list.head
def State.tail (s : State) : Nat := s.blocks_list.tail

def State.setTotal (s : State) (p v : Nat) : State := { s with mem := s.mem.setTotal p v }
def State.setActive (s : State) (p v : Nat) : State := { s with mem := s.mem.setActive p v }
def State.setIsFree (s : State) (p : Nat) (v : Bool) : State := { s with mem := s.mem.setIsFree p v }
def State.setNext (s : State) (p v : Nat) : State := { s with mem := s.mem.setNext p v }
def State.setPrev (s : State) (p v : Nat) : State := { s with mem := s.mem.setPrev p v }

def State.setHead (s : State) (v : Nat) : State :=
  { s with blocks_list := { s.blocks_list with head := v } }
def State.setTail (s : State) (v : Nat) : State :=
  { s with blocks_list := { s.blocks_list with tail := v } }
def State.setBlocksFREE (s : State) (v : Nat) : State :=
  { s with blocks_list := { s.blocks_list with blocks_count_FREE := v } }
def State.setBlocksTOTAL (s : State) (v : Nat) : State :=
  { s with blocks_list := { s.blocks_list with blocks_count_TOTAL := v } }
def State.setBytesFREE (s : State) (v : Nat) : State :=
  { s with blocks_list := { s.blocks_list with bytes_count_FREE := v } }
def State.setBytesTOTAL (s : State) (v : Nat) : State :=
  { s with blocks_list := { s.blocks_list with bytes_count_TOTAL := v } }

/-- The system call `sbrk(delta)`: the old break on success, `(void*)-1` on failure. -/
def sbrk (os : OS) (delta : Nat) (s : State) : Nat × State :=
  if delta = 0 then (s.brk, s)
  else if os.sbrk_ok delta then (s.brk, { s with brk := (s.brk + delta) % W })
  else (voidMinusOne, s)

/-- The conversion `static_cast<int>(x)` of a `size_t`, followed by the
conversion of the `int` to the `intptr_t` argument of `sbrk` (as a 64-bit
two's complement value). -/
def castInt (x : Nat) : Nat :=
  if x % 4294967296 < 2147483648 then x % 4294967296
  else x % 4294967296 + (W - 4294967296)

namespace BlocksList

def getMetaDataSize : Nat := sizeofMallocMetadata

/-- The loop of `findFreeBlock`, run for at most `fuel` iterations from `curr`. -/
def findFreeBlockLoop (m : Memory) (payload_size : Nat) : Nat → Nat → Option Nat
  | 0, curr => if curr = 0 then some 0 else none
  | fuel + 1, curr =>
    if curr = 0 then some 0
    else if (m.hdr curr).is_free ∧ (m.hdr curr).size_TOTAL_PAYLOAD ≥ payload_size then some curr
    else findFreeBlockLoop m payload_size fuel (m.hdr curr).next

def findFreeBlock (fuel payload_size : Nat) (s : State) : Option Nat :=
  findFreeBlockLoop s.mem payload_size fuel s.head

def setNewBlockMetaData (payload_size block_metadata : Nat) (s : State) : State :=
  let s := s.setIsFree block_metadata false
  let s := s.setTotal block_metadata payload_size
  let s := s.setActive block_metadata payload_size
  let s := s.setNext block_metadata 0
  s.setPrev block_metadata s.tail

def createNewBlock (os : OS) (payload_size : Nat) (s : State) : Option (Nat × State) :=
  let old_prog_break := (sbrk os 0 s).1
  let total_allocation_size := add64 getMetaDataSize payload_size
  let r := sbrk os (castInt total_allocation_size) s
  if r.1 = voidMinusOne then some (0, r.2)
  else
    let s := r.2
    let new_block_metadata := old_prog_break
    let s := setNewBlockMetaData payload_size new_block_metadata s
    if s.head = 0 then
      let s := s.setHead new_block_metadata
      let s := s.setTail s.head
      let s := s.setBlocksTOTAL (add64 s.blocks_list.blocks_count_TOTAL 1)
      let s := s.setBytesTOTAL (add64 s.blocks_list.bytes_count_TOTAL total_allocation_size)
      some (getPayloadBlockAddr new_block_metadata, s)
    else if s.tail = 0 then none
    else
      let s := s.setNext s.tail new_block_metadata
      let s := s.setTail new_block_metadata
      let s := s.setBlocksTOTAL (add64 s.blocks_list.blocks_count_TOTAL 1)
      let s := s.setBytesTOTAL (add64 s.blocks_list.bytes_count_TOTAL total_allocation_size)
      some (getPayloadBlockAddr new_block_metadata, s)

def useFreeBlock (free_block_metadata new_active_payload_size : Nat) (s : State) :
    Nat × State :=
  let s := s.setIsFree free_block_metadata false
  let s := s.setActive free_block_metadata new_active_payload_size
  let s := s.setBlocksFREE (sub64 s.blocks_list.blocks_count_FREE 1)
  let s := s.setBytesFREE (sub64 s.blocks_list.bytes_count_FREE
    (s.hdr free_block_metadata).size_TOTAL_PAYLOAD)
  (getPayloadBlockAddr free_block_metadata, s)

def allocateBlock (fuel : Nat) (os : OS) (payload_size : Nat) (s : State) :
    Option (Nat × State) :=
  match findFreeBlock fuel payload_size s with
  | none => none
  | some free_block_metadata =>
    if free_block_metadata = 0 then createNewBlock os payload_size s
    else some (useFreeBlock free_block_metadata payload_size s)

def releaseUsedBlock (payload_addr : Nat) (s : State) : State :=
  let block_metadata := metadataOf payload_addr
  if (s.hdr block_metadata).is_free then s
  else
    let s := s.setIsFree block_metadata true
    let s := s.setActive block_metadata 0
    let s := s.setBlocksFREE (add64 s.blocks_list.blocks_count_FREE 1)
    s.setBytesFREE (add64 s.blocks_list.bytes_count_FREE
      (s.hdr block_metadata).size_TOTAL_PAYLOAD)

def allocateZeroedBlock (fuel : Nat) (os : OS) (payload_size : Nat) (s : State) :
    Option (Nat × State) :=
  match allocateBlock fuel os payload_size s with
  | none => none
  | some (payload_block_addr, s) =>
    if payload_block_addr ≠ 0 then
      some (payload_block_addr, { s with mem := s.mem.memsetZero payload_block_addr payload_size })
    else some (payload_block_addr, s)

def reallocateBlockToOtherBlock (fuel : Nat) (os : OS) (old_block_metadata old_payload_addr
    new_payload_size : Nat) (s : State) : Option (Nat × State) :=
  match findFreeBlock fuel new_payload_size s with
  | none => none
  | some free_block_metadata =>
    let allocated : Option (Nat × State) :=
      if free_block_metadata = 0 then createNewBlock os new_payload_size s
      else some (useFreeBlock free_block_metadata new_payload_size s)
    match allocated with
    | none => none
    | some (new_payload_block_addr, s) =>
      if free_block_metadata = 0 ∧ new_payload_block_addr = 0 then some (0, s)
      else
        let s := { s with mem := (s.mem.memmove new_payload_block_addr old_payload_addr
          (s.hdr old_block_metadata).size_ACTIVE_PAYLOAD) }
        let s := releaseUsedBlock old_payload_addr s
        some (new_payload_block_addr, s)

def reallocateActiveBlock (fuel : Nat) (os : OS) (old_payload_addr new_payload_size : Nat)
    (s : State) : Option (Nat × State) :=
  if old_payload_addr = 0 then allocateBlock fuel os new_payload_size s
  else
    let old_block_metadata := metadataOf old_payload_addr
    if (s.hdr old_block_metadata).size_TOTAL_PAYLOAD ≥ new_payload_size then
      some (old_payload_addr, s.setActive old_block_metadata new_payload_size)
    else
      reallocateBlockToOtherBlock fuel os old_block_metadata old_payload_addr new_payload_size s

end BlocksList

def smalloc (fuel : Nat) (os : OS) (size : Nat) (s : State) : Option (Nat × State) :=
  if size = 0 ∨ size > maxSize then some (0, s)
  else BlocksList.allocateBlock fuel os size s

def scalloc (fuel : Nat) (os : OS) (num size : Nat) (s : State) : Option (Nat × State) :=
  if size = 0 ∨ num = 0 ∨ mul64 size num > maxSize then some (0, s)
  else BlocksList.allocateZeroedBlock fuel os (mul64 size num) s

def sfree (p : Nat) (s : State) : State :=
  if p = 0 then s else BlocksList.releaseUsedBlock p s

def srealloc (fuel : Nat) (os : OS) (oldp size : Nat) (s : State) : Option (Nat × State) :=
  if size = 0 ∨ size > maxSize then some (0, s)
  else BlocksList.reallocateActiveBlock fuel os oldp size s

def _num_free_blocks (s : State) : Nat := s.blocks_list.blocks_count_FREE

def _num_free_bytes (s : State) : Nat := s.blocks_list.bytes_count_FREE

def _num_allocated_blocks (s : State) : Nat := s.blocks_list.blocks_count_TOTAL

def _num_meta_data_bytes (s : State) : Nat :=
  mul64 s.blocks_list.blocks_count_TOTAL BlocksList.getMetaDataSize

def _num_allocated_bytes (s : State) : Nat :=
  sub64 s.blocks_list.bytes_count_TOTAL (_num_meta_data_bytes s)

def _size_meta_data : Nat := BlocksList.getMetaDataSize

end Malloc2

/-! ## The block list as a list, and the runs used below -/

namespace Malloc3

/-- The addresses of the blocks met when following `next` from `curr`;
`none` when `NULL` is not reached within `fuel` blocks. -/
def heapListFrom (m : Memory) : Nat → Nat → Option (List Nat)
  | 0, curr => if curr = 0 then some [] else none
  | fuel + 1, curr =>
    if curr = 0 then some []
    else (heapListFrom m fuel (m.hdr curr).next).map (fun l => curr :: l)

/-- The blocks of the heap list, from `head`. -/
def heapList (fuel : Nat) (s : State) : Option (List Nat) :=
  heapListFrom s.mem fuel s.head

/-- Sum of `total_payload` over the blocks of `l` whose `is_free` flag is set. -/
def freePayloadSum (s : State) (l : List Nat) : Nat :=
  ((l.filter (fun a => (s.hdr a).is_free)).map (fun a => (s.hdr a).size_TOTAL_PAYLOAD)).sum

/-- Sum of `total_payload` over the blocks of `l`. -/
def payloadSum (s : State) (l : List Nat) : Nat :=
  (l.map (fun a => (s.hdr a).size_TOTAL_PAYLOAD)).sum

/-- Sum of `total_payload` over the mappings currently held. -/
def mappedPayloadSum (s : State) : Nat :=
  payloadSum s (s.mappings.map (fun m => m.1))

/-- What is read of a block: address, `total_payload`, `active_payload`, `is_free`. -/
def blockView (s : State) (a : Nat) : Nat × Nat × Nat × Bool :=
  (a, (s.hdr a).size_TOTAL_PAYLOAD, (s.hdr a).size_ACTIVE_PAYLOAD, (s.hdr a).is_free)

/-- Every block of `l` ends where the next one starts:
`address + sizeof(MallocMetadata) + total_payload` is the address of the next block. -/
def contiguousList (s : State) : List Nat → Bool
  | a :: b :: l =>
    decide (a + sizeofMallocMetadata + (s.hdr a).size_TOTAL_PAYLOAD = b) && contiguousList s (b :: l)
  | _ => true

/-- No two neighbours of `l` are both free. -/
def noAdjacentFree (s : State) : List Nat → Bool
  | a :: b :: l => !((s.hdr a).is_free && (s.hdr b).is_free) && noAdjacentFree s (b :: l)
  | _ => true

/-- The operating system of the runs: every `sbrk` succeeds, `mmap` maps at `4096000000`. -/
def os0 : OS := OS.grant 4096000000

/-- The empty allocator of the runs: the program break is `4096000`. -/
def s0 : State := State.init 4096000

/-- Run: `p = smalloc(200000)`, then `srealloc(p, 100)`. -/
def runShrinkMapped : Option (Nat × Nat × State) :=
  match smalloc 0 os0 200000 s0 with
  | none => none
  | some (p, s) =>
    match srealloc 0 os0 p 100 s with
    | none => none
    | some (q, s) => some (p, q, s)

/-- Run: `a = smalloc(100)`, `b = smalloc(1000)`, `c = smalloc(10)`, `sfree(b)`,
then `srealloc(a, 200)`. -/
def runGrowIntoSucc : Option (Nat × Nat × Nat × Nat × State) :=
  match smalloc 4 os0 100 s0 with
  | none => none
  | some (a, s) =>
    match smalloc 4 os0 1000 s with
    | none => none
    | some (b, s) =>
      match smalloc 4 os0 10 s with
      | none => none
      | some (c, s) =>
        match srealloc 4 os0 a 200 (sfree b s) with
        | none => none
        | some (q, s) => some (a, b, c, q, s)

/-- Run: `a = smalloc(1000)`, `b = smalloc(200)`, `c = smalloc(10)`, `sfree(b)`,
then `srealloc(a, 100)`. -/
def runShrinkBeforeFree : Option (Nat × Nat × Nat × Nat × State) :=
  match smalloc 4 os0 1000 s0 with
  | none => none
  | some (a, s) =>
    match smalloc 4 os0 200 s with
    | none => none
    | some (b, s) =>
      match smalloc 4 os0 10 s with
      | none => none
      | some (c, s) =>
        match srealloc 4 os0 a 100 (sfree b s) with
        | none => none
        | some (q, s) => some (a, b, c, q, s)

/-- Run: `runGrowIntoSucc`, then `sfree(q)`, `e = smalloc(1140)` and
`srealloc(c, 800)`, where `c` is the block of the third call, never freed. -/
def runResizeOverwritten : Option (Nat × Nat × Nat × State) :=
  match runGrowIntoSucc with
  | none => none
  | some (_, _, c, q, s) =>
    match smalloc 4 os0 1140 (sfree q s) with
    | none => none
    | some (e, s) =>
      match srealloc 4 os0 c 800 s with
      | none => none
      | some (f, s) => some (c, e, f, s)

/-- State before the last call of `runGrowIntoPred`: `a = smalloc(1000)`,
`b = smalloc(500)`, `c = smalloc(10)`, `sfree(a)`; with the pointer `b`. -/
def beforeGrowIntoPred : Option (Nat × State) :=
  match smalloc 4 os0 1000 s0 with
  | none => none
  | some (a, s) =>
    match smalloc 4 os0 500 s with
    | none => none
    | some (b, s) =>
      match smalloc 4 os0 10 s with
      | none => none
      | some (_, s) => some (b, sfree a s)

/-- Run: `beforeGrowIntoPred`, then `srealloc(b, 1100)`; the result is the old
pointer, the state before the call, the new pointer and the state after it. -/
def runGrowIntoPred : Option (Nat × State × Nat × State) :=
  match beforeGrowIntoPred with
  | none => none
  | some (b, s) =>
    match srealloc 4 os0 b 1100 s with
    | none => none
    | some (q, s1) => some (b, s, q, s1)

/-- Run: `runGrowIntoPred`, then `srealloc(q, 1100)` on the pointer `q` it returned. -/
def runResizeTwice : Option (Nat × Nat × State) :=
  match runGrowIntoPred with
  | none => none
  | some (_, _, q, s) =>
    match srealloc 4 os0 q 1100 s with
    | none => none
    | some (q2, s) => some (q, q2, s)

/-- A second operating system for the runs: `mmap` maps at `8192000000`. -/
def os1 : OS := OS.grant 8192000000

/-- The four counters of the heap list: free blocks, all blocks, free bytes, all bytes. -/
def heapCounters (s : State) : Nat × Nat × Nat × Nat :=
  (s.heap_blocks_list.blocks_count_FREE, s.heap_blocks_list.blocks_count_TOTAL,
   s.heap_blocks_list.bytes_count_FREE, s.heap_blocks_list.bytes_count_TOTAL)

/-- State after `p = smalloc(100)` and `sfree(p)`, from the empty allocator. -/
def afterAllocFree : State :=
  match smalloc 1 os0 100 s0 with
  | none => s0
  | some (p, s) => sfree p s

/-- State after `smalloc(100)`, from the empty allocator. -/
def afterAlloc : State :=
  match smalloc 1 os0 100 s0 with
  | none => s0
  | some (_, s) => s

/-- State after `smalloc(200000)`, from the empty allocator. -/
def afterMappedAlloc : State :=
  match smalloc 0 os0 200000 s0 with
  | none => s0
  | some (_, s) => s

/-- State before the releases of `b`: `a = smalloc(100)`, `b = smalloc(100)`,
`c = smalloc(100)`, `sfree(a)`; with the pointer `b`. -/
def beforeFreeBesideFreePred : Option (Nat × State) :=
  match smalloc 4 os0 100 s0 with
  | none => none
  | some (a, s) =>
    match smalloc 4 os0 100 s with
    | none => none
    | some (b, s) =>
      match smalloc 4 os0 100 s with
      | none => none
      | some (_, s) => some (b, sfree a s)

/-- State after `a = smalloc(70000)`, `b = smalloc(70000)`, `c = smalloc(10)`,
`sfree(a)` and `sfree(b)`: the blocks of `a` and `b` are merged. -/
def afterMergeOfTwoBlocks : Option State :=
  match smalloc 4 os0 70000 s0 with
  | none => none
  | some (a, s) =>
    match smalloc 4 os0 70000 s with
    | none => none
    | some (b, s) =>
      match smalloc 4 os0 10 s with
      | none => none
      | some (_, s) => some (sfree b (sfree a s))

/-- Run: `p = smalloc(200)`, `sfree(p)`; the pointer and the state. -/
def afterAllocFree200 : Nat × State :=
  match smalloc 1 os0 200 s0 with
  | none => (0, s0)
  | some (p, s) => (p, sfree p s)

/-- State after `a = smalloc(1000)`, `c = smalloc(10)` and `sfree(a)`: a free block
of `1000` bytes followed by the block of `c`. -/
def beforeSplitReuse : State :=
  match smalloc 4 os0 1000 s0 with
  | none => s0
  | some (a, s) =>
    match smalloc 4 os0 10 s with
    | none => s0
    | some (_, s) => sfree a s

/-- Run from `s`: `p = smalloc(n)`, then `sfree(p)`; the result is the pointer, the
state between the two calls and the state after them. -/
def allocThenFree (fuel : Nat) (os : OS) (n : Nat) (s : State) : Option (Nat × State × State) :=
  match smalloc fuel os n s with
  | none => none
  | some (p, s1) => some (p, s1, sfree p s1)

/-- What the statistics report: `_num_free_blocks`, `_num_free_bytes`,
`_num_allocated_blocks`. -/
def reportedCounters (s : State) : Nat × Nat × Nat :=
  (_num_free_blocks s, _num_free_bytes s, _num_allocated_blocks s)

/-- State before the last call of `runGrowIntoSucc`: `a = smalloc(100)`,
`b = smalloc(1000)`, `c = smalloc(10)`, `sfree(b)`; with the pointer `a`. -/
def beforeGrowIntoSucc : Option (Nat × State) :=
  match smalloc 4 os0 100 s0 with
  | none => none
  | some (a, s) =>
    match smalloc 4 os0 1000 s with
    | none => none
    | some (b, s) =>
      match smalloc 4 os0 10 s with
      | none => none
      | some (_, s) => some (a, sfree b s)

/-- State after `a = smalloc(100)`, `b = smalloc(100)` and `sfree(b)`; with the
pointer `a`. -/
def beforeAbsorbOfTail : Option (Nat × State) :=
  match smalloc 4 os0 100 s0 with
  | none => none
  | some (a, s) =>
    match smalloc 4 os0 100 s with
    | none => none
    | some (b, s) => some (a, sfree b s)

/-- State after `a = smalloc(100)`, `x = smalloc(10)`, `t = smalloc(50)` and
`sfree(t)`: the tail is free with `50` bytes; with the pointer `a`. -/
def beforeRelocation : Option (Nat × State) :=
  match smalloc 4 os0 100 s0 with
  | none => none
  | some (a, s) =>
    match smalloc 4 os0 10 s with
    | none => none
    | some (_, s) =>
      match smalloc 4 os0 50 s with
      | none => none
      | some (t, s) => some (a, sfree t s)

/-- State after the calls of `runResizeTwice`. -/
def afterResizeTwice : State :=
  match runResizeTwice with
  | none => s0
  | some (_, _, s) => s

/-- State after `p = smalloc(50)` and `sfree(p)`, from the empty allocator. -/
def afterAllocFree50 : State :=
  match smalloc 1 os0 50 s0 with
  | none => s0
  | some (p, s) => sfree p s

/-- The blocks met from `curr` by following `next` are exactly those of `l`, in this
order, and `NULL` comes after the last of them. -/
def isChain (m : Memory) : Nat → List Nat → Prop
  | curr, [] => curr = 0
  | curr, a :: l => curr = a ∧ a ≠ 0 ∧ isChain m (m.hdr a).next l

/-- The `prev` pointer of each block of `l` is the block before it in `l`, and `q` for
the first one. -/
def prevLinked (s : State) : Nat → List Nat → Bool
  | _, [] => true
  | q, a :: l => decide ((s.hdr a).prev = q) && prevLinked s a l

/-- A heap list in good order, read block by block: `l` is the chain of `next` pointers
from `head`; a block that has a successor ends where the successor starts and is the
`prev` of that successor; the `prev` of the first block is `NULL`; every block ends below
`2^64`. -/
structure ListInvariant (s : State) (l : List Nat) : Prop where
  chain : isChain s.mem s.head l
  contiguous : ∀ a ∈ l, (s.hdr a).next ≠ 0 →
    a + sizeofMallocMetadata + (s.hdr a).size_TOTAL_PAYLOAD = (s.hdr a).next
  prev_of_next : ∀ a ∈ l, (s.hdr a).next ≠ 0 → (s.hdr (s.hdr a).next).prev = a
  prev_of_head : s.head ≠ 0 → (s.hdr s.head).prev = 0
  bounded : ∀ a ∈ l, a + sizeofMallocMetadata + (s.hdr a).size_TOTAL_PAYLOAD < W

/-- State after four calls `smalloc(64)` from the empty allocator: the blocks `a`, `b`,
`c`, `d` at `4096000`, `4096104`, `4096208`, `4096312`, with the payloads at `4096040`,
`4096144`, `4096248`, `4096352`. -/
def fourBlocks : State :=
  match smalloc 4 os0 64 s0 with
  | none => s0
  | some (_, s) =>
    match smalloc 4 os0 64 s with
    | none => s0
    | some (_, s) =>
      match smalloc 4 os0 64 s with
      | none => s0
      | some (_, s) =>
        match smalloc 4 os0 64 s with
        | none => s0
        | some (_, s) => s

/-- Run: `runGrowIntoSucc`, then `srealloc(a, 300)` and `p = smalloc(850)`; with the
pointer `p`. -/
def beforeSplitOntoListedBlock : Option (Nat × State) :=
  match runGrowIntoSucc with
  | none => none
  | some (a, _, _, _, s) =>
    match srealloc 4 os0 a 300 s with
    | none => none
    | some (_, s) => smalloc 4 os0 850 s

/-- Run: `beforeSplitOntoListedBlock`, then `srealloc(p, 60)`. -/
def runSplitOntoListedBlock : Option (Nat × State) :=
  match beforeSplitOntoListedBlock with
  | none => none
  | some (p, s) => srealloc 4 os0 p 60 s

/-- State after the calls of `runShrinkMapped`. -/
def afterShrinkMapped : State :=
  match runShrinkMapped with
  | none => s0
  | some (_, _, s) => s

end Malloc3

namespace Malloc2

/-- The addresses of the blocks met when following `next` from `curr`;
`none` when `NULL` is not reached within `fuel` blocks. -/
def blocksListFrom (m : Memory) : Nat → Nat → Option (List Nat)
  | 0, curr => if curr = 0 then some [] else none
  | fuel + 1, curr =>
    if curr = 0 then some []
    else (blocksListFrom m fuel (m.hdr curr).next).map (fun l => curr :: l)

/-- The blocks of the list, from `head`. -/
def blocksList (fuel : Nat) (s : State) : Option (List Nat) :=
  blocksListFrom s.mem fuel s.head

/-- Run in `malloc_2`: `p = smalloc(200)`, `sfree(p)`; the pointer and the state. -/
def afterAllocFree200 : Nat × State :=
  match smalloc 1 (OS.grant 0) 200 (State.init 4096000) with
  | none => (0, State.init 4096000)
  | some (p, s) => (p, sfree p s)

/-- A public call of `malloc_2.cpp`, with the loop bound and the operating system of
the model. -/
inductive Call where
  | smalloc (fuel : Nat) (os : OS) (size : Nat)
  | scalloc (fuel : Nat) (os : OS) (num size : Nat)
  | sfree (p : Nat)
  | srealloc (fuel : Nat) (os : OS) (oldp size : Nat)

/-- The pointer returned by the call (`NULL` for `sfree`) and the state after it. -/
def Call.apply : Call → State → Option (Nat × State)
  | Call.smalloc fuel os size, s => Malloc2.smalloc fuel os size s
  | Call.scalloc fuel os num size, s => Malloc2.scalloc fuel os num size s
  | Call.sfree p, s => some (0, Malloc2.sfree p s)
  | Call.srealloc fuel os oldp size, s => Malloc2.srealloc fuel os oldp size s

/-- The loop bound of the call. -/
def Call.fuel : Call → Nat
  | Call.smalloc fuel _ _ => fuel
  | Call.scalloc fuel _ _ _ => fuel
  | Call.sfree _ => 0
  | Call.srealloc fuel _ _ _ => fuel

/-- The operating system does not grant an increment of `40 + n` bytes that would take
the program break to `2^64` or beyond. -/
def breakStays (os : OS) (n : Nat) (s : State) : Bool :=
  !os.sbrk_ok (castInt (add64 BlocksList.getMetaDataSize n))
    || decide (s.brk + castInt (add64 BlocksList.getMetaDataSize n) < W)

/-- The use of the allocator that the code relies on: a pointer passed to `sfree` or
`srealloc` is `NULL` or one of the pointers `ps` returned so far, and the program break
stays below `2^64`. -/
def Call.admissible (c : Call) (s : State) (ps : List Nat) : Bool :=
  match c with
  | Call.smalloc _ os size => breakStays os size s
  | Call.scalloc _ os num size => breakStays os (mul64 size num) s
  | Call.sfree p => decide (p = 0 ∨ p ∈ ps)
  | Call.srealloc _ os oldp size => decide (oldp = 0 ∨ oldp ∈ ps) && breakStays os size s

/-- The state after the calls `cs`, with the pointers returned so far; `none` when a
call is not admissible or the loop bound of a call is too small. -/
def runCalls : List Call → State × List Nat → Option (State × List Nat)
  | [], sp => some sp
  | c :: cs, sp =>
    if c.admissible sp.1 sp.2 then
      match c.apply sp.1 with
      | none => none
      | some r => runCalls cs (r.2, r.1 :: sp.2)
    else none

/-- The list `l` and the counters agree: `l` is the chain of `next` pointers from
`head` and `tail` is its last block; the blocks lie below the program break, which is
the first break `brk0` plus the headers and payloads of the blocks and is below `2^64`;
the four counters are the number of blocks, the bytes of the blocks with their headers,
the number of free blocks and the payload bytes of the free blocks; no block has more
active than initial payload; the pointers `ps` are `NULL` or payloads of blocks. -/
structure Consistent (brk0 : Nat) (s : State) (ps l : List Nat) : Prop where
  chain : Malloc3.isChain s.mem s.head l
  tail_last : s.tail = l.getLastD 0
  below : ∀ b ∈ l, b < s.brk
  brk_pos : 0 < s.brk
  brk_sum : brk0 + (l.map (fun b => sizeofMallocMetadata + (s.hdr b).size_TOTAL_PAYLOAD)).sum
    = s.brk
  brk_lt : s.brk < W
  blocks_total : s.blocks_list.blocks_count_TOTAL = l.length
  bytes_total : s.blocks_list.bytes_count_TOTAL
    = (l.map (fun b => sizeofMallocMetadata + (s.hdr b).size_TOTAL_PAYLOAD)).sum
  blocks_free : s.blocks_list.blocks_count_FREE
    = (l.filter (fun b => (s.hdr b).is_free)).length
  bytes_free : s.blocks_list.bytes_count_FREE
    = ((l.filter (fun b => (s.hdr b).is_free)).map
        (fun b => (s.hdr b).size_TOTAL_PAYLOAD)).sum
  active_le : ∀ b ∈ l, (s.hdr b).size_ACTIVE_PAYLOAD ≤ (s.hdr b).size_TOTAL_PAYLOAD
  pointers : ∀ p ∈ ps, p = 0 ∨ ∃ b ∈ l, p = b + sizeofMallocMetadata

/-- Calls `a = smalloc(200)`, `b = scalloc(10, 30)`, `sfree(a)`. -/
def callsA : List Call :=
  [Call.smalloc 4 (OS.grant 0) 200, Call.scalloc 4 (OS.grant 0) 10 30, Call.sfree 4096040]

/-- Calls `srealloc(b, 500)`, `smalloc(150)`, `smalloc(400)`, after `callsA`. -/
def callsB : List Call :=
  [Call.srealloc 4 (OS.grant 0) 4096280 500, Call.smalloc 4 (OS.grant 0) 150,
   Call.smalloc 4 (OS.grant 0) 400]

/-- The state and the pointers after `callsA` from the empty allocator. -/
def afterCallsA : State × List Nat :=
  match runCalls callsA (State.init 4096000, []) with
  | none => (State.init 4096000, [])
  | some r => r

/-- The state and the pointers after `callsA` and then `callsB`. -/
def afterCallsB : State × List Nat :=
  match runCalls callsB afterCallsA with
  | none => afterCallsA
  | some r => r

/-- The initial payload sizes and the free flags of the blocks `l`. -/
def blockSizes (s : State) (l : List Nat) : List (Nat × Bool) :=
  l.map (fun b => ((s.hdr b).size_TOTAL_PAYLOAD, (s.hdr b).is_free))

end Malloc2

/-! ## malloc_3 on a memory of bytes

The same functions on a memory that is bytes only: the metadata object at an address is
read from the 40 bytes that start there, so that a store to a header changes every
header that shares bytes with it. -/

/-- The 8-byte little-endian value stored at address `a`. -/
def load64 (a : Nat) (b : Nat → Nat) : Nat :=
  b a + 256 * (b (a + 1) + 256 * (b (a + 2) + 256 * (b (a + 3) + 256 * (b (a + 4)
    + 256 * (b (a + 5) + 256 * (b (a + 6) + 256 * b (a + 7)))))))

/-- Memory: the byte at each address. -/
structure ByteMemory where
  byte : Nat → Nat

/-- The metadata object read at address `p` (LP64 layout: `size[0]` at offset 0,
`size[1]` at 8, `is_free` at 16, `next` at 24, `prev` at 32). -/
def ByteMemory.hdr (m : ByteMemory) (p : Nat) : MallocMetadata :=
  { size_TOTAL_PAYLOAD := load64 p m.byte,
    size_ACTIVE_PAYLOAD := load64 (p + 8) m.byte,
    is_free := decide (m.byte (p + 16) ≠ 0),
    next := load64 (p + 24) m.byte,
    prev := load64 (p + 32) m.byte }

/-- The statement `p->size[TOTAL_PAYLOAD] = v`. -/
def ByteMemory.setTotal (m : ByteMemory) (p v : Nat) : ByteMemory :=
  { byte := store64 p v m.byte }

/-- The statement `p->size[ACTIVE_PAYLOAD] = v`. -/
def ByteMemory.setActive (m : ByteMemory) (p v : Nat) : ByteMemory :=
  { byte := store64 (p + 8) v m.byte }

/-- The statement `p->is_free = v`. -/
def ByteMemory.setIsFree (m : ByteMemory) (p : Nat) (v : Bool) : ByteMemory :=
  { byte := store8 (p + 16) (if v then 1 else 0) m.byte }

/-- The statement `p->next = v`. -/
def ByteMemory.setNext (m : ByteMemory) (p v : Nat) : ByteMemory :=
  { byte := store64 (p + 24) v m.byte }

/-- The statement `p->prev = v`. -/
def ByteMemory.setPrev (m : ByteMemory) (p v : Nat) : ByteMemory :=
  { byte := store64 (p + 32) v m.byte }

/-- The call `memmove(dst, src, len)`: the bytes are read before any is written. -/
def ByteMemory.memmove (m : ByteMemory) (dst src len : Nat) : ByteMemory :=
  { byte := fun x => if dst ≤ x ∧ x < dst + len then m.byte (src + (x - dst)) else m.byte x }

/-- The call `memset(dst, 0, len)`. -/
def ByteMemory.memsetZero (m : ByteMemory) (dst len : Nat) : ByteMemory :=
  { byte := fun x => if dst ≤ x ∧ x < dst + len then 0 else m.byte x }

/-- Zero-filled pages delivered by `mmap` at `[addr, addr + len)`. -/
def ByteMemory.zeroFill (m : ByteMemory) (addr len : Nat) : ByteMemory :=
  { byte := fun x => if addr ≤ x ∧ x < addr + len then 0 else m.byte x }

/-- Memory as the operating system hands it out: all zero. -/
def ByteMemory.zero : ByteMemory :=
  { byte := fun _ => 0 }

namespace Malloc3Bytes

/-- The constant `KB`. -/
def KB : Nat := 1024

/-- The member `SPLITTING_THRESHOLD`. -/
def SPLITTING_THRESHOLD : Nat := 128

/-- Data members of `class HeapBlocksList`. -/
structure HeapBlocksList where
  head : Nat
  tail : Nat
  blocks_count_FREE : Nat
  blocks_count_TOTAL : Nat
  bytes_count_FREE : Nat
  bytes_count_TOTAL : Nat
deriving DecidableEq, Repr

/-- Data members of `class MMappedBlocksManager`. -/
structure MMappedBlocksManager where
  total_blocks_count : Nat
  total_bytes_count : Nat
deriving DecidableEq, Repr

/-- The global `memory_manager` together with the memory it manages, the
program break and the list of mappings `(address, length)` currently held. -/
structure State where
  mem : ByteMemory
  brk : Nat
  mappings : List (Nat × Nat)
  heap_blocks_list : HeapBlocksList
  mmapped_blocks : MMappedBlocksManager

/-- The allocator before its first call, the program break being `brk0`. -/
def State.init (brk0 : Nat) : State :=
  { mem := ByteMemory.zero, brk := brk0, mappings := [],
    heap_blocks_list := { head := 0, tail := 0, blocks_count_FREE := 0, blocks_count_TOTAL := 0,
                          bytes_count_FREE := 0, bytes_count_TOTAL := 0 },
    mmapped_blocks := { total_blocks_count := 0, total_bytes_count := 0 } }

/-- The metadata object at address `p`. -/
def State.hdr (s : State) (p : Nat) : MallocMetadata := s.mem.hdr p

def State.head (s : State) : Nat := s.heap_blocks_list.head
def State.tail (s : State) : Nat := s.heap_blocks_list.tail

def State.setTotal (s : State) (p v : Nat) : State := { s with mem := s.mem.setTotal p v }
def State.setActive (s : State) (p v : Nat) : State := { s with mem := s.mem.setActive p v }
def State.setIsFree (s : State) (p : Nat) (v : Bool) : State := { s with mem := s.mem.setIsFree p v }
def State.setNext (s : State) (p v : Nat) : State := { s with mem := s.mem.setNext p v }
def State.setPrev (s : State) (p v : Nat) : State := { s with mem := s.mem.setPrev p v }

def State.setHead (s : State) (v : Nat) : State :=
  { s with heap_blocks_list := { s.heap_blocks_list with head := v } }
def State.setTail (s : State) (v : Nat) : State :=
  { s with heap_blocks_list := { s.heap_blocks_list with tail := v } }
def State.setBlocksFREE (s : State) (v : Nat) : State :=
  { s with heap_blocks_list := { s.heap_blocks_list with blocks_count_FREE := v } }
def State.setBlocksTOTAL (s : State) (v : Nat) : State :=
  { s with heap_blocks_list := { s.heap_blocks_list with blocks_count_TOTAL := v } }
def State.setBytesFREE (s : State) (v : Nat) : State :=
  { s with heap_blocks_list := { s.heap_blocks_list with bytes_count_FREE := v } }
def State.setBytesTOTAL (s : State) (v : Nat) : State :=
  { s with heap_blocks_list := { s.heap_blocks_list with bytes_count_TOTAL := v } }

/-- The system call `sbrk(delta)`: the old break on success, `(void*)-1` on
failure.  `sbrk(0)` always succeeds; the increment is added modulo `2^64`
(a `size_t` argument converted to `intptr_t`). -/
def sbrk (os : OS) (delta : Nat) (s : State) : Nat × State :=
  if delta = 0 then (s.brk, s)
  else if os.sbrk_ok delta then (s.brk, { s with brk := (s.brk + delta) % W })
  else (voidMinusOne, s)

/-- The system call `mmap(NULL, len, ...)` for a private anonymous mapping:
the address of `len` zero-filled bytes, or `(void*)-1`. -/
def mmap (os : OS) (len : Nat) (s : State) : Nat × State :=
  match os.mmap_result with
  | none => (voidMinusOne, s)
  | some addr => (addr, { s with mem := s.mem.zeroFill addr len,
                                 mappings := (addr, len) :: s.mappings })

/-- The system call `munmap(addr, len)`: the mapping that starts at `addr` is
released; an address that starts no mapping makes the call fail, which the
allocator does not check. -/
def munmap (addr _len : Nat) (s : State) : State :=
  { s with mappings := s.mappings.filter (fun m => !(m.1 == addr)) }

namespace HeapBlocksList

/-- The loop of `findFreeBlock`, run for at most `fuel` iterations from `curr`. -/
def findFreeBlockLoop (m : ByteMemory) (payload_size : Nat) : Nat → Nat → Option Nat
  | 0, curr => if curr = 0 then some 0 else none
  | fuel + 1, curr =>
    if curr = 0 then some 0
    else if (m.hdr curr).is_free ∧ (m.hdr curr).size_TOTAL_PAYLOAD ≥ payload_size then some curr
    else findFreeBlockLoop m payload_size fuel (m.hdr curr).next

def findFreeBlock (fuel payload_size : Nat) (s : State) : Option Nat :=
  findFreeBlockLoop s.mem payload_size fuel s.head

def setNewBlockMetaData (payload_size block_metadata : Nat) (s : State) : State :=
  let s := s.setIsFree block_metadata false
  let s := s.setTotal block_metadata payload_size
  let s := s.setActive block_metadata payload_size
  let s := s.setNext block_metadata 0
  s.setPrev block_metadata s.tail

def createNewBlock (os : OS) (payload_size : Nat) (s : State) : Option (Nat × State) :=
  let old_prog_break := (sbrk os 0 s).1
  let total_allocation_size := add64 sizeofMallocMetadata payload_size
  let r := sbrk os total_allocation_size s
  if r.1 = voidMinusOne then some (0, r.2)
  else
    let s := r.2
    let new_block_metadata := old_prog_break
    let s := setNewBlockMetaData payload_size new_block_metadata s
    if s.head = 0 then
      let s := s.setHead new_block_metadata
      let s := s.setTail s.head
      let s := s.setBlocksTOTAL (add64 s.heap_blocks_list.blocks_count_TOTAL 1)
      let s := s.setBytesTOTAL (add64 s.heap_blocks_list.bytes_count_TOTAL total_allocation_size)
      some (getPayloadBlockAddr new_block_metadata, s)
    else if s.tail = 0 then none
    else
      let s := s.setNext s.tail new_block_metadata
      let s := s.setTail new_block_metadata
      let s := s.setBlocksTOTAL (add64 s.heap_blocks_list.blocks_count_TOTAL 1)
      let s := s.setBytesTOTAL (add64 s.heap_blocks_list.bytes_count_TOTAL total_allocation_size)
      some (getPayloadBlockAddr new_block_metadata, s)

def useFreeBlockWithoutSplit (original_block_metadata new_active_payload_size : Nat)
    (s : State) : State :=
  let s := s.setIsFree original_block_metadata false
  let s := s.setActive original_block_metadata new_active_payload_size
  let s := s.setBlocksFREE (sub64 s.heap_blocks_list.blocks_count_FREE 1)
  s.setBytesFREE (sub64 s.heap_blocks_list.bytes_count_FREE
    (s.hdr original_block_metadata).size_TOTAL_PAYLOAD)

def updateMetaDataAfterFreeBlockSplit (original_block_metadata remaining_block_metadata
    new_active_payload_size remaining_payload_size : Nat) (s : State) : State :=
  let s := s.setIsFree original_block_metadata false
  let s := s.setActive original_block_metadata new_active_payload_size
  let s := s.setTotal original_block_metadata new_active_payload_size
  let s := s.setNext remaining_block_metadata (s.hdr original_block_metadata).next
  let s := if (s.hdr original_block_metadata).next ≠ 0 then
      s.setPrev (s.hdr original_block_metadata).next remaining_block_metadata
    else s
  let s := s.setNext original_block_metadata remaining_block_metadata
  let s := s.setPrev remaining_block_metadata original_block_metadata
  let s := s.setIsFree remaining_block_metadata true
  let s := s.setTotal remaining_block_metadata remaining_payload_size
  s.setActive remaining_block_metadata 0

def useFreeBlockWithSplit (original_block_metadata new_active_payload_size
    remaining_payload_size : Nat) (s : State) : State :=
  let remaining_block_metadata :=
    original_block_metadata + sizeofMallocMetadata + new_active_payload_size
  let s := updateMetaDataAfterFreeBlockSplit original_block_metadata remaining_block_metadata
    new_active_payload_size remaining_payload_size s
  let s := if s.tail = original_block_metadata then s.setTail remaining_block_metadata else s
  let s := s.setBlocksTOTAL (add64 s.heap_blocks_list.blocks_count_TOTAL 1)
  s.setBytesFREE (sub64 s.heap_blocks_list.bytes_count_FREE
    (add64 new_active_payload_size sizeofMallocMetadata))

def useFreeBlock (free_block_metadata new_active_payload_size : Nat) (s : State) :
    Nat × State :=
  let remaining_payload_size :=
    if sub64 (s.hdr free_block_metadata).size_TOTAL_PAYLOAD new_active_payload_size
        > sizeofMallocMetadata then
      sub64 (sub64 (s.hdr free_block_metadata).size_TOTAL_PAYLOAD new_active_payload_size)
        sizeofMallocMetadata
    else 0
  let s := if remaining_payload_size < SPLITTING_THRESHOLD then
      useFreeBlockWithoutSplit free_block_metadata new_active_payload_size s
    else
      useFreeBlockWithSplit free_block_metadata new_active_payload_size remaining_payload_size s
  (getPayloadBlockAddr free_block_metadata, s)

def useWildernessBlock (os : OS) (payload_size : Nat) (s : State) : Nat × State :=
  let wilderness_block_metadata := s.tail
  let extra_needed_size :=
    sub64 payload_size (s.hdr wilderness_block_metadata).size_TOTAL_PAYLOAD
  let r := sbrk os extra_needed_size s
  if r.1 = voidMinusOne then (0, r.2)
  else
    let s := r.2
    let s := s.setBlocksFREE (sub64 s.heap_blocks_list.blocks_count_FREE 1)
    let s := s.setBytesTOTAL (add64 s.heap_blocks_list.bytes_count_TOTAL extra_needed_size)
    let s := s.setBytesFREE (sub64 s.heap_blocks_list.bytes_count_FREE
      (s.hdr wilderness_block_metadata).size_TOTAL_PAYLOAD)
    let s := s.setIsFree wilderness_block_metadata false
    let s := s.setTotal wilderness_block_metadata payload_size
    let s := s.setActive wilderness_block_metadata payload_size
    (getPayloadBlockAddr wilderness_block_metadata, s)

def allocateBlock (fuel : Nat) (os : OS) (payload_size : Nat) (s : State) :
    Option (Nat × State) :=
  match findFreeBlock fuel payload_size s with
  | none => none
  | some free_block_metadata =>
    if free_block_metadata = 0 ∧ s.tail ≠ 0 ∧ (s.hdr s.tail).is_free then
      some (useWildernessBlock os payload_size s)
    else if free_block_metadata = 0 then
      createNewBlock os payload_size s
    else
      some (useFreeBlock free_block_metadata payload_size s)

def allocateZeroedBlock (fuel : Nat) (os : OS) (payload_size : Nat) (s : State) :
    Option (Nat × State) :=
  match allocateBlock fuel os payload_size s with
  | none => none
  | some (payload_block_addr, s) =>
    if payload_block_addr ≠ 0 then
      some (payload_block_addr, { s with mem := s.mem.memsetZero payload_block_addr payload_size })
    else some (payload_block_addr, s)

def combineFreeBlockWithSucc (block_metadata : Nat) (s : State) : State :=
  let succ_metadata := (s.hdr block_metadata).next
  let s := if (s.hdr succ_metadata).next ≠ 0 then
      s.setPrev (s.hdr succ_metadata).next block_metadata
    else s
  let s := s.setNext block_metadata (s.hdr succ_metadata).next
  let s := if s.tail = succ_metadata then s.setTail block_metadata else s
  let s := s.setBlocksTOTAL (sub64 s.heap_blocks_list.blocks_count_TOTAL 1)
  let s := s.setBytesFREE (add64 s.heap_blocks_list.bytes_count_FREE
    (add64 sizeofMallocMetadata (s.hdr block_metadata).size_TOTAL_PAYLOAD))
  let s := s.setIsFree block_metadata true
  let s := s.setTotal block_metadata (add64 (s.hdr block_metadata).size_TOTAL_PAYLOAD
    (add64 sizeofMallocMetadata (s.hdr succ_metadata).size_TOTAL_PAYLOAD))
  s.setActive block_metadata 0

def combineFreeBlockWithPred (block_metadata : Nat) (s : State) : State :=
  let pred_metadata := (s.hdr block_metadata).prev
  let s := if (s.hdr block_metadata).next ≠ 0 then
      s.setPrev (s.hdr block_metadata).next pred_metadata
    else s
  let s := s.setNext pred_metadata (s.hdr block_metadata).next
  let s := if s.tail = block_metadata then s.setTail pred_metadata else s
  let s := s.setTotal pred_metadata (add64 (s.hdr pred_metadata).size_TOTAL_PAYLOAD
    (add64 sizeofMallocMetadata (s.hdr block_metadata).size_TOTAL_PAYLOAD))
  let s := s.setBlocksTOTAL (sub64 s.heap_blocks_list.blocks_count_TOTAL 1)
  s.setBytesFREE (add64 s.heap_blocks_list.bytes_count_FREE
    (add64 sizeofMallocMetadata (s.hdr block_metadata).size_TOTAL_PAYLOAD))

def combineFreeBlockWithSuccAndPred (block_metadata : Nat) (s : State) : State :=
  let s := combineFreeBlockWithSucc block_metadata s
  let s := combineFreeBlockWithPred block_metadata s
  let s := s.setBlocksFREE (sub64 s.heap_blocks_list.blocks_count_FREE 1)
  s.setBytesFREE (sub64 s.heap_blocks_list.bytes_count_FREE
    (s.hdr block_metadata).size_TOTAL_PAYLOAD)

def freeBlockWithoutCombining (block_metadata : Nat) (s : State) : State :=
  let s := s.setIsFree block_metadata true
  let s := s.setActive block_metadata 0
  let s := s.setBlocksFREE (add64 s.heap_blocks_list.blocks_count_FREE 1)
  s.setBytesFREE (add64 s.heap_blocks_list.bytes_count_FREE
    (s.hdr block_metadata).size_TOTAL_PAYLOAD)

def releaseUsedBlock (payload_addr : Nat) (s : State) : State :=
  let block_metadata := metadataOf payload_addr
  if (s.hdr block_metadata).is_free then s
  else
    let combine_with_succ : Bool :=
      decide ((s.hdr block_metadata).next ≠ 0) && (s.hdr (s.hdr block_metadata).next).is_free
    let combine_with_pred : Bool :=
      decide ((s.hdr block_metadata).prev ≠ 0) && (s.hdr (s.hdr block_metadata).prev).is_free
    if combine_with_succ && combine_with_pred then
      combineFreeBlockWithSuccAndPred block_metadata s
    else if combine_with_succ then
      combineFreeBlockWithSucc block_metadata s
    else if combine_with_pred then
      combineFreeBlockWithPred block_metadata s
    else
      freeBlockWithoutCombining block_metadata s

def splitUsedBlock (old_block_metadata new_payload_size remaining_payload_size : Nat)
    (s : State) : State :=
  let remaining_block_metadata := old_block_metadata + sizeofMallocMetadata + new_payload_size
  let s := s.setTotal old_block_metadata new_payload_size
  let s := s.setIsFree remaining_block_metadata true
  let s := s.setTotal remaining_block_metadata remaining_payload_size
  let s := s.setActive remaining_block_metadata 0
  let s := if (s.hdr old_block_metadata).next ≠ 0 then
      s.setPrev (s.hdr old_block_metadata).next remaining_block_metadata
    else s
  let s := s.setPrev remaining_block_metadata old_block_metadata
  let s := s.setNext remaining_block_metadata (s.hdr old_block_metadata).next
  let s := s.setNext old_block_metadata remaining_block_metadata
  let s := if s.tail = old_block_metadata then s.setTail remaining_block_metadata else s
  let s := s.setBlocksTOTAL (add64 s.heap_blocks_list.blocks_count_TOTAL 1)
  let s := s.setBlocksFREE (add64 s.heap_blocks_list.blocks_count_FREE 1)
  s.setBytesFREE (add64 s.heap_blocks_list.bytes_count_FREE remaining_payload_size)

def reallocateWithSameBlock (old_block_metadata new_payload_size : Nat) (s : State) :
    Nat × State :=
  let remaining_payload_size :=
    if sub64 (s.hdr old_block_metadata).size_TOTAL_PAYLOAD new_payload_size
        > sizeofMallocMetadata then
      sub64 (sub64 (s.hdr old_block_metadata).size_TOTAL_PAYLOAD new_payload_size)
        sizeofMallocMetadata
    else 0
  let s := if remaining_payload_size ≥ SPLITTING_THRESHOLD then
      splitUsedBlock old_block_metadata new_payload_size remaining_payload_size s
    else s
  let s := s.setActive old_block_metadata new_payload_size
  (getPayloadBlockAddr old_block_metadata, s)

def reallocateWildernessBlock (os : OS) (new_payload_size : Nat) (s : State) : Nat × State :=
  let wilderness_block_metadata := s.tail
  let extra_needed_size :=
    sub64 new_payload_size (s.hdr wilderness_block_metadata).size_TOTAL_PAYLOAD
  let r := sbrk os extra_needed_size s
  if r.1 = voidMinusOne then (0, r.2)
  else
    let s := r.2
    let s := s.setTotal wilderness_block_metadata new_payload_size
    let s := s.setActive wilderness_block_metadata new_payload_size
    let s := s.setBytesTOTAL (add64 s.heap_blocks_list.bytes_count_TOTAL extra_needed_size)
    (getPayloadBlockAddr wilderness_block_metadata, s)

def canReallocateUsingPredOnly (old_block_metadata new_payload_size : Nat) (s : State) : Bool :=
  if (s.hdr old_block_metadata).prev = 0 then false
  else if !(s.hdr (s.hdr old_block_metadata).prev).is_free then false
  else
    let pred_payload_size := (s.hdr (s.hdr old_block_metadata).prev).size_TOTAL_PAYLOAD
    let total_avail_payload_size := add64 (add64 pred_payload_size sizeofMallocMetadata)
      (s.hdr old_block_metadata).size_TOTAL_PAYLOAD
    decide (total_avail_payload_size ≥ new_payload_size)

def canReallocateUsingSuccOnly (old_block_metadata new_payload_size : Nat) (s : State) : Bool :=
  if (s.hdr old_block_metadata).next = 0 then false
  else if !(s.hdr (s.hdr old_block_metadata).next).is_free then false
  else
    let succ_payload_size := (s.hdr (s.hdr old_block_metadata).next).size_TOTAL_PAYLOAD
    let total_avail_payload_size := add64
      (add64 (s.hdr old_block_metadata).size_TOTAL_PAYLOAD sizeofMallocMetadata)
      succ_payload_size
    decide (total_avail_payload_size ≥ new_payload_size)

def canReallocateUsingPredAndSucc (old_block_metadata new_payload_size : Nat) (s : State) :
    Bool :=
  if (s.hdr old_block_metadata).prev = 0 ∨ (s.hdr old_block_metadata).next = 0 then false
  else if !(s.hdr (s.hdr old_block_metadata).prev).is_free
      || !(s.hdr (s.hdr old_block_metadata).next).is_free then false
  else
    let pred_payload_size := (s.hdr (s.hdr old_block_metadata).prev).size_TOTAL_PAYLOAD
    let succ_payload_size := (s.hdr (s.hdr old_block_metadata).next).size_TOTAL_PAYLOAD
    let total_avail_payload_size := add64 (add64 (add64 (add64 pred_payload_size
      sizeofMallocMetadata) (s.hdr old_block_metadata).size_TOTAL_PAYLOAD)
      sizeofMallocMetadata) succ_payload_size
    decide (total_avail_payload_size ≥ new_payload_size)

def canReallocateUsingPredOrSucc (old_block_metadata new_payload_size : Nat) (s : State) :
    Bool :=
  canReallocateUsingPredOnly old_block_metadata new_payload_size s
    || canReallocateUsingSuccOnly old_block_metadata new_payload_size s
    || canReallocateUsingPredAndSucc old_block_metadata new_payload_size s

/-- The statements of `reallocateUsingPredOnly` that come before its `memmove`. -/
def reallocateUsingPredOnlyHeaders (old_block_metadata new_payload_size : Nat) (s : State) :
    Option State :=
  let pred_metadata := (s.hdr old_block_metadata).prev
  let pred_payload_size := (s.hdr pred_metadata).size_TOTAL_PAYLOAD
  let total_avail_payload_size := add64 (add64 pred_payload_size sizeofMallocMetadata)
    (s.hdr old_block_metadata).size_TOTAL_PAYLOAD
  let s := s.setNext pred_metadata (s.hdr old_block_metadata).next
  let unlinked : Option State :=
    if s.tail = old_block_metadata then some (s.setTail pred_metadata)
    else if (s.hdr old_block_metadata).next = 0 then none
    else some (s.setPrev (s.hdr old_block_metadata).next pred_metadata)
  match unlinked with
  | none => none
  | some s =>
  let s := s.setIsFree pred_metadata false
  let s := s.setTotal pred_metadata total_avail_payload_size
  let s := s.setActive pred_metadata new_payload_size
  let remaining_payload_size :=
    if sub64 total_avail_payload_size new_payload_size > sizeofMallocMetadata then
      sub64 (sub64 total_avail_payload_size new_payload_size) sizeofMallocMetadata
    else 0
  if remaining_payload_size ≥ SPLITTING_THRESHOLD then
    let remaining_block_metadata := pred_metadata + sizeofMallocMetadata + new_payload_size
    let s := s.setIsFree remaining_block_metadata true
    let s := s.setActive remaining_block_metadata 0
    let s := s.setTotal remaining_block_metadata remaining_payload_size
    let s := s.setPrev remaining_block_metadata pred_metadata
    let s := s.setNext remaining_block_metadata (s.hdr pred_metadata).next
    let linked : Option State :=
      if pred_metadata = s.tail then some (s.setTail remaining_block_metadata)
      else if (s.hdr pred_metadata).next = 0 then none
      else some (s.setPrev (s.hdr pred_metadata).next remaining_block_metadata)
    match linked with
    | none => none
    | some s =>
      let s := s.setNext pred_metadata remaining_block_metadata
      let s := s.setBytesFREE (sub64 s.heap_blocks_list.bytes_count_FREE
        pred_payload_size)
      some (s.setBytesFREE (add64 s.heap_blocks_list.bytes_count_FREE remaining_payload_size))
  else
    let s := s.setBlocksTOTAL (sub64 s.heap_blocks_list.blocks_count_TOTAL 1)
    let s := s.setBlocksFREE (sub64 s.heap_blocks_list.blocks_count_FREE 1)
    some (s.setBytesFREE (sub64 s.heap_blocks_list.bytes_count_FREE
      pred_payload_size))

def reallocateUsingPredOnly (old_block_metadata new_payload_size : Nat) (s : State) :
    Option (Nat × State) :=
  let pred_metadata := (s.hdr old_block_metadata).prev
  match reallocateUsingPredOnlyHeaders old_block_metadata new_payload_size s with
  | none => none
  | some s =>
    let s := { s with mem := (s.mem.memmove (getPayloadBlockAddr pred_metadata)
      (getPayloadBlockAddr old_block_metadata) (s.hdr old_block_metadata).size_TOTAL_PAYLOAD) }
    some (getPayloadBlockAddr pred_metadata, s)

def reallocateUsingSuccOnly (old_block_metadata new_payload_size : Nat) (s : State) :
    Option (Nat × State) :=
  let succ_metadata := (s.hdr old_block_metadata).next
  let original_succ_payload_size := (s.hdr succ_metadata).size_TOTAL_PAYLOAD
  let total_avail_payload_size := add64
    (add64 (s.hdr old_block_metadata).size_TOTAL_PAYLOAD sizeofMallocMetadata)
    original_succ_payload_size
  let s := s.setNext old_block_metadata (s.hdr succ_metadata).next
  let unlinked : Option State :=
    if s.tail = succ_metadata then some (s.setTail old_block_metadata)
    else if (s.hdr succ_metadata).next = 0 then none
    else some (s.setPrev (s.hdr succ_metadata).next old_block_metadata)
  match unlinked with
  | none => none
  | some s =>
  let s := s.setTotal old_block_metadata total_avail_payload_size
  let s := s.setActive old_block_metadata new_payload_size
  let remaining_payload_size :=
    if sub64 total_avail_payload_size new_payload_size > sizeofMallocMetadata then
      sub64 (sub64 total_avail_payload_size new_payload_size) sizeofMallocMetadata
    else 0
  let split : Option State :=
    if remaining_payload_size ≥ SPLITTING_THRESHOLD then
      let remaining_block_metadata := old_block_metadata + sizeofMallocMetadata + new_payload_size
      let s := s.setIsFree remaining_block_metadata true
      let s := s.setActive remaining_block_metadata 0
      let s := s.setTotal remaining_block_metadata remaining_payload_size
      let s := s.setPrev remaining_block_metadata old_block_metadata
      let s := s.setNext remaining_block_metadata (s.hdr old_block_metadata).next
      let linked : Option State :=
        if old_block_metadata = s.tail then some (s.setTail remaining_block_metadata)
        else if (s.hdr old_block_metadata).next = 0 then none
        else some (s.setPrev (s.hdr old_block_metadata).next remaining_block_metadata)
      match linked with
      | none => none
      | some s =>
        let s := s.setNext old_block_metadata remaining_block_metadata
        let s := s.setBytesFREE (sub64 s.heap_blocks_list.bytes_count_FREE
          original_succ_payload_size)
        some (s.setBytesFREE (add64 s.heap_blocks_list.bytes_count_FREE remaining_payload_size))
    else
      let s := s.setBlocksTOTAL (sub64 s.heap_blocks_list.blocks_count_TOTAL 1)
      let s := s.setBlocksFREE (sub64 s.heap_blocks_list.blocks_count_FREE 1)
      some (s.setBytesFREE (sub64 s.heap_blocks_list.bytes_count_FREE
        original_succ_payload_size))
  match split with
  | none => none
  | some s => some (getPayloadBlockAddr old_block_metadata, s)

def reallocateUsingPredAndSucc (old_block_metadata new_payload_size : Nat) (s : State) :
    Option (Nat × State) :=
  let pred_metadata := (s.hdr old_block_metadata).prev
  let succ_metadata := (s.hdr old_block_metadata).next
  let original_pred_payload_size := (s.hdr pred_metadata).size_TOTAL_PAYLOAD
  let original_succ_payload_size := (s.hdr succ_metadata).size_TOTAL_PAYLOAD
  let total_avail_payload_size := add64 (add64 (add64 (add64 original_pred_payload_size
    sizeofMallocMetadata) (s.hdr old_block_metadata).size_TOTAL_PAYLOAD)
    sizeofMallocMetadata) original_succ_payload_size
  let s := s.setNext pred_metadata (s.hdr succ_metadata).next
  let unlinked : Option State :=
    if s.tail = succ_metadata then some (s.setTail pred_metadata)
    else if (s.hdr succ_metadata).next = 0 then none
    else some (s.setPrev (s.hdr succ_metadata).next pred_metadata)
  match unlinked with
  | none => none
  | some s =>
  let s := s.setIsFree pred_metadata false
  let s := s.setTotal pred_metadata total_avail_payload_size
  let s := s.setActive pred_metadata new_payload_size
  let remaining_payload_size :=
    if sub64 total_avail_payload_size new_payload_size > sizeofMallocMetadata then
      sub64 (sub64 total_avail_payload_size new_payload_size) sizeofMallocMetadata
    else 0
  let split : Option State :=
    if remaining_payload_size ≥ SPLITTING_THRESHOLD then
      let remaining_block_metadata := pred_metadata + sizeofMallocMetadata + new_payload_size
      let s := s.setIsFree remaining_block_metadata true
      let s := s.setActive remaining_block_metadata 0
      let s := s.setTotal remaining_block_metadata remaining_payload_size
      let s := s.setPrev remaining_block_metadata pred_metadata
      let s := s.setNext remaining_block_metadata (s.hdr pred_metadata).next
      let linked : Option State :=
        if pred_metadata = s.tail then some (s.setTail remaining_block_metadata)
        else if (s.hdr pred_metadata).next = 0 then none
        else some (s.setPrev (s.hdr pred_metadata).next remaining_block_metadata)
      match linked with
      | none => none
      | some s =>
        let s := s.setNext pred_metadata remaining_block_metadata
        let s := s.setBlocksTOTAL (add64 s.heap_blocks_list.blocks_count_TOTAL (W - 1))
        let s := s.setBlocksFREE (add64 s.heap_blocks_list.blocks_count_FREE (W - 1))
        let s := s.setBytesFREE (sub64 s.heap_blocks_list.bytes_count_FREE
          (add64 original_pred_payload_size original_succ_payload_size))
        some (s.setBytesFREE (add64 s.heap_blocks_list.bytes_count_FREE remaining_payload_size))
    else
      let s := s.setBlocksTOTAL (sub64 s.heap_blocks_list.blocks_count_TOTAL 2)
      let s := s.setBlocksFREE (sub64 s.heap_blocks_list.blocks_count_FREE 2)
      some (s.setBytesFREE (sub64 s.heap_blocks_list.bytes_count_FREE
        (add64 original_pred_payload_size original_succ_payload_size)))
  match split with
  | none => none
  | some s =>
    let s := { s with mem := (s.mem.memmove (getPayloadBlockAddr pred_metadata)
      (getPayloadBlockAddr old_block_metadata) (s.hdr old_block_metadata).size_TOTAL_PAYLOAD) }
    some (getPayloadBlockAddr pred_metadata, s)

def reallocateUsingPredOrSucc (old_block_metadata new_payload_size : Nat) (s : State) :
    Option (Nat × State) :=
  if canReallocateUsingPredOnly old_block_metadata new_payload_size s then
    reallocateUsingPredOnly old_block_metadata new_payload_size s
  else if canReallocateUsingSuccOnly old_block_metadata new_payload_size s then
    reallocateUsingSuccOnly old_block_metadata new_payload_size s
  else
    reallocateUsingPredAndSucc old_block_metadata new_payload_size s

def reallocateToOtherBlock (fuel : Nat) (os : OS) (old_block_metadata old_payload_addr
    new_payload_size : Nat) (s : State) : Option (Nat × State) :=
  match findFreeBlock fuel new_payload_size s with
  | none => none
  | some free_block_metadata =>
    let allocated : Option (Nat × State) :=
      if free_block_metadata = 0 then createNewBlock os new_payload_size s
      else some (useFreeBlock free_block_metadata new_payload_size s)
    match allocated with
    | none => none
    | some (new_payload_block_addr, s) =>
      if free_block_metadata = 0 ∧ new_payload_block_addr = 0 then some (0, s)
      else
        let s := { s with mem := (s.mem.memmove new_payload_block_addr old_payload_addr
          (s.hdr old_block_metadata).size_TOTAL_PAYLOAD) }
        let s := releaseUsedBlock old_payload_addr s
        some (new_payload_block_addr, s)

def reallocateActiveBlock (fuel : Nat) (os : OS) (old_payload_addr new_payload_size : Nat)
    (s : State) : Option (Nat × State) :=
  if old_payload_addr = 0 then allocateBlock fuel os new_payload_size s
  else
    let old_block_metadata := metadataOf old_payload_addr
    if (s.hdr old_block_metadata).size_TOTAL_PAYLOAD ≥ new_payload_size then
      some (reallocateWithSameBlock old_block_metadata new_payload_size s)
    else
      let grown : Nat × State :=
        if s.tail = old_block_metadata then reallocateWildernessBlock os new_payload_size s
        else (0, s)
      if s.tail = old_block_metadata ∧ grown.1 ≠ 0 then some (old_payload_addr, grown.2)
      else
        let s := grown.2
        if canReallocateUsingPredOrSucc old_block_metadata new_payload_size s then
          reallocateUsingPredOrSucc old_block_metadata new_payload_size s
        else
          reallocateToOtherBlock fuel os old_block_metadata old_payload_addr new_payload_size s

end HeapBlocksList

namespace MMappedBlocksManager

def setNewBlockMetaData (payload_size block_metadata : Nat) (s : State) : State :=
  let s := s.setTotal block_metadata payload_size
  s.setActive block_metadata payload_size

def createNewBlock (os : OS) (payload_size : Nat) (s : State) : Nat × State :=
  let needed_allocation_size := add64 payload_size sizeofMallocMetadata
  let r := mmap os needed_allocation_size s
  if r.1 = voidMinusOne then (0, r.2)
  else
    let s := r.2
    let metadata_addr := r.1
    let s := setNewBlockMetaData payload_size metadata_addr s
    let s := { s with mmapped_blocks := { s.mmapped_blocks with
      total_blocks_count := add64 s.mmapped_blocks.total_blocks_count 1 } }
    let s := { s with mmapped_blocks := { s.mmapped_blocks with
      total_bytes_count := add64 s.mmapped_blocks.total_bytes_count needed_allocation_size } }
    (getPayloadBlockAddr metadata_addr, s)

def allocateBlock (os : OS) (payload_size : Nat) (s : State) : Nat × State :=
  createNewBlock os payload_size s

def releaseUsedBlock (payload_addr : Nat) (s : State) : State :=
  let block_metadata := metadataOf payload_addr
  let block_size := add64 (s.hdr block_metadata).size_TOTAL_PAYLOAD sizeofMallocMetadata
  let s := munmap block_metadata block_size s
  let s := { s with mmapped_blocks := { s.mmapped_blocks with
    total_blocks_count := sub64 s.mmapped_blocks.total_blocks_count 1 } }
  { s with mmapped_blocks := { s.mmapped_blocks with
    total_bytes_count := sub64 s.mmapped_blocks.total_bytes_count block_size } }

def reallocateActiveBlock (os : OS) (old_payload_addr new_payload_size : Nat) (s : State) :
    Nat × State :=
  let old_block_metadata := if old_payload_addr ≠ 0 then metadataOf old_payload_addr else 0
  let r := allocateBlock os new_payload_size s
  let new_payload_addr := r.1
  let s := r.2
  if new_payload_addr ≠ 0 ∧ old_payload_addr ≠ 0 then
    let s := { s with mem := (s.mem.memmove new_payload_addr old_payload_addr
      (min new_payload_size (s.hdr old_block_metadata).size_ACTIVE_PAYLOAD)) }
    let s := releaseUsedBlock old_payload_addr s
    (new_payload_addr, s)
  else (new_payload_addr, s)

end MMappedBlocksManager

/-- The enumeration `BytesType`. -/
inductive BytesType where
  | FREE
  | TOTAL
deriving DecidableEq, Repr

namespace MemoryManager

def allocateBlock (fuel : Nat) (os : OS) (payload_size : Nat) (s : State) :
    Option (Nat × State) :=
  if payload_size ≥ 128 * KB then some (MMappedBlocksManager.allocateBlock os payload_size s)
  else HeapBlocksList.allocateBlock fuel os payload_size s

def allocateZeroedBlock (fuel : Nat) (os : OS) (payload_size : Nat) (s : State) :
    Option (Nat × State) :=
  if payload_size ≥ 128 * KB then some (MMappedBlocksManager.allocateBlock os payload_size s)
  else HeapBlocksList.allocateZeroedBlock fuel os payload_size s

def releaseUsedBlock (payload_addr : Nat) (s : State) : State :=
  let block_metadata := metadataOf payload_addr
  if (s.hdr block_metadata).size_ACTIVE_PAYLOAD < 128 * KB then
    HeapBlocksList.releaseUsedBlock payload_addr s
  else MMappedBlocksManager.releaseUsedBlock payload_addr s

def reallocateActiveBlock (fuel : Nat) (os : OS) (old_payload_addr new_payload_size : Nat)
    (s : State) : Option (Nat × State) :=
  if new_payload_size ≥ 128 * KB then
    some (MMappedBlocksManager.reallocateActiveBlock os old_payload_addr new_payload_size s)
  else HeapBlocksList.reallocateActiveBlock fuel os old_payload_addr new_payload_size s

def getMetaDataSize : Nat := sizeofMallocMetadata

def getBlocksCount (type : BytesType) (s : State) : Nat :=
  match type with
  | BytesType.FREE => s.heap_blocks_list.blocks_count_FREE
  | BytesType.TOTAL =>
    add64 s.heap_blocks_list.blocks_count_TOTAL s.mmapped_blocks.total_blocks_count

end MemoryManager

def _num_meta_data_bytes (s : State) : Nat :=
  mul64 (MemoryManager.getBlocksCount BytesType.TOTAL s) MemoryManager.getMetaDataSize

def MemoryManager.getBytesCount (type : BytesType) (s : State) : Nat :=
  match type with
  | BytesType.FREE => s.heap_blocks_list.bytes_count_FREE
  | BytesType.TOTAL =>
    sub64 (add64 s.heap_blocks_list.bytes_count_TOTAL s.mmapped_blocks.total_bytes_count)
      (_num_meta_data_bytes s)

def smalloc (fuel : Nat) (os : OS) (size : Nat) (s : State) : Option (Nat × State) :=
  if size = 0 ∨ size > maxSize then some (0, s)
  else MemoryManager.allocateBlock fuel os size s

def scalloc (fuel : Nat) (os : OS) (num size : Nat) (s : State) : Option (Nat × State) :=
  if size = 0 ∨ num = 0 ∨ size > maxSize ∨ num > maxSize ∨ mul64 size num > maxSize then
    some (0, s)
  else MemoryManager.allocateZeroedBlock fuel os (mul64 size num) s

def sfree (p : Nat) (s : State) : State :=
  if p = 0 then s else MemoryManager.releaseUsedBlock p s

def srealloc (fuel : Nat) (os : OS) (oldp size : Nat) (s : State) : Option (Nat × State) :=
  if size = 0 ∨ size > maxSize then some (0, s)
  else MemoryManager.reallocateActiveBlock fuel os oldp size s

def _num_free_blocks (s : State) : Nat := MemoryManager.getBlocksCount BytesType.FREE s

def _num_free_bytes (s : State) : Nat := MemoryManager.getBytesCount BytesType.FREE s

def _num_allocated_blocks (s : State) : Nat := MemoryManager.getBlocksCount BytesType.TOTAL s

def _num_allocated_bytes (s : State) : Nat := MemoryManager.getBytesCount BytesType.TOTAL s

def _size_meta_data : Nat := MemoryManager.getMetaDataSize

end Malloc3Bytes

namespace Malloc3Bytes

/-- What is read of a block: address, `total_payload`, `active_payload`, `is_free`,
`next`, `prev`. -/
def blockView (s : State) (a : Nat) : Nat × Nat × Nat × Bool × Nat × Nat :=
  (a, (s.hdr a).size_TOTAL_PAYLOAD, (s.hdr a).size_ACTIVE_PAYLOAD, (s.hdr a).is_free,
   (s.hdr a).next, (s.hdr a).prev)

/-- The four counters of the heap list: free blocks, all blocks, free bytes, all bytes. -/
def heapCounters (s : State) : Nat × Nat × Nat × Nat :=
  (s.heap_blocks_list.blocks_count_FREE, s.heap_blocks_list.blocks_count_TOTAL,
   s.heap_blocks_list.bytes_count_FREE, s.heap_blocks_list.bytes_count_TOTAL)

/-- The operating system of the runs: every `sbrk` succeeds, `mmap` maps at `4096000000`. -/
def os0 : OS := OS.grant 4096000000

/-- The empty allocator of the runs: the program break is `4096000`. -/
def s0 : State := State.init 4096000

/-- Run: `a = smalloc(100)`, `b = smalloc(1000)`, `c = smalloc(10)`, `sfree(b)`,
`srealloc(a, 200)`; the pointer `a` and the state. -/
def afterGrowIntoSucc : Option (Nat × State) :=
  match smalloc 4 os0 100 s0 with
  | none => none
  | some (a, s) =>
    match smalloc 4 os0 1000 s with
    | none => none
    | some (b, s) =>
      match smalloc 4 os0 10 s with
      | none => none
      | some (_, s) =>
        match srealloc 4 os0 a 200 (sfree b s) with
        | none => none
        | some (_, s) => some (a, s)

/-- Run: `afterGrowIntoSucc`, then `srealloc(a, 224)`; the state. -/
def beforeSmallRequest : Option State :=
  match afterGrowIntoSucc with
  | none => none
  | some (a, s) => (srealloc 4 os0 a 224 s).map (fun r => r.2)

/-- Run: `beforeSmallRequest`, then `g = smalloc(50)`; the pointer `g` and the state. -/
def beforeShrinkInPlace : Option (Nat × State) :=
  match beforeSmallRequest with
  | none => none
  | some s => smalloc 4 os0 50 s

/-- Run: `afterGrowIntoSucc`, then `srealloc(a, 232)`; the state. -/
def beforeZeroedRequest : Option State :=
  match afterGrowIntoSucc with
  | none => none
  | some (a, s) => (srealloc 4 os0 a 232 s).map (fun r => r.2)

/-- Run: `a = smalloc(1000)`, `b = smalloc(500)`, `c = smalloc(10)`, `sfree(a)`; the
pointer `b` and the state. -/
def beforeGrowIntoPred : Option (Nat × State) :=
  match smalloc 4 os0 1000 s0 with
  | none => none
  | some (a, s) =>
    match smalloc 4 os0 500 s with
    | none => none
    | some (b, s) =>
      match smalloc 4 os0 10 s with
      | none => none
      | some (_, s) => some (b, sfree a s)

/-- The state of `beforeGrowIntoPred`. -/
def stateBeforeGrowIntoPred : State :=
  match beforeGrowIntoPred with
  | none => s0
  | some (_, s) => s

end Malloc3Bytes

/-! ## Reading a state after one store

Each store changes one field of one metadata object, or one member of the
list object; the lemmas below read every component after every store. -/

namespace Malloc3

@[simp] theorem hdr_setTotal_size_TOTAL_PAYLOAD (s : State) (p : Nat) (v : Nat) (x : Nat) :
    ((s.setTotal p v).hdr x).size_TOTAL_PAYLOAD = if x = p then v else (s.hdr x).size_TOTAL_PAYLOAD := by
  simp only [State.setTotal, Memory.setTotal, State.hdr]
  split <;> simp_all

@[simp] theorem hdr_setTotal_size_ACTIVE_PAYLOAD (s : State) (p : Nat) (v : Nat) (x : Nat) :
    ((s.setTotal p v).hdr x).size_ACTIVE_PAYLOAD = (s.hdr x).size_ACTIVE_PAYLOAD := by
  simp only [State.setTotal, Memory.setTotal, State.hdr]
  split <;> simp_all

@[simp] theorem hdr_setTotal_is_free (s : State) (p : Nat) (v : Nat) (x : Nat) :
    ((s.setTotal p v).hdr x).is_free = (s.hdr x).is_free := by
  simp only [State.setTotal, Memory.setTotal, State.hdr]
  split <;> simp_all

@[simp] theorem hdr_setTotal_next (s : State) (p : Nat) (v : Nat) (x : Nat) :
    ((s.setTotal p v).hdr x).next = (s.hdr x).next := by
  simp only [State.setTotal, Memory.setTotal, State.hdr]
  split <;> simp_all

@[simp] theorem hdr_setTotal_prev (s : State) (p : Nat) (v : Nat) (x : Nat) :
    ((s.setTotal p v).hdr x).prev = (s.hdr x).prev := by
  simp only [State.setTotal, Memory.setTotal, State.hdr]
  split <;> simp_all

theorem hdr_setTotal_of_ne (s : State) (p : Nat) (v : Nat) (x : Nat) (h : x ≠ p) :
    (s.setTotal p v).hdr x = s.hdr x := by
  simp [State.setTotal, Memory.setTotal, State.hdr, h]

@[simp] theorem brk_setTotal (s : State) (p : Nat) (v : Nat) :
    (s.setTotal p v).brk = s.brk := Eq.trans rfl rfl

@[simp] theorem mappings_setTotal (s : State) (p : Nat) (v : Nat) :
    (s.setTotal p v).mappings = s.mappings := Eq.trans rfl rfl

@[simp] theorem heap_blocks_list_setTotal (s : State) (p : Nat) (v : Nat) :
    (s.setTotal p v).heap_blocks_list = s.heap_blocks_list := Eq.trans rfl rfl

@[simp] theorem mmapped_blocks_setTotal (s : State) (p : Nat) (v : Nat) :
    (s.setTotal p v).mmapped_blocks = s.mmapped_blocks := Eq.trans rfl rfl

@[simp] theorem head_setTotal (s : State) (p : Nat) (v : Nat) :
    (s.setTotal p v).head = s.head := Eq.trans rfl rfl

@[simp] theorem tail_setTotal (s : State) (p : Nat) (v : Nat) :
    (s.setTotal p v).tail = s.tail := Eq.trans rfl rfl

@[simp] theorem hdr_setActive_size_TOTAL_PAYLOAD (s : State) (p : Nat) (v : Nat) (x : Nat) :
    ((s.setActive p v).hdr x).size_TOTAL_PAYLOAD = (s.hdr x).size_TOTAL_PAYLOAD := by
  simp only [State.setActive, Memory.setActive, State.hdr]
  split <;> simp_all

@[simp] theorem hdr_setActive_size_ACTIVE_PAYLOAD (s : State) (p : Nat) (v : Nat) (x : Nat) :
    ((s.setActive p v).hdr x).size_ACTIVE_PAYLOAD = if x = p then v else (s.hdr x).size_ACTIVE_PAYLOAD := by
  simp only [State.setActive, Memory.setActive, State.hdr]
  split <;> simp_all

@[simp] theorem hdr_setActive_is_free (s : State) (p : Nat) (v : Nat) (x : Nat) :
    ((s.setActive p v).hdr x).is_free = (s.hdr x).is_free := by
  simp only [State.setActive, Memory.setActive, State.hdr]
  split <;> simp_all

@[simp] theorem hdr_setActive_next (s : State) (p : Nat) (v : Nat) (x : Nat) :
    ((s.setActive p v).hdr x).next = (s.hdr x).next := by
  simp only [State.setActive, Memory.setActive, State.hdr]
  split <;> simp_all

@[simp] theorem hdr_setActive_prev (s : State) (p : Nat) (v : Nat) (x : Nat) :
    ((s.setActive p v).hdr x).prev = (s.hdr x).prev := by
  simp only [State.setActive, Memory.setActive, State.hdr]
  split <;> simp_all

theorem hdr_setActive_of_ne (s : State) (p : Nat) (v : Nat) (x : Nat) (h : x ≠ p) :
    (s.setActive p v).hdr x = s.hdr x := by
  simp [State.setActive, Memory.setActive, State.hdr, h]

@[simp] theorem brk_setActive (s : State) (p : Nat) (v : Nat) :
    (s.setActive p v).brk = s.brk := Eq.trans rfl rfl

@[simp] theorem mappings_setActive (s : State) (p : Nat) (v : Nat) :
    (s.setActive p v).mappings = s.mappings := Eq.trans rfl rfl

@[simp] theorem heap_blocks_list_setActive (s : State) (p : Nat) (v : Nat) :
    (s.setActive p v).heap_blocks_list = s.heap_blocks_list := Eq.trans rfl rfl

@[simp] theorem mmapped_blocks_setActive (s : State) (p : Nat) (v : Nat) :
    (s.setActive p v).mmapped_blocks = s.mmapped_blocks := Eq.trans rfl rfl

@[simp] theorem head_setActive (s : State) (p : Nat) (v : Nat) :
    (s.setActive p v).head = s.head := Eq.trans rfl rfl

@[simp] theorem tail_setActive (s : State) (p : Nat) (v : Nat) :
    (s.setActive p v).tail = s.tail := Eq.trans rfl rfl

@[simp] theorem hdr_setIsFree_size_TOTAL_PAYLOAD (s : State) (p : Nat) (v : Bool) (x : Nat) :
    ((s.setIsFree p v).hdr x).size_TOTAL_PAYLOAD = (s.hdr x).size_TOTAL_PAYLOAD := by
  simp only [State.setIsFree, Memory.setIsFree, State.hdr]
  split <;> simp_all

@[simp] theorem hdr_setIsFree_size_ACTIVE_PAYLOAD (s : State) (p : Nat) (v : Bool) (x : Nat) :
    ((s.setIsFree p v).hdr x).size_ACTIVE_PAYLOAD = (s.hdr x).size_ACTIVE_PAYLOAD := by
  simp only [State.setIsFree, Memory.setIsFree, State.hdr]
  split <;> simp_all

@[simp] theorem hdr_setIsFree_is_free (s : State) (p : Nat) (v : Bool) (x : Nat) :
    ((s.setIsFree p v).hdr x).is_free = if x = p then v else (s.hdr x).is_free := by
  simp only [State.setIsFree, Memory.setIsFree, State.hdr]
  split <;> simp_all

@[simp] theorem hdr_setIsFree_next (s : State) (p : Nat) (v : Bool) (x : Nat) :
    ((s.setIsFree p v).hdr x).next = (s.hdr x).next := by
  simp only [State.setIsFree, Memory.setIsFree, State.hdr]
  split <;> simp_all

@[simp] theorem hdr_setIsFree_prev (s : State) (p : Nat) (v : Bool) (x : Nat) :
    ((s.setIsFree p v).hdr x).prev = (s.hdr x).prev := by
  simp only [State.setIsFree, Memory.setIsFree, State.hdr]
  split <;> simp_all

theorem hdr_setIsFree_of_ne (s : State) (p : Nat) (v : Bool) (x : Nat) (h : x ≠ p) :
    (s.setIsFree p v).hdr x = s.hdr x := by
  simp [State.setIsFree, Memory.setIsFree, State.hdr, h]

@[simp] theorem brk_setIsFree (s : State) (p : Nat) (v : Bool) :
    (s.setIsFree p v).brk = s.brk := Eq.trans rfl rfl

@[simp] theorem mappings_setIsFree (s : State) (p : Nat) (v : Bool) :
    (s.setIsFree p v).mappings = s.mappings := Eq.trans rfl rfl

@[simp] theorem heap_blocks_list_setIsFree (s : State) (p : Nat) (v : Bool) :
    (s.setIsFree p v).heap_blocks_list = s.heap_blocks_list := Eq.trans rfl rfl

@[simp] theorem mmapped_blocks_setIsFree (s : State) (p : Nat) (v : Bool) :
    (s.setIsFree p v).mmapped_blocks = s.mmapped_blocks := Eq.trans rfl rfl

@[simp] theorem head_setIsFree (s : State) (p : Nat) (v : Bool) :
    (s.setIsFree p v).head = s.head := Eq.trans rfl rfl

@[simp] theorem tail_setIsFree (s : State) (p : Nat) (v : Bool) :
    (s.setIsFree p v).tail = s.tail := Eq.trans rfl rfl

@[simp] theorem hdr_setNext_size_TOTAL_PAYLOAD (s : State) (p : Nat) (v : Nat) (x : Nat) :
    ((s.setNext p v).hdr x).size_TOTAL_PAYLOAD = (s.hdr x).size_TOTAL_PAYLOAD := by
  simp only [State.setNext, Memory.setNext, State.hdr]
  split <;> simp_all

@[simp] theorem hdr_setNext_size_ACTIVE_PAYLOAD (s : State) (p : Nat) (v : Nat) (x : Nat) :
    ((s.setNext p v).hdr x).size_ACTIVE_PAYLOAD = (s.hdr x).size_ACTIVE_PAYLOAD := by
  simp only [State.setNext, Memory.setNext, State.hdr]
  split <;> simp_all

@[simp] theorem hdr_setNext_is_free (s : State) (p : Nat) (v : Nat) (x : Nat) :
    ((s.setNext p v).hdr x).is_free = (s.hdr x).is_free := by
  simp only [State.setNext, Memory.setNext, State.hdr]
  split <;> simp_all

@[simp] theorem hdr_setNext_next (s : State) (p : Nat) (v : Nat) (x : Nat) :
    ((s.setNext p v).hdr x).next = if x = p then v else (s.hdr x).next := by
  simp only [State.setNext, Memory.setNext, State.hdr]
  split <;> simp_all

@[simp] theorem hdr_setNext_prev (s : State) (p : Nat) (v : Nat) (x : Nat) :
    ((s.setNext p v).hdr x).prev = (s.hdr x).prev := by
  simp only [State.setNext, Memory.setNext, State.hdr]
  split <;> simp_all

theorem hdr_setNext_of_ne (s : State) (p : Nat) (v : Nat) (x : Nat) (h : x ≠ p) :
    (s.setNext p v).hdr x = s.hdr x := by
  simp [State.setNext, Memory.setNext, State.hdr, h]

@[simp] theorem brk_setNext (s : State) (p : Nat) (v : Nat) :
    (s.setNext p v).brk = s.brk := Eq.trans rfl rfl

@[simp] theorem mappings_setNext (s : State) (p : Nat) (v : Nat) :
    (s.setNext p v).mappings = s.mappings := Eq.trans rfl rfl

@[simp] theorem heap_blocks_list_setNext (s : State) (p : Nat) (v : Nat) :
    (s.setNext p v).heap_blocks_list = s.heap_blocks_list := Eq.trans rfl rfl

@[simp] theorem mmapped_blocks_setNext (s : State) (p : Nat) (v : Nat) :
    (s.setNext p v).mmapped_blocks = s.mmapped_blocks := Eq.trans rfl rfl

@[simp] theorem head_setNext (s : State) (p : Nat) (v : Nat) :
    (s.setNext p v).head = s.head := Eq.trans rfl rfl

@[simp] theorem tail_setNext (s : State) (p : Nat) (v : Nat) :
    (s.setNext p v).tail = s.tail := Eq.trans rfl rfl

@[simp] theorem hdr_setPrev_size_TOTAL_PAYLOAD (s : State) (p : Nat) (v : Nat) (x : Nat) :
    ((s.setPrev p v).hdr x).size_TOTAL_PAYLOAD = (s.hdr x).size_TOTAL_PAYLOAD := by
  simp only [State.setPrev, Memory.setPrev, State.hdr]
  split <;> simp_all

@[simp] theorem hdr_setPrev_size_ACTIVE_PAYLOAD (s : State) (p : Nat) (v : Nat) (x : Nat) :
    ((s.setPrev p v).hdr x).size_ACTIVE_PAYLOAD = (s.hdr x).size_ACTIVE_PAYLOAD := by
  simp only [State.setPrev, Memory.setPrev, State.hdr]
  split <;> simp_all

@[simp] theorem hdr_setPrev_is_free (s : State) (p : Nat) (v : Nat) (x : Nat) :
    ((s.setPrev p v).hdr x).is_free = (s.hdr x).is_free := by
  simp only [State.setPrev, Memory.setPrev, State.hdr]
  split <;> simp_all

@[simp] theorem hdr_setPrev_next (s : State) (p : Nat) (v : Nat) (x : Nat) :
    ((s.setPrev p v).hdr x).next = (s.hdr x).next := by
  simp only [State.setPrev, Memory.setPrev, State.hdr]
  split <;> simp_all

@[simp] theorem hdr_setPrev_prev (s : State) (p : Nat) (v : Nat) (x : Nat) :
    ((s.setPrev p v).hdr x).prev = if x = p then v else (s.hdr x).prev := by
  simp only [State.setPrev, Memory.setPrev, State.hdr]
  split <;> simp_all

theorem hdr_setPrev_of_ne (s : State) (p : Nat) (v : Nat) (x : Nat) (h : x ≠ p) :
    (s.setPrev p v).hdr x = s.hdr x := by
  simp [State.setPrev, Memory.setPrev, State.hdr, h]

@[simp] theorem brk_setPrev (s : State) (p : Nat) (v : Nat) :
    (s.setPrev p v).brk = s.brk := Eq.trans rfl rfl

@[simp] theorem mappings_setPrev (s : State) (p : Nat) (v : Nat) :
    (s.setPrev p v).mappings = s.mappings := Eq.trans rfl rfl

@[simp] theorem heap_blocks_list_setPrev (s : State) (p : Nat) (v : Nat) :
    (s.setPrev p v).heap_blocks_list = s.heap_blocks_list := Eq.trans rfl rfl

@[simp] theorem mmapped_blocks_setPrev (s : State) (p : Nat) (v : Nat) :
    (s.setPrev p v).mmapped_blocks = s.mmapped_blocks := Eq.trans rfl rfl

@[simp] theorem head_setPrev (s : State) (p : Nat) (v : Nat) :
    (s.setPrev p v).head = s.head := Eq.trans rfl rfl

@[simp] theorem tail_setPrev (s : State) (p : Nat) (v : Nat) :
    (s.setPrev p v).tail = s.tail := Eq.trans rfl rfl

@[simp] theorem hdr_setHead (s : State) (v x : Nat) : (s.setHead v).hdr x = s.hdr x := Eq.trans rfl rfl

@[simp] theorem mem_setHead (s : State) (v : Nat) : (s.setHead v).mem = s.mem := Eq.trans rfl rfl

@[simp] theorem brk_setHead (s : State) (v : Nat) : (s.setHead v).brk = s.brk := Eq.trans rfl rfl

@[simp] theorem mappings_setHead (s : State) (v : Nat) : (s.setHead v).mappings = s.mappings := Eq.trans rfl rfl

@[simp] theorem mmapped_blocks_setHead (s : State) (v : Nat) : (s.setHead v).mmapped_blocks = s.mmapped_blocks := Eq.trans rfl rfl

@[simp] theorem head_setHead (s : State) (v : Nat) :
    (s.setHead v).heap_blocks_list.head = v := Eq.trans rfl rfl

@[simp] theorem tail_setHead (s : State) (v : Nat) :
    (s.setHead v).heap_blocks_list.tail = s.heap_blocks_list.tail := Eq.trans rfl rfl

@[simp] theorem blocks_count_FREE_setHead (s : State) (v : Nat) :
    (s.setHead v).heap_blocks_list.blocks_count_FREE = s.heap_blocks_list.blocks_count_FREE := Eq.trans rfl rfl

@[simp] theorem blocks_count_TOTAL_setHead (s : State) (v : Nat) :
    (s.setHead v).heap_blocks_list.blocks_count_TOTAL = s.heap_blocks_list.blocks_count_TOTAL := Eq.trans rfl rfl

@[simp] theorem bytes_count_FREE_setHead (s : State) (v : Nat) :
    (s.setHead v).heap_blocks_list.bytes_count_FREE = s.heap_blocks_list.bytes_count_FREE := Eq.trans rfl rfl

@[simp] theorem bytes_count_TOTAL_setHead (s : State) (v : Nat) :
    (s.setHead v).heap_blocks_list.bytes_count_TOTAL = s.heap_blocks_list.bytes_count_TOTAL := Eq.trans rfl rfl

@[simp] theorem st_head_setHead (s : State) (v : Nat) : (s.setHead v).head = v := Eq.trans rfl rfl

@[simp] theorem st_tail_setHead (s : State) (v : Nat) : (s.setHead v).tail = s.tail := Eq.trans rfl rfl

@[simp] theorem hdr_setTail (s : State) (v x : Nat) : (s.setTail v).hdr x = s.hdr x := Eq.trans rfl rfl

@[simp] theorem mem_setTail (s : State) (v : Nat) : (s.setTail v).mem = s.mem := Eq.trans rfl rfl

@[simp] theorem brk_setTail (s : State) (v : Nat) : (s.setTail v).brk = s.brk := Eq.trans rfl rfl

@[simp] theorem mappings_setTail (s : State) (v : Nat) : (s.setTail v).mappings = s.mappings := Eq.trans rfl rfl

@[simp] theorem mmapped_blocks_setTail (s : State) (v : Nat) : (s.setTail v).mmapped_blocks = s.mmapped_blocks := Eq.trans rfl rfl

@[simp] theorem head_setTail (s : State) (v : Nat) :
    (s.setTail v).heap_blocks_list.head = s.heap_blocks_list.head := Eq.trans rfl rfl

@[simp] theorem tail_setTail (s : State) (v : Nat) :
    (s.setTail v).heap_blocks_list.tail = v := Eq.trans rfl rfl

@[simp] theorem blocks_count_FREE_setTail (s : State) (v : Nat) :
    (s.setTail v).heap_blocks_list.blocks_count_FREE = s.heap_blocks_list.blocks_count_FREE := Eq.trans rfl rfl

@[simp] theorem blocks_count_TOTAL_setTail (s : State) (v : Nat) :
    (s.setTail v).heap_blocks_list.blocks_count_TOTAL = s.heap_blocks_list.blocks_count_TOTAL := Eq.trans rfl rfl

@[simp] theorem bytes_count_FREE_setTail (s : State) (v : Nat) :
    (s.setTail v).heap_blocks_list.bytes_count_FREE = s.heap_blocks_list.bytes_count_FREE := Eq.trans rfl rfl

@[simp] theorem bytes_count_TOTAL_setTail (s : State) (v : Nat) :
    (s.setTail v).heap_blocks_list.bytes_count_TOTAL = s.heap_blocks_list.bytes_count_TOTAL := Eq.trans rfl rfl

@[simp] theorem st_head_setTail (s : State) (v : Nat) : (s.setTail v).head = s.head := Eq.trans rfl rfl

@[simp] theorem st_tail_setTail (s : State) (v : Nat) : (s.setTail v).tail = v := Eq.trans rfl rfl

@[simp] theorem hdr_setBlocksFREE (s : State) (v x : Nat) : (s.setBlocksFREE v).hdr x = s.hdr x := Eq.trans rfl rfl

@[simp] theorem mem_setBlocksFREE (s : State) (v : Nat) : (s.setBlocksFREE v).mem = s.mem := Eq.trans rfl rfl

@[simp] theorem brk_setBlocksFREE (s : State) (v : Nat) : (s.setBlocksFREE v).brk = s.brk := Eq.trans rfl rfl

@[simp] theorem mappings_setBlocksFREE (s : State) (v : Nat) : (s.setBlocksFREE v).mappings = s.mappings := Eq.trans rfl rfl

@[simp] theorem mmapped_blocks_setBlocksFREE (s : State) (v : Nat) : (s.setBlocksFREE v).mmapped_blocks = s.mmapped_blocks := Eq.trans rfl rfl

@[simp] theorem head_setBlocksFREE (s : State) (v : Nat) :
    (s.setBlocksFREE v).heap_blocks_list.head = s.heap_blocks_list.head := Eq.trans rfl rfl

@[simp] theorem tail_setBlocksFREE (s : State) (v : Nat) :
    (s.setBlocksFREE v).heap_blocks_list.tail = s.heap_blocks_list.tail := Eq.trans rfl rfl

@[simp] theorem blocks_count_FREE_setBlocksFREE (s : State) (v : Nat) :
    (s.setBlocksFREE v).heap_blocks_list.blocks_count_FREE = v := Eq.trans rfl rfl

@[simp] theorem blocks_count_TOTAL_setBlocksFREE (s : State) (v : Nat) :
    (s.setBlocksFREE v).heap_blocks_list.blocks_count_TOTAL = s.heap_blocks_list.blocks_count_TOTAL := Eq.trans rfl rfl

@[simp] theorem bytes_count_FREE_setBlocksFREE (s : State) (v : Nat) :
    (s.setBlocksFREE v).heap_blocks_list.bytes_count_FREE = s.heap_blocks_list.bytes_count_FREE := Eq.trans rfl rfl

@[simp] theorem bytes_count_TOTAL_setBlocksFREE (s : State) (v : Nat) :
    (s.setBlocksFREE v).heap_blocks_list.bytes_count_TOTAL = s.heap_blocks_list.bytes_count_TOTAL := Eq.trans rfl rfl

@[simp] theorem st_head_setBlocksFREE (s : State) (v : Nat) : (s.setBlocksFREE v).head = s.head := Eq.trans rfl rfl

@[simp] theorem st_tail_setBlocksFREE (s : State) (v : Nat) : (s.setBlocksFREE v).tail = s.tail := Eq.trans rfl rfl

@[simp] theorem hdr_setBlocksTOTAL (s : State) (v x : Nat) : (s.setBlocksTOTAL v).hdr x = s.hdr x := Eq.trans rfl rfl

@[simp] theorem mem_setBlocksTOTAL (s : State) (v : Nat) : (s.setBlocksTOTAL v).mem = s.mem := Eq.trans rfl rfl

@[simp] theorem brk_setBlocksTOTAL (s : State) (v : Nat) : (s.setBlocksTOTAL v).brk = s.brk := Eq.trans rfl rfl

@[simp] theorem mappings_setBlocksTOTAL (s : State) (v : Nat) : (s.setBlocksTOTAL v).mappings = s.mappings := Eq.trans rfl rfl

@[simp] theorem mmapped_blocks_setBlocksTOTAL (s : State) (v : Nat) : (s.setBlocksTOTAL v).mmapped_blocks = s.mmapped_blocks := Eq.trans rfl rfl

@[simp] theorem head_setBlocksTOTAL (s : State) (v : Nat) :
    (s.setBlocksTOTAL v).heap_blocks_list.head = s.heap_blocks_list.head := Eq.trans rfl rfl

@[simp] theorem tail_setBlocksTOTAL (s : State) (v : Nat) :
    (s.setBlocksTOTAL v).heap_blocks_list.tail = s.heap_blocks_list.tail := Eq.trans rfl rfl

@[simp] theorem blocks_count_FREE_setBlocksTOTAL (s : State) (v : Nat) :
    (s.setBlocksTOTAL v).heap_blocks_list.blocks_count_FREE = s.heap_blocks_list.blocks_count_FREE := Eq.trans rfl rfl

@[simp] theorem blocks_count_TOTAL_setBlocksTOTAL (s : State) (v : Nat) :
    (s.setBlocksTOTAL v).heap_blocks_list.blocks_count_TOTAL = v := Eq.trans rfl rfl

@[simp] theorem bytes_count_FREE_setBlocksTOTAL (s : State) (v : Nat) :
    (s.setBlocksTOTAL v).heap_blocks_list.bytes_count_FREE = s.heap_blocks_list.bytes_count_FREE := Eq.trans rfl rfl

@[simp] theorem bytes_count_TOTAL_setBlocksTOTAL (s : State) (v : Nat) :
    (s.setBlocksTOTAL v).heap_blocks_list.bytes_count_TOTAL = s.heap_blocks_list.bytes_count_TOTAL := Eq.trans rfl rfl

@[simp] theorem st_head_setBlocksTOTAL (s : State) (v : Nat) : (s.setBlocksTOTAL v).head = s.head := Eq.trans rfl rfl

@[simp] theorem st_tail_setBlocksTOTAL (s : State) (v : Nat) : (s.setBlocksTOTAL v).tail = s.tail := Eq.trans rfl rfl

@[simp] theorem hdr_setBytesFREE (s : State) (v x : Nat) : (s.setBytesFREE v).hdr x = s.hdr x := Eq.trans rfl rfl

@[simp] theorem mem_setBytesFREE (s : State) (v : Nat) : (s.setBytesFREE v).mem = s.mem := Eq.trans rfl rfl

@[simp] theorem brk_setBytesFREE (s : State) (v : Nat) : (s.setBytesFREE v).brk = s.brk := Eq.trans rfl rfl

@[simp] theorem mappings_setBytesFREE (s : State) (v : Nat) : (s.setBytesFREE v).mappings = s.mappings := Eq.trans rfl rfl

@[simp] theorem mmapped_blocks_setBytesFREE (s : State) (v : Nat) : (s.setBytesFREE v).mmapped_blocks = s.mmapped_blocks := Eq.trans rfl rfl

@[simp] theorem head_setBytesFREE (s : State) (v : Nat) :
    (s.setBytesFREE v).heap_blocks_list.head = s.heap_blocks_list.head := Eq.trans rfl rfl

@[simp] theorem tail_setBytesFREE (s : State) (v : Nat) :
    (s.setBytesFREE v).heap_blocks_list.tail = s.heap_blocks_list.tail := Eq.trans rfl rfl

@[simp] theorem blocks_count_FREE_setBytesFREE (s : State) (v : Nat) :
    (s.setBytesFREE v).heap_blocks_list.blocks_count_FREE = s.heap_blocks_list.blocks_count_FREE := Eq.trans rfl rfl

@[simp] theorem blocks_count_TOTAL_setBytesFREE (s : State) (v : Nat) :
    (s.setBytesFREE v).heap_blocks_list.blocks_count_TOTAL = s.heap_blocks_list.blocks_count_TOTAL := Eq.trans rfl rfl

@[simp] theorem bytes_count_FREE_setBytesFREE (s : State) (v : Nat) :
    (s.setBytesFREE v).heap_blocks_list.bytes_count_FREE = v := Eq.trans rfl rfl

@[simp] theorem bytes_count_TOTAL_setBytesFREE (s : State) (v : Nat) :
    (s.setBytesFREE v).heap_blocks_list.bytes_count_TOTAL = s.heap_blocks_list.bytes_count_TOTAL := Eq.trans rfl rfl

@[simp] theorem st_head_setBytesFREE (s : State) (v : Nat) : (s.setBytesFREE v).head = s.head := Eq.trans rfl rfl

@[simp] theorem st_tail_setBytesFREE (s : State) (v : Nat) : (s.setBytesFREE v).tail = s.tail := Eq.trans rfl rfl

@[simp] theorem hdr_setBytesTOTAL (s : State) (v x : Nat) : (s.setBytesTOTAL v).hdr x = s.hdr x := Eq.trans rfl rfl

@[simp] theorem mem_setBytesTOTAL (s : State) (v : Nat) : (s.setBytesTOTAL v).mem = s.mem := Eq.trans rfl rfl

@[simp] theorem brk_setBytesTOTAL (s : State) (v : Nat) : (s.setBytesTOTAL v).brk = s.brk := Eq.trans rfl rfl

@[simp] theorem mappings_setBytesTOTAL (s : State) (v : Nat) : (s.setBytesTOTAL v).mappings = s.mappings := Eq.trans rfl rfl

@[simp] theorem mmapped_blocks_setBytesTOTAL (s : State) (v : Nat) : (s.setBytesTOTAL v).mmapped_blocks = s.mmapped_blocks := Eq.trans rfl rfl

@[simp] theorem head_setBytesTOTAL (s : State) (v : Nat) :
    (s.setBytesTOTAL v).heap_blocks_list.head = s.heap_blocks_list.head := Eq.trans rfl rfl

@[simp] theorem tail_setBytesTOTAL (s : State) (v : Nat) :
    (s.setBytesTOTAL v).heap_blocks_list.tail = s.heap_blocks_list.tail := Eq.trans rfl rfl

@[simp] theorem blocks_count_FREE_setBytesTOTAL (s : State) (v : Nat) :
    (s.setBytesTOTAL v).heap_blocks_list.blocks_count_FREE = s.heap_blocks_list.blocks_count_FREE := Eq.trans rfl rfl

@[simp] theorem blocks_count_TOTAL_setBytesTOTAL (s : State) (v : Nat) :
    (s.setBytesTOTAL v).heap_blocks_list.blocks_count_TOTAL = s.heap_blocks_list.blocks_count_TOTAL := Eq.trans rfl rfl

@[simp] theorem bytes_count_FREE_setBytesTOTAL (s : State) (v : Nat) :
    (s.setBytesTOTAL v).heap_blocks_list.bytes_count_FREE = s.heap_blocks_list.bytes_count_FREE := Eq.trans rfl rfl

@[simp] theorem bytes_count_TOTAL_setBytesTOTAL (s : State) (v : Nat) :
    (s.setBytesTOTAL v).heap_blocks_list.bytes_count_TOTAL = v := Eq.trans rfl rfl

@[simp] theorem st_head_setBytesTOTAL (s : State) (v : Nat) : (s.setBytesTOTAL v).head = s.head := Eq.trans rfl rfl

@[simp] theorem st_tail_setBytesTOTAL (s : State) (v : Nat) : (s.setBytesTOTAL v).tail = s.tail := Eq.trans rfl rfl

end Malloc3

/-! ## The block returned by an allocation -/

namespace Malloc3
open HeapBlocksList

theorem findFreeBlockLoop_fits (m : Memory) (n : Nat) :
    ∀ (fuel curr r : Nat), findFreeBlockLoop m n fuel curr = some r → r ≠ 0 →
      (m.hdr r).is_free = true ∧ n ≤ (m.hdr r).size_TOTAL_PAYLOAD := by
  intro fuel
  induction fuel with
  | zero =>
    intro curr r h hr
    unfold findFreeBlockLoop at h
    split at h
    · simp at h; omega
    · simp at h
  | succ k ih =>
    intro curr r h hr
    unfold findFreeBlockLoop at h
    split at h
    · simp at h; omega
    · split at h
      · rename_i hfit
        simp at h
        subst h
        exact ⟨hfit.1, hfit.2⟩
      · exact ih _ _ h hr

theorem useFreeBlockWithoutSplit_hdr (fb n : Nat) (s : State) :
    ((useFreeBlockWithoutSplit fb n s).hdr fb).is_free = false ∧
    ((useFreeBlockWithoutSplit fb n s).hdr fb).size_TOTAL_PAYLOAD
      = (s.hdr fb).size_TOTAL_PAYLOAD ∧
    ((useFreeBlockWithoutSplit fb n s).hdr fb).size_ACTIVE_PAYLOAD = n := by
  simp [useFreeBlockWithoutSplit]

theorem updateMetaDataAfterFreeBlockSplit_hdr (fb rb n r : Nat) (s : State) (h : fb ≠ rb) :
    ((updateMetaDataAfterFreeBlockSplit fb rb n r s).hdr fb).is_free = false ∧
    ((updateMetaDataAfterFreeBlockSplit fb rb n r s).hdr fb).size_TOTAL_PAYLOAD = n ∧
    ((updateMetaDataAfterFreeBlockSplit fb rb n r s).hdr fb).size_ACTIVE_PAYLOAD = n := by
  unfold updateMetaDataAfterFreeBlockSplit
  simp only []
  split <;> simp [h]

theorem useFreeBlockWithSplit_hdr (fb n r : Nat) (s : State) :
    ((useFreeBlockWithSplit fb n r s).hdr fb).is_free = false ∧
    ((useFreeBlockWithSplit fb n r s).hdr fb).size_TOTAL_PAYLOAD = n ∧
    ((useFreeBlockWithSplit fb n r s).hdr fb).size_ACTIVE_PAYLOAD = n := by
  have hne : fb ≠ fb + sizeofMallocMetadata + n := by
    simp only [sizeofMallocMetadata]; omega
  have h := updateMetaDataAfterFreeBlockSplit_hdr fb (fb + sizeofMallocMetadata + n) n r s hne
  unfold useFreeBlockWithSplit
  simp only []
  split <;> simpa using h

theorem useFreeBlock_hdr (fb n : Nat) (s : State)
    (hfit : n ≤ (s.hdr fb).size_TOTAL_PAYLOAD) :
    (useFreeBlock fb n s).1 = fb + sizeofMallocMetadata ∧
    ((useFreeBlock fb n s).2.hdr fb).is_free = false ∧
    n ≤ ((useFreeBlock fb n s).2.hdr fb).size_TOTAL_PAYLOAD ∧
    ((useFreeBlock fb n s).2.hdr fb).size_ACTIVE_PAYLOAD = n := by
  unfold useFreeBlock
  refine ⟨rfl, ?_⟩
  simp only []
  generalize (if sub64 (s.hdr fb).size_TOTAL_PAYLOAD n > sizeofMallocMetadata then
      sub64 (sub64 (s.hdr fb).size_TOTAL_PAYLOAD n) sizeofMallocMetadata else 0) = r
  by_cases hr : r < SPLITTING_THRESHOLD
  · rw [if_pos hr]
    have h := useFreeBlockWithoutSplit_hdr fb n s
    rw [h.1, h.2.1, h.2.2]
    exact ⟨rfl, hfit, rfl⟩
  · rw [if_neg hr]
    have h := useFreeBlockWithSplit_hdr fb n r s
    rw [h.1, h.2.1, h.2.2]
    exact ⟨rfl, le_refl n, rfl⟩

theorem useWildernessBlock_hdr (os : OS) (n : Nat) (s : State)
    (hp : (useWildernessBlock os n s).1 ≠ 0) :
    (useWildernessBlock os n s).1 = s.tail + sizeofMallocMetadata ∧
    ((useWildernessBlock os n s).2.hdr s.tail).is_free = false ∧
    ((useWildernessBlock os n s).2.hdr s.tail).size_TOTAL_PAYLOAD = n ∧
    ((useWildernessBlock os n s).2.hdr s.tail).size_ACTIVE_PAYLOAD = n := by
  unfold useWildernessBlock at hp ⊢
  simp only [] at hp ⊢
  split
  · rename_i h; rw [if_pos h] at hp; exact absurd rfl hp
  · simp [getPayloadBlockAddr]

theorem sbrk_tail (os : OS) (d : Nat) (s : State) : (sbrk os d s).2.tail = s.tail := by
  unfold sbrk; split
  · rfl
  · split <;> rfl

theorem sbrk_head (os : OS) (d : Nat) (s : State) : (sbrk os d s).2.head = s.head := by
  unfold sbrk; split
  · rfl
  · split <;> rfl

theorem sbrk_zero (os : OS) (s : State) : (sbrk os 0 s).1 = s.brk := by
  simp [sbrk]

theorem setNewBlockMetaData_hdr (n b : Nat) (s : State) :
    ((setNewBlockMetaData n b s).hdr b).is_free = false ∧
    ((setNewBlockMetaData n b s).hdr b).size_TOTAL_PAYLOAD = n ∧
    ((setNewBlockMetaData n b s).hdr b).size_ACTIVE_PAYLOAD = n := by
  simp [setNewBlockMetaData]

theorem createNewBlock_hdr (os : OS) (n : Nat) (s s1 : State) (p : Nat)
    (h : createNewBlock os n s = some (p, s1)) (hp : p ≠ 0) :
    (s1.hdr (p - sizeofMallocMetadata)).is_free = false ∧
    (s1.hdr (p - sizeofMallocMetadata)).size_TOTAL_PAYLOAD = n ∧
    (s1.hdr (p - sizeofMallocMetadata)).size_ACTIVE_PAYLOAD = n := by
  unfold createNewBlock at h
  simp only [] at h
  split at h
  · simp at h; omega
  · have hm := setNewBlockMetaData_hdr n (sbrk os 0 s).1
      (sbrk os (add64 sizeofMallocMetadata n) s).2
    split at h
    · simp only [Option.some.injEq, Prod.mk.injEq] at h
      obtain ⟨h1, h2⟩ := h
      subst h1 h2
      simpa [getPayloadBlockAddr] using hm
    · split at h
      · simp at h
      · simp only [Option.some.injEq, Prod.mk.injEq] at h
        obtain ⟨h1, h2⟩ := h
        subst h1 h2
        simpa [getPayloadBlockAddr] using hm

theorem allocateBlock_hdr (fuel : Nat) (os : OS) (n : Nat) (s s1 : State) (p : Nat)
    (h : allocateBlock fuel os n s = some (p, s1)) (hp : p ≠ 0) :
    (s1.hdr (p - sizeofMallocMetadata)).is_free = false ∧
    n ≤ (s1.hdr (p - sizeofMallocMetadata)).size_TOTAL_PAYLOAD ∧
    (s1.hdr (p - sizeofMallocMetadata)).size_ACTIVE_PAYLOAD = n := by
  unfold allocateBlock at h
  split at h
  · simp at h
  · rename_i fb hfb
    split at h
    · simp only [Option.some.injEq] at h
      have hw := useWildernessBlock_hdr os n s (by rw [h]; exact hp)
      rw [h] at hw
      simp only at hw
      obtain ⟨h1, h2, h3, h4⟩ := hw
      subst h1
      simp only [Nat.add_sub_cancel]
      exact ⟨h2, by omega, h4⟩
    · split at h
      · have hc := createNewBlock_hdr os n s s1 p h hp
        exact ⟨hc.1, by omega, hc.2.2⟩
      · rename_i hne0
        simp only [Option.some.injEq] at h
        have hfit := findFreeBlockLoop_fits s.mem n fuel s.head fb hfb hne0
        have hu := useFreeBlock_hdr fb n s hfit.2
        rw [h] at hu
        simp only at hu
        obtain ⟨h1, h2, h3, h4⟩ := hu
        subst h1
        simp only [Nat.add_sub_cancel]
        exact ⟨h2, h3, h4⟩

theorem add64_small (a b : Nat) (h : a + b < W) : add64 a b = a + b := by
  unfold add64
  exact Nat.mod_eq_of_lt h

theorem mmapped_createNewBlock_hdr (os : OS) (n : Nat) (s s1 : State) (p : Nat)
    (hn : n ≤ maxSize)
    (h : MMappedBlocksManager.createNewBlock os n s = (p, s1)) (hp : p ≠ 0) :
    (s1.hdr (p - sizeofMallocMetadata)).is_free = false ∧
    (s1.hdr (p - sizeofMallocMetadata)).size_TOTAL_PAYLOAD = n ∧
    (s1.hdr (p - sizeofMallocMetadata)).size_ACTIVE_PAYLOAD = n := by
  have hlen : add64 n sizeofMallocMetadata = n + 40 := by
    rw [add64_small]
    · rfl
    · simp only [maxSize] at hn
      simp only [sizeofMallocMetadata, W]
      omega
  unfold MMappedBlocksManager.createNewBlock at h
  simp only [hlen] at h
  unfold mmap at h
  cases hm : os.mmap_result with
  | none =>
    rw [hm] at h
    simp only [if_true, Prod.mk.injEq] at h
    omega
  | some addr =>
    rw [hm] at h
    simp only [] at h
    split at h
    · simp only [Prod.mk.injEq] at h
      omega
    · simp only [Prod.mk.injEq] at h
      obtain ⟨h1, h2⟩ := h
      subst h1 h2
      simp only [getPayloadBlockAddr, Nat.add_sub_cancel, MMappedBlocksManager.setNewBlockMetaData]
      simp [State.hdr, State.setTotal, State.setActive, Memory.setTotal, Memory.setActive,
        Memory.zeroFill, zeroMetadata]

theorem smalloc_block_hdr (fuel : Nat) (os : OS) (n : Nat)
    (s s1 : State) (p : Nat) (hn2 : n ≤ 100000000)
    (h : smalloc fuel os n s = some (p, s1)) (hp : p ≠ 0) :
    (s1.hdr (metadataOf p)).is_free = false ∧
    n ≤ (s1.hdr (metadataOf p)).size_TOTAL_PAYLOAD ∧
    (s1.hdr (metadataOf p)).size_ACTIVE_PAYLOAD = n := by
  unfold smalloc at h
  split at h
  · simp only [Option.some.injEq, Prod.mk.injEq] at h
    exact absurd h.1.symm hp
  · unfold MemoryManager.allocateBlock at h
    unfold metadataOf
    split at h
    · simp only [MMappedBlocksManager.allocateBlock, Option.some.injEq] at h
      have hm := mmapped_createNewBlock_hdr os n s s1 p hn2 h hp
      exact ⟨hm.1, by omega, hm.2.2⟩
    · exact allocateBlock_hdr fuel os n s s1 p h hp

end Malloc3

/-! ## Size validation -/

/-- C2: in `malloc_1`, `malloc_2` and `malloc_3`, `smalloc(size)` with `size = 0` or
`size > 10^8` returns `NULL` and leaves the whole state unchanged; the size
`10^8` itself passes the validation and reaches the allocation proper. -/
theorem smalloc_rejects_bad_size (fuel : Nat) (os : OS) (size : Nat)
    (hbad : size = 0 ∨ size > 100000000) :
    (∀ s : Malloc1.State, Malloc1.smalloc os size s = (0, s)) ∧
    (∀ s : Malloc2.State, Malloc2.smalloc fuel os size s = some (0, s)) ∧
    (∀ s : Malloc3.State, Malloc3.smalloc fuel os size s = some (0, s)) ∧
    (∀ s : Malloc1.State, Malloc1.smalloc os 100000000 s =
      if (Malloc1.sbrk os 100000000 s).1 = voidMinusOne then (0, (Malloc1.sbrk os 100000000 s).2)
      else ((Malloc1.sbrk os 100000000 s).1, (Malloc1.sbrk os 100000000 s).2)) ∧
    (∀ s : Malloc2.State, Malloc2.smalloc fuel os 100000000 s =
      Malloc2.BlocksList.allocateBlock fuel os 100000000 s) ∧
    (∀ s : Malloc3.State, Malloc3.smalloc fuel os 100000000 s =
      Malloc3.MemoryManager.allocateBlock fuel os 100000000 s) := by
  have hv : size = 0 ∨ size > maxSize := hbad
  have hok : ¬ ((100000000 : Nat) = 0 ∨ 100000000 > maxSize) := by
    simp only [maxSize]; omega
  refine ⟨?_, ?_, ?_, ?_, ?_, ?_⟩
  · intro s; unfold Malloc1.smalloc; rw [if_pos hv]
  · intro s; unfold Malloc2.smalloc; rw [if_pos hv]
  · intro s; unfold Malloc3.smalloc; rw [if_pos hv]
  · intro s; unfold Malloc1.smalloc; rw [if_neg hok]
  · intro s; unfold Malloc2.smalloc; rw [if_neg hok]
  · intro s; unfold Malloc3.smalloc; rw [if_neg hok]

/-- C2 at concrete inputs: `smalloc(100000001)` in `malloc_1` and `malloc_2`,
`smalloc(0)` in `malloc_3`. -/
theorem smalloc_rejects_bad_size_witness :
    Malloc1.smalloc (OS.grant 0) 100000001 { brk := 4096000 } = (0, { brk := 4096000 }) ∧
    Malloc2.smalloc 0 (OS.grant 0) 100000001 (Malloc2.State.init 4096000)
      = some (0, Malloc2.State.init 4096000) ∧
    Malloc3.smalloc 0 (OS.grant 0) 0 Malloc3.s0 = some (0, Malloc3.s0) :=
  ⟨(smalloc_rejects_bad_size 0 (OS.grant 0) 100000001 (Or.inr (by decide))).1 _,
   (smalloc_rejects_bad_size 0 (OS.grant 0) 100000001 (Or.inr (by decide))).2.1 _,
   (smalloc_rejects_bad_size 0 (OS.grant 0) 0 (Or.inl rfl)).2.2.1 _⟩

/-- C9: in `malloc_3` and `malloc_2`, `srealloc(p, size)` with `size = 0` or
`size > 10^8` returns `NULL` and leaves the state unchanged, whatever `p` is;
a later `sfree(p)` therefore acts as it would have before the call. -/
theorem srealloc_rejects_bad_size (fuel : Nat) (os : OS) (p size : Nat)
    (hbad : size = 0 ∨ size > 100000000) :
    (∀ s : Malloc3.State, Malloc3.srealloc fuel os p size s = some (0, s)) ∧
    (∀ s : Malloc2.State, Malloc2.srealloc fuel os p size s = some (0, s)) ∧
    (∀ (s s1 : Malloc3.State) (r : Nat), Malloc3.srealloc fuel os p size s = some (r, s1) →
      r = 0 ∧ Malloc3.sfree p s1 = Malloc3.sfree p s) ∧
    (∀ (s s1 : Malloc2.State) (r : Nat), Malloc2.srealloc fuel os p size s = some (r, s1) →
      r = 0 ∧ Malloc2.sfree p s1 = Malloc2.sfree p s) := by
  have hv : size = 0 ∨ size > maxSize := hbad
  have h3 : ∀ s : Malloc3.State, Malloc3.srealloc fuel os p size s = some (0, s) := by
    intro s; unfold Malloc3.srealloc; rw [if_pos hv]
  have h2 : ∀ s : Malloc2.State, Malloc2.srealloc fuel os p size s = some (0, s) := by
    intro s; unfold Malloc2.srealloc; rw [if_pos hv]
  refine ⟨h3, h2, ?_, ?_⟩
  · intro s s1 r h
    rw [h3 s] at h
    simp only [Option.some.injEq, Prod.mk.injEq] at h
    obtain ⟨h1, h2⟩ := h
    subst h1 h2
    exact ⟨rfl, rfl⟩
  · intro s s1 r h
    rw [h2 s] at h
    simp only [Option.some.injEq, Prod.mk.injEq] at h
    obtain ⟨h1, h2⟩ := h
    subst h1 h2
    exact ⟨rfl, rfl⟩

/-- C10: in `malloc_3`, `srealloc(NULL, n)` returns the pointer and the state
that `smalloc(n)` returns, for every state, size and outcome of `sbrk` and `mmap`. -/
theorem srealloc_null_is_smalloc (fuel : Nat) (os : OS) (n : Nat) (s : Malloc3.State) :
    Malloc3.srealloc fuel os 0 n s = Malloc3.smalloc fuel os n s := by
  unfold Malloc3.srealloc Malloc3.smalloc
  by_cases hv : n = 0 ∨ n > maxSize
  · rw [if_pos hv, if_pos hv]
  · rw [if_neg hv, if_neg hv]
    unfold Malloc3.MemoryManager.reallocateActiveBlock Malloc3.MemoryManager.allocateBlock
    by_cases hm : n ≥ 128 * Malloc3.KB
    · rw [if_pos hm, if_pos hm]
      unfold Malloc3.MMappedBlocksManager.reallocateActiveBlock
      simp only [ne_eq, not_true_eq_false, and_false, if_false]
    · rw [if_neg hm, if_neg hm]
      unfold Malloc3.HeapBlocksList.reallocateActiveBlock
      rw [if_pos rfl]

/-! ## Runs on which the code leaves the stated invariants -/

namespace Malloc3

/-- C3 on the code, two runs.  After `p = smalloc(200000)` and `srealloc(p, 100)`,
which returns `p`, the free-byte counter reported by `_num_free_bytes` is `199860`,
while the heap list is empty, so that its free blocks sum to `0`.  After
`a = smalloc(1000)`, `b = smalloc(500)`, `c = smalloc(10)`, `sfree(a)`,
`q = srealloc(b, 1100)` and `srealloc(q, 1100)`, the counter is `800`, while the
blocks met from `head` are the live block at `4096000` and the free block of
`400` bytes at `4097140`, whose `next` is itself. -/
theorem free_bytes_counter_differs_from_free_blocks :
    runShrinkMapped.map (fun r => (r.1, r.2.1, _num_free_bytes r.2.2,
      (heapList 4 r.2.2).map (freePayloadSum r.2.2)))
      = some (4096000040, 4096000040, 199860, some 0) ∧
    runResizeTwice.map (fun r => (r.1, r.2.1, _num_free_bytes r.2.2))
      = some (4096040, 4096040, 800) ∧
    runResizeTwice.map (fun r => (blockView r.2.2 r.2.2.head, (r.2.2.hdr r.2.2.head).next))
      = some ((4096000, 1100, 1100, false), 4097140) ∧
    runResizeTwice.map (fun r => (blockView r.2.2 4097140, (r.2.2.hdr 4097140).next))
      = some ((4097140, 400, 0, true), 4097140) := by
  refine ⟨?_, ?_, ?_, ?_⟩ <;> decide!

/-- C4 on the code: after `a = smalloc(100)`, `b = smalloc(1000)`, `c = smalloc(10)`,
`sfree(b)` and `srealloc(a, 200)`, `_num_allocated_bytes` is `1110`, while the
blocks of the heap list have payloads that sum to `2050` (no block is mapped). -/
theorem allocated_bytes_after_growing_into_the_successor :
    runGrowIntoSucc.map (fun r => (_num_allocated_bytes r.2.2.2.2,
      (heapList 4 r.2.2.2.2).map (payloadSum r.2.2.2.2), mappedPayloadSum r.2.2.2.2))
    = some (1110, some 2050, 0) := by
  decide!

/-- C5 on the code: after `a = smalloc(1000)`, `b = smalloc(200)`, `c = smalloc(10)`,
`sfree(b)` and `srealloc(a, 100)`, the heap list holds, in this order, the block
of `a` (100 bytes, live), the remainder split off it (860 bytes, free), the
block of `b` (200 bytes, free) and the block of `c`: two neighbours are free. -/
theorem adjacent_free_blocks_after_shrinking_in_place :
    runShrinkBeforeFree.map (fun r =>
      (heapList 8 r.2.2.2.2).map (fun l => l.map (blockView r.2.2.2.2)))
      = some (some [(4096000, 100, 100, false), (4096140, 860, 0, true),
          (4097040, 200, 0, true), (4097280, 10, 10, false)]) ∧
    runShrinkBeforeFree.map (fun r =>
      (heapList 8 r.2.2.2.2).map (noAdjacentFree r.2.2.2.2)) = some (some false) := by
  decide!

/-- C6 on the code: after `a = smalloc(100)`, `b = smalloc(1000)`, `c = smalloc(10)`,
`sfree(b)` and `srealloc(a, 200)`, which returns `a`, the block of `a` at `4096000`
has `total_payload = 1140`, so it ends at `4097180`, and the next block of the
list, the remainder, starts at `4096240`, inside it. -/
theorem overlapping_blocks_after_growing_into_the_successor :
    runGrowIntoSucc.map (fun r => (r.1, r.2.2.2.1)) = some (4096040, 4096040) ∧
    runGrowIntoSucc.map (fun r =>
      (heapList 8 r.2.2.2.2).map (fun l => l.map (blockView r.2.2.2.2)))
      = some (some [(4096000, 1140, 200, false), (4096240, 900, 0, true),
          (4097180, 10, 10, false)]) ∧
    runGrowIntoSucc.map (fun r =>
      (heapList 8 r.2.2.2.2).map (contiguousList r.2.2.2.2)) = some (some false) := by
  decide!

/-- C7 on the code: after `a = smalloc(100)`, `b = smalloc(1000)`, `c = smalloc(10)`,
`sfree(b)`, `q = srealloc(a, 200)`, `sfree(q)`, `smalloc(1140)` and `srealloc(c, 800)`,
which returns `c`, the block of `c` is the successor of the head of the heap list,
its `is_free` flag is set and its `active_payload` is `800`. -/
theorem free_block_with_active_payload_after_resize :
    runResizeOverwritten.map (fun r => (r.1, r.2.2.1, (r.2.2.2.hdr r.2.2.2.head).next))
      = some (4097220, 4097220, 4097180) ∧
    runResizeOverwritten.map (fun r => blockView r.2.2.2 (metadataOf r.1))
      = some (4097180, 900, 800, true) := by
  decide!

/-- C8 on the code: after `a = smalloc(1000)`, `b = smalloc(500)`, `c = smalloc(10)`
and `sfree(a)`, the call `srealloc(b, 1100)` merges the block of `b`, whose
`total_payload` is `500`, into its free predecessor and splits off a remainder;
the byte at offset 60 of the payload was `0` before the call and the byte at
offset 60 from the returned pointer is `144` after it. -/
theorem payload_byte_changed_by_merge_into_predecessor :
    runGrowIntoPred.map (fun r => (r.1, r.2.2.1,
      (r.2.1.hdr (metadataOf r.1)).size_TOTAL_PAYLOAD,
      r.2.1.mem.byte (r.1 + 60), r.2.2.2.mem.byte (r.2.2.1 + 60)))
    = some (4097080, 4096040, 500, 0, 144) := by
  decide!

/-- C9 at concrete inputs: in `malloc_3`, after `p = smalloc(50)` from the empty
allocator, `srealloc(p, 0)` returns `NULL` and the state it was given, in which the
block of `p` is live with 50 bytes; in `malloc_2`, the same with
`srealloc(p, 100000001)`. -/
theorem srealloc_rejects_bad_size_witness :
    (∃ s1, smalloc 1 os0 50 s0 = some (4096040, s1) ∧
      srealloc 1 os0 4096040 0 s1 = some (0, s1) ∧
      blockView s1 (metadataOf 4096040) = (4096000, 50, 50, false)) ∧
    (∃ s1, Malloc2.smalloc 1 os0 50 (Malloc2.State.init 4096000) = some (4096040, s1) ∧
      Malloc2.srealloc 1 os0 4096040 100000001 s1 = some (0, s1)) :=
  ⟨⟨_, rfl, (srealloc_rejects_bad_size 1 os0 4096040 0 (Or.inl rfl)).1 _, by decide⟩,
   ⟨_, rfl, (srealloc_rejects_bad_size 1 os0 4096040 100000001 (Or.inr (by decide))).2.1 _⟩⟩

end Malloc3

/-! ## Release of a null pointer or of a free block; validation of `scalloc` -/

namespace Malloc3

/-- C11: `sfree(NULL)` returns the state it was given, whatever the state; and for a
pointer `p` whose header has `is_free` set, `sfree(p)` leaves the list object (head,
tail and the four counters), the memory and the program break as they were, and the
whole state when the header has `active_payload < 128 KiB`, as every free heap block
has. -/
theorem sfree_null_or_free_block_is_noop (s : State) (p : Nat) :
    sfree 0 s = s ∧
    ((s.hdr (metadataOf p)).is_free = true →
      (sfree p s).heap_blocks_list = s.heap_blocks_list ∧
      (sfree p s).mem = s.mem ∧
      (sfree p s).brk = s.brk ∧
      ((s.hdr (metadataOf p)).size_ACTIVE_PAYLOAD < 131072 → sfree p s = s)) := by
  have h0 : sfree 0 s = s := by
    unfold sfree; rw [if_pos rfl]
  refine ⟨h0, ?_⟩
  intro hfree
  have hheap : HeapBlocksList.releaseUsedBlock p s = s := by
    unfold HeapBlocksList.releaseUsedBlock
    simp only []
    rw [if_pos hfree]
  by_cases hp : p = 0
  · subst hp
    rw [h0]
    exact ⟨rfl, rfl, rfl, fun _ => rfl⟩
  · unfold sfree
    rw [if_neg hp]
    unfold MemoryManager.releaseUsedBlock
    simp only []
    by_cases ha : (s.hdr (metadataOf p)).size_ACTIVE_PAYLOAD < 128 * KB
    · rw [if_pos ha, hheap]
      exact ⟨rfl, rfl, rfl, fun _ => rfl⟩
    · rw [if_neg ha]
      refine ⟨rfl, rfl, rfl, ?_⟩
      intro hlt
      exact absurd hlt ha

theorem mul64_small (a b : Nat) (ha : a ≤ 100000000) (hb : b ≤ 100000000) :
    mul64 a b = a * b := by
  unfold mul64
  apply Nat.mod_eq_of_lt
  have h : a * b ≤ 100000000 * 100000000 := Nat.mul_le_mul ha hb
  simp only [W]
  omega

/-- C13: `scalloc(num, size)` is rejected by the validation, returning `NULL` and the
state it was given, exactly when `num = 0`, `size = 0`, `num > 10^8`, `size > 10^8` or
the product `num * size` of the two numbers exceeds `10^8`; otherwise the size handed
to the allocator is the product `num * size` itself. -/
theorem scalloc_validation (fuel : Nat) (os : OS) (num size : Nat) (s : State) :
    (scalloc fuel os num size s =
      if num = 0 ∨ size = 0 ∨ num > 100000000 ∨ size > 100000000 ∨ num * size > 100000000
      then some (0, s)
      else MemoryManager.allocateZeroedBlock fuel os (mul64 size num) s) ∧
    (¬ (num = 0 ∨ size = 0 ∨ num > 100000000 ∨ size > 100000000 ∨ num * size > 100000000) →
      mul64 size num = num * size) := by
  refine ⟨?_, fun hno => by
    rw [mul64_small size num (by omega) (by omega), Nat.mul_comm]⟩
  unfold scalloc
  simp only [maxSize]
  by_cases hb : num > 100000000 ∨ size > 100000000
  · have h1 : size = 0 ∨ num = 0 ∨ size > 100000000 ∨ num > 100000000 ∨
        mul64 size num > 100000000 := by
      cases hb with
      | inl h => exact Or.inr (Or.inr (Or.inr (Or.inl h)))
      | inr h => exact Or.inr (Or.inr (Or.inl h))
    have h2 : num = 0 ∨ size = 0 ∨ num > 100000000 ∨ size > 100000000 ∨
        num * size > 100000000 := by
      cases hb with
      | inl h => exact Or.inr (Or.inr (Or.inl h))
      | inr h => exact Or.inr (Or.inr (Or.inr (Or.inl h)))
    rw [if_pos h1, if_pos h2]
  · have hn : num ≤ 100000000 := by omega
    have hs : size ≤ 100000000 := by omega
    have hm : mul64 size num = num * size := by
      rw [mul64_small size num hs hn, Nat.mul_comm]
    rw [hm]
    by_cases hc : num = 0 ∨ size = 0 ∨ num * size > 100000000
    · have h1 : size = 0 ∨ num = 0 ∨ size > 100000000 ∨ num > 100000000 ∨
          num * size > 100000000 := by
        rcases hc with h | h | h
        · exact Or.inr (Or.inl h)
        · exact Or.inl h
        · exact Or.inr (Or.inr (Or.inr (Or.inr h)))
      have h2 : num = 0 ∨ size = 0 ∨ num > 100000000 ∨ size > 100000000 ∨
          num * size > 100000000 := by
        rcases hc with h | h | h
        · exact Or.inl h
        · exact Or.inr (Or.inl h)
        · exact Or.inr (Or.inr (Or.inr (Or.inr h)))
      rw [if_pos h1, if_pos h2]
    · have h1 : ¬ (size = 0 ∨ num = 0 ∨ size > 100000000 ∨ num > 100000000 ∨
          num * size > 100000000) := by
        intro h
        apply hc
        rcases h with h | h | h | h | h
        · exact Or.inr (Or.inl h)
        · exact Or.inl h
        · exact absurd h (by omega)
        · exact absurd h (by omega)
        · exact Or.inr (Or.inr h)
      have h2 : ¬ (num = 0 ∨ size = 0 ∨ num > 100000000 ∨ size > 100000000 ∨
          num * size > 100000000) := by
        intro h
        apply hc
        rcases h with h | h | h | h | h
        · exact Or.inl h
        · exact Or.inr (Or.inl h)
        · exact absurd h (by omega)
        · exact absurd h (by omega)
        · exact Or.inr (Or.inr h)
      rw [if_neg h1, if_neg h2]

end Malloc3

/-! ## What an allocation leaves alone, and what a failed call leaves alone -/

namespace Malloc3
open HeapBlocksList

theorem sbrk_mmapped_blocks (os : OS) (d : Nat) (s : State) :
    (sbrk os d s).2.mmapped_blocks = s.mmapped_blocks := by
  unfold sbrk; split
  · exact Eq.trans rfl rfl
  · split <;> exact Eq.trans rfl rfl

theorem sbrk_mappings (os : OS) (d : Nat) (s : State) :
    (sbrk os d s).2.mappings = s.mappings := by
  unfold sbrk; split
  · exact Eq.trans rfl rfl
  · split <;> exact Eq.trans rfl rfl

theorem sbrk_mem (os : OS) (d : Nat) (s : State) : (sbrk os d s).2.mem = s.mem := by
  unfold sbrk; split
  · exact Eq.trans rfl rfl
  · split <;> exact Eq.trans rfl rfl

theorem sbrk_heap_blocks_list (os : OS) (d : Nat) (s : State) :
    (sbrk os d s).2.heap_blocks_list = s.heap_blocks_list := by
  unfold sbrk; split
  · exact Eq.trans rfl rfl
  · split <;> exact Eq.trans rfl rfl

theorem sbrk_failed (os : OS) (d : Nat) (s : State) (hb : s.brk ≠ voidMinusOne)
    (h : (sbrk os d s).1 = voidMinusOne) : (sbrk os d s).2 = s := by
  unfold sbrk at h ⊢
  split
  · rfl
  · rename_i hd
    rw [if_neg hd] at h
    split
    · rename_i hok
      rw [if_pos hok] at h
      exact absurd h hb
    · rfl

theorem useFreeBlockWithoutSplit_mmapped (fb n : Nat) (s : State) :
    (useFreeBlockWithoutSplit fb n s).mmapped_blocks = s.mmapped_blocks := by
  simp [useFreeBlockWithoutSplit]

theorem updateMetaDataAfterFreeBlockSplit_mmapped (fb rb n r : Nat) (s : State) :
    (updateMetaDataAfterFreeBlockSplit fb rb n r s).mmapped_blocks = s.mmapped_blocks := by
  unfold updateMetaDataAfterFreeBlockSplit
  simp only []
  split <;> simp

theorem useFreeBlockWithSplit_mmapped (fb n r : Nat) (s : State) :
    (useFreeBlockWithSplit fb n r s).mmapped_blocks = s.mmapped_blocks := by
  unfold useFreeBlockWithSplit
  simp only []
  split <;> simp [updateMetaDataAfterFreeBlockSplit_mmapped]

theorem useFreeBlock_mmapped (fb n : Nat) (s : State) :
    (useFreeBlock fb n s).2.mmapped_blocks = s.mmapped_blocks := by
  unfold useFreeBlock
  simp only []
  generalize (if sub64 (s.hdr fb).size_TOTAL_PAYLOAD n > sizeofMallocMetadata then
      sub64 (sub64 (s.hdr fb).size_TOTAL_PAYLOAD n) sizeofMallocMetadata else 0) = r
  by_cases hr : r < SPLITTING_THRESHOLD
  · rw [if_pos hr]
    exact useFreeBlockWithoutSplit_mmapped fb n s
  · rw [if_neg hr]
    exact useFreeBlockWithSplit_mmapped fb n r s

theorem useWildernessBlock_mmapped (os : OS) (n : Nat) (s : State) :
    (useWildernessBlock os n s).2.mmapped_blocks = s.mmapped_blocks := by
  unfold useWildernessBlock
  simp only []
  split
  · exact sbrk_mmapped_blocks os _ s
  · simp [sbrk_mmapped_blocks]

theorem setNewBlockMetaData_mmapped (n b : Nat) (s : State) :
    (setNewBlockMetaData n b s).mmapped_blocks = s.mmapped_blocks := by
  simp [setNewBlockMetaData]

theorem createNewBlock_mmapped (os : OS) (n : Nat) (s s1 : State) (p : Nat)
    (h : createNewBlock os n s = some (p, s1)) : s1.mmapped_blocks = s.mmapped_blocks := by
  unfold createNewBlock at h
  simp only [] at h
  split at h
  · simp only [Option.some.injEq, Prod.mk.injEq] at h
    rw [← h.2]
    exact sbrk_mmapped_blocks os _ s
  · split at h
    · simp only [Option.some.injEq, Prod.mk.injEq] at h
      rw [← h.2]
      simp [setNewBlockMetaData_mmapped, sbrk_mmapped_blocks]
    · split at h
      · simp at h
      · simp only [Option.some.injEq, Prod.mk.injEq] at h
        rw [← h.2]
        simp [setNewBlockMetaData_mmapped, sbrk_mmapped_blocks]

theorem allocateBlock_mmapped (fuel : Nat) (os : OS) (n : Nat) (s s1 : State) (p : Nat)
    (h : allocateBlock fuel os n s = some (p, s1)) : s1.mmapped_blocks = s.mmapped_blocks := by
  unfold allocateBlock at h
  split at h
  · simp at h
  · split at h
    · simp only [Option.some.injEq] at h
      have h2 : (useWildernessBlock os n s).2 = s1 := by rw [h]
      rw [← h2]
      exact useWildernessBlock_mmapped os n s
    · split at h
      · exact createNewBlock_mmapped os n s s1 p h
      · simp only [Option.some.injEq] at h
        rename_i fb _ _ _
        have h2 : (useFreeBlock fb n s).2 = s1 := by rw [h]
        rw [← h2]
        exact useFreeBlock_mmapped fb n s

theorem mmapped_createNewBlock_frame (os : OS) (n : Nat) (s s1 : State) (p : Nat)
    (hn : n ≤ 100000000)
    (h : MMappedBlocksManager.createNewBlock os n s = (p, s1)) (hp : p ≠ 0) :
    os.mmap_result = some (metadataOf p) ∧
    s1.heap_blocks_list = s.heap_blocks_list ∧ s1.brk = s.brk ∧
    s1.mappings = (metadataOf p, n + 40) :: s.mappings ∧
    (∀ x, (x < metadataOf p ∨ metadataOf p + (n + 40) ≤ x) → s1.hdr x = s.hdr x) ∧
    s1.mmapped_blocks.total_blocks_count = add64 s.mmapped_blocks.total_blocks_count 1 ∧
    s1.mmapped_blocks.total_bytes_count = add64 s.mmapped_blocks.total_bytes_count (n + 40) := by
  have hlen : add64 n sizeofMallocMetadata = n + 40 := by
    rw [add64_small]
    · rfl
    · simp only [sizeofMallocMetadata, W]
      omega
  unfold MMappedBlocksManager.createNewBlock at h
  simp only [hlen] at h
  unfold mmap at h
  cases hm : os.mmap_result with
  | none =>
    rw [hm] at h
    simp only [if_true, Prod.mk.injEq] at h
    omega
  | some addr =>
    rw [hm] at h
    simp only [] at h
    split at h
    · simp only [Prod.mk.injEq] at h
      omega
    · simp only [Prod.mk.injEq] at h
      obtain ⟨h1, h2⟩ := h
      subst h1 h2
      simp only [getPayloadBlockAddr, metadataOf, Nat.add_sub_cancel,
        MMappedBlocksManager.setNewBlockMetaData]
      refine ⟨trivial, Eq.trans rfl rfl, Eq.trans rfl rfl, Eq.trans rfl rfl, ?_,
        Eq.trans rfl rfl, Eq.trans rfl rfl⟩
      intro x hx
      have hne : x ≠ addr := by omega
      have hout : ¬ (addr ≤ x ∧ x < addr + (n + 40)) := by omega
      simp [State.hdr, State.setTotal, State.setActive, Memory.setTotal, Memory.setActive,
        Memory.zeroFill, hne, hout]

/-- C16: a successful `smalloc(n)` with `131072 ≤ n ≤ 10^8` leaves the list object of the
heap (head, tail, the four counters), the program break and every header outside the new
mapping as they were, hence `_num_free_blocks` and `_num_free_bytes` too, and adds `1` to
the mapped block count and `n + 40` to the mapped byte count; a `smalloc(n)` with
`n ≤ 131071` leaves the two mapped counters as they were; `smalloc(131072)` is served
by the mapped arena. -/
theorem smalloc_routes_by_size (fuel : Nat) (os : OS) (n : Nat) (s s1 : State) (p : Nat)
    (hn : n ≤ 100000000) (h : smalloc fuel os n s = some (p, s1)) :
    (131072 ≤ n → p ≠ 0 →
      s1.heap_blocks_list = s.heap_blocks_list ∧ s1.brk = s.brk ∧
      (∀ x, (x < metadataOf p ∨ metadataOf p + (n + 40) ≤ x) → s1.hdr x = s.hdr x) ∧
      _num_free_blocks s1 = _num_free_blocks s ∧ _num_free_bytes s1 = _num_free_bytes s ∧
      s1.mmapped_blocks.total_blocks_count = add64 s.mmapped_blocks.total_blocks_count 1 ∧
      s1.mmapped_blocks.total_bytes_count
        = add64 s.mmapped_blocks.total_bytes_count (n + sizeofMallocMetadata) ∧
      (s.mmapped_blocks.total_blocks_count + 1 < W →
        s1.mmapped_blocks.total_blocks_count = s.mmapped_blocks.total_blocks_count + 1) ∧
      (s.mmapped_blocks.total_bytes_count + (n + sizeofMallocMetadata) < W →
        s1.mmapped_blocks.total_bytes_count
          = s.mmapped_blocks.total_bytes_count + (n + sizeofMallocMetadata))) ∧
    (n ≤ 131071 → s1.mmapped_blocks = s.mmapped_blocks) ∧
    (∀ s2 : State, smalloc fuel os 131072 s2
      = some (MMappedBlocksManager.allocateBlock os 131072 s2)) := by
  refine ⟨?_, ?_, ?_⟩
  · intro hbig hp
    unfold smalloc at h
    split at h
    · simp only [Option.some.injEq, Prod.mk.injEq] at h
      exact absurd h.1.symm hp
    · unfold MemoryManager.allocateBlock at h
      have hk : n ≥ 128 * KB := by simp only [KB]; omega
      rw [if_pos hk] at h
      simp only [MMappedBlocksManager.allocateBlock, Option.some.injEq] at h
      obtain ⟨_, h1, h2, _, h4, h5, h6⟩ := mmapped_createNewBlock_frame os n s s1 p hn h hp
      refine ⟨h1, h2, h4, ?_, ?_, h5, h6, ?_, ?_⟩
      · simp only [_num_free_blocks, MemoryManager.getBlocksCount, h1]
      · simp only [_num_free_bytes, MemoryManager.getBytesCount, h1]
      · intro hb; rw [h5, add64_small _ _ hb]
      · intro hb; rw [h6]; exact add64_small _ _ hb
  · intro hsmall
    unfold smalloc at h
    split at h
    · simp only [Option.some.injEq, Prod.mk.injEq] at h
      rw [h.2]
    · unfold MemoryManager.allocateBlock at h
      have hk : ¬ n ≥ 128 * KB := by simp only [KB]; omega
      rw [if_neg hk] at h
      exact allocateBlock_mmapped fuel os n s s1 p h
  · intro s2
    unfold smalloc
    have hv : ¬ ((131072 : Nat) = 0 ∨ 131072 > maxSize) := by simp only [maxSize]; omega
    rw [if_neg hv]
    unfold MemoryManager.allocateBlock
    have hk : (131072 : Nat) ≥ 128 * KB := by simp only [KB]; omega
    rw [if_pos hk]

theorem useWildernessBlock_null (os : OS) (n : Nat) (s : State) (hb : s.brk ≠ voidMinusOne)
    (h : (useWildernessBlock os n s).1 = 0) : (useWildernessBlock os n s).2 = s := by
  unfold useWildernessBlock at h ⊢
  simp only [] at h ⊢
  split
  · rename_i hf
    exact sbrk_failed os _ s hb hf
  · rename_i hf
    rw [if_neg hf] at h
    simp only [getPayloadBlockAddr, sizeofMallocMetadata] at h
    omega

theorem createNewBlock_null (os : OS) (n : Nat) (s s1 : State) (hb : s.brk ≠ voidMinusOne)
    (h : createNewBlock os n s = some (0, s1)) : s1 = s := by
  unfold createNewBlock at h
  simp only [] at h
  split at h
  · rename_i hf
    simp only [Option.some.injEq, Prod.mk.injEq, true_and] at h
    rw [← h]
    exact sbrk_failed os _ s hb hf
  · split at h
    · simp only [Option.some.injEq, Prod.mk.injEq, getPayloadBlockAddr,
        sizeofMallocMetadata] at h
      omega
    · split at h
      · simp at h
      · simp only [Option.some.injEq, Prod.mk.injEq, getPayloadBlockAddr,
          sizeofMallocMetadata] at h
        omega

theorem useFreeBlock_ptr (fb n : Nat) (s : State) :
    (useFreeBlock fb n s).1 = fb + sizeofMallocMetadata := by
  unfold useFreeBlock
  rfl

theorem allocateBlock_null (fuel : Nat) (os : OS) (n : Nat) (s s1 : State)
    (hb : s.brk ≠ voidMinusOne)
    (h : allocateBlock fuel os n s = some (0, s1)) : s1 = s := by
  unfold allocateBlock at h
  split at h
  · simp at h
  · split at h
    · simp only [Option.some.injEq] at h
      have h1 : (useWildernessBlock os n s).1 = 0 := by rw [h]
      have h2 : (useWildernessBlock os n s).2 = s1 := by rw [h]
      rw [← h2]
      exact useWildernessBlock_null os n s hb h1
    · split at h
      · exact createNewBlock_null os n s s1 hb h
      · rename_i fb _ _ _
        simp only [Option.some.injEq] at h
        have h1 : (useFreeBlock fb n s).1 = 0 := by rw [h]
        rw [useFreeBlock_ptr] at h1
        simp only [sizeofMallocMetadata] at h1
        omega

theorem mmap_failed (os : OS) (len : Nat) (s : State)
    (hm : os.mmap_result ≠ some voidMinusOne)
    (h : (mmap os len s).1 = voidMinusOne) : (mmap os len s).2 = s := by
  unfold mmap at h ⊢
  cases hr : os.mmap_result with
  | none => rfl
  | some addr =>
    rw [hr] at h
    simp only [] at h
    rw [hr, h] at hm
    exact absurd rfl hm

theorem mmapped_createNewBlock_null (os : OS) (n : Nat) (s : State)
    (hm : os.mmap_result ≠ some voidMinusOne)
    (h : (MMappedBlocksManager.createNewBlock os n s).1 = 0) :
    (MMappedBlocksManager.createNewBlock os n s).2 = s := by
  unfold MMappedBlocksManager.createNewBlock at h ⊢
  simp only [] at h ⊢
  split
  · rename_i hf
    exact mmap_failed os _ s hm hf
  · rename_i hf
    rw [if_neg hf] at h
    simp only [getPayloadBlockAddr, sizeofMallocMetadata] at h
    omega

theorem smalloc_null (fuel : Nat) (os : OS) (n : Nat) (s s1 : State)
    (hb : s.brk ≠ voidMinusOne) (hm : os.mmap_result ≠ some voidMinusOne)
    (h : smalloc fuel os n s = some (0, s1)) : s1 = s := by
  unfold smalloc at h
  split at h
  · simp only [Option.some.injEq, Prod.mk.injEq, true_and] at h
    exact h.symm
  · unfold MemoryManager.allocateBlock at h
    split at h
    · simp only [MMappedBlocksManager.allocateBlock, Option.some.injEq] at h
      have h1 : (MMappedBlocksManager.createNewBlock os n s).1 = 0 := by rw [h]
      have h2 : (MMappedBlocksManager.createNewBlock os n s).2 = s1 := by rw [h]
      rw [← h2]
      exact mmapped_createNewBlock_null os n s hm h1
    · exact allocateBlock_null fuel os n s s1 hb h

theorem reallocateUsingPredOnly_ptr (b n : Nat) (s s1 : State) (r : Nat)
    (h : reallocateUsingPredOnly b n s = some (r, s1)) :
    r = (s.hdr b).prev + sizeofMallocMetadata := by
  unfold reallocateUsingPredOnly at h
  simp only [] at h
  split at h
  · simp at h
  · split at h
    · simp at h
    · simp only [Option.some.injEq, Prod.mk.injEq, getPayloadBlockAddr] at h
      exact h.1.symm

theorem reallocateUsingSuccOnly_ptr (b n : Nat) (s s1 : State) (r : Nat)
    (h : reallocateUsingSuccOnly b n s = some (r, s1)) :
    r = b + sizeofMallocMetadata := by
  unfold reallocateUsingSuccOnly at h
  simp only [] at h
  split at h
  · simp at h
  · split at h
    · simp at h
    · simp only [Option.some.injEq, Prod.mk.injEq, getPayloadBlockAddr] at h
      exact h.1.symm

theorem reallocateUsingPredAndSucc_ptr (b n : Nat) (s s1 : State) (r : Nat)
    (h : reallocateUsingPredAndSucc b n s = some (r, s1)) :
    r = (s.hdr b).prev + sizeofMallocMetadata := by
  unfold reallocateUsingPredAndSucc at h
  simp only [] at h
  split at h
  · simp at h
  · split at h
    · simp at h
    · simp only [Option.some.injEq, Prod.mk.injEq, getPayloadBlockAddr] at h
      exact h.1.symm

theorem reallocateUsingPredOrSucc_ptr (b n : Nat) (s s1 : State) (r : Nat)
    (h : reallocateUsingPredOrSucc b n s = some (r, s1)) : r ≠ 0 := by
  unfold reallocateUsingPredOrSucc at h
  split at h
  · have := reallocateUsingPredOnly_ptr b n s s1 r h
    simp only [sizeofMallocMetadata] at this; omega
  · split at h
    · have := reallocateUsingSuccOnly_ptr b n s s1 r h
      simp only [sizeofMallocMetadata] at this; omega
    · have := reallocateUsingPredAndSucc_ptr b n s s1 r h
      simp only [sizeofMallocMetadata] at this; omega

theorem reallocateWildernessBlock_null (os : OS) (n : Nat) (s : State)
    (hb : s.brk ≠ voidMinusOne)
    (h : (reallocateWildernessBlock os n s).1 = 0) : (reallocateWildernessBlock os n s).2 = s := by
  unfold reallocateWildernessBlock at h ⊢
  simp only [] at h ⊢
  split
  · rename_i hf
    exact sbrk_failed os _ s hb hf
  · rename_i hf
    rw [if_neg hf] at h
    simp only [getPayloadBlockAddr, sizeofMallocMetadata] at h
    omega

theorem reallocateToOtherBlock_null (fuel : Nat) (os : OS) (b p n : Nat) (s s1 : State)
    (hb : s.brk ≠ voidMinusOne)
    (h : reallocateToOtherBlock fuel os b p n s = some (0, s1)) : s1 = s := by
  unfold reallocateToOtherBlock at h
  split at h
  · simp at h
  · rename_i fb _
    by_cases hfb : fb = 0
    · subst hfb
      simp only [if_true] at h
      cases hc : createNewBlock os n s with
      | none => rw [hc] at h; simp at h
      | some r =>
        obtain ⟨q, s2⟩ := r
        rw [hc] at h
        simp only [true_and] at h
        by_cases hq : q = 0
        · rw [if_pos hq] at h
          simp only [Option.some.injEq, Prod.mk.injEq, true_and] at h
          rw [← h]
          rw [hq] at hc
          exact createNewBlock_null os n s s2 hb hc
        · rw [if_neg hq] at h
          simp only [Option.some.injEq, Prod.mk.injEq] at h
          exact absurd h.1 hq
    · simp only [if_neg hfb] at h
      rw [if_neg (fun hc => hfb hc.1)] at h
      simp only [Option.some.injEq, Prod.mk.injEq] at h
      have := h.1
      rw [useFreeBlock_ptr] at this
      simp only [sizeofMallocMetadata] at this
      omega

theorem reallocateActiveBlock_null (fuel : Nat) (os : OS) (p n : Nat) (s s1 : State)
    (hb : s.brk ≠ voidMinusOne)
    (h : reallocateActiveBlock fuel os p n s = some (0, s1)) : s1 = s := by
  unfold reallocateActiveBlock at h
  by_cases hp : p = 0
  · rw [if_pos hp] at h
    exact allocateBlock_null fuel os n s s1 hb h
  · rw [if_neg hp] at h
    simp only [] at h
    by_cases hfit : (s.hdr (metadataOf p)).size_TOTAL_PAYLOAD ≥ n
    · rw [if_pos hfit] at h
      simp only [Option.some.injEq] at h
      have h1 : (reallocateWithSameBlock (metadataOf p) n s).1 = 0 := by rw [h]
      unfold reallocateWithSameBlock at h1
      simp only [getPayloadBlockAddr, sizeofMallocMetadata] at h1
      omega
    · rw [if_neg hfit] at h
      have hrest : ∀ s2 : State, s2 = s →
          (if canReallocateUsingPredOrSucc (metadataOf p) n s2 = true then
            reallocateUsingPredOrSucc (metadataOf p) n s2
          else reallocateToOtherBlock fuel os (metadataOf p) p n s2) = some (0, s1) →
          s1 = s := by
        intro s2 hs2 h2
        subst hs2
        split at h2
        · exact absurd rfl (reallocateUsingPredOrSucc_ptr _ n s2 s1 0 h2)
        · exact reallocateToOtherBlock_null fuel os _ p n s2 s1 hb h2
      by_cases ht : s.tail = metadataOf p
      · simp only [if_pos ht] at h
        by_cases hg : (reallocateWildernessBlock os n s).1 ≠ 0
        · rw [if_pos ⟨ht, hg⟩] at h
          simp only [Option.some.injEq, Prod.mk.injEq] at h
          exact absurd h.1 hp
        · rw [if_neg (fun hc => hg hc.2)] at h
          have hz : (reallocateWildernessBlock os n s).1 = 0 := by
            by_contra hne
            exact hg hne
          exact hrest _ (reallocateWildernessBlock_null os n s hb hz) h
      · simp only [if_neg ht] at h
        rw [if_neg (fun hc => ht hc.1)] at h
        exact hrest s rfl h

theorem mmapped_reallocateActiveBlock_null (os : OS) (p n : Nat) (s : State)
    (hm : os.mmap_result ≠ some voidMinusOne)
    (h : (MMappedBlocksManager.reallocateActiveBlock os p n s).1 = 0) :
    (MMappedBlocksManager.reallocateActiveBlock os p n s).2 = s := by
  unfold MMappedBlocksManager.reallocateActiveBlock at h ⊢
  simp only [] at h ⊢
  split
  · rename_i hc
    rw [if_pos hc] at h
    exact absurd h hc.1
  · rename_i hc
    rw [if_neg hc] at h
    exact mmapped_createNewBlock_null os n s hm h

theorem srealloc_null (fuel : Nat) (os : OS) (p n : Nat) (s s1 : State)
    (hb : s.brk ≠ voidMinusOne) (hm : os.mmap_result ≠ some voidMinusOne)
    (h : srealloc fuel os p n s = some (0, s1)) : s1 = s := by
  unfold srealloc at h
  split at h
  · simp only [Option.some.injEq, Prod.mk.injEq, true_and] at h
    exact h.symm
  · unfold MemoryManager.reallocateActiveBlock at h
    split at h
    · simp only [Option.some.injEq] at h
      have h1 : (MMappedBlocksManager.reallocateActiveBlock os p n s).1 = 0 := by rw [h]
      have h2 : (MMappedBlocksManager.reallocateActiveBlock os p n s).2 = s1 := by rw [h]
      rw [← h2]
      exact mmapped_reallocateActiveBlock_null os p n s hm h1
    · exact reallocateActiveBlock_null fuel os p n s s1 hb h

/-- C17: a call `smalloc(n)` or `srealloc(p, n)` that returns `NULL` returns the state
it was given (block list, every header, every byte, the heap and mapped counters, the
break and the mappings), for every outcome of `sbrk` and `mmap`, in a state whose
program break is not `(void*)-1` and with an `mmap` that does not return `(void*)-1`
as an address; the block of `p` is therefore as it was. -/
theorem failed_call_leaves_state (fuel : Nat) (os : OS) (p n : Nat) (s : State)
    (hb : s.brk ≠ voidMinusOne) (hm : os.mmap_result ≠ some voidMinusOne) :
    (∀ s1, smalloc fuel os n s = some (0, s1) → s1 = s) ∧
    (∀ s1, srealloc fuel os p n s = some (0, s1) →
      s1 = s ∧ s1.hdr (metadataOf p) = s.hdr (metadataOf p)) :=
  ⟨fun s1 h => smalloc_null fuel os n s s1 hb hm h,
   fun s1 h => by
    have := srealloc_null fuel os p n s s1 hb hm h
    subst this
    exact ⟨rfl, rfl⟩⟩

end Malloc3

/-! ## Resizing a mapped block -/

namespace Malloc3
open HeapBlocksList

theorem mmapped_createNewBlock_ok (os : OS) (n addr : Nat) (s : State)
    (hmap : os.mmap_result = some addr) (haddr : addr ≠ voidMinusOne) :
    (MMappedBlocksManager.createNewBlock os n s).1 = addr + sizeofMallocMetadata := by
  unfold MMappedBlocksManager.createNewBlock mmap
  rw [hmap]
  simp only []
  rw [if_neg haddr]
  rfl

theorem hdr_memmove (s : State) (d a l x : Nat) :
    ({ s with mem := s.mem.memmove d a l } : State).hdr x = s.hdr x := Eq.trans rfl rfl

theorem st_mb_bytes_update (u : State) (v : Nat) :
    ({ u with mmapped_blocks := { u.mmapped_blocks with total_bytes_count := v } } :
      State).mmapped_blocks.total_bytes_count = v := Eq.trans rfl rfl

theorem st_mb_bytes_of_count_update (u : State) (v : Nat) :
    ({ u with mmapped_blocks := { u.mmapped_blocks with total_blocks_count := v } } :
      State).mmapped_blocks.total_bytes_count = u.mmapped_blocks.total_bytes_count :=
  Eq.trans rfl rfl

theorem st_mb_of_munmap (a l : Nat) (u : State) :
    (munmap a l u).mmapped_blocks = u.mmapped_blocks := Eq.trans rfl rfl

theorem st_mb_with_mem (u : State) (m : Memory) :
    ({ u with mem := m } : State).mmapped_blocks = u.mmapped_blocks := Eq.trans rfl rfl

theorem st_heap_with_mem (u : State) (m : Memory) :
    ({ u with mem := m } : State).heap_blocks_list = u.heap_blocks_list := Eq.trans rfl rfl

theorem mmapped_releaseUsedBlock_hdr (p : Nat) (t : State) (a : Nat) :
    (MMappedBlocksManager.releaseUsedBlock p t).hdr a = t.hdr a := Eq.trans rfl rfl

theorem mmapped_releaseUsedBlock_heap (p : Nat) (t : State) :
    (MMappedBlocksManager.releaseUsedBlock p t).heap_blocks_list = t.heap_blocks_list :=
  Eq.trans rfl rfl

theorem mmapped_releaseUsedBlock_count (p : Nat) (t : State) :
    (MMappedBlocksManager.releaseUsedBlock p t).mmapped_blocks.total_blocks_count
      = sub64 t.mmapped_blocks.total_blocks_count 1 := Eq.trans rfl rfl

theorem mmapped_releaseUsedBlock_bytes (p : Nat) (t : State) :
    (MMappedBlocksManager.releaseUsedBlock p t).mmapped_blocks.total_bytes_count
      = sub64 t.mmapped_blocks.total_bytes_count
          (add64 (t.hdr (metadataOf p)).size_TOTAL_PAYLOAD sizeofMallocMetadata) :=
  (st_mb_bytes_update _ _).trans (congrArg (fun x => sub64 x _)
    ((st_mb_bytes_of_count_update _ _).trans
      (congrArg MMappedBlocksManager.total_bytes_count (st_mb_of_munmap _ _ _))))

/-- C18: `srealloc(p, n)` with `131072 ≤ n ≤ 10^8` on a block at `p` whose header records
`total_payload = m`, when `mmap` succeeds with a mapping at `addr` that does not cover
that header: the call returns `addr + 40`, the header at `addr` is not free and has
`total_payload = active_payload = n`, the mapped block count is as before and the
mapped byte count has changed by `n - m`. -/
theorem mapped_srealloc_moves_block (fuel : Nat) (os : OS) (p n m addr : Nat) (s : State)
    (hn1 : 131072 ≤ n) (hn2 : n ≤ 100000000) (hp : p ≠ 0)
    (hm : (s.hdr (metadataOf p)).size_TOTAL_PAYLOAD = m)
    (hmap : os.mmap_result = some addr) (haddr : addr ≠ voidMinusOne)
    (hfresh : metadataOf p < addr ∨ addr + (n + 40) ≤ metadataOf p)
    (hc : s.mmapped_blocks.total_blocks_count < W) :
    ∃ s1, srealloc fuel os p n s = some (addr + sizeofMallocMetadata, s1) ∧
      (s1.hdr addr).is_free = false ∧
      (s1.hdr addr).size_TOTAL_PAYLOAD = n ∧
      (s1.hdr addr).size_ACTIVE_PAYLOAD = n ∧
      s1.mmapped_blocks.total_blocks_count = s.mmapped_blocks.total_blocks_count ∧
      add64 s1.mmapped_blocks.total_bytes_count m = add64 s.mmapped_blocks.total_bytes_count n ∧
      (m ≤ s.mmapped_blocks.total_bytes_count + n →
        s.mmapped_blocks.total_bytes_count + (n + sizeofMallocMetadata) < W →
        s1.mmapped_blocks.total_bytes_count + m = s.mmapped_blocks.total_bytes_count + n) ∧
      s1.heap_blocks_list = s.heap_blocks_list := by
  have hv : ¬ (n = 0 ∨ n > maxSize) := by simp only [maxSize]; omega
  have hk : n ≥ 128 * KB := by simp only [KB]; omega
  have hq := mmapped_createNewBlock_ok os n addr s hmap haddr
  have hq0 : (MMappedBlocksManager.createNewBlock os n s).1 ≠ 0 := by
    rw [hq]; simp only [sizeofMallocMetadata]; omega
  have hmeta : metadataOf (MMappedBlocksManager.createNewBlock os n s).1 = addr := by
    rw [hq]; unfold metadataOf; omega
  obtain ⟨_, f1, _, _, f4, f5, f6⟩ := mmapped_createNewBlock_frame os n s
    (MMappedBlocksManager.createNewBlock os n s).2
    (MMappedBlocksManager.createNewBlock os n s).1 hn2 rfl hq0
  obtain ⟨g1, g2, g3⟩ := mmapped_createNewBlock_hdr os n s
    (MMappedBlocksManager.createNewBlock os n s).2
    (MMappedBlocksManager.createNewBlock os n s).1 hn2 rfl hq0
  rw [hmeta] at f4
  have hold : (MMappedBlocksManager.createNewBlock os n s).2.hdr (metadataOf p)
      = s.hdr (metadataOf p) := f4 _ hfresh
  have hmeta2 : (MMappedBlocksManager.createNewBlock os n s).1 - sizeofMallocMetadata = addr :=
    hmeta
  rw [hmeta2] at g1 g2 g3
  have hR : MMappedBlocksManager.reallocateActiveBlock os p n s =
      ((MMappedBlocksManager.createNewBlock os n s).1,
       MMappedBlocksManager.releaseUsedBlock p
        { (MMappedBlocksManager.createNewBlock os n s).2 with
          mem := ((MMappedBlocksManager.createNewBlock os n s).2.mem.memmove
            (MMappedBlocksManager.createNewBlock os n s).1 p
            (min n ((MMappedBlocksManager.createNewBlock os n s).2.hdr
              (metadataOf p)).size_ACTIVE_PAYLOAD)) }) := by
    unfold MMappedBlocksManager.reallocateActiveBlock
    simp only [MMappedBlocksManager.allocateBlock]
    rw [if_pos ⟨hq0, hp⟩, if_pos hp]
  have hfst : (MMappedBlocksManager.reallocateActiveBlock os p n s).1
      = addr + sizeofMallocMetadata := by rw [hR]; exact hq
  have hsnd : (MMappedBlocksManager.reallocateActiveBlock os p n s).2 =
      MMappedBlocksManager.releaseUsedBlock p
        { (MMappedBlocksManager.createNewBlock os n s).2 with
          mem := ((MMappedBlocksManager.createNewBlock os n s).2.mem.memmove
            (MMappedBlocksManager.createNewBlock os n s).1 p
            (min n ((MMappedBlocksManager.createNewBlock os n s).2.hdr
              (metadataOf p)).size_ACTIVE_PAYLOAD)) } := by rw [hR]
  refine ⟨(MMappedBlocksManager.reallocateActiveBlock os p n s).2, ?_, ?_⟩
  · unfold srealloc
    rw [if_neg hv]
    unfold MemoryManager.reallocateActiveBlock
    rw [if_pos hk, ← hfst]
  · rw [hsnd, mmapped_releaseUsedBlock_hdr, mmapped_releaseUsedBlock_heap,
      mmapped_releaseUsedBlock_count, mmapped_releaseUsedBlock_bytes, hdr_memmove, hdr_memmove,
      st_mb_with_mem, st_heap_with_mem, hold, hm, f5, f6]
    refine ⟨g1, g2, g3, ?_, ?_, ?_, f1⟩
    · simp only [sub64, add64, W] at hc ⊢
      omega
    · simp only [sub64, add64, W, sizeofMallocMetadata]
      omega
    · intro h1 h2
      simp only [sub64, add64, W, sizeofMallocMetadata] at h2 ⊢
      omega

end Malloc3

/-! ## The theorems above at concrete inputs -/

namespace Malloc3

/-- C11 at concrete inputs: in the empty allocator, where no header is marked free,
`sfree(NULL)` returns the state it was given; after `p = smalloc(100)` and `sfree(p)`
the header of `p` is free, and `sfree(NULL)` and a second `sfree(p)` both return the
state they were given. -/
theorem sfree_null_or_free_block_is_noop_witness :
    sfree 0 s0 = s0 ∧
    (afterAllocFree.hdr (metadataOf 4096040)).is_free = true ∧
    sfree 0 afterAllocFree = afterAllocFree ∧
    sfree 4096040 afterAllocFree = afterAllocFree :=
  ⟨(sfree_null_or_free_block_is_noop s0 0).1,
   by decide!,
   (sfree_null_or_free_block_is_noop afterAllocFree 4096040).1,
   ((sfree_null_or_free_block_is_noop afterAllocFree 4096040).2 (by decide!)).2.2.2
     (by decide!)⟩

/-- C16 at concrete inputs: `smalloc(131072)` from the empty allocator returns the
payload of the mapping, leaves the list object of the heap as it was and makes the
mapped counters `1` and `131072 + 40`; `smalloc(131071)` leaves them at `0`. -/
theorem smalloc_routes_by_size_witness :
    (∃ s1, smalloc 0 os0 131072 s0 = some (4096000040, s1) ∧
      s1.heap_blocks_list = s0.heap_blocks_list ∧
      s1.mmapped_blocks.total_blocks_count = 1 ∧
      s1.mmapped_blocks.total_bytes_count = 131112) ∧
    (∃ s1, smalloc 1 os0 131071 s0 = some (4096040, s1) ∧
      s1.mmapped_blocks = s0.mmapped_blocks) :=
  ⟨⟨_, rfl,
    ((smalloc_routes_by_size 0 os0 131072 s0 _ 4096000040 (by decide) rfl).1
      (by decide) (by decide)).1,
    ((smalloc_routes_by_size 0 os0 131072 s0 _ 4096000040 (by decide) rfl).1
      (by decide) (by decide)).2.2.2.2.2.2.2.1 (by decide),
    ((smalloc_routes_by_size 0 os0 131072 s0 _ 4096000040 (by decide) rfl).1
      (by decide) (by decide)).2.2.2.2.2.2.2.2 (by decide)⟩,
   ⟨_, rfl, (smalloc_routes_by_size 1 os0 131071 s0 _ 4096040 (by decide) rfl).2.1 (by decide)⟩⟩

/-- C17 at concrete inputs: with an operating system that refuses every request,
`smalloc(100)` from the empty allocator returns `NULL` and the empty allocator; and
after a `smalloc(100)` that succeeded, `srealloc(p, 500)` returns `NULL` and the state
it was given, in which the block of `p` is live with 100 bytes. -/
theorem failed_call_leaves_state_witness :
    (∃ s1, smalloc 1 OS.refuse 100 s0 = some (0, s1) ∧ s1 = s0) ∧
    (∃ s1, srealloc 4 OS.refuse 4096040 500 afterAlloc = some (0, s1) ∧
      (s1 = afterAlloc ∧ s1.hdr (metadataOf 4096040) = afterAlloc.hdr (metadataOf 4096040))) ∧
    blockView afterAlloc (metadataOf 4096040) = (4096000, 100, 100, false) :=
  ⟨⟨_, rfl, (failed_call_leaves_state 1 OS.refuse 0 100 s0 (by decide) (by decide)).1 _ rfl⟩,
   ⟨_, rfl, (failed_call_leaves_state 4 OS.refuse 4096040 500 afterAlloc
      (by decide!) (by decide)).2 _ rfl⟩,
   by decide!⟩

/-- C18 at concrete inputs: from the empty allocator, `p = smalloc(200000)` then
`srealloc(p, 300000)`, the second mapping being placed at `8192000000`: the call
returns the payload of the new mapping, whose header records `300000` bytes, and
the mapped counters are `1` block and `300000 + 40` bytes. -/
theorem mapped_srealloc_moves_block_witness :
    smalloc 0 os0 200000 s0 = some (4096000040, afterMappedAlloc) ∧
    ∃ s1, srealloc 0 os1 4096000040 300000 afterMappedAlloc = some (8192000040, s1) ∧
      (s1.hdr 8192000000).size_TOTAL_PAYLOAD = 300000 ∧
      (s1.hdr 8192000000).size_ACTIVE_PAYLOAD = 300000 ∧
      s1.mmapped_blocks.total_blocks_count = 1 ∧
      s1.mmapped_blocks.total_bytes_count = 300040 := by
  refine ⟨rfl, ?_⟩
  obtain ⟨s1, h, _, h2, h3, h4, _, h6, _⟩ :=
    mapped_srealloc_moves_block 0 os1 4096000040 300000 200000 8192000000 afterMappedAlloc
      (by decide) (by decide) (by decide) (by decide!) rfl (by decide) (by decide) (by decide!)
  have hb : afterMappedAlloc.mmapped_blocks.total_bytes_count = 200040 := by decide!
  have hc : afterMappedAlloc.mmapped_blocks.total_blocks_count = 1 := by decide!
  rw [hb] at h6
  rw [hc] at h4
  have h7 := h6 (by decide) (by decide)
  exact ⟨s1, h, h2, h3, h4, by omega⟩

end Malloc3

/-! ## Runs on which a second release, or a wrapped product, is not ignored -/

namespace Malloc3

/-- C12 on the code: after `a = smalloc(100)`, `b = smalloc(100)`, `c = smalloc(100)`
and `sfree(a)`, the block of `b` is live and only its predecessor is free.  One
`sfree(b)` leaves the list with a free block of `240` bytes and the block of `c`, and
the counters at 1 free block, 2 blocks, 240 free bytes; a second `sfree(b)` leaves a
free block of `380` bytes, 1 block in all and 380 free bytes. -/
theorem second_sfree_merges_again_into_free_predecessor :
    beforeFreeBesideFreePred.map (fun r => (r.1, blockView r.2 (metadataOf r.1),
      (r.2.hdr (metadataOf r.1)).prev, (r.2.hdr (r.2.hdr (metadataOf r.1)).prev).is_free,
      (r.2.hdr (r.2.hdr (metadataOf r.1)).next).is_free))
      = some (4096180, (4096140, 100, 100, false), 4096000, true, false) ∧
    beforeFreeBesideFreePred.map (fun r =>
      (heapList 8 (sfree r.1 r.2)).map (fun l => l.map (blockView (sfree r.1 r.2))))
      = some (some [(4096000, 240, 0, true), (4096280, 100, 100, false)]) ∧
    beforeFreeBesideFreePred.map (fun r => heapCounters (sfree r.1 r.2))
      = some (1, 2, 240, 420) ∧
    beforeFreeBesideFreePred.map (fun r =>
      (heapList 8 (sfree r.1 (sfree r.1 r.2))).map
        (fun l => l.map (blockView (sfree r.1 (sfree r.1 r.2)))))
      = some (some [(4096000, 380, 0, true), (4096280, 100, 100, false)]) ∧
    beforeFreeBesideFreePred.map (fun r => heapCounters (sfree r.1 (sfree r.1 r.2)))
      = some (1, 1, 380, 420) := by
  refine ⟨?_, ?_, ?_, ?_, ?_⟩ <;> decide!

end Malloc3

/-- C14 on the code: in `malloc_2`, `scalloc(2^32, 2^32)`, whose 64-bit product is `0`,
and `scalloc(3, 6148914691236517206)`, whose 64-bit product is `2`, both pass the
validation from the empty allocator: each returns the payload of a new block, after
which `_num_allocated_blocks` is `1` and the program break has moved by the header
plus `0`, respectively `2`, bytes. -/
theorem scalloc_accepts_wrapped_product :
    mul64 4294967296 4294967296 = 0 ∧ mul64 6148914691236517206 3 = 2 ∧
    (Malloc2.scalloc 1 (OS.grant 0) 4294967296 4294967296 (Malloc2.State.init 4096000)).map
      (fun r => (r.1, Malloc2._num_allocated_blocks r.2, Malloc2._num_allocated_bytes r.2,
        r.2.brk, r.2.blocks_list.head))
      = some (4096040, 1, 0, 4096040, 4096000) ∧
    (Malloc2.scalloc 1 (OS.grant 0) 3 6148914691236517206 (Malloc2.State.init 4096000)).map
      (fun r => (r.1, Malloc2._num_allocated_blocks r.2, Malloc2._num_allocated_bytes r.2,
        r.2.brk, r.2.blocks_list.head))
      = some (4096040, 1, 2, 4096042, 4096000) := by
  refine ⟨?_, ?_, ?_, ?_⟩ <;> decide!

/-! ## First fit -/

namespace Malloc3
open HeapBlocksList

theorem heapListFrom_ne_zero (m : Memory) :
    ∀ (fuel curr : Nat) (l : List Nat), heapListFrom m fuel curr = some l →
      ∀ b ∈ l, b ≠ 0 := by
  intro fuel
  induction fuel with
  | zero =>
    intro curr l h b hb
    unfold heapListFrom at h
    split at h
    · simp only [Option.some.injEq] at h
      subst h
      simp at hb
    · simp at h
  | succ k ih =>
    intro curr l h b hb
    unfold heapListFrom at h
    split at h
    · simp only [Option.some.injEq] at h
      subst h
      simp at hb
    · rename_i hc
      cases hr : heapListFrom m k (m.hdr curr).next with
      | none => rw [hr] at h; simp at h
      | some l0 =>
        rw [hr] at h
        simp only [Option.map_some', Option.some.injEq] at h
        subst h
        rcases List.mem_cons.mp hb with hb1 | hb1
        · rw [hb1]; exact hc
        · exact ih _ _ hr b hb1

theorem findFreeBlockLoop_first_fit (m : Memory) (n : Nat) :
    ∀ (fuel curr : Nat) (l : List Nat), heapListFrom m fuel curr = some l →
      ∃ fb, findFreeBlockLoop m n fuel curr = some fb ∧
        ((fb = 0 ∧ ∀ b ∈ l, ¬ ((m.hdr b).is_free = true ∧ n ≤ (m.hdr b).size_TOTAL_PAYLOAD)) ∨
         (fb ≠ 0 ∧ ∃ l1 l2, l = l1 ++ fb :: l2 ∧
           ((m.hdr fb).is_free = true ∧ n ≤ (m.hdr fb).size_TOTAL_PAYLOAD) ∧
           ∀ b ∈ l1, ¬ ((m.hdr b).is_free = true ∧ n ≤ (m.hdr b).size_TOTAL_PAYLOAD))) := by
  intro fuel
  induction fuel with
  | zero =>
    intro curr l h
    unfold heapListFrom at h
    unfold findFreeBlockLoop
    split at h
    · rename_i hc
      simp only [Option.some.injEq] at h
      subst h
      rw [if_pos hc]
      exact ⟨0, rfl, Or.inl ⟨rfl, fun b hb => by simp at hb⟩⟩
    · simp at h
  | succ k ih =>
    intro curr l h
    unfold heapListFrom at h
    unfold findFreeBlockLoop
    split at h
    · rename_i hc
      simp only [Option.some.injEq] at h
      subst h
      rw [if_pos hc]
      exact ⟨0, rfl, Or.inl ⟨rfl, fun b hb => by simp at hb⟩⟩
    · rename_i hc
      rw [if_neg hc]
      cases hr : heapListFrom m k (m.hdr curr).next with
      | none => rw [hr] at h; simp at h
      | some l0 =>
        rw [hr] at h
        simp only [Option.map_some', Option.some.injEq] at h
        subst h
        by_cases hfit : (m.hdr curr).is_free = true ∧ (m.hdr curr).size_TOTAL_PAYLOAD ≥ n
        · rw [if_pos hfit]
          exact ⟨curr, rfl, Or.inr ⟨hc, [], l0, rfl, hfit, fun b hb => by simp at hb⟩⟩
        · rw [if_neg hfit]
          obtain ⟨fb, hfb, hcase⟩ := ih _ _ hr
          refine ⟨fb, hfb, ?_⟩
          rcases hcase with ⟨h0, hnone⟩ | ⟨h0, l1, l2, hl, hfb2, hl1⟩
          · refine Or.inl ⟨h0, ?_⟩
            intro b hb
            rcases List.mem_cons.mp hb with hb1 | hb1
            · rw [hb1]; exact hfit
            · exact hnone b hb1
          · refine Or.inr ⟨h0, curr :: l1, l2, ?_, hfb2, ?_⟩
            · rw [hl]; rfl
            · intro b hb
              rcases List.mem_cons.mp hb with hb1 | hb1
              · rw [hb1]; exact hfit
              · exact hl1 b hb1

theorem smalloc_of_findFreeBlock (fuel : Nat) (os : OS) (n fb : Nat) (s : State)
    (h1 : 1 ≤ n) (h2 : n ≤ 131071) (hfb : fb ≠ 0)
    (h : findFreeBlock fuel n s = some fb) :
    ∃ s1, smalloc fuel os n s = some (fb + sizeofMallocMetadata, s1) := by
  have hv : ¬ (n = 0 ∨ n > maxSize) := by simp only [maxSize]; omega
  have hk : ¬ n ≥ 128 * KB := by simp only [KB]; omega
  refine ⟨(useFreeBlock fb n s).2, ?_⟩
  unfold smalloc
  rw [if_neg hv]
  unfold MemoryManager.allocateBlock
  rw [if_neg hk]
  unfold HeapBlocksList.allocateBlock
  rw [h]
  simp only []
  rw [if_neg (fun hc => hfb hc.1), if_neg hfb]
  rfl

end Malloc3

namespace Malloc2
open BlocksList

theorem blocksListFrom_ne_zero (m : Memory) :
    ∀ (fuel curr : Nat) (l : List Nat), blocksListFrom m fuel curr = some l →
      ∀ b ∈ l, b ≠ 0 := by
  intro fuel
  induction fuel with
  | zero =>
    intro curr l h b hb
    unfold blocksListFrom at h
    split at h
    · simp only [Option.some.injEq] at h
      subst h
      simp at hb
    · simp at h
  | succ k ih =>
    intro curr l h b hb
    unfold blocksListFrom at h
    split at h
    · simp only [Option.some.injEq] at h
      subst h
      simp at hb
    · rename_i hc
      cases hr : blocksListFrom m k (m.hdr curr).next with
      | none => rw [hr] at h; simp at h
      | some l0 =>
        rw [hr] at h
        simp only [Option.map_some', Option.some.injEq] at h
        subst h
        rcases List.mem_cons.mp hb with hb1 | hb1
        · rw [hb1]; exact hc
        · exact ih _ _ hr b hb1

theorem blocksList_findFreeBlockLoop_first_fit (m : Memory) (n : Nat) :
    ∀ (fuel curr : Nat) (l : List Nat), blocksListFrom m fuel curr = some l →
      ∃ fb, findFreeBlockLoop m n fuel curr = some fb ∧
        ((fb = 0 ∧ ∀ b ∈ l, ¬ ((m.hdr b).is_free = true ∧ n ≤ (m.hdr b).size_TOTAL_PAYLOAD)) ∨
         (fb ≠ 0 ∧ ∃ l1 l2, l = l1 ++ fb :: l2 ∧
           ((m.hdr fb).is_free = true ∧ n ≤ (m.hdr fb).size_TOTAL_PAYLOAD) ∧
           ∀ b ∈ l1, ¬ ((m.hdr b).is_free = true ∧ n ≤ (m.hdr b).size_TOTAL_PAYLOAD))) := by
  intro fuel
  induction fuel with
  | zero =>
    intro curr l h
    unfold blocksListFrom at h
    unfold findFreeBlockLoop
    split at h
    · rename_i hc
      simp only [Option.some.injEq] at h
      subst h
      rw [if_pos hc]
      exact ⟨0, rfl, Or.inl ⟨rfl, fun b hb => by simp at hb⟩⟩
    · simp at h
  | succ k ih =>
    intro curr l h
    unfold blocksListFrom at h
    unfold findFreeBlockLoop
    split at h
    · rename_i hc
      simp only [Option.some.injEq] at h
      subst h
      rw [if_pos hc]
      exact ⟨0, rfl, Or.inl ⟨rfl, fun b hb => by simp at hb⟩⟩
    · rename_i hc
      rw [if_neg hc]
      cases hr : blocksListFrom m k (m.hdr curr).next with
      | none => rw [hr] at h; simp at h
      | some l0 =>
        rw [hr] at h
        simp only [Option.map_some', Option.some.injEq] at h
        subst h
        by_cases hfit : (m.hdr curr).is_free = true ∧ (m.hdr curr).size_TOTAL_PAYLOAD ≥ n
        · rw [if_pos hfit]
          exact ⟨curr, rfl, Or.inr ⟨hc, [], l0, rfl, hfit, fun b hb => by simp at hb⟩⟩
        · rw [if_neg hfit]
          obtain ⟨fb, hfb, hcase⟩ := ih _ _ hr
          refine ⟨fb, hfb, ?_⟩
          rcases hcase with ⟨h0, hnone⟩ | ⟨h0, l1, l2, hl, hfb2, hl1⟩
          · refine Or.inl ⟨h0, ?_⟩
            intro b hb
            rcases List.mem_cons.mp hb with hb1 | hb1
            · rw [hb1]; exact hfit
            · exact hnone b hb1
          · refine Or.inr ⟨h0, curr :: l1, l2, ?_, hfb2, ?_⟩
            · rw [hl]; rfl
            · intro b hb
              rcases List.mem_cons.mp hb with hb1 | hb1
              · rw [hb1]; exact hfit
              · exact hl1 b hb1

theorem blocksList_smalloc_of_findFreeBlock (fuel : Nat) (os : OS) (n fb : Nat) (s : State)
    (h1 : 1 ≤ n) (h2 : n ≤ 100000000) (hfb : fb ≠ 0)
    (h : findFreeBlock fuel n s = some fb) :
    ∃ s1, smalloc fuel os n s = some (fb + sizeofMallocMetadata, s1) := by
  have hv : ¬ (n = 0 ∨ n > maxSize) := by simp only [maxSize]; omega
  refine ⟨(useFreeBlock fb n s).2, ?_⟩
  unfold smalloc
  rw [if_neg hv]
  unfold BlocksList.allocateBlock
  rw [h]
  simp only []
  rw [if_neg hfb]
  rfl

end Malloc2

/-- C20: in `malloc_3` and in `malloc_2`, for a list whose blocks, from `head`, are `l`,
`findFreeBlock(n)` returns a result `fb`; either `fb` is `NULL` and no block of `l` is
free with `total_payload ≥ n`, or `fb` is a block of `l` that is free with
`total_payload ≥ n` and no block before it in `l` is; and when `fb` is not `NULL`,
`smalloc(n)` returns the payload pointer `fb + 40` for `1 ≤ n ≤ 131071` in `malloc_3`
and for `1 ≤ n ≤ 10^8` in `malloc_2`. -/
theorem findFreeBlock_is_first_fit (fuel n : Nat) (os : OS)
    (s3 : Malloc3.State) (l3 : List Nat) (s2 : Malloc2.State) (l2 : List Nat)
    (h3 : Malloc3.heapList fuel s3 = some l3) (h2 : Malloc2.blocksList fuel s2 = some l2) :
    (∃ fb, Malloc3.HeapBlocksList.findFreeBlock fuel n s3 = some fb ∧
      ((fb = 0 ∧ ∀ b ∈ l3,
          ¬ ((s3.hdr b).is_free = true ∧ n ≤ (s3.hdr b).size_TOTAL_PAYLOAD)) ∨
       (fb ≠ 0 ∧ ∃ la lb, l3 = la ++ fb :: lb ∧
          ((s3.hdr fb).is_free = true ∧ n ≤ (s3.hdr fb).size_TOTAL_PAYLOAD) ∧
          ∀ b ∈ la, ¬ ((s3.hdr b).is_free = true ∧ n ≤ (s3.hdr b).size_TOTAL_PAYLOAD))) ∧
      (1 ≤ n → n ≤ 131071 → fb ≠ 0 →
        ∃ s1, Malloc3.smalloc fuel os n s3 = some (fb + sizeofMallocMetadata, s1))) ∧
    (∃ fb, Malloc2.BlocksList.findFreeBlock fuel n s2 = some fb ∧
      ((fb = 0 ∧ ∀ b ∈ l2,
          ¬ ((s2.hdr b).is_free = true ∧ n ≤ (s2.hdr b).size_TOTAL_PAYLOAD)) ∨
       (fb ≠ 0 ∧ ∃ la lb, l2 = la ++ fb :: lb ∧
          ((s2.hdr fb).is_free = true ∧ n ≤ (s2.hdr fb).size_TOTAL_PAYLOAD) ∧
          ∀ b ∈ la, ¬ ((s2.hdr b).is_free = true ∧ n ≤ (s2.hdr b).size_TOTAL_PAYLOAD))) ∧
      (1 ≤ n → n ≤ 100000000 → fb ≠ 0 →
        ∃ s1, Malloc2.smalloc fuel os n s2 = some (fb + sizeofMallocMetadata, s1))) := by
  obtain ⟨fb3, hf3, hc3⟩ := Malloc3.findFreeBlockLoop_first_fit s3.mem n fuel s3.head l3 h3
  obtain ⟨fb2, hf2, hc2⟩ :=
    Malloc2.blocksList_findFreeBlockLoop_first_fit s2.mem n fuel s2.head l2 h2
  exact ⟨⟨fb3, hf3, hc3, fun a b c => Malloc3.smalloc_of_findFreeBlock fuel os n fb3 s3 a b c hf3⟩,
    ⟨fb2, hf2, hc2, fun a b c =>
      Malloc2.blocksList_smalloc_of_findFreeBlock fuel os n fb2 s2 a b c hf2⟩⟩

namespace Malloc3
open HeapBlocksList

/-- C20, where `smalloc` does not return the block `findFreeBlock` finds: after
`a = smalloc(70000)`, `b = smalloc(70000)`, `c = smalloc(10)`, `sfree(a)`, `sfree(b)`
the list holds a free block of `140040` bytes at `4096000` and the block of `c`;
`findFreeBlock(131072)` returns that free block, and `smalloc(131072)` returns the
payload of a new mapping; `findFreeBlock(0)` returns it too, and `smalloc(0)`
returns `NULL`. -/
theorem smalloc_bypasses_first_fit_block :
    afterMergeOfTwoBlocks.map (fun s => (heapList 4 s).map (fun l => l.map (blockView s)))
      = some (some [(4096000, 140040, 0, true), (4236080, 10, 10, false)]) ∧
    afterMergeOfTwoBlocks.map (fun s =>
      (findFreeBlock 4 131072 s, (smalloc 4 os0 131072 s).map (fun r => r.1)))
      = some (some 4096000, some 4096000040) ∧
    afterMergeOfTwoBlocks.map (fun s =>
      (findFreeBlock 4 0 s, (smalloc 4 os0 0 s).map (fun r => r.1)))
      = some (some 4096000, some 0) := by
  refine ⟨?_, ?_, ?_⟩ <;> decide!

/-- C20 at concrete inputs: in `malloc_3` and in `malloc_2`, from the empty allocator,
`p = smalloc(200)` returns `4096040`; after `sfree(p)` the list is the one block at
`4096000` and `smalloc(100)` returns `4096040` again. -/
theorem findFreeBlock_is_first_fit_witness :
    (afterAllocFree200.1 = 4096040 ∧ heapList 1 afterAllocFree200.2 = some [4096000] ∧
      ∃ s1, smalloc 1 os0 100 afterAllocFree200.2 = some (4096040, s1)) ∧
    (Malloc2.afterAllocFree200.1 = 4096040 ∧
      Malloc2.blocksList 1 Malloc2.afterAllocFree200.2 = some [4096000] ∧
      ∃ s1, Malloc2.smalloc 1 os0 100 Malloc2.afterAllocFree200.2 = some (4096040, s1)) := by
  obtain ⟨⟨fb3, hf3, _, hs3⟩, ⟨fb2, hf2, _, hs2⟩⟩ :=
    findFreeBlock_is_first_fit 1 100 os0 afterAllocFree200.2 [4096000]
      Malloc2.afterAllocFree200.2 [4096000] (by decide!) (by decide!)
  have e3 : findFreeBlock 1 100 afterAllocFree200.2 = some 4096000 := by decide!
  have e2 : Malloc2.BlocksList.findFreeBlock 1 100 Malloc2.afterAllocFree200.2
      = some 4096000 := by decide!
  rw [e3] at hf3
  rw [e2] at hf2
  simp only [Option.some.injEq] at hf3 hf2
  subst hf3 hf2
  exact ⟨⟨by decide!, by decide!, hs3 (by decide) (by decide) (by decide)⟩,
    ⟨by decide!, by decide!, hs2 (by decide) (by decide) (by decide)⟩⟩

end Malloc3

/-! ## An allocation followed by the release of its block -/

namespace Malloc3
open HeapBlocksList

theorem add64_sub64_cancel (c d : Nat) (hc : c < W) : add64 (sub64 c d) d = c := by
  simp only [add64, sub64, W] at hc ⊢
  omega

theorem sub64_add64_cancel (c d : Nat) (hc : c < W) : sub64 (add64 c d) d = c := by
  simp only [add64, sub64, W] at hc ⊢
  omega

theorem add64_ne_self (c d : Nat) (hd1 : 0 < d) (hd2 : d < W) : add64 c d ≠ c := by
  simp only [add64, W] at hd2 ⊢
  omega

theorem releaseUsedBlock_without_combining (p : Nat) (t : State)
    (hlive : (t.hdr (metadataOf p)).is_free = false)
    (hs : (t.hdr (metadataOf p)).next = 0 ∨
      (t.hdr (t.hdr (metadataOf p)).next).is_free = false)
    (hq : (t.hdr (metadataOf p)).prev = 0 ∨
      (t.hdr (t.hdr (metadataOf p)).prev).is_free = false) :
    HeapBlocksList.releaseUsedBlock p t = freeBlockWithoutCombining (metadataOf p) t := by
  unfold HeapBlocksList.releaseUsedBlock
  simp only []
  have h1 : (decide ((t.hdr (metadataOf p)).next ≠ 0) &&
      (t.hdr (t.hdr (metadataOf p)).next).is_free) = false := by
    rcases hs with h | h
    · rw [h]; simp
    · rw [h]; simp
  have h2 : (decide ((t.hdr (metadataOf p)).prev ≠ 0) &&
      (t.hdr (t.hdr (metadataOf p)).prev).is_free) = false := by
    rcases hq with h | h
    · rw [h]; simp
    · rw [h]; simp
  rw [hlive, h1, h2]
  simp only [Bool.false_eq_true, if_false, Bool.and_self]

theorem releaseUsedBlock_with_succ (p : Nat) (t : State)
    (hlive : (t.hdr (metadataOf p)).is_free = false)
    (hs1 : (t.hdr (metadataOf p)).next ≠ 0)
    (hs2 : (t.hdr (t.hdr (metadataOf p)).next).is_free = true)
    (hq : (t.hdr (metadataOf p)).prev = 0 ∨
      (t.hdr (t.hdr (metadataOf p)).prev).is_free = false) :
    HeapBlocksList.releaseUsedBlock p t = combineFreeBlockWithSucc (metadataOf p) t := by
  unfold HeapBlocksList.releaseUsedBlock
  simp only []
  have h1 : (decide ((t.hdr (metadataOf p)).next ≠ 0) &&
      (t.hdr (t.hdr (metadataOf p)).next).is_free) = true := by
    rw [hs2]; simp [hs1]
  have h2 : (decide ((t.hdr (metadataOf p)).prev ≠ 0) &&
      (t.hdr (t.hdr (metadataOf p)).prev).is_free) = false := by
    rcases hq with h | h
    · rw [h]; simp
    · rw [h]; simp
  rw [hlive, h1, h2]
  simp only [Bool.false_eq_true, if_false, Bool.and_false, if_true]

theorem freeBlockWithoutCombining_counters (b : Nat) (t : State) :
    (freeBlockWithoutCombining b t).heap_blocks_list.blocks_count_FREE
      = add64 t.heap_blocks_list.blocks_count_FREE 1 ∧
    (freeBlockWithoutCombining b t).heap_blocks_list.bytes_count_FREE
      = add64 t.heap_blocks_list.bytes_count_FREE (t.hdr b).size_TOTAL_PAYLOAD ∧
    (freeBlockWithoutCombining b t).heap_blocks_list.blocks_count_TOTAL
      = t.heap_blocks_list.blocks_count_TOTAL ∧
    (freeBlockWithoutCombining b t).mmapped_blocks = t.mmapped_blocks := by
  simp [freeBlockWithoutCombining]

theorem combineFreeBlockWithSucc_counters (b : Nat) (t : State) :
    (combineFreeBlockWithSucc b t).heap_blocks_list.blocks_count_FREE
      = t.heap_blocks_list.blocks_count_FREE ∧
    (combineFreeBlockWithSucc b t).heap_blocks_list.bytes_count_FREE
      = add64 t.heap_blocks_list.bytes_count_FREE
          (add64 sizeofMallocMetadata (t.hdr b).size_TOTAL_PAYLOAD) ∧
    (combineFreeBlockWithSucc b t).heap_blocks_list.blocks_count_TOTAL
      = sub64 t.heap_blocks_list.blocks_count_TOTAL 1 ∧
    (combineFreeBlockWithSucc b t).mmapped_blocks = t.mmapped_blocks := by
  unfold combineFreeBlockWithSucc
  simp only []
  split <;> split <;> simp

theorem useFreeBlockWithoutSplit_view (fb n : Nat) (s : State) :
    ((useFreeBlockWithoutSplit fb n s).hdr fb).next = (s.hdr fb).next ∧
    ((useFreeBlockWithoutSplit fb n s).hdr fb).prev = (s.hdr fb).prev ∧
    (∀ x, x ≠ fb → ((useFreeBlockWithoutSplit fb n s).hdr x).is_free = (s.hdr x).is_free) ∧
    (useFreeBlockWithoutSplit fb n s).heap_blocks_list.blocks_count_FREE
      = sub64 s.heap_blocks_list.blocks_count_FREE 1 ∧
    (useFreeBlockWithoutSplit fb n s).heap_blocks_list.bytes_count_FREE
      = sub64 s.heap_blocks_list.bytes_count_FREE (s.hdr fb).size_TOTAL_PAYLOAD ∧
    (useFreeBlockWithoutSplit fb n s).heap_blocks_list.blocks_count_TOTAL
      = s.heap_blocks_list.blocks_count_TOTAL ∧
    (useFreeBlockWithoutSplit fb n s).mmapped_blocks = s.mmapped_blocks := by
  refine ⟨?_, ?_, ?_, ?_, ?_, ?_, ?_⟩
  · simp [useFreeBlockWithoutSplit]
  · simp [useFreeBlockWithoutSplit]
  · intro x hx; simp [useFreeBlockWithoutSplit, hx]
  · simp [useFreeBlockWithoutSplit]
  · simp [useFreeBlockWithoutSplit]
  · simp [useFreeBlockWithoutSplit]
  · simp [useFreeBlockWithoutSplit]

theorem useFreeBlockWithSplit_view (fb n r : Nat) (s : State)
    (hnext : (s.hdr fb).next ≠ fb) :
    ((useFreeBlockWithSplit fb n r s).hdr fb).next = fb + sizeofMallocMetadata + n ∧
    ((useFreeBlockWithSplit fb n r s).hdr fb).prev = (s.hdr fb).prev ∧
    ((useFreeBlockWithSplit fb n r s).hdr (fb + sizeofMallocMetadata + n)).is_free = true ∧
    (∀ x, x ≠ fb → x ≠ fb + sizeofMallocMetadata + n →
      ((useFreeBlockWithSplit fb n r s).hdr x).is_free = (s.hdr x).is_free) ∧
    (useFreeBlockWithSplit fb n r s).heap_blocks_list.blocks_count_FREE
      = s.heap_blocks_list.blocks_count_FREE ∧
    (useFreeBlockWithSplit fb n r s).heap_blocks_list.bytes_count_FREE
      = sub64 s.heap_blocks_list.bytes_count_FREE (add64 n sizeofMallocMetadata) ∧
    (useFreeBlockWithSplit fb n r s).heap_blocks_list.blocks_count_TOTAL
      = add64 s.heap_blocks_list.blocks_count_TOTAL 1 ∧
    (useFreeBlockWithSplit fb n r s).mmapped_blocks = s.mmapped_blocks := by
  have hne : fb ≠ fb + sizeofMallocMetadata + n := by
    simp only [sizeofMallocMetadata]; omega
  have hne2 : fb + sizeofMallocMetadata + n ≠ fb := fun h => hne h.symm
  unfold useFreeBlockWithSplit updateMetaDataAfterFreeBlockSplit
  simp only []
  refine ⟨?_, ?_, ?_, ?_, ?_, ?_, ?_, ?_⟩
  · split <;> split <;> simp [hne, hne2]
  · split <;> split <;> simp [hne, hne2, hnext, Ne.symm hnext]
  · split <;> split <;> simp [hne, hne2]
  · intro x hx1 hx2
    split <;> split <;> simp [hne, hne2, hx1, hx2]
  · split <;> split <;> simp
  · split <;> split <;> simp
  · split <;> split <;> simp
  · split <;> split <;> simp

theorem sbrk_hdr (os : OS) (d : Nat) (s : State) (x : Nat) :
    (sbrk os d s).2.hdr x = s.hdr x := by
  unfold State.hdr
  rw [sbrk_mem]

theorem useWildernessBlock_view (os : OS) (n : Nat) (s : State)
    (hp : (useWildernessBlock os n s).1 ≠ 0) :
    ((useWildernessBlock os n s).2.hdr s.tail).next = (s.hdr s.tail).next ∧
    ((useWildernessBlock os n s).2.hdr s.tail).prev = (s.hdr s.tail).prev ∧
    (∀ x, x ≠ s.tail → ((useWildernessBlock os n s).2.hdr x).is_free = (s.hdr x).is_free) ∧
    (useWildernessBlock os n s).2.heap_blocks_list.blocks_count_FREE
      = sub64 s.heap_blocks_list.blocks_count_FREE 1 ∧
    (useWildernessBlock os n s).2.heap_blocks_list.bytes_count_FREE
      = sub64 s.heap_blocks_list.bytes_count_FREE (s.hdr s.tail).size_TOTAL_PAYLOAD ∧
    (useWildernessBlock os n s).2.heap_blocks_list.blocks_count_TOTAL
      = s.heap_blocks_list.blocks_count_TOTAL ∧
    (useWildernessBlock os n s).2.mmapped_blocks = s.mmapped_blocks := by
  unfold useWildernessBlock at hp ⊢
  simp only [] at hp ⊢
  split
  · rename_i h; rw [if_pos h] at hp; exact absurd rfl hp
  · refine ⟨?_, ?_, ?_, ?_, ?_, ?_, ?_⟩
    · simp [sbrk_hdr]
    · simp [sbrk_hdr]
    · intro x hx; simp [sbrk_hdr, hx]
    · simp [sbrk_heap_blocks_list]
    · simp [sbrk_heap_blocks_list, sbrk_hdr]
    · simp [sbrk_heap_blocks_list]
    · simp [sbrk_mmapped_blocks]

theorem roundtrip_without_split (fb n : Nat) (s : State)
    (hfree : (s.hdr fb).is_free = true)
    (hs : (s.hdr fb).next = 0 ∨ (s.hdr (s.hdr fb).next).is_free = false)
    (hq : (s.hdr fb).prev = 0 ∨ (s.hdr (s.hdr fb).prev).is_free = false)
    (hc1 : s.heap_blocks_list.blocks_count_FREE < W)
    (hc2 : s.heap_blocks_list.bytes_count_FREE < W) :
    HeapBlocksList.releaseUsedBlock (fb + sizeofMallocMetadata) (useFreeBlockWithoutSplit fb n s)
      = freeBlockWithoutCombining fb (useFreeBlockWithoutSplit fb n s) ∧
    (HeapBlocksList.releaseUsedBlock (fb + sizeofMallocMetadata)
      (useFreeBlockWithoutSplit fb n s)).heap_blocks_list.blocks_count_FREE
      = s.heap_blocks_list.blocks_count_FREE ∧
    (HeapBlocksList.releaseUsedBlock (fb + sizeofMallocMetadata)
      (useFreeBlockWithoutSplit fb n s)).heap_blocks_list.bytes_count_FREE
      = s.heap_blocks_list.bytes_count_FREE ∧
    (HeapBlocksList.releaseUsedBlock (fb + sizeofMallocMetadata)
      (useFreeBlockWithoutSplit fb n s)).heap_blocks_list.blocks_count_TOTAL
      = s.heap_blocks_list.blocks_count_TOTAL ∧
    (HeapBlocksList.releaseUsedBlock (fb + sizeofMallocMetadata)
      (useFreeBlockWithoutSplit fb n s)).mmapped_blocks = s.mmapped_blocks := by
  obtain ⟨v1, v2, v3, v4, v5, v6, v7⟩ := useFreeBlockWithoutSplit_view fb n s
  obtain ⟨w1, w2, _⟩ := useFreeBlockWithoutSplit_hdr fb n s
  have hm : metadataOf (fb + sizeofMallocMetadata) = fb := by
    unfold metadataOf; omega
  have hne : ∀ x, (s.hdr x).is_free = false → x ≠ fb := by
    intro x hx hxe
    rw [hxe, hfree] at hx
    exact absurd hx (by decide)
  have hR : HeapBlocksList.releaseUsedBlock (fb + sizeofMallocMetadata)
      (useFreeBlockWithoutSplit fb n s)
      = freeBlockWithoutCombining fb (useFreeBlockWithoutSplit fb n s) := by
    have := releaseUsedBlock_without_combining (fb + sizeofMallocMetadata)
      (useFreeBlockWithoutSplit fb n s)
    rw [hm] at this
    apply this w1
    · rw [v1]
      rcases hs with h | h
      · exact Or.inl h
      · exact Or.inr (by rw [v3 _ (hne _ h)]; exact h)
    · rw [v2]
      rcases hq with h | h
      · exact Or.inl h
      · exact Or.inr (by rw [v3 _ (hne _ h)]; exact h)
  obtain ⟨c1, c2, c3, c4⟩ := freeBlockWithoutCombining_counters fb
    (useFreeBlockWithoutSplit fb n s)
  refine ⟨hR, ?_, ?_, ?_, ?_⟩
  · rw [hR, c1, v4]; exact add64_sub64_cancel _ _ hc1
  · rw [hR, c2, v5, w2]; exact add64_sub64_cancel _ _ hc2
  · rw [hR, c3, v6]
  · rw [hR, c4, v7]

theorem add64_comm (a b : Nat) : add64 a b = add64 b a := by
  unfold add64; rw [Nat.add_comm]

theorem roundtrip_with_split (fb n r : Nat) (s : State) (hfb : fb ≠ 0)
    (hfree : (s.hdr fb).is_free = true)
    (hs : (s.hdr fb).next = 0 ∨ (s.hdr (s.hdr fb).next).is_free = false)
    (hq : (s.hdr fb).prev = 0 ∨
      ((s.hdr fb).prev < fb ∧ (s.hdr (s.hdr fb).prev).is_free = false))
    (hc2 : s.heap_blocks_list.bytes_count_FREE < W)
    (hc3 : s.heap_blocks_list.blocks_count_TOTAL < W) :
    HeapBlocksList.releaseUsedBlock (fb + sizeofMallocMetadata) (useFreeBlockWithSplit fb n r s)
      = combineFreeBlockWithSucc fb (useFreeBlockWithSplit fb n r s) ∧
    (HeapBlocksList.releaseUsedBlock (fb + sizeofMallocMetadata)
      (useFreeBlockWithSplit fb n r s)).heap_blocks_list.blocks_count_FREE
      = s.heap_blocks_list.blocks_count_FREE ∧
    (HeapBlocksList.releaseUsedBlock (fb + sizeofMallocMetadata)
      (useFreeBlockWithSplit fb n r s)).heap_blocks_list.bytes_count_FREE
      = s.heap_blocks_list.bytes_count_FREE ∧
    (HeapBlocksList.releaseUsedBlock (fb + sizeofMallocMetadata)
      (useFreeBlockWithSplit fb n r s)).heap_blocks_list.blocks_count_TOTAL
      = s.heap_blocks_list.blocks_count_TOTAL ∧
    (HeapBlocksList.releaseUsedBlock (fb + sizeofMallocMetadata)
      (useFreeBlockWithSplit fb n r s)).mmapped_blocks = s.mmapped_blocks := by
  have hnext : (s.hdr fb).next ≠ fb := by
    intro hxe
    rcases hs with h | h
    · exact hfb (hxe.symm.trans h)
    · rw [hxe, hfree] at h
      exact absurd h (by decide)
  obtain ⟨u1, u2, u3, u4, u5, u6, u7, u8⟩ := useFreeBlockWithSplit_view fb n r s hnext
  obtain ⟨w1, w2, _⟩ := useFreeBlockWithSplit_hdr fb n r s
  have hm : metadataOf (fb + sizeofMallocMetadata) = fb := by
    unfold metadataOf; omega
  have hR : HeapBlocksList.releaseUsedBlock (fb + sizeofMallocMetadata)
      (useFreeBlockWithSplit fb n r s)
      = combineFreeBlockWithSucc fb (useFreeBlockWithSplit fb n r s) := by
    have := releaseUsedBlock_with_succ (fb + sizeofMallocMetadata)
      (useFreeBlockWithSplit fb n r s)
    rw [hm] at this
    apply this w1
    · rw [u1]; simp only [sizeofMallocMetadata]; omega
    · rw [u1]; exact u3
    · rw [u2]
      rcases hq with h | ⟨h1, h2⟩
      · exact Or.inl h
      · refine Or.inr ?_
        rw [u4 _ (by omega) (by simp only [sizeofMallocMetadata]; omega)]
        exact h2
  obtain ⟨c1, c2, c3, c4⟩ := combineFreeBlockWithSucc_counters fb
    (useFreeBlockWithSplit fb n r s)
  refine ⟨hR, ?_, ?_, ?_, ?_⟩
  · rw [hR, c1, u5]
  · rw [hR, c2, u6, w2, add64_comm sizeofMallocMetadata n]
    exact add64_sub64_cancel _ _ hc2
  · rw [hR, c3, u7]; exact sub64_add64_cancel _ _ hc3
  · rw [hR, c4, u8]

theorem roundtrip_reuse (fb n : Nat) (s : State) (hfb : fb ≠ 0)
    (hfree : (s.hdr fb).is_free = true)
    (hs : (s.hdr fb).next = 0 ∨ (s.hdr (s.hdr fb).next).is_free = false)
    (hq : (s.hdr fb).prev = 0 ∨
      ((s.hdr fb).prev < fb ∧ (s.hdr (s.hdr fb).prev).is_free = false))
    (hc1 : s.heap_blocks_list.blocks_count_FREE < W)
    (hc2 : s.heap_blocks_list.bytes_count_FREE < W)
    (hc3 : s.heap_blocks_list.blocks_count_TOTAL < W) :
    (HeapBlocksList.releaseUsedBlock (fb + sizeofMallocMetadata)
      (useFreeBlock fb n s).2).heap_blocks_list.blocks_count_FREE
      = s.heap_blocks_list.blocks_count_FREE ∧
    (HeapBlocksList.releaseUsedBlock (fb + sizeofMallocMetadata)
      (useFreeBlock fb n s).2).heap_blocks_list.bytes_count_FREE
      = s.heap_blocks_list.bytes_count_FREE ∧
    (HeapBlocksList.releaseUsedBlock (fb + sizeofMallocMetadata)
      (useFreeBlock fb n s).2).heap_blocks_list.blocks_count_TOTAL
      = s.heap_blocks_list.blocks_count_TOTAL ∧
    (HeapBlocksList.releaseUsedBlock (fb + sizeofMallocMetadata)
      (useFreeBlock fb n s).2).mmapped_blocks = s.mmapped_blocks ∧
    ((if sub64 (s.hdr fb).size_TOTAL_PAYLOAD n > sizeofMallocMetadata then
        sub64 (sub64 (s.hdr fb).size_TOTAL_PAYLOAD n) sizeofMallocMetadata else 0)
        ≥ SPLITTING_THRESHOLD →
      HeapBlocksList.releaseUsedBlock (fb + sizeofMallocMetadata) (useFreeBlock fb n s).2
        = combineFreeBlockWithSucc fb (useFreeBlock fb n s).2) := by
  unfold useFreeBlock
  simp only []
  generalize (if sub64 (s.hdr fb).size_TOTAL_PAYLOAD n > sizeofMallocMetadata then
      sub64 (sub64 (s.hdr fb).size_TOTAL_PAYLOAD n) sizeofMallocMetadata else 0) = r
  by_cases hr : r < SPLITTING_THRESHOLD
  · rw [if_pos hr]
    have hq2 : (s.hdr fb).prev = 0 ∨ (s.hdr (s.hdr fb).prev).is_free = false := by
      rcases hq with h | ⟨_, h⟩
      · exact Or.inl h
      · exact Or.inr h
    obtain ⟨_, a1, a2, a3, a4⟩ := roundtrip_without_split fb n s hfree hs hq2 hc1 hc2
    exact ⟨a1, a2, a3, a4, fun h => absurd hr (by omega)⟩
  · rw [if_neg hr]
    obtain ⟨a0, a1, a2, a3, a4⟩ := roundtrip_with_split fb n r s hfb hfree hs hq hc2 hc3
    exact ⟨a1, a2, a3, a4, fun _ => a0⟩

theorem roundtrip_wilderness (os : OS) (n : Nat) (s : State)
    (hp : (useWildernessBlock os n s).1 ≠ 0)
    (hfree : (s.hdr s.tail).is_free = true)
    (hs : (s.hdr s.tail).next = 0 ∨ (s.hdr (s.hdr s.tail).next).is_free = false)
    (hq : (s.hdr s.tail).prev = 0 ∨ (s.hdr (s.hdr s.tail).prev).is_free = false)
    (hc1 : s.heap_blocks_list.blocks_count_FREE < W) :
    (HeapBlocksList.releaseUsedBlock (useWildernessBlock os n s).1
      (useWildernessBlock os n s).2).heap_blocks_list.blocks_count_FREE
      = s.heap_blocks_list.blocks_count_FREE ∧
    (HeapBlocksList.releaseUsedBlock (useWildernessBlock os n s).1
      (useWildernessBlock os n s).2).heap_blocks_list.bytes_count_FREE
      = add64 (sub64 s.heap_blocks_list.bytes_count_FREE (s.hdr s.tail).size_TOTAL_PAYLOAD) n ∧
    (HeapBlocksList.releaseUsedBlock (useWildernessBlock os n s).1
      (useWildernessBlock os n s).2).heap_blocks_list.blocks_count_TOTAL
      = s.heap_blocks_list.blocks_count_TOTAL ∧
    (HeapBlocksList.releaseUsedBlock (useWildernessBlock os n s).1
      (useWildernessBlock os n s).2).mmapped_blocks = s.mmapped_blocks := by
  obtain ⟨v1, v2, v3, v4, v5, v6, v7⟩ := useWildernessBlock_view os n s hp
  obtain ⟨w0, w1, w2, _⟩ := useWildernessBlock_hdr os n s hp
  have hm : metadataOf (useWildernessBlock os n s).1 = s.tail := by
    rw [w0]; unfold metadataOf; omega
  have hne : ∀ x, (s.hdr x).is_free = false → x ≠ s.tail := by
    intro x hx hxe
    rw [hxe, hfree] at hx
    exact absurd hx (by decide)
  have hR : HeapBlocksList.releaseUsedBlock (useWildernessBlock os n s).1
      (useWildernessBlock os n s).2
      = freeBlockWithoutCombining s.tail (useWildernessBlock os n s).2 := by
    have := releaseUsedBlock_without_combining (useWildernessBlock os n s).1
      (useWildernessBlock os n s).2
    rw [hm] at this
    apply this w1
    · rw [v1]
      rcases hs with h | h
      · exact Or.inl h
      · exact Or.inr (by rw [v3 _ (hne _ h)]; exact h)
    · rw [v2]
      rcases hq with h | h
      · exact Or.inl h
      · exact Or.inr (by rw [v3 _ (hne _ h)]; exact h)
  obtain ⟨c1, c2, c3, c4⟩ := freeBlockWithoutCombining_counters s.tail
    (useWildernessBlock os n s).2
  refine ⟨?_, ?_, ?_, ?_⟩
  · rw [hR, c1, v4]; exact add64_sub64_cancel _ _ hc1
  · rw [hR, c2, v5, w2]
  · rw [hR, c3, v6]
  · rw [hR, c4, v7]

theorem createNewBlock_view (os : OS) (n : Nat) (s s1 : State) (p : Nat)
    (h : createNewBlock os n s = some (p, s1)) (hp : p ≠ 0)
    (ht : s.tail = 0 ∨ (s.hdr s.tail).is_free = false) :
    ((s1.hdr (p - sizeofMallocMetadata)).next = 0 ∨
      (s1.hdr (s1.hdr (p - sizeofMallocMetadata)).next).is_free = false) ∧
    ((s1.hdr (p - sizeofMallocMetadata)).prev = 0 ∨
      (s1.hdr (s1.hdr (p - sizeofMallocMetadata)).prev).is_free = false) ∧
    s1.heap_blocks_list.blocks_count_FREE = s.heap_blocks_list.blocks_count_FREE ∧
    s1.heap_blocks_list.bytes_count_FREE = s.heap_blocks_list.bytes_count_FREE ∧
    s1.heap_blocks_list.blocks_count_TOTAL = add64 s.heap_blocks_list.blocks_count_TOTAL 1 ∧
    s1.mmapped_blocks = s.mmapped_blocks := by
  unfold createNewBlock at h
  simp only [] at h
  split at h
  · simp at h; omega
  · split at h
    · simp only [Option.some.injEq, Prod.mk.injEq] at h
      obtain ⟨h1, h2⟩ := h
      subst h1 h2
      simp only [getPayloadBlockAddr, Nat.add_sub_cancel]
      refine ⟨?_, ?_, ?_, ?_, ?_, ?_⟩
      · left; simp [setNewBlockMetaData]
      · simp [setNewBlockMetaData, sbrk_tail, sbrk_hdr]
        rcases ht with ht | ht
        · exact Or.inl ht
        · exact Or.inr (fun _ => ht)
      · simp [setNewBlockMetaData, sbrk_heap_blocks_list]
      · simp [setNewBlockMetaData, sbrk_heap_blocks_list]
      · simp [setNewBlockMetaData, sbrk_heap_blocks_list]
      · simp [setNewBlockMetaData, sbrk_mmapped_blocks]
    · split at h
      · simp at h
      · simp only [Option.some.injEq, Prod.mk.injEq] at h
        obtain ⟨h1, h2⟩ := h
        subst h1 h2
        simp only [getPayloadBlockAddr, Nat.add_sub_cancel]
        refine ⟨?_, ?_, ?_, ?_, ?_, ?_⟩
        · simp [setNewBlockMetaData, sbrk_tail, sbrk_hdr]
          by_cases hnb : (sbrk os 0 s).1 = s.tail
          · exact Or.inr (fun hc => absurd hnb hc)
          · exact Or.inl (fun hc => absurd hc hnb)
        · simp [setNewBlockMetaData, sbrk_tail, sbrk_hdr]
          rcases ht with ht | ht
          · exact Or.inl ht
          · exact Or.inr (fun _ => ht)
        · simp [setNewBlockMetaData, sbrk_heap_blocks_list]
        · simp [setNewBlockMetaData, sbrk_heap_blocks_list]
        · simp [setNewBlockMetaData, sbrk_heap_blocks_list]
        · simp [setNewBlockMetaData, sbrk_mmapped_blocks]

theorem roundtrip_new_block (os : OS) (n : Nat) (s s1 : State) (p : Nat)
    (h : createNewBlock os n s = some (p, s1)) (hp : p ≠ 0)
    (ht : s.tail = 0 ∨ (s.hdr s.tail).is_free = false) :
    (HeapBlocksList.releaseUsedBlock p s1).heap_blocks_list.blocks_count_FREE
      = add64 s.heap_blocks_list.blocks_count_FREE 1 ∧
    (HeapBlocksList.releaseUsedBlock p s1).heap_blocks_list.bytes_count_FREE
      = add64 s.heap_blocks_list.bytes_count_FREE n ∧
    (HeapBlocksList.releaseUsedBlock p s1).heap_blocks_list.blocks_count_TOTAL
      = add64 s.heap_blocks_list.blocks_count_TOTAL 1 ∧
    (HeapBlocksList.releaseUsedBlock p s1).mmapped_blocks = s.mmapped_blocks := by
  obtain ⟨v1, v2, v3, v4, v5, v6⟩ := createNewBlock_view os n s s1 p h hp ht
  obtain ⟨w1, w2, _⟩ := createNewBlock_hdr os n s s1 p h hp
  have hR := releaseUsedBlock_without_combining p s1 w1 v1 v2
  obtain ⟨c1, c2, c3, c4⟩ := freeBlockWithoutCombining_counters (metadataOf p) s1
  have hw2 : (s1.hdr (metadataOf p)).size_TOTAL_PAYLOAD = n := w2
  refine ⟨?_, ?_, ?_, ?_⟩
  · rw [hR, c1, v3]
  · rw [hR, c2, v4, hw2]
  · rw [hR, c3, v5]
  · rw [hR, c4, v6]

theorem num_counters (t : State) :
    _num_free_blocks t = t.heap_blocks_list.blocks_count_FREE ∧
    _num_free_bytes t = t.heap_blocks_list.bytes_count_FREE ∧
    _num_allocated_blocks t
      = add64 t.heap_blocks_list.blocks_count_TOTAL t.mmapped_blocks.total_blocks_count :=
  ⟨rfl, rfl, rfl⟩

theorem sfree_of_heap_block (p n : Nat) (t : State) (hp : p ≠ 0)
    (hact : (t.hdr (metadataOf p)).size_ACTIVE_PAYLOAD = n) (hn : n ≤ 131071) :
    sfree p t = HeapBlocksList.releaseUsedBlock p t := by
  unfold sfree
  rw [if_neg hp]
  unfold MemoryManager.releaseUsedBlock
  simp only []
  rw [hact, if_pos (by simp only [KB]; omega)]

/-- The counters after `p = smalloc(n)` and `sfree(p)`, on a list in which no free block
has a free neighbour and the predecessor of a free block lies below it. -/
theorem smalloc_then_sfree_counters_of_neighbours (fuel : Nat) (os : OS) (n : Nat) (s s1 : State)
    (p fb : Nat) (l : List Nat) (hn1 : 1 ≤ n) (hn2 : n ≤ 131071)
    (hl : heapList fuel s = some l) (htail : s.tail = 0 ∨ s.tail ∈ l)
    (hadj : ∀ b ∈ l, (s.hdr b).is_free = true →
      ((s.hdr b).next = 0 ∨ (s.hdr (s.hdr b).next).is_free = false) ∧
      ((s.hdr b).prev = 0 ∨
        ((s.hdr b).prev < b ∧ (s.hdr (s.hdr b).prev).is_free = false)))
    (hc1 : s.heap_blocks_list.blocks_count_FREE < W)
    (hc2 : s.heap_blocks_list.bytes_count_FREE < W)
    (hc3 : s.heap_blocks_list.blocks_count_TOTAL < W)
    (hfind : findFreeBlock fuel n s = some fb)
    (h : smalloc fuel os n s = some (p, s1)) (hp : p ≠ 0) :
    ((_num_free_blocks (sfree p s1) = _num_free_blocks s ∧
      _num_free_bytes (sfree p s1) = _num_free_bytes s) ↔ fb ≠ 0) ∧
    (fb ≠ 0 → _num_allocated_blocks (sfree p s1) = _num_allocated_blocks s) ∧
    (fb ≠ 0 →
      (if sub64 (s.hdr fb).size_TOTAL_PAYLOAD n > sizeofMallocMetadata then
        sub64 (sub64 (s.hdr fb).size_TOTAL_PAYLOAD n) sizeofMallocMetadata else 0)
        ≥ SPLITTING_THRESHOLD →
      sfree p s1 = combineFreeBlockWithSucc fb s1) ∧
    (fb = 0 → s.tail ≠ 0 → (s.hdr s.tail).is_free = true →
      (s.hdr s.tail).size_TOTAL_PAYLOAD < n ∧
      _num_free_blocks (sfree p s1) = _num_free_blocks s ∧
      _num_free_bytes (sfree p s1)
        = add64 (sub64 (_num_free_bytes s) (s.hdr s.tail).size_TOTAL_PAYLOAD) n ∧
      _num_allocated_blocks (sfree p s1) = _num_allocated_blocks s) ∧
    (fb = 0 → (s.tail = 0 ∨ (s.hdr s.tail).is_free = false) →
      _num_free_blocks (sfree p s1) = add64 (_num_free_blocks s) 1 ∧
      _num_free_bytes (sfree p s1) = add64 (_num_free_bytes s) n ∧
      _num_allocated_blocks (sfree p s1) = add64 (_num_allocated_blocks s) 1) := by
  have hv : ¬ (n = 0 ∨ n > maxSize) := by simp only [maxSize]; omega
  have hk : ¬ n ≥ 128 * KB := by simp only [KB]; omega
  have hA : allocateBlock fuel os n s = some (p, s1) := by
    unfold smalloc at h
    rw [if_neg hv] at h
    unfold MemoryManager.allocateBlock at h
    rw [if_neg hk] at h
    exact h
  obtain ⟨_, _, hact⟩ := smalloc_block_hdr fuel os n s s1 p (by omega) h hp
  have hS := sfree_of_heap_block p n s1 hp hact hn2
  obtain ⟨fb1, hf1, hcase⟩ := findFreeBlockLoop_first_fit s.mem n fuel s.head l hl
  have hfe : fb1 = fb := by
    unfold findFreeBlock at hfind
    rw [hf1] at hfind
    exact Option.some.inj hfind
  subst hfe
  obtain ⟨k1, k2, k3⟩ := num_counters s
  obtain ⟨j1, j2, j3⟩ := num_counters (sfree p s1)
  rw [k1, k2, k3, j1, j2, j3, hS]
  unfold allocateBlock at hA
  rw [hfind] at hA
  simp only [] at hA
  by_cases hfb : fb1 = 0
  · -- no block fits
    have hnone : ∀ b ∈ l, ¬ ((s.hdr b).is_free = true ∧ n ≤ (s.hdr b).size_TOTAL_PAYLOAD) := by
      rcases hcase with ⟨_, hnone⟩ | ⟨h0, _⟩
      · exact hnone
      · exact absurd hfb h0
    by_cases hw : s.tail ≠ 0 ∧ (s.hdr s.tail).is_free = true
    · rw [if_pos ⟨hfb, hw.1, hw.2⟩] at hA
      simp only [Option.some.injEq] at hA
      have e0 : (useWildernessBlock os n s).1 = p := by rw [hA]
      have e1 : (useWildernessBlock os n s).2 = s1 := by rw [hA]
      have hmem : s.tail ∈ l := by
        rcases htail with ht | ht
        · exact absurd ht hw.1
        · exact ht
      obtain ⟨a1, a2⟩ := hadj _ hmem hw.2
      have a2b : (s.hdr s.tail).prev = 0 ∨ (s.hdr (s.hdr s.tail).prev).is_free = false := by
        rcases a2 with h | ⟨_, h⟩
        · exact Or.inl h
        · exact Or.inr h
      have hlt : (s.hdr s.tail).size_TOTAL_PAYLOAD < n := by
        have := hnone _ hmem
        by_contra hge
        exact this ⟨hw.2, by omega⟩
      obtain ⟨b1, b2, b3, b4⟩ := roundtrip_wilderness os n s (by rw [e0]; exact hp)
        hw.2 a1 a2b hc1
      rw [e0, e1] at b1 b2 b3 b4
      refine ⟨?_, fun hc => absurd hfb hc, fun hc => absurd hfb hc, ?_, ?_⟩
      · constructor
        · intro ⟨_, hb⟩
          rw [b2] at hb
          simp only [add64, sub64, W] at hb hc2
          omega
        · intro hc; exact absurd hfb hc
      · intro _ _ _
        exact ⟨hlt, b1, b2, by rw [b3, b4]⟩
      · intro _ hc
        rcases hc with hc | hc
        · exact absurd hc hw.1
        · rw [hw.2] at hc; exact absurd hc (by decide)
    · rw [if_neg (fun hc => hw ⟨hc.2.1, hc.2.2⟩), if_pos hfb] at hA
      have ht : s.tail = 0 ∨ (s.hdr s.tail).is_free = false := by
        by_cases h0 : s.tail = 0
        · exact Or.inl h0
        · refine Or.inr ?_
          cases hf : (s.hdr s.tail).is_free with
          | false => rfl
          | true => exact absurd ⟨h0, hf⟩ hw
      obtain ⟨b1, b2, b3, b4⟩ := roundtrip_new_block os n s s1 p hA hp ht
      refine ⟨?_, fun hc => absurd hfb hc, fun hc => absurd hfb hc, ?_, ?_⟩
      · constructor
        · intro ⟨hb, _⟩
          rw [b1] at hb
          exact absurd hb (add64_ne_self _ 1 (by decide) (by decide))
        · intro hc; exact absurd hfb hc
      · intro _ h1 h2
        exact absurd ⟨h1, h2⟩ hw
      · intro _ _
        refine ⟨b1, b2, ?_⟩
        rw [b3, b4]
        simp only [add64, W]
        omega
  · -- a block is reused
    have hfit : ((s.hdr fb1).is_free = true ∧ n ≤ (s.hdr fb1).size_TOTAL_PAYLOAD) ∧ fb1 ∈ l := by
      rcases hcase with ⟨h0, _⟩ | ⟨_, la, lb, hlab, hfit, _⟩
      · exact absurd h0 hfb
      · exact ⟨hfit, by rw [hlab]; simp⟩
    rw [if_neg (fun hc => hfb hc.1), if_neg hfb] at hA
    simp only [Option.some.injEq] at hA
    have e0 : fb1 + sizeofMallocMetadata = p := by
      have : (useFreeBlock fb1 n s).1 = p := by rw [hA]
      exact this
    have e1 : (useFreeBlock fb1 n s).2 = s1 := by rw [hA]
    obtain ⟨a1, a2⟩ := hadj _ hfit.2 hfit.1.1
    obtain ⟨b1, b2, b3, b4, b5⟩ := roundtrip_reuse fb1 n s hfb hfit.1.1 a1 a2 hc1 hc2 hc3
    rw [e0, e1] at b1 b2 b3 b4 b5
    refine ⟨?_, ?_, ?_, fun hc => absurd hc hfb, fun hc => absurd hc hfb⟩
    · exact ⟨fun _ => hfb, fun _ => ⟨b1, b2⟩⟩
    · intro _; rw [b3, b4]
    · intro _ hr; exact b5 hr

/-- C19 on the code, two runs.  From the empty allocator, `p = smalloc(100)` makes a new
block, with no free tail to extend, and `sfree(p)` has no neighbour to merge with:
free blocks and free bytes go from `0, 0` to `1, 100`.  After `a = smalloc(1000)`,
`c = smalloc(10)`, `sfree(a)`, the call `p = smalloc(100)` splits the free block into
three blocks in all and `sfree(p)` merges the block with the remainder, two blocks in
all: free blocks and free bytes are `1, 1000` before and after. -/
theorem counters_after_smalloc_then_sfree :
    heapList 4 s0 = some [] ∧ reportedCounters s0 = (0, 0, 0) ∧
    (allocThenFree 4 os0 100 s0).map (fun r => r.1) = some 4096040 ∧
    (allocThenFree 4 os0 100 s0).map (fun r =>
      (heapList 4 r.2.1).map (fun l => l.map (blockView r.2.1)))
      = some (some [(4096000, 100, 100, false)]) ∧
    (allocThenFree 4 os0 100 s0).map (fun r =>
      (heapList 4 r.2.2).map (fun l => l.map (blockView r.2.2)))
      = some (some [(4096000, 100, 0, true)]) ∧
    (allocThenFree 4 os0 100 s0).map (fun r => reportedCounters r.2.2) = some (1, 100, 1) ∧
    (heapList 4 beforeSplitReuse).map (fun l => l.map (blockView beforeSplitReuse))
      = some [(4096000, 1000, 0, true), (4097040, 10, 10, false)] ∧
    reportedCounters beforeSplitReuse = (1, 1000, 2) ∧
    (allocThenFree 4 os0 100 beforeSplitReuse).map (fun r => r.1) = some 4096040 ∧
    (allocThenFree 4 os0 100 beforeSplitReuse).map (fun r =>
      (heapList 4 r.2.1).map (fun l => l.map (blockView r.2.1)))
      = some (some [(4096000, 100, 100, false), (4096140, 860, 0, true),
          (4097040, 10, 10, false)]) ∧
    (allocThenFree 4 os0 100 beforeSplitReuse).map (fun r =>
      (heapList 4 r.2.2).map (fun l => l.map (blockView r.2.2)))
      = some (some [(4096000, 1000, 0, true), (4097040, 10, 10, false)]) ∧
    (allocThenFree 4 os0 100 beforeSplitReuse).map (fun r => reportedCounters r.2.2)
      = some (1, 1000, 2) := by
  refine ⟨?_, ?_, ?_, ?_, ?_, ?_, ?_, ?_, ?_, ?_, ?_, ?_⟩ <;> decide!

end Malloc3

/-! ## Runs of `srealloc` that leave the stated results -/

namespace Malloc3
open HeapBlocksList

/-- C28 on the code: after `a = smalloc(100)`, `b = smalloc(1000)`, `c = smalloc(10)` and
`sfree(b)`, the block of `a` has `100` bytes and is not the tail, it has no predecessor
and its free successor has `1000` bytes; `srealloc(a, 200)` is served by the successor
alone and returns `a`.  A remainder of `900` bytes is split off at `4096240`, and the
block of `a` keeps `total_payload = 1140`: the two blocks and the header between them
add up to `1140 + 40 + 900 = 2080` bytes, where the blocks merged had
`100 + 40 + 1000 = 1140`.  Without a split, after `smalloc(100)`, `b = smalloc(100)`,
`sfree(b)`, the call `srealloc(a, 180)` leaves one live block of `240` bytes. -/
theorem bytes_after_absorbing_the_successor_with_a_split :
    beforeGrowIntoSucc.map (fun r => (r.1, r.2.tail, (r.2.hdr (metadataOf r.1)).prev,
      canReallocateUsingPredOnly (metadataOf r.1) 200 r.2,
      canReallocateUsingSuccOnly (metadataOf r.1) 200 r.2))
      = some (4096040, 4097180, 0, false, true) ∧
    beforeGrowIntoSucc.map (fun r => (heapList 8 r.2).map (fun l => l.map (blockView r.2)))
      = some (some [(4096000, 100, 100, false), (4096140, 1000, 0, true),
          (4097180, 10, 10, false)]) ∧
    (beforeGrowIntoSucc.bind (fun r => srealloc 4 os0 r.1 200 r.2)).map (fun q => q.1)
      = some 4096040 ∧
    (beforeGrowIntoSucc.bind (fun r => srealloc 4 os0 r.1 200 r.2)).map (fun q =>
      (heapList 8 q.2).map (fun l => l.map (blockView q.2)))
      = some (some [(4096000, 1140, 200, false), (4096240, 900, 0, true),
          (4097180, 10, 10, false)]) ∧
    (beforeGrowIntoSucc.bind (fun r => srealloc 4 os0 r.1 200 r.2)).map (fun q =>
      (q.2.hdr 4096000).size_TOTAL_PAYLOAD + sizeofMallocMetadata
        + (q.2.hdr 4096240).size_TOTAL_PAYLOAD)
      = some 2080 ∧
    (beforeAbsorbOfTail.bind (fun r => srealloc 4 os0 r.1 180 r.2)).map (fun q => q.1)
      = some 4096040 ∧
    (beforeAbsorbOfTail.bind (fun r => srealloc 4 os0 r.1 180 r.2)).map (fun q =>
      (heapList 8 q.2).map (fun l => l.map (blockView q.2)))
      = some (some [(4096000, 240, 180, false)]) := by
  refine ⟨?_, ?_, ?_, ?_, ?_, ?_, ?_⟩ <;> decide!

/-- C29 on the code: after `a = smalloc(100)`, `x = smalloc(10)`, `t = smalloc(50)` and
`sfree(t)`, the block of `a` is not the tail, no neighbour of it is free and no free
block has `500` bytes, so `srealloc(a, 500)` relocates: it returns the payload of a
new block made after the free tail, and leaves 4 blocks, 2 of them free, with 150
free bytes.  `smalloc(500)` followed by `sfree(a)` from the same state extends the
free tail instead: it returns the payload of the tail and leaves 3 blocks, 1 of them
free, with 100 free bytes. -/
theorem relocation_does_not_extend_the_free_tail :
    beforeRelocation.map (fun r => (r.1, r.2.tail,
      (r.2.hdr (metadataOf r.1)).size_TOTAL_PAYLOAD,
      canReallocateUsingPredOrSucc (metadataOf r.1) 500 r.2, findFreeBlock 4 500 r.2))
      = some (4096040, 4096190, 100, false, some 0) ∧
    beforeRelocation.map (fun r => (heapList 8 r.2).map (fun l => l.map (blockView r.2)))
      = some (some [(4096000, 100, 100, false), (4096140, 10, 10, false),
          (4096190, 50, 0, true)]) ∧
    (beforeRelocation.bind (fun r => srealloc 4 os0 r.1 500 r.2)).map (fun q => q.1)
      = some 4096320 ∧
    (beforeRelocation.bind (fun r => srealloc 4 os0 r.1 500 r.2)).map (fun q =>
      (heapList 8 q.2).map (fun l => l.map (blockView q.2)))
      = some (some [(4096000, 100, 0, true), (4096140, 10, 10, false),
          (4096190, 50, 0, true), (4096280, 500, 500, false)]) ∧
    (beforeRelocation.bind (fun r => srealloc 4 os0 r.1 500 r.2)).map (fun q =>
      heapCounters q.2) = some (2, 4, 150, 820) ∧
    (beforeRelocation.bind (fun r => smalloc 4 os0 500 r.2)).map (fun q => q.1)
      = some 4096230 ∧
    (beforeRelocation.bind (fun r => (smalloc 4 os0 500 r.2).map (fun q => sfree r.1 q.2))).map
      (fun t => (heapList 8 t).map (fun l => l.map (blockView t)))
      = some (some [(4096000, 100, 0, true), (4096140, 10, 10, false),
          (4096190, 500, 500, false)]) ∧
    (beforeRelocation.bind (fun r => (smalloc 4 os0 500 r.2).map (fun q => sfree r.1 q.2))).map
      heapCounters = some (1, 3, 100, 730) := by
  refine ⟨?_, ?_, ?_, ?_, ?_, ?_, ?_, ?_⟩ <;> decide!

theorem findFreeBlockLoop_self_loop (m : Memory) (n a : Nat) (ha : a ≠ 0)
    (hnext : (m.hdr a).next = a)
    (hfit : ¬ ((m.hdr a).is_free = true ∧ (m.hdr a).size_TOTAL_PAYLOAD ≥ n)) :
    ∀ fuel, findFreeBlockLoop m n fuel a = none := by
  intro fuel
  induction fuel with
  | zero => unfold findFreeBlockLoop; rw [if_neg ha]
  | succ k ih =>
    unfold findFreeBlockLoop
    rw [if_neg ha, if_neg hfit, hnext]
    exact ih

theorem heapListFrom_self_loop (m : Memory) (a : Nat) (ha : a ≠ 0)
    (hnext : (m.hdr a).next = a) : ∀ fuel, heapListFrom m fuel a = none := by
  intro fuel
  induction fuel with
  | zero => unfold heapListFrom; rw [if_neg ha]
  | succ k ih =>
    unfold heapListFrom
    rw [if_neg ha, hnext, ih]
    rfl

/-- C30 on the code: after `a = smalloc(1000)`, `b = smalloc(500)`, `c = smalloc(10)`,
`sfree(a)`, `q = srealloc(b, 1100)` and `srealloc(q, 1100)`, the head of the list is the
live block at `4096000`, its successor is the free block of `400` bytes at `4097140`,
and the `next` pointer of that block is `4097140` again.  Following `next` from `head`
never reaches `NULL`: whatever the number of steps allowed, the walk of the list,
`findFreeBlock(500)` and `smalloc(500)` do not return. -/
theorem next_pointer_cycle_after_resize_twice (fuel : Nat) (os : OS) :
    afterResizeTwice.head = 4096000 ∧
    (afterResizeTwice.hdr 4096000).next = 4097140 ∧
    (afterResizeTwice.hdr 4097140).next = 4097140 ∧
    heapList fuel afterResizeTwice = none ∧
    findFreeBlock fuel 500 afterResizeTwice = none ∧
    smalloc fuel os 500 afterResizeTwice = none := by
  have h1 : afterResizeTwice.head = 4096000 := by decide!
  have h2 : (afterResizeTwice.mem.hdr 4096000).next = 4097140 := by decide!
  have h3 : (afterResizeTwice.mem.hdr 4097140).next = 4097140 := by decide!
  have h4 : (afterResizeTwice.mem.hdr 4096000).is_free = false := by decide!
  have h5 : (afterResizeTwice.mem.hdr 4097140).size_TOTAL_PAYLOAD = 400 := by decide!
  have hloop := findFreeBlockLoop_self_loop afterResizeTwice.mem 500 4097140 (by decide) h3
    (by rw [h5]; omega)
  have hlist := heapListFrom_self_loop afterResizeTwice.mem 4097140 (by decide) h3
  have hfind : findFreeBlock fuel 500 afterResizeTwice = none := by
    unfold findFreeBlock
    rw [h1]
    cases fuel with
    | zero => unfold findFreeBlockLoop; rw [if_neg (by decide)]
    | succ k =>
      unfold findFreeBlockLoop
      rw [if_neg (by decide), if_neg (by rw [h4]; simp), h2]
      exact hloop k
  refine ⟨h1, h2, h3, ?_, hfind, ?_⟩
  · unfold heapList
    rw [h1]
    cases fuel with
    | zero => unfold heapListFrom; rw [if_neg (by decide)]
    | succ k =>
      unfold heapListFrom
      rw [if_neg (by decide), h2, hlist k]
      rfl
  · unfold smalloc
    rw [if_neg (by simp only [maxSize]; omega)]
    unfold MemoryManager.allocateBlock
    rw [if_neg (by simp only [KB]; omega)]
    unfold HeapBlocksList.allocateBlock
    rw [hfind]

end Malloc3

/-! ## Extension of the free tail by `smalloc` -/

namespace Malloc3
open HeapBlocksList

theorem sbrk_granted (os : OS) (d : Nat) (s : State) (hd : d ≠ 0) (hok : os.sbrk_ok d = true) :
    (sbrk os d s).1 = s.brk ∧ (sbrk os d s).2.brk = (s.brk + d) % W := by
  unfold sbrk
  rw [if_neg hd, if_pos hok]
  exact ⟨rfl, rfl⟩

theorem sub64_small (a b : Nat) (hb : b ≤ a) (ha : a < W) : sub64 a b = a - b := by
  simp only [sub64, W] at ha ⊢
  omega

theorem num_allocated_bytes_eq (t : State) :
    _num_allocated_bytes t
      = sub64 (add64 t.heap_blocks_list.bytes_count_TOTAL t.mmapped_blocks.total_bytes_count)
          (mul64 (add64 t.heap_blocks_list.blocks_count_TOTAL
            t.mmapped_blocks.total_blocks_count) sizeofMallocMetadata) :=
  Eq.trans rfl rfl

theorem useWildernessBlock_granted (os : OS) (n : Nat) (s : State)
    (hlt : (s.hdr s.tail).size_TOTAL_PAYLOAD < n) (hn : n < W)
    (hb : s.brk ≠ voidMinusOne)
    (hok : os.sbrk_ok (n - (s.hdr s.tail).size_TOTAL_PAYLOAD) = true) :
    (useWildernessBlock os n s).1 = s.tail + sizeofMallocMetadata ∧
    (useWildernessBlock os n s).2.brk
      = (s.brk + (n - (s.hdr s.tail).size_TOTAL_PAYLOAD)) % W ∧
    (useWildernessBlock os n s).2.heap_blocks_list.bytes_count_TOTAL
      = add64 s.heap_blocks_list.bytes_count_TOTAL
          (n - (s.hdr s.tail).size_TOTAL_PAYLOAD) := by
  have hd : sub64 n (s.hdr s.tail).size_TOTAL_PAYLOAD = n - (s.hdr s.tail).size_TOTAL_PAYLOAD :=
    sub64_small _ _ (by omega) hn
  have hd0 : n - (s.hdr s.tail).size_TOTAL_PAYLOAD ≠ 0 := by omega
  obtain ⟨g1, g2⟩ := sbrk_granted os _ s hd0 hok
  unfold useWildernessBlock
  simp only []
  rw [hd, if_neg (by rw [g1]; exact hb)]
  refine ⟨rfl, ?_, ?_⟩
  · simp [g2]
  · simp [sbrk_heap_blocks_list]

/-- C22: when `findFreeBlock(n)` finds no block, the tail is free with
`total_payload = T < n` and `sbrk` grants `n - T` bytes, `smalloc(n)` with
`1 ≤ n ≤ 131071` returns the payload of the tail; the break has advanced by `n - T`,
the tail is live with `total_payload = active_payload = n`, the block count is as
before, the free-block count has lost `1`, the free bytes have lost `T`, and
`_num_allocated_bytes` has grown by `n - T`. -/
theorem smalloc_extends_free_tail (fuel : Nat) (os : OS) (n : Nat) (s : State)
    (hn1 : 1 ≤ n) (hn2 : n ≤ 131071)
    (hfind : findFreeBlock fuel n s = some 0)
    (ht : s.tail ≠ 0) (hfree : (s.hdr s.tail).is_free = true)
    (hT : (s.hdr s.tail).size_TOTAL_PAYLOAD < n)
    (hok : os.sbrk_ok (n - (s.hdr s.tail).size_TOTAL_PAYLOAD) = true)
    (hb : s.brk ≠ voidMinusOne) :
    ∃ s1, smalloc fuel os n s = some (s.tail + 40, s1) ∧
      s1.brk = (s.brk + (n - (s.hdr s.tail).size_TOTAL_PAYLOAD)) % W ∧
      (s.brk + (n - (s.hdr s.tail).size_TOTAL_PAYLOAD) < W →
        s1.brk = s.brk + (n - (s.hdr s.tail).size_TOTAL_PAYLOAD)) ∧
      s1.head = s.head ∧ s1.tail = s.tail ∧
      (s1.hdr s.tail).is_free = false ∧
      (s1.hdr s.tail).size_TOTAL_PAYLOAD = n ∧
      (s1.hdr s.tail).size_ACTIVE_PAYLOAD = n ∧
      _num_allocated_blocks s1 = _num_allocated_blocks s ∧
      _num_free_blocks s1 = sub64 (_num_free_blocks s) 1 ∧
      (1 ≤ _num_free_blocks s → _num_free_blocks s < W →
        _num_free_blocks s1 + 1 = _num_free_blocks s) ∧
      _num_free_bytes s1 = sub64 (_num_free_bytes s) (s.hdr s.tail).size_TOTAL_PAYLOAD ∧
      ((s.hdr s.tail).size_TOTAL_PAYLOAD ≤ _num_free_bytes s → _num_free_bytes s < W →
        _num_free_bytes s1 + (s.hdr s.tail).size_TOTAL_PAYLOAD = _num_free_bytes s) ∧
      _num_allocated_bytes s1
        = add64 (_num_allocated_bytes s) (n - (s.hdr s.tail).size_TOTAL_PAYLOAD) ∧
      (_num_allocated_bytes s + (n - (s.hdr s.tail).size_TOTAL_PAYLOAD) < W →
        _num_allocated_bytes s1
          = _num_allocated_bytes s + (n - (s.hdr s.tail).size_TOTAL_PAYLOAD)) := by
  have hv : ¬ (n = 0 ∨ n > maxSize) := by simp only [maxSize]; omega
  have hk : ¬ n ≥ 128 * KB := by simp only [KB]; omega
  have hnW : n < W := by simp only [W]; omega
  obtain ⟨g1, g2, g3⟩ := useWildernessBlock_granted os n s hT hnW hb hok
  have hp : (useWildernessBlock os n s).1 ≠ 0 := by
    rw [g1]; simp only [sizeofMallocMetadata]; omega
  obtain ⟨_, _, _, v4, v5, v6, v7⟩ := useWildernessBlock_view os n s hp
  obtain ⟨_, w1, w2, w3⟩ := useWildernessBlock_hdr os n s hp
  have hE : smalloc fuel os n s = some (s.tail + 40, (useWildernessBlock os n s).2) := by
    unfold smalloc
    rw [if_neg hv]
    unfold MemoryManager.allocateBlock
    rw [if_neg hk]
    unfold HeapBlocksList.allocateBlock
    rw [hfind]
    simp only []
    have g1b : (useWildernessBlock os n s).1 = s.tail + 40 := g1
    rw [if_pos ⟨trivial, ht, hfree⟩, ← g1b]
  obtain ⟨k1, k2, k3⟩ := num_counters s
  obtain ⟨j1, j2, j3⟩ := num_counters (useWildernessBlock os n s).2
  have hab := num_allocated_bytes_eq s
  have hab1 := num_allocated_bytes_eq (useWildernessBlock os n s).2
  rw [g3, v6, v7] at hab1
  have htl : (useWildernessBlock os n s).2.tail = s.tail := by
    unfold useWildernessBlock
    simp only []
    split
    · exact sbrk_tail os _ s
    · simp [sbrk_tail]
  have hhd : (useWildernessBlock os n s).2.head = s.head := by
    unfold useWildernessBlock
    simp only []
    split
    · exact sbrk_head os _ s
    · simp [sbrk_head]
  have hbytes : _num_allocated_bytes (useWildernessBlock os n s).2
      = add64 (_num_allocated_bytes s) (n - (s.hdr s.tail).size_TOTAL_PAYLOAD) := by
    rw [hab, hab1]
    generalize mul64 (add64 s.heap_blocks_list.blocks_count_TOTAL
      s.mmapped_blocks.total_blocks_count) sizeofMallocMetadata = md
    simp only [add64, sub64, W]
    omega
  refine ⟨(useWildernessBlock os n s).2, hE, g2, ?_, hhd, htl, w1, w2, w3, ?_, ?_, ?_, ?_, ?_,
    hbytes, ?_⟩
  · intro h; rw [g2]; exact Nat.mod_eq_of_lt h
  · rw [j3, k3, v6, v7]
  · rw [j1, k1, v4]
  · intro h1 h2
    rw [j1, k1, v4]
    rw [k1] at h1 h2
    simp only [sub64, W] at h2 ⊢
    omega
  · rw [j2, k2, v5]
  · intro h1 h2
    rw [j2, k2, v5]
    rw [k2] at h1 h2
    simp only [sub64, W] at h2 ⊢
    omega
  · intro h
    rw [hbytes]
    exact add64_small _ _ h

end Malloc3

/-! ## The split rule of `useFreeBlock` -/

namespace Malloc3
open HeapBlocksList

theorem remaining_payload_size_eq (c n : Nat) (hn : n ≤ c) (hc : c < W) :
    (if sub64 c n > sizeofMallocMetadata then sub64 (sub64 c n) sizeofMallocMetadata else 0)
      = if c - n > 40 then c - n - 40 else 0 := by
  have h1 : sub64 c n = c - n := sub64_small c n hn hc
  rw [h1]
  by_cases h : c - n > 40
  · have h2 : sub64 (c - n) sizeofMallocMetadata = c - n - 40 :=
      sub64_small _ _ (by simp only [sizeofMallocMetadata]; omega) (by omega)
    rw [h2]
    simp only [sizeofMallocMetadata]
  · simp only [sizeofMallocMetadata]
    rw [if_neg h, if_neg h]

theorem useFreeBlockWithSplit_remainder (fb n r : Nat) (s : State)
    (hnext : (s.hdr fb).next = 0 ∨ fb + sizeofMallocMetadata + n < (s.hdr fb).next) :
    ((useFreeBlockWithSplit fb n r s).hdr (fb + sizeofMallocMetadata + n)).size_TOTAL_PAYLOAD = r ∧
    ((useFreeBlockWithSplit fb n r s).hdr (fb + sizeofMallocMetadata + n)).size_ACTIVE_PAYLOAD = 0 ∧
    ((useFreeBlockWithSplit fb n r s).hdr (fb + sizeofMallocMetadata + n)).prev = fb ∧
    ((useFreeBlockWithSplit fb n r s).hdr (fb + sizeofMallocMetadata + n)).next
      = (s.hdr fb).next ∧
    ((s.hdr fb).next ≠ 0 →
      ((useFreeBlockWithSplit fb n r s).hdr (s.hdr fb).next).prev
        = fb + sizeofMallocMetadata + n) ∧
    (s.tail = fb → (useFreeBlockWithSplit fb n r s).tail = fb + sizeofMallocMetadata + n) ∧
    (s.tail ≠ fb → (useFreeBlockWithSplit fb n r s).tail = s.tail) ∧
    (useFreeBlockWithSplit fb n r s).head = s.head := by
  have hne : fb ≠ fb + sizeofMallocMetadata + n := by
    simp only [sizeofMallocMetadata]; omega
  have hne2 : fb + sizeofMallocMetadata + n ≠ fb := fun h => hne h.symm
  unfold useFreeBlockWithSplit updateMetaDataAfterFreeBlockSplit
  simp only []
  refine ⟨?_, ?_, ?_, ?_, ?_, ?_, ?_, ?_⟩
  · split <;> split <;> simp [hne, hne2]
  · split <;> split <;> simp [hne, hne2]
  · split <;> split <;> simp [hne, hne2]
  · split <;> split <;> simp [hne, hne2]
  · intro h0
    have hx : (s.hdr fb).next ≠ fb + sizeofMallocMetadata + n := by
      rcases hnext with h | h
      · exact absurd h h0
      · omega
    split <;> split <;> simp_all
  · intro ht
    split <;> split <;> simp_all
  · intro ht
    split <;> split <;> simp_all
  · split <;> split <;> simp

theorem useFreeBlockWithoutSplit_tail (fb n : Nat) (s : State) :
    (useFreeBlockWithoutSplit fb n s).tail = s.tail ∧
    (useFreeBlockWithoutSplit fb n s).head = s.head := by
  simp [useFreeBlockWithoutSplit]

end Malloc3
namespace Malloc3
open HeapBlocksList

/-- C21: `useFreeBlock` on a block `fb` of capacity `C` for a request `n ≤ C`, the
successor of `fb`, if any, lying after its payload.  If `C - n ≥ 40 + 128` the call is
`useFreeBlockWithSplit` with the remainder `C - n - 40`: `fb` is live with
`total_payload = active_payload = n`, its `next` is the new block at `fb + 40 + n`,
which is free with `total_payload = C - n - 40`, `active_payload = 0`, `prev = fb` and
the old successor as `next`, whose `prev` is the new block; the new block is the tail
if `fb` was; the block count is one more, the free-block count is as before, the free
bytes are `n + 40` less.  If `C - n < 40 + 128` the call is `useFreeBlockWithoutSplit`:
`fb` is live with `active_payload = n` and `total_payload = C`, links and tail are as
before, the free-block count is one less, the free bytes are `C` less and the block
count is as before.  In both cases the pointer returned is `fb + 40`. -/
theorem useFreeBlock_split_rule (fb n : Nat) (s : State) (hfb : fb ≠ 0)
    (hn : n ≤ (s.hdr fb).size_TOTAL_PAYLOAD) (hc : (s.hdr fb).size_TOTAL_PAYLOAD < W)
    (hnext : (s.hdr fb).next = 0 ∨
      fb + 40 + (s.hdr fb).size_TOTAL_PAYLOAD ≤ (s.hdr fb).next) :
    (useFreeBlock fb n s).1 = fb + 40 ∧
    ((s.hdr fb).size_TOTAL_PAYLOAD - n ≥ 40 + 128 →
      (useFreeBlock fb n s).2
        = useFreeBlockWithSplit fb n ((s.hdr fb).size_TOTAL_PAYLOAD - n - 40) s ∧
      ((useFreeBlock fb n s).2.hdr fb).is_free = false ∧
      ((useFreeBlock fb n s).2.hdr fb).size_TOTAL_PAYLOAD = n ∧
      ((useFreeBlock fb n s).2.hdr fb).size_ACTIVE_PAYLOAD = n ∧
      ((useFreeBlock fb n s).2.hdr fb).next = fb + 40 + n ∧
      ((useFreeBlock fb n s).2.hdr fb).prev = (s.hdr fb).prev ∧
      ((useFreeBlock fb n s).2.hdr (fb + 40 + n)).is_free = true ∧
      ((useFreeBlock fb n s).2.hdr (fb + 40 + n)).size_TOTAL_PAYLOAD
        = (s.hdr fb).size_TOTAL_PAYLOAD - n - 40 ∧
      ((useFreeBlock fb n s).2.hdr (fb + 40 + n)).size_ACTIVE_PAYLOAD = 0 ∧
      ((useFreeBlock fb n s).2.hdr (fb + 40 + n)).prev = fb ∧
      ((useFreeBlock fb n s).2.hdr (fb + 40 + n)).next = (s.hdr fb).next ∧
      ((s.hdr fb).next ≠ 0 →
        ((useFreeBlock fb n s).2.hdr (s.hdr fb).next).prev = fb + 40 + n) ∧
      (s.tail = fb → (useFreeBlock fb n s).2.tail = fb + 40 + n) ∧
      (s.tail ≠ fb → (useFreeBlock fb n s).2.tail = s.tail) ∧
      (useFreeBlock fb n s).2.head = s.head ∧
      (useFreeBlock fb n s).2.heap_blocks_list.blocks_count_TOTAL
        = add64 s.heap_blocks_list.blocks_count_TOTAL 1 ∧
      (s.heap_blocks_list.blocks_count_TOTAL + 1 < W →
        (useFreeBlock fb n s).2.heap_blocks_list.blocks_count_TOTAL
          = s.heap_blocks_list.blocks_count_TOTAL + 1) ∧
      (useFreeBlock fb n s).2.heap_blocks_list.blocks_count_FREE
        = s.heap_blocks_list.blocks_count_FREE ∧
      (useFreeBlock fb n s).2.heap_blocks_list.bytes_count_FREE
        = sub64 s.heap_blocks_list.bytes_count_FREE (n + 40) ∧
      (n + 40 ≤ s.heap_blocks_list.bytes_count_FREE → s.heap_blocks_list.bytes_count_FREE < W →
        (useFreeBlock fb n s).2.heap_blocks_list.bytes_count_FREE + (n + 40)
          = s.heap_blocks_list.bytes_count_FREE) ∧
      (useFreeBlock fb n s).2.heap_blocks_list.bytes_count_TOTAL
        = s.heap_blocks_list.bytes_count_TOTAL) ∧
    ((s.hdr fb).size_TOTAL_PAYLOAD - n < 40 + 128 →
      (useFreeBlock fb n s).2 = useFreeBlockWithoutSplit fb n s ∧
      ((useFreeBlock fb n s).2.hdr fb).is_free = false ∧
      ((useFreeBlock fb n s).2.hdr fb).size_TOTAL_PAYLOAD = (s.hdr fb).size_TOTAL_PAYLOAD ∧
      ((useFreeBlock fb n s).2.hdr fb).size_ACTIVE_PAYLOAD = n ∧
      ((useFreeBlock fb n s).2.hdr fb).next = (s.hdr fb).next ∧
      ((useFreeBlock fb n s).2.hdr fb).prev = (s.hdr fb).prev ∧
      (useFreeBlock fb n s).2.tail = s.tail ∧
      (useFreeBlock fb n s).2.head = s.head ∧
      (useFreeBlock fb n s).2.heap_blocks_list.blocks_count_TOTAL
        = s.heap_blocks_list.blocks_count_TOTAL ∧
      (useFreeBlock fb n s).2.heap_blocks_list.blocks_count_FREE
        = sub64 s.heap_blocks_list.blocks_count_FREE 1 ∧
      (1 ≤ s.heap_blocks_list.blocks_count_FREE → s.heap_blocks_list.blocks_count_FREE < W →
        (useFreeBlock fb n s).2.heap_blocks_list.blocks_count_FREE + 1
          = s.heap_blocks_list.blocks_count_FREE) ∧
      (useFreeBlock fb n s).2.heap_blocks_list.bytes_count_FREE
        = sub64 s.heap_blocks_list.bytes_count_FREE (s.hdr fb).size_TOTAL_PAYLOAD ∧
      ((s.hdr fb).size_TOTAL_PAYLOAD ≤ s.heap_blocks_list.bytes_count_FREE →
        s.heap_blocks_list.bytes_count_FREE < W →
        (useFreeBlock fb n s).2.heap_blocks_list.bytes_count_FREE
          + (s.hdr fb).size_TOTAL_PAYLOAD = s.heap_blocks_list.bytes_count_FREE) ∧
      (useFreeBlock fb n s).2.heap_blocks_list.bytes_count_TOTAL
        = s.heap_blocks_list.bytes_count_TOTAL) := by
  have hrem := remaining_payload_size_eq (s.hdr fb).size_TOTAL_PAYLOAD n hn hc
  refine ⟨rfl, ?_, ?_⟩
  · intro hsp
    have hR : (if (s.hdr fb).size_TOTAL_PAYLOAD - n > 40 then
        (s.hdr fb).size_TOTAL_PAYLOAD - n - 40 else 0)
        = (s.hdr fb).size_TOTAL_PAYLOAD - n - 40 := by
      rw [if_pos (by omega)]
    have hE : (useFreeBlock fb n s).2
        = useFreeBlockWithSplit fb n ((s.hdr fb).size_TOTAL_PAYLOAD - n - 40) s := by
      unfold useFreeBlock
      simp only []
      rw [hrem, hR, if_neg (by simp only [SPLITTING_THRESHOLD]; omega)]
    have hnx : (s.hdr fb).next ≠ fb := by
      rcases hnext with h | h
      · intro hx
        exact hfb (hx.symm.trans h)
      · omega
    have hnext2 : (s.hdr fb).next = 0 ∨ fb + sizeofMallocMetadata + n < (s.hdr fb).next := by
      rcases hnext with h | h
      · exact Or.inl h
      · exact Or.inr (by simp only [sizeofMallocMetadata]; omega)
    obtain ⟨u1, u2, u3, _, u5, u6, u7, _⟩ :=
      useFreeBlockWithSplit_view fb n ((s.hdr fb).size_TOTAL_PAYLOAD - n - 40) s hnx
    obtain ⟨w1, w2, w3⟩ :=
      useFreeBlockWithSplit_hdr fb n ((s.hdr fb).size_TOTAL_PAYLOAD - n - 40) s
    obtain ⟨r1, r2, r3, r4, r5, r6, r7, r8⟩ :=
      useFreeBlockWithSplit_remainder fb n ((s.hdr fb).size_TOTAL_PAYLOAD - n - 40) s hnext2
    have hbt : (useFreeBlockWithSplit fb n ((s.hdr fb).size_TOTAL_PAYLOAD - n - 40)
        s).heap_blocks_list.bytes_count_TOTAL = s.heap_blocks_list.bytes_count_TOTAL := by
      unfold useFreeBlockWithSplit updateMetaDataAfterFreeBlockSplit
      simp only []
      split <;> split <;> simp
    have h40 : add64 n sizeofMallocMetadata = n + 40 := by
      apply add64_small
      simp only [sizeofMallocMetadata, W] at hc ⊢
      omega
    rw [h40] at u6
    simp only [sizeofMallocMetadata] at u1 u3 r1 r2 r3 r4 r5 r6
    rw [hE]
    refine ⟨rfl, w1, w2, w3, u1, u2, u3, r1, r2, r3, r4, r5, r6, r7, r8, u7, ?_, u5, u6, ?_,
      hbt⟩
    · intro h; rw [u7]; exact add64_small _ _ h
    · intro h1 h2
      rw [u6]
      simp only [sub64, W] at h2 ⊢
      omega
  · intro hsp
    have hR : (if (s.hdr fb).size_TOTAL_PAYLOAD - n > 40 then
        (s.hdr fb).size_TOTAL_PAYLOAD - n - 40 else 0) < SPLITTING_THRESHOLD := by
      simp only [SPLITTING_THRESHOLD]
      split <;> omega
    have hE : (useFreeBlock fb n s).2 = useFreeBlockWithoutSplit fb n s := by
      unfold useFreeBlock
      simp only []
      rw [hrem, if_pos hR]
    obtain ⟨v1, v2, _, v4, v5, v6, _⟩ := useFreeBlockWithoutSplit_view fb n s
    obtain ⟨w1, w2, w3⟩ := useFreeBlockWithoutSplit_hdr fb n s
    obtain ⟨t1, t2⟩ := useFreeBlockWithoutSplit_tail fb n s
    have hbt : (useFreeBlockWithoutSplit fb n s).heap_blocks_list.bytes_count_TOTAL
        = s.heap_blocks_list.bytes_count_TOTAL := by
      simp [useFreeBlockWithoutSplit]
    rw [hE]
    refine ⟨rfl, w1, w2, w3, v1, v2, t1, t2, v6, v4, ?_, v5, ?_, hbt⟩
    · intro h1 h2
      rw [v4]
      simp only [sub64, W] at h2 ⊢
      omega
    · intro h1 h2
      rw [v5]
      simp only [sub64, W] at h2 ⊢
      omega

end Malloc3

/-! ## The theorems on `useFreeBlock` and the free tail at concrete inputs -/

namespace Malloc3
open HeapBlocksList

/-- C21 at concrete inputs: on the free block of `1000` bytes at `4096000` left by
`a = smalloc(1000)`, `c = smalloc(10)`, `sfree(a)`, a request of `832` bytes leaves a
remainder of exactly `128` bytes, which is split off as a free block at `4096872`; a
request of `833` bytes would leave `127` and is served without a split. -/
theorem useFreeBlock_split_rule_witness :
    (useFreeBlock 4096000 832 beforeSplitReuse).1 = 4096040 ∧
    ((useFreeBlock 4096000 832 beforeSplitReuse).2.hdr 4096000).size_TOTAL_PAYLOAD = 832 ∧
    ((useFreeBlock 4096000 832 beforeSplitReuse).2.hdr 4096872).is_free = true ∧
    ((useFreeBlock 4096000 832 beforeSplitReuse).2.hdr 4096872).size_TOTAL_PAYLOAD = 128 ∧
    (useFreeBlock 4096000 833 beforeSplitReuse).2
      = useFreeBlockWithoutSplit 4096000 833 beforeSplitReuse ∧
    ((useFreeBlock 4096000 833 beforeSplitReuse).2.hdr 4096000).size_TOTAL_PAYLOAD = 1000 := by
  have hC : (beforeSplitReuse.hdr 4096000).size_TOTAL_PAYLOAD = 1000 := by decide!
  have h1 := useFreeBlock_split_rule 4096000 832 beforeSplitReuse (by decide) (by decide!)
    (by decide!) (Or.inr (by decide!))
  have h2 := useFreeBlock_split_rule 4096000 833 beforeSplitReuse (by decide) (by decide!)
    (by decide!) (Or.inr (by decide!))
  rw [hC] at h1 h2
  obtain ⟨a0, a1, _⟩ := h1
  obtain ⟨_, _, a2, _, _, _, a3, a4, _⟩ := a1 (by decide)
  obtain ⟨_, _, b1⟩ := h2
  obtain ⟨b2, _, b3, _⟩ := b1 (by decide)
  exact ⟨a0, a2, a3, a4, b2, b3⟩

/-- C22 at concrete inputs: after `p = smalloc(50)` and `sfree(p)` from the empty
allocator, `smalloc(500)` returns `p` again; the break goes from `4096090` to
`4096540`, `_num_allocated_bytes` from `50` to `500`, and there is `1` block and no
free block. -/
theorem smalloc_extends_free_tail_witness :
    afterAllocFree50.brk = 4096090 ∧ _num_allocated_bytes afterAllocFree50 = 50 ∧
    ∃ s1, smalloc 1 os0 500 afterAllocFree50 = some (4096040, s1) ∧
      s1.brk = 4096540 ∧ (s1.hdr 4096000).size_TOTAL_PAYLOAD = 500 ∧
      _num_allocated_blocks s1 = 1 ∧ _num_free_blocks s1 = 0 ∧
      _num_allocated_bytes s1 = 500 := by
  have ht : afterAllocFree50.tail = 4096000 := by decide!
  have hT : (afterAllocFree50.hdr 4096000).size_TOTAL_PAYLOAD = 50 := by decide!
  have hbrk : afterAllocFree50.brk = 4096090 := by decide!
  have hab : _num_allocated_bytes afterAllocFree50 = 50 := by decide!
  have hnb : _num_allocated_blocks afterAllocFree50 = 1 := by decide!
  have hfb : _num_free_blocks afterAllocFree50 = 1 := by decide!
  obtain ⟨s1, h, _, c1, _, _, _, c2, _, c3, _, c4, _, _, _, c5⟩ :=
    smalloc_extends_free_tail 1 os0 500 afterAllocFree50 (by decide) (by decide) (by decide!)
      (by decide!) (by decide!) (by decide!) (by decide!) (by decide!)
  rw [ht] at h c1 c2 c5
  rw [hT] at c1 c5
  rw [hbrk] at c1
  rw [hab] at c5
  rw [hnb] at c3
  rw [hfb] at c4
  refine ⟨hbrk, hab, s1, h, c1 (by decide), c2, c3, ?_, c5 (by decide)⟩
  have := c4 (by decide) (by decide)
  omega

end Malloc3

/-! ## The heap list as a chain of `next` pointers -/

namespace Malloc3
open HeapBlocksList

theorem heapListFrom_isChain (m : Memory) :
    ∀ (fuel curr : Nat) (l : List Nat), heapListFrom m fuel curr = some l →
      isChain m curr l ∧ l.length ≤ fuel := by
  intro fuel
  induction fuel with
  | zero =>
    intro curr l h
    unfold heapListFrom at h
    split at h
    · rename_i hc
      simp only [Option.some.injEq] at h
      subst h
      exact ⟨hc, Nat.le_refl _⟩
    · simp at h
  | succ k ih =>
    intro curr l h
    unfold heapListFrom at h
    split at h
    · rename_i hc
      simp only [Option.some.injEq] at h
      subst h
      exact ⟨hc, Nat.zero_le _⟩
    · rename_i hc
      cases hr : heapListFrom m k (m.hdr curr).next with
      | none => rw [hr] at h; simp at h
      | some l0 =>
        rw [hr] at h
        simp only [Option.map_some', Option.some.injEq] at h
        subst h
        obtain ⟨h1, h2⟩ := ih _ _ hr
        exact ⟨⟨rfl, hc, h1⟩, by simp only [List.length_cons]; omega⟩

theorem isChain_heapListFrom (m : Memory) :
    ∀ (l : List Nat) (curr fuel : Nat), isChain m curr l → l.length ≤ fuel →
      heapListFrom m fuel curr = some l := by
  intro l
  induction l with
  | nil =>
    intro curr fuel h _
    have hc : curr = 0 := h
    cases fuel with
    | zero => unfold heapListFrom; rw [if_pos hc]
    | succ k => unfold heapListFrom; rw [if_pos hc]
  | cons a l ih =>
    intro curr fuel h hlen
    obtain ⟨h1, h2, h3⟩ := h
    subst h1
    cases fuel with
    | zero => simp at hlen
    | succ k =>
      unfold heapListFrom
      rw [if_neg h2, ih _ k h3 (by simp only [List.length_cons] at hlen; omega)]
      rfl

theorem isChain_congr (m m1 : Memory) :
    ∀ (l : List Nat) (curr : Nat), (∀ a ∈ l, (m1.hdr a).next = (m.hdr a).next) →
      isChain m curr l → isChain m1 curr l := by
  intro l
  induction l with
  | nil => intro curr _ h; exact h
  | cons a l ih =>
    intro curr hc h
    obtain ⟨h1, h2, h3⟩ := h
    refine ⟨h1, h2, ?_⟩
    rw [hc a (List.mem_cons_self a l)]
    exact ih _ (fun b hb => hc b (List.mem_cons_of_mem a hb)) h3

theorem isChain_ne_zero (m : Memory) :
    ∀ (l : List Nat) (curr : Nat), isChain m curr l → ∀ a ∈ l, a ≠ 0 := by
  intro l
  induction l with
  | nil => intro curr _ a ha; simp at ha
  | cons b l ih =>
    intro curr h a ha
    obtain ⟨_, h2, h3⟩ := h
    rcases List.mem_cons.mp ha with e | e
    · rw [e]; exact h2
    · exact ih _ h3 a e

/-- The part of a chain that starts at one of its blocks is the chain from that block. -/
theorem isChain_suffix (m : Memory) :
    ∀ (l1 : List Nat) (curr x : Nat) (l2 : List Nat), isChain m curr (l1 ++ x :: l2) →
      isChain m x (x :: l2) := by
  intro l1
  induction l1 with
  | nil =>
    intro curr x l2 h
    obtain ⟨_, h2, h3⟩ := h
    exact ⟨rfl, h2, h3⟩
  | cons a l ih =>
    intro curr x l2 h
    obtain ⟨_, _, h3⟩ := h
    exact ih _ x l2 h3

theorem isChain_next (m : Memory) (l1 : List Nat) (curr x y : Nat) (l2 : List Nat)
    (h : isChain m curr (l1 ++ x :: y :: l2)) : (m.hdr x).next = y := by
  obtain ⟨_, _, h3⟩ := isChain_suffix m l1 curr x (y :: l2) h
  exact h3.1

theorem isChain_last (m : Memory) (l1 : List Nat) (curr x : Nat)
    (h : isChain m curr (l1 ++ [x])) : (m.hdr x).next = 0 := by
  obtain ⟨_, _, h3⟩ := isChain_suffix m l1 curr x [] h
  exact h3

/-- Replacing the suffix of a chain: if the chain from `x` is changed to `x :: l3` in a
memory that agrees on the `next` pointers of the blocks before `x`, the whole chain is
`l1 ++ x :: l3`. -/
theorem isChain_replace_suffix (m m1 : Memory) :
    ∀ (l1 : List Nat) (curr x : Nat) (l2 l3 : List Nat),
      (∀ a ∈ l1, (m1.hdr a).next = (m.hdr a).next) →
      isChain m curr (l1 ++ x :: l2) → isChain m1 x (x :: l3) →
      isChain m1 curr (l1 ++ x :: l3) := by
  intro l1
  induction l1 with
  | nil =>
    intro curr x l2 l3 _ h h1
    obtain ⟨e, _, _⟩ := h
    rw [e]
    exact h1
  | cons a l ih =>
    intro curr x l2 l3 hc h h1
    obtain ⟨e, h2, h3⟩ := h
    refine ⟨e, h2, ?_⟩
    rw [hc a (List.mem_cons_self a l)]
    exact ih _ x l2 l3 (fun b hb => hc b (List.mem_cons_of_mem a hb)) h3 h1

end Malloc3

namespace Malloc3
open HeapBlocksList

/-- The chain from a block is determined by the memory. -/
theorem isChain_unique (m : Memory) :
    ∀ (l l0 : List Nat) (curr : Nat), isChain m curr l → isChain m curr l0 → l = l0 := by
  intro l
  induction l with
  | nil =>
    intro l0 curr h h0
    have hc : curr = 0 := h
    cases l0 with
    | nil => rfl
    | cons b l0 =>
      obtain ⟨e, hb, _⟩ := h0
      exact absurd (e.symm.trans hc) hb
  | cons a l ih =>
    intro l0 curr h h0
    obtain ⟨e, ha, h3⟩ := h
    cases l0 with
    | nil =>
      have hc : curr = 0 := h0
      exact absurd (e.symm.trans hc) ha
    | cons b l0 =>
      obtain ⟨e0, _, h4⟩ := h0
      have hab : a = b := e.symm.trans e0
      subst hab
      rw [ih l0 _ h3 h4]

/-- No block comes twice in a chain. -/
theorem isChain_nodup (m : Memory) :
    ∀ (l : List Nat) (curr : Nat), isChain m curr l → l.Nodup := by
  intro l
  induction l with
  | nil => intro _ _; exact List.nodup_nil
  | cons a l ih =>
    intro curr h
    have h0 := h
    obtain ⟨e, ha, h3⟩ := h
    refine List.nodup_cons.mpr ⟨?_, ih _ h3⟩
    intro hmem
    obtain ⟨l1, l2, hl⟩ := List.append_of_mem hmem
    rw [hl] at h3
    have hs := isChain_suffix m l1 _ a l2 h3
    have hfull : isChain m a (a :: l) := ⟨rfl, ha, by rw [hl]; exact h3⟩
    have := isChain_unique m _ _ a hfull hs
    have hlen := congrArg List.length this
    rw [hl] at hlen
    simp only [List.length_cons, List.length_append] at hlen
    omega

theorem contiguousList_iff (s : State) :
    ∀ (l : List Nat) (curr : Nat), isChain s.mem curr l →
      (contiguousList s l = true ↔ ∀ a ∈ l, (s.hdr a).next ≠ 0 →
        a + sizeofMallocMetadata + (s.hdr a).size_TOTAL_PAYLOAD = (s.hdr a).next) := by
  intro l
  induction l with
  | nil => intro curr _; simp [contiguousList]
  | cons a l ih =>
    intro curr h
    obtain ⟨_, _, h3⟩ := h
    cases l with
    | nil =>
      have hn : (s.hdr a).next = 0 := h3
      simp [contiguousList, hn]
    | cons b l =>
      have hn : (s.hdr a).next = b := h3.1
      have hb : b ≠ 0 := h3.2.1
      have := ih _ h3
      unfold contiguousList
      rw [Bool.and_eq_true, this, decide_eq_true_eq]
      constructor
      · rintro ⟨h1, h2⟩ x hx
        rcases List.mem_cons.mp hx with e | e
        · subst e; intro _; rw [hn]; exact h1
        · exact h2 x e
      · intro hall
        refine ⟨?_, fun x hx => hall x (List.mem_cons_of_mem a hx)⟩
        have := hall a (List.mem_cons_self a _) (by rw [hn]; exact hb)
        rw [hn] at this
        exact this

theorem noAdjacentFree_iff (s : State) :
    ∀ (l : List Nat) (curr : Nat), isChain s.mem curr l →
      (noAdjacentFree s l = true ↔ ∀ a ∈ l, (s.hdr a).next ≠ 0 →
        ¬ ((s.hdr a).is_free = true ∧ (s.hdr (s.hdr a).next).is_free = true)) := by
  intro l
  induction l with
  | nil => intro curr _; simp [noAdjacentFree]
  | cons a l ih =>
    intro curr h
    obtain ⟨_, _, h3⟩ := h
    cases l with
    | nil =>
      have hn : (s.hdr a).next = 0 := h3
      simp [noAdjacentFree, hn]
    | cons b l =>
      have hn : (s.hdr a).next = b := h3.1
      have hb : b ≠ 0 := h3.2.1
      have := ih _ h3
      unfold noAdjacentFree
      rw [Bool.and_eq_true, this]
      constructor
      · rintro ⟨h1, h2⟩ x hx
        rcases List.mem_cons.mp hx with e | e
        · subst e
          intro _ hf
          rw [hn] at hf
          rw [hf.1, hf.2] at h1
          exact absurd h1 (by decide)
        · exact h2 x e
      · intro hall
        refine ⟨?_, fun x hx => hall x (List.mem_cons_of_mem a hx)⟩
        have := hall a (List.mem_cons_self a _) (by rw [hn]; exact hb)
        rw [hn] at this
        cases hf1 : (s.hdr a).is_free
        · rfl
        · cases hf2 : (s.hdr b).is_free
          · rfl
          · exact absurd ⟨hf1, hf2⟩ this

theorem prevLinked_iff (s : State) :
    ∀ (l : List Nat) (a q : Nat), isChain s.mem a (a :: l) →
      (prevLinked s q (a :: l) = true ↔ (s.hdr a).prev = q ∧
        ∀ x ∈ a :: l, (s.hdr x).next ≠ 0 → (s.hdr (s.hdr x).next).prev = x) := by
  intro l
  induction l with
  | nil =>
    intro a q h
    have hn : (s.hdr a).next = 0 := h.2.2
    simp [prevLinked, hn]
  | cons b l ih =>
    intro a q h
    obtain ⟨_, _, h3⟩ := h
    have hn : (s.hdr a).next = b := h3.1
    have hb : b ≠ 0 := h3.2.1
    have h4 : isChain s.mem b (b :: l) := ⟨rfl, hb, h3.2.2⟩
    have := ih b a h4
    unfold prevLinked
    rw [Bool.and_eq_true, this, decide_eq_true_eq]
    constructor
    · rintro ⟨h1, h2, h5⟩
      refine ⟨h1, ?_⟩
      intro x hx
      rcases List.mem_cons.mp hx with e | e
      · subst e; intro _; rw [hn]; exact h2
      · exact h5 x e
    · rintro ⟨h1, hall⟩
      refine ⟨h1, ?_, fun x hx => hall x (List.mem_cons_of_mem a hx)⟩
      have := hall a (List.mem_cons_self a _) (by rw [hn]; exact hb)
      rw [hn] at this
      exact this

/-- From the checks on the list to the invariant read block by block. -/
theorem listInvariant_of_checks (fuel : Nat) (s : State) (l : List Nat)
    (hl : heapList fuel s = some l)
    (hcont : contiguousList s l = true)
    (hprev : prevLinked s 0 l = true)
    (hbound : ∀ a ∈ l, a + sizeofMallocMetadata + (s.hdr a).size_TOTAL_PAYLOAD < W) :
    ListInvariant s l ∧ l.length ≤ fuel := by
  obtain ⟨hc, hlen⟩ := heapListFrom_isChain s.mem fuel s.head l hl
  refine ⟨⟨hc, (contiguousList_iff s l _ hc).mp hcont, ?_, ?_, hbound⟩, hlen⟩
  · cases l with
    | nil => intro a ha; simp at ha
    | cons a l =>
      have e : s.head = a := hc.1
      rw [e] at hc
      exact ((prevLinked_iff s l a 0 hc).mp hprev).2
  · intro hh
    cases l with
    | nil => exact absurd hc hh
    | cons a l =>
      have e : s.head = a := hc.1
      rw [e] at hc ⊢
      exact ((prevLinked_iff s l a 0 hc).mp hprev).1

/-- From the invariant read block by block to the checks on the list. -/
theorem checks_of_listInvariant (fuel : Nat) (s : State) (l : List Nat)
    (inv : ListInvariant s l) (hlen : l.length ≤ fuel) :
    heapList fuel s = some l ∧ contiguousList s l = true ∧ prevLinked s 0 l = true := by
  refine ⟨isChain_heapListFrom s.mem l s.head fuel inv.chain hlen,
    (contiguousList_iff s l _ inv.chain).mpr inv.contiguous, ?_⟩
  cases l with
  | nil => rfl
  | cons a l =>
    have hc := inv.chain
    have e : s.head = a := hc.1
    have ha : a ≠ 0 := hc.2.1
    rw [e] at hc
    refine (prevLinked_iff s l a 0 hc).mpr ⟨?_, inv.prev_of_next⟩
    have := inv.prev_of_head (by rw [e]; exact ha)
    rw [e] at this
    exact this

end Malloc3

/-! ## The headers after a merge -/

namespace Malloc3
open HeapBlocksList

theorem combineFreeBlockWithSucc_fields (b : Nat) (s : State) (x : Nat) :
    ((combineFreeBlockWithSucc b s).hdr x).next
      = (if x = b then (s.hdr (s.hdr b).next).next else (s.hdr x).next) ∧
    ((combineFreeBlockWithSucc b s).hdr x).prev
      = (if (s.hdr (s.hdr b).next).next ≠ 0 ∧ x = (s.hdr (s.hdr b).next).next then b
          else (s.hdr x).prev) ∧
    ((combineFreeBlockWithSucc b s).hdr x).size_TOTAL_PAYLOAD
      = (if x = b then add64 (s.hdr b).size_TOTAL_PAYLOAD
            (add64 sizeofMallocMetadata (s.hdr (s.hdr b).next).size_TOTAL_PAYLOAD)
          else (s.hdr x).size_TOTAL_PAYLOAD) ∧
    ((combineFreeBlockWithSucc b s).hdr x).is_free
      = (if x = b then true else (s.hdr x).is_free) ∧
    ((combineFreeBlockWithSucc b s).hdr x).size_ACTIVE_PAYLOAD
      = (if x = b then 0 else (s.hdr x).size_ACTIVE_PAYLOAD) := by
  unfold combineFreeBlockWithSucc
  simp only []
  refine ⟨?_, ?_, ?_, ?_, ?_⟩
  · split <;> split <;> simp
  · split <;> split <;> simp_all
  · split <;> split <;> simp
  · split <;> split <;> simp
  · split <;> split <;> simp

theorem combineFreeBlockWithSucc_ends (b : Nat) (s : State) :
    (combineFreeBlockWithSucc b s).head = s.head ∧
    (combineFreeBlockWithSucc b s).tail = (if s.tail = (s.hdr b).next then b else s.tail) := by
  unfold combineFreeBlockWithSucc
  simp only []
  refine ⟨?_, ?_⟩
  · split <;> split <;> simp
  · split <;> split <;> simp_all

theorem combineFreeBlockWithPred_fields (b : Nat) (s : State) (x : Nat) :
    ((combineFreeBlockWithPred b s).hdr x).next
      = (if x = (s.hdr b).prev then (s.hdr b).next else (s.hdr x).next) ∧
    ((combineFreeBlockWithPred b s).hdr x).prev
      = (if (s.hdr b).next ≠ 0 ∧ x = (s.hdr b).next then (s.hdr b).prev
          else (s.hdr x).prev) ∧
    ((combineFreeBlockWithPred b s).hdr x).size_TOTAL_PAYLOAD
      = (if x = (s.hdr b).prev then add64 (s.hdr (s.hdr b).prev).size_TOTAL_PAYLOAD
            (add64 sizeofMallocMetadata (s.hdr b).size_TOTAL_PAYLOAD)
          else (s.hdr x).size_TOTAL_PAYLOAD) ∧
    ((combineFreeBlockWithPred b s).hdr x).is_free = (s.hdr x).is_free ∧
    ((combineFreeBlockWithPred b s).hdr x).size_ACTIVE_PAYLOAD
      = (s.hdr x).size_ACTIVE_PAYLOAD := by
  unfold combineFreeBlockWithPred
  simp only []
  refine ⟨?_, ?_, ?_, ?_, ?_⟩
  · by_cases h1 : (s.hdr b).next = 0 <;> by_cases h2 : s.tail = b <;> simp [h1, h2]
  · by_cases h1 : (s.hdr b).next = 0 <;> by_cases h2 : s.tail = b <;> simp [h1, h2]
  · by_cases h1 : (s.hdr b).next = 0 <;> by_cases h2 : s.tail = b <;> simp [h1, h2]
  · by_cases h1 : (s.hdr b).next = 0 <;> by_cases h2 : s.tail = b <;> simp [h1, h2]
  · by_cases h1 : (s.hdr b).next = 0 <;> by_cases h2 : s.tail = b <;> simp [h1, h2]

theorem combineFreeBlockWithPred_ends (b : Nat) (s : State) :
    (combineFreeBlockWithPred b s).head = s.head ∧
    (combineFreeBlockWithPred b s).tail = (if s.tail = b then (s.hdr b).prev else s.tail) := by
  unfold combineFreeBlockWithPred
  simp only []
  refine ⟨?_, ?_⟩
  · by_cases h1 : (s.hdr b).next = 0 <;> by_cases h2 : s.tail = b <;> simp [h1, h2]
  · by_cases h1 : (s.hdr b).next = 0 <;> by_cases h2 : s.tail = b <;> simp [h1, h2]

theorem combineFreeBlockWithPred_counters (b : Nat) (s : State)
    (hne : (s.hdr b).prev ≠ b) :
    (combineFreeBlockWithPred b s).heap_blocks_list.blocks_count_FREE
      = s.heap_blocks_list.blocks_count_FREE ∧
    (combineFreeBlockWithPred b s).heap_blocks_list.bytes_count_FREE
      = add64 s.heap_blocks_list.bytes_count_FREE
          (add64 sizeofMallocMetadata (s.hdr b).size_TOTAL_PAYLOAD) ∧
    (combineFreeBlockWithPred b s).heap_blocks_list.blocks_count_TOTAL
      = sub64 s.heap_blocks_list.blocks_count_TOTAL 1 ∧
    (combineFreeBlockWithPred b s).mmapped_blocks = s.mmapped_blocks := by
  unfold combineFreeBlockWithPred
  simp only []
  refine ⟨?_, ?_, ?_, ?_⟩
  · split <;> split <;> simp
  · split <;> split <;> simp [Ne.symm hne]
  · split <;> split <;> simp
  · split <;> split <;> simp

theorem freeBlockWithoutCombining_fields (b : Nat) (s : State) (x : Nat) :
    ((freeBlockWithoutCombining b s).hdr x).next = (s.hdr x).next ∧
    ((freeBlockWithoutCombining b s).hdr x).prev = (s.hdr x).prev ∧
    ((freeBlockWithoutCombining b s).hdr x).size_TOTAL_PAYLOAD = (s.hdr x).size_TOTAL_PAYLOAD ∧
    ((freeBlockWithoutCombining b s).hdr x).is_free
      = (if x = b then true else (s.hdr x).is_free) ∧
    ((freeBlockWithoutCombining b s).hdr x).size_ACTIVE_PAYLOAD
      = (if x = b then 0 else (s.hdr x).size_ACTIVE_PAYLOAD) := by
  simp [freeBlockWithoutCombining]

theorem freeBlockWithoutCombining_ends (b : Nat) (s : State) :
    (freeBlockWithoutCombining b s).head = s.head ∧
    (freeBlockWithoutCombining b s).tail = s.tail := by
  simp [freeBlockWithoutCombining]

end Malloc3

/-! ## The list after a block is taken out of it -/

namespace Malloc3
open HeapBlocksList

/-- A state that reads the same `head`, `next`, `prev` and `total_payload` keeps the
invariant. -/
theorem listInvariant_of_same_fields (s t : State) (l : List Nat)
    (inv : ListInvariant s l)
    (hhead : t.head = s.head)
    (hnext : ∀ x, (t.hdr x).next = (s.hdr x).next)
    (hprev : ∀ x, (t.hdr x).prev = (s.hdr x).prev)
    (htotal : ∀ x, (t.hdr x).size_TOTAL_PAYLOAD = (s.hdr x).size_TOTAL_PAYLOAD) :
    ListInvariant t l := by
  refine ⟨?_, ?_, ?_, ?_, ?_⟩
  · rw [hhead]
    exact isChain_congr s.mem t.mem l _ (fun a _ => hnext a) inv.chain
  · intro a ha hn
    rw [hnext] at hn ⊢
    rw [htotal]
    exact inv.contiguous a ha hn
  · intro a ha hn
    rw [hnext] at hn ⊢
    rw [hprev]
    exact inv.prev_of_next a ha hn
  · intro hh
    rw [hhead] at hh ⊢
    rw [hprev]
    exact inv.prev_of_head hh
  · intro a ha
    rw [htotal]
    exact inv.bounded a ha

/-- Taking `Y` out of the list: `X`, the block before `Y`, gets the `next` of `Y` and the
bytes of `Y` with its header; the block after `Y`, if there is one, gets `X` as `prev`. -/
theorem listInvariant_unlink (s t : State) (l1 l2 : List Nat) (X Y : Nat)
    (inv : ListInvariant s (l1 ++ X :: Y :: l2))
    (hhead : t.head = s.head)
    (hnext : ∀ x, (t.hdr x).next = if x = X then (s.hdr Y).next else (s.hdr x).next)
    (hprev : ∀ x, (t.hdr x).prev =
      if (s.hdr Y).next ≠ 0 ∧ x = (s.hdr Y).next then X else (s.hdr x).prev)
    (htotal : ∀ x, (t.hdr x).size_TOTAL_PAYLOAD =
      if x = X then add64 (s.hdr X).size_TOTAL_PAYLOAD
          (add64 sizeofMallocMetadata (s.hdr Y).size_TOTAL_PAYLOAD)
        else (s.hdr x).size_TOTAL_PAYLOAD) :
    ListInvariant t (l1 ++ X :: l2) := by
  have hch := inv.chain
  have hnd := isChain_nodup s.mem _ _ hch
  obtain ⟨_, hX0, hXY, hY0, hrest⟩ := isChain_suffix s.mem l1 _ X (Y :: l2) hch
  have hXY1 : (s.hdr X).next = Y := hXY
  have hmemX : X ∈ l1 ++ X :: Y :: l2 := by simp
  have hmemY : Y ∈ l1 ++ X :: Y :: l2 := by simp
  have hsub : ∀ x ∈ l1 ++ X :: l2, x ∈ l1 ++ X :: Y :: l2 ∧ x ≠ Y := by
    intro x hx
    simp only [List.mem_append, List.mem_cons] at hx
    simp only [List.nodup_append, List.nodup_cons, List.mem_cons, not_or] at hnd
    refine ⟨by simp only [List.mem_append, List.mem_cons]; tauto, ?_⟩
    rintro rfl
    rcases hx with h | h | h
    · exact (hnd.2.2 h) (by simp)
    · exact hnd.2.1.1.1 h.symm
    · exact hnd.2.1.2.1 h
  have hXl1 : ∀ a ∈ l1, a ≠ X := by
    intro a ha e
    simp only [List.nodup_append, List.nodup_cons, List.mem_cons, not_or] at hnd
    exact (hnd.2.2 ha) (by simp [e])
  have hXl2 : ∀ a ∈ l2, a ≠ X := by
    intro a ha e
    simp only [List.nodup_append, List.nodup_cons, List.mem_cons, not_or] at hnd
    exact hnd.2.1.1.2 (e ▸ ha)
  have hnX : (t.hdr X).next = (s.hdr Y).next := by rw [hnext, if_pos rfl]
  have hnne : ∀ x, x ≠ X → (t.hdr x).next = (s.hdr x).next := by
    intro x hx; rw [hnext, if_neg hx]
  have htX : (t.hdr X).size_TOTAL_PAYLOAD = add64 (s.hdr X).size_TOTAL_PAYLOAD
      (add64 sizeofMallocMetadata (s.hdr Y).size_TOTAL_PAYLOAD) := by rw [htotal, if_pos rfl]
  have htne : ∀ x, x ≠ X → (t.hdr x).size_TOTAL_PAYLOAD = (s.hdr x).size_TOTAL_PAYLOAD := by
    intro x hx; rw [htotal, if_neg hx]
  have cX := inv.contiguous X hmemX (by rw [hXY1]; exact hY0)
  rw [hXY1] at cX
  have bY := inv.bounded Y hmemY
  have hsum : add64 (s.hdr X).size_TOTAL_PAYLOAD
      (add64 sizeofMallocMetadata (s.hdr Y).size_TOTAL_PAYLOAD)
      = (s.hdr X).size_TOTAL_PAYLOAD + sizeofMallocMetadata + (s.hdr Y).size_TOTAL_PAYLOAD := by
    simp only [add64, sizeofMallocMetadata, W] at cX bY ⊢
    omega
  refine ⟨?_, ?_, ?_, ?_, ?_⟩
  · rw [hhead]
    refine isChain_replace_suffix s.mem t.mem l1 _ X (Y :: l2) l2
      (fun a ha => hnne a (hXl1 a ha)) hch ⟨rfl, hX0, ?_⟩
    have e : (t.mem.hdr X).next = (s.mem.hdr Y).next := hnX
    rw [e]
    exact isChain_congr s.mem t.mem l2 _ (fun a ha => hnne a (hXl2 a ha)) hrest
  · intro x hx hn
    by_cases hxX : x = X
    · subst hxX
      rw [hnX] at hn ⊢
      rw [htX, hsum]
      have cY := inv.contiguous Y hmemY hn
      omega
    · rw [hnne x hxX] at hn ⊢
      rw [htne x hxX]
      exact inv.contiguous x (hsub x hx).1 hn
  · intro x hx hn
    by_cases hxX : x = X
    · subst hxX
      rw [hnX] at hn ⊢
      rw [hprev, if_pos ⟨hn, rfl⟩]
    · rw [hnne x hxX] at hn ⊢
      have p1 := inv.prev_of_next x (hsub x hx).1 hn
      rw [hprev, if_neg, p1]
      rintro ⟨hN, e⟩
      have p2 := inv.prev_of_next Y hmemY hN
      rw [← e, p1] at p2
      exact (hsub x hx).2 p2
  · intro hh
    rw [hhead] at hh ⊢
    rw [hprev, if_neg]
    · exact inv.prev_of_head hh
    · rintro ⟨hN, e⟩
      have p2 := inv.prev_of_next Y hmemY hN
      rw [← e, inv.prev_of_head hh] at p2
      exact hY0 p2.symm
  · intro x hx
    by_cases hxX : x = X
    · subst hxX
      rw [htX, hsum]
      omega
    · rw [htne x hxX]
      exact inv.bounded x (hsub x hx).1

end Malloc3

/-! ## The list invariants after each way of releasing a block -/

namespace Malloc3
open HeapBlocksList

theorem combineFreeBlockWithSuccAndPred_hdr (b : Nat) (s : State) (x : Nat) :
    (combineFreeBlockWithSuccAndPred b s).hdr x
      = (combineFreeBlockWithPred b (combineFreeBlockWithSucc b s)).hdr x := by
  simp [combineFreeBlockWithSuccAndPred]

theorem combineFreeBlockWithSuccAndPred_ends (b : Nat) (s : State) :
    (combineFreeBlockWithSuccAndPred b s).head
      = (combineFreeBlockWithPred b (combineFreeBlockWithSucc b s)).head ∧
    (combineFreeBlockWithSuccAndPred b s).tail
      = (combineFreeBlockWithPred b (combineFreeBlockWithSucc b s)).tail := by
  simp [combineFreeBlockWithSuccAndPred]

theorem combineFreeBlockWithSuccAndPred_counters (b : Nat) (s : State) :
    (combineFreeBlockWithSuccAndPred b s).heap_blocks_list.blocks_count_FREE
      = sub64 (combineFreeBlockWithPred b
          (combineFreeBlockWithSucc b s)).heap_blocks_list.blocks_count_FREE 1 ∧
    (combineFreeBlockWithSuccAndPred b s).heap_blocks_list.bytes_count_FREE
      = sub64 (combineFreeBlockWithPred b
          (combineFreeBlockWithSucc b s)).heap_blocks_list.bytes_count_FREE
          ((combineFreeBlockWithPred b (combineFreeBlockWithSucc b s)).hdr b).size_TOTAL_PAYLOAD ∧
    (combineFreeBlockWithSuccAndPred b s).heap_blocks_list.blocks_count_TOTAL
      = (combineFreeBlockWithPred b
          (combineFreeBlockWithSucc b s)).heap_blocks_list.blocks_count_TOTAL ∧
    (combineFreeBlockWithSuccAndPred b s).mmapped_blocks
      = (combineFreeBlockWithPred b (combineFreeBlockWithSucc b s)).mmapped_blocks := by
  simp [combineFreeBlockWithSuccAndPred]

theorem combineFreeBlockWithSucc_invariant (s : State) (l1 l2 : List Nat) (B S : Nat)
    (inv : ListInvariant s (l1 ++ B :: S :: l2)) :
    ListInvariant (combineFreeBlockWithSucc B s) (l1 ++ B :: l2) := by
  have hBS : (s.hdr B).next = S := isChain_next s.mem l1 _ B S l2 inv.chain
  refine listInvariant_unlink s _ l1 l2 B S inv (combineFreeBlockWithSucc_ends B s).1 ?_ ?_ ?_
  · intro x
    rw [(combineFreeBlockWithSucc_fields B s x).1, hBS]
  · intro x
    rw [(combineFreeBlockWithSucc_fields B s x).2.1, hBS]
  · intro x
    rw [(combineFreeBlockWithSucc_fields B s x).2.2.1, hBS]

theorem combineFreeBlockWithPred_invariant (s : State) (l1 l2 : List Nat) (P B : Nat)
    (inv : ListInvariant s (l1 ++ P :: B :: l2)) :
    ListInvariant (combineFreeBlockWithPred B s) (l1 ++ P :: l2) := by
  have hPB : (s.hdr P).next = B := isChain_next s.mem l1 _ P B l2 inv.chain
  have hB0 : B ≠ 0 := isChain_ne_zero s.mem _ _ inv.chain B (by simp)
  have hBP : (s.hdr B).prev = P := by
    have := inv.prev_of_next P (by simp) (by rw [hPB]; exact hB0)
    rw [hPB] at this
    exact this
  refine listInvariant_unlink s _ l1 l2 P B inv (combineFreeBlockWithPred_ends B s).1 ?_ ?_ ?_
  · intro x
    rw [(combineFreeBlockWithPred_fields B s x).1, hBP]
  · intro x
    rw [(combineFreeBlockWithPred_fields B s x).2.1, hBP]
  · intro x
    rw [(combineFreeBlockWithPred_fields B s x).2.2.1, hBP]

theorem combineFreeBlockWithSuccAndPred_invariant (s : State) (l1 l2 : List Nat) (P B S : Nat)
    (inv : ListInvariant s (l1 ++ P :: B :: S :: l2)) :
    ListInvariant (combineFreeBlockWithSuccAndPred B s) (l1 ++ P :: l2) := by
  have e : l1 ++ P :: B :: S :: l2 = (l1 ++ [P]) ++ B :: S :: l2 := by simp
  rw [e] at inv
  have inv1 := combineFreeBlockWithSucc_invariant s (l1 ++ [P]) l2 B S inv
  have e1 : (l1 ++ [P]) ++ B :: l2 = l1 ++ P :: B :: l2 := by simp
  rw [e1] at inv1
  have inv2 := combineFreeBlockWithPred_invariant _ l1 l2 P B inv1
  exact listInvariant_of_same_fields _ _ _ inv2 (combineFreeBlockWithSuccAndPred_ends B s).1
    (fun x => by rw [combineFreeBlockWithSuccAndPred_hdr])
    (fun x => by rw [combineFreeBlockWithSuccAndPred_hdr])
    (fun x => by rw [combineFreeBlockWithSuccAndPred_hdr])

theorem freeBlockWithoutCombining_invariant (s : State) (l : List Nat) (B : Nat)
    (inv : ListInvariant s l) :
    ListInvariant (freeBlockWithoutCombining B s) l :=
  listInvariant_of_same_fields _ _ _ inv (freeBlockWithoutCombining_ends B s).1
    (fun x => (freeBlockWithoutCombining_fields B s x).1)
    (fun x => (freeBlockWithoutCombining_fields B s x).2.1)
    (fun x => (freeBlockWithoutCombining_fields B s x).2.2.1)

/-- In a list in good order a block lies below its successor. -/
theorem listInvariant_lt_next (s : State) (l : List Nat) (inv : ListInvariant s l)
    (a : Nat) (ha : a ∈ l) (hn : (s.hdr a).next ≠ 0) : a < (s.hdr a).next := by
  have := inv.contiguous a ha hn
  simp only [sizeofMallocMetadata] at this
  omega

/-- With no free neighbour: no two neighbours are free after the block is marked free. -/
theorem freeBlockWithoutCombining_noAdjacentFree (s : State) (l : List Nat) (B : Nat)
    (inv : ListInvariant s l)
    (naf : ∀ a ∈ l, (s.hdr a).next ≠ 0 →
      ¬ ((s.hdr a).is_free = true ∧ (s.hdr (s.hdr a).next).is_free = true))
    (hB : B ∈ l)
    (hs : (s.hdr B).next = 0 ∨ (s.hdr (s.hdr B).next).is_free = false)
    (hq : (s.hdr B).prev = 0 ∨ (s.hdr (s.hdr B).prev).is_free = false) :
    ∀ a ∈ l, ((freeBlockWithoutCombining B s).hdr a).next ≠ 0 →
      ¬ (((freeBlockWithoutCombining B s).hdr a).is_free = true ∧
        ((freeBlockWithoutCombining B s).hdr
          ((freeBlockWithoutCombining B s).hdr a).next).is_free = true) := by
  intro x hx hn
  rw [(freeBlockWithoutCombining_fields B s x).1] at hn ⊢
  rw [(freeBlockWithoutCombining_fields B s x).2.2.2.1,
    (freeBlockWithoutCombining_fields B s _).2.2.2.1]
  rintro ⟨f1, f2⟩
  by_cases hxB : x = B
  · subst hxB
    have hlt := listInvariant_lt_next s l inv x hx hn
    rw [if_neg (by omega)] at f2
    rcases hs with h | h
    · exact hn h
    · rw [h] at f2; exact absurd f2 (by decide)
  · rw [if_neg hxB] at f1
    by_cases hnB : (s.hdr x).next = B
    · have p1 := inv.prev_of_next x hx hn
      rw [hnB] at p1
      have hx0 : x ≠ 0 := isChain_ne_zero s.mem _ _ inv.chain x hx
      rcases hq with h | h
      · exact hx0 (p1.symm.trans h)
      · rw [p1, f1] at h; exact absurd h (by decide)
    · rw [if_neg hnB] at f2
      exact naf x hx hn ⟨f1, f2⟩

/-- With the successor free only: no two neighbours are free after the merge. -/
theorem combineFreeBlockWithSucc_noAdjacentFree (s : State) (l1 l2 : List Nat) (B S : Nat)
    (inv : ListInvariant s (l1 ++ B :: S :: l2))
    (naf : ∀ a ∈ l1 ++ B :: S :: l2, (s.hdr a).next ≠ 0 →
      ¬ ((s.hdr a).is_free = true ∧ (s.hdr (s.hdr a).next).is_free = true))
    (hS : (s.hdr S).is_free = true)
    (hq : (s.hdr B).prev = 0 ∨ (s.hdr (s.hdr B).prev).is_free = false) :
    ∀ a ∈ l1 ++ B :: l2, ((combineFreeBlockWithSucc B s).hdr a).next ≠ 0 →
      ¬ (((combineFreeBlockWithSucc B s).hdr a).is_free = true ∧
        ((combineFreeBlockWithSucc B s).hdr
          ((combineFreeBlockWithSucc B s).hdr a).next).is_free = true) := by
  have hBS : (s.hdr B).next = S := isChain_next s.mem l1 _ B S l2 inv.chain
  have hS0 : S ≠ 0 := isChain_ne_zero s.mem _ _ inv.chain S (by simp)
  have hmB : B ∈ l1 ++ B :: S :: l2 := by simp
  have hmS : S ∈ l1 ++ B :: S :: l2 := by simp
  have hltB := listInvariant_lt_next s _ inv B hmB (by rw [hBS]; exact hS0)
  rw [hBS] at hltB
  intro x hx hn
  have hxl : x ∈ l1 ++ B :: S :: l2 := by
    simp only [List.mem_append, List.mem_cons] at hx ⊢
    tauto
  rw [(combineFreeBlockWithSucc_fields B s x).1, hBS] at hn ⊢
  rw [(combineFreeBlockWithSucc_fields B s x).2.2.2.1,
    (combineFreeBlockWithSucc_fields B s _).2.2.2.1]
  rintro ⟨f1, f2⟩
  by_cases hxB : x = B
  · rw [if_pos hxB] at hn f2
    have hltS := listInvariant_lt_next s _ inv S hmS hn
    rw [if_neg (by omega)] at f2
    exact naf S hmS hn ⟨hS, f2⟩
  · rw [if_neg hxB] at hn f1 f2
    by_cases hnB : (s.hdr x).next = B
    · have p1 := inv.prev_of_next x hxl hn
      rw [hnB] at p1
      have hx0 : x ≠ 0 := isChain_ne_zero s.mem _ _ inv.chain x hxl
      rcases hq with h | h
      · exact hx0 (p1.symm.trans h)
      · rw [p1, f1] at h; exact absurd h (by decide)
    · rw [if_neg hnB] at f2
      exact naf x hxl hn ⟨f1, f2⟩

/-- With the predecessor free only: no two neighbours are free after the merge. -/
theorem combineFreeBlockWithPred_noAdjacentFree (s : State) (l1 l2 : List Nat) (P B : Nat)
    (inv : ListInvariant s (l1 ++ P :: B :: l2))
    (naf : ∀ a ∈ l1 ++ P :: B :: l2, (s.hdr a).next ≠ 0 →
      ¬ ((s.hdr a).is_free = true ∧ (s.hdr (s.hdr a).next).is_free = true))
    (hs : (s.hdr B).next = 0 ∨ (s.hdr (s.hdr B).next).is_free = false) :
    ∀ a ∈ l1 ++ P :: l2, ((combineFreeBlockWithPred B s).hdr a).next ≠ 0 →
      ¬ (((combineFreeBlockWithPred B s).hdr a).is_free = true ∧
        ((combineFreeBlockWithPred B s).hdr
          ((combineFreeBlockWithPred B s).hdr a).next).is_free = true) := by
  have hPB : (s.hdr P).next = B := isChain_next s.mem l1 _ P B l2 inv.chain
  have hB0 : B ≠ 0 := isChain_ne_zero s.mem _ _ inv.chain B (by simp)
  have hBP : (s.hdr B).prev = P := by
    have := inv.prev_of_next P (by simp) (by rw [hPB]; exact hB0)
    rw [hPB] at this
    exact this
  intro x hx hn
  have hxl : x ∈ l1 ++ P :: B :: l2 := by
    simp only [List.mem_append, List.mem_cons] at hx ⊢
    tauto
  rw [(combineFreeBlockWithPred_fields B s x).1, hBP] at hn ⊢
  rw [(combineFreeBlockWithPred_fields B s x).2.2.2.1,
    (combineFreeBlockWithPred_fields B s _).2.2.2.1]
  rintro ⟨f1, f2⟩
  by_cases hxP : x = P
  · rw [if_pos hxP] at hn f2
    rcases hs with h | h
    · exact hn h
    · rw [h] at f2; exact absurd f2 (by decide)
  · rw [if_neg hxP] at hn f2
    exact naf x hxl hn ⟨f1, f2⟩

/-- With both neighbours free: no two neighbours are free after the two merges. -/
theorem combineFreeBlockWithSuccAndPred_noAdjacentFree (s : State) (l1 l2 : List Nat)
    (P B S : Nat)
    (inv : ListInvariant s (l1 ++ P :: B :: S :: l2))
    (naf : ∀ a ∈ l1 ++ P :: B :: S :: l2, (s.hdr a).next ≠ 0 →
      ¬ ((s.hdr a).is_free = true ∧ (s.hdr (s.hdr a).next).is_free = true))
    (hS : (s.hdr S).is_free = true) :
    ∀ a ∈ l1 ++ P :: l2, ((combineFreeBlockWithSuccAndPred B s).hdr a).next ≠ 0 →
      ¬ (((combineFreeBlockWithSuccAndPred B s).hdr a).is_free = true ∧
        ((combineFreeBlockWithSuccAndPred B s).hdr
          ((combineFreeBlockWithSuccAndPred B s).hdr a).next).is_free = true) := by
  have hnd := isChain_nodup s.mem _ _ inv.chain
  have e : l1 ++ P :: B :: S :: l2 = (l1 ++ [P]) ++ B :: S :: l2 := by simp
  have hPB : (s.hdr P).next = B := isChain_next s.mem l1 _ P B (S :: l2) inv.chain
  have hBS : (s.hdr B).next = S := by
    have hc := inv.chain
    rw [e] at hc
    exact isChain_next s.mem (l1 ++ [P]) _ B S l2 hc
  have hB0 : B ≠ 0 := isChain_ne_zero s.mem _ _ inv.chain B (by simp)
  have hS0 : S ≠ 0 := isChain_ne_zero s.mem _ _ inv.chain S (by simp)
  have hmP : P ∈ l1 ++ P :: B :: S :: l2 := by simp
  have hmB : B ∈ l1 ++ P :: B :: S :: l2 := by simp
  have hmS : S ∈ l1 ++ P :: B :: S :: l2 := by simp
  have hBP : (s.hdr B).prev = P := by
    have := inv.prev_of_next P hmP (by rw [hPB]; exact hB0)
    rw [hPB] at this
    exact this
  have hltP := listInvariant_lt_next s _ inv P hmP (by rw [hPB]; exact hB0)
  rw [hPB] at hltP
  have hltB := listInvariant_lt_next s _ inv B hmB (by rw [hBS]; exact hS0)
  rw [hBS] at hltB
  have hfree : ∀ y, ((combineFreeBlockWithSuccAndPred B s).hdr y).is_free
      = if y = B then true else (s.hdr y).is_free := by
    intro y
    rw [combineFreeBlockWithSuccAndPred_hdr, (combineFreeBlockWithPred_fields B _ y).2.2.2.1,
      (combineFreeBlockWithSucc_fields B s y).2.2.2.1]
  have hprev1 : ((combineFreeBlockWithSucc B s).hdr B).prev = P := by
    rw [(combineFreeBlockWithSucc_fields B s B).2.1, hBS, if_neg, hBP]
    rintro ⟨hN, e1⟩
    have := listInvariant_lt_next s _ inv S hmS hN
    omega
  have hnext : ∀ y, ((combineFreeBlockWithSuccAndPred B s).hdr y).next
      = if y = P ∨ y = B then (s.hdr S).next else (s.hdr y).next := by
    intro y
    rw [combineFreeBlockWithSuccAndPred_hdr, (combineFreeBlockWithPred_fields B _ y).1, hprev1,
      (combineFreeBlockWithSucc_fields B s B).1, (combineFreeBlockWithSucc_fields B s y).1, hBS,
      if_pos rfl]
    by_cases h1 : y = P
    · rw [if_pos h1, if_pos (Or.inl h1)]
    · rw [if_neg h1]
      by_cases h2 : y = B
      · rw [if_pos h2, if_pos (Or.inr h2)]
      · rw [if_neg h2, if_neg (by tauto)]
  intro x hx hn
  have hxl : x ∈ l1 ++ P :: B :: S :: l2 := by
    simp only [List.mem_append, List.mem_cons] at hx ⊢
    tauto
  have hxB : x ≠ B := by
    rintro rfl
    simp only [List.nodup_append, List.nodup_cons, List.mem_cons, not_or] at hnd
    simp only [List.mem_append, List.mem_cons] at hx
    rcases hx with h | h | h
    · exact (hnd.2.2 h) (by simp)
    · exact hnd.2.1.1.1 h.symm
    · exact hnd.2.1.2.1.2 h
  rw [hnext] at hn ⊢
  rw [hfree, hfree]
  rintro ⟨f1, f2⟩
  rw [if_neg hxB] at f1
  by_cases hxP : x = P
  · rw [if_pos (Or.inl hxP)] at hn f2
    have hltS := listInvariant_lt_next s _ inv S hmS hn
    rw [if_neg (by omega)] at f2
    exact naf S hmS hn ⟨hS, f2⟩
  · have hxPB : ¬ (x = P ∨ x = B) := fun h => h.elim hxP hxB
    rw [if_neg hxPB] at hn f2
    have hnB : (s.hdr x).next ≠ B := by
      intro h
      have p1 := inv.prev_of_next x hxl hn
      rw [h, hBP] at p1
      exact hxP p1.symm
    rw [if_neg hnB] at f2
    exact naf x hxl hn ⟨f1, f2⟩

end Malloc3

/-! ## Which merge a release makes, and where the neighbours stand in the list -/

namespace Malloc3
open HeapBlocksList

theorem releaseUsedBlock_with_pred (p : Nat) (t : State)
    (hlive : (t.hdr (metadataOf p)).is_free = false)
    (hs : (t.hdr (metadataOf p)).next = 0 ∨
      (t.hdr (t.hdr (metadataOf p)).next).is_free = false)
    (hq1 : (t.hdr (metadataOf p)).prev ≠ 0)
    (hq2 : (t.hdr (t.hdr (metadataOf p)).prev).is_free = true) :
    HeapBlocksList.releaseUsedBlock p t = combineFreeBlockWithPred (metadataOf p) t := by
  unfold HeapBlocksList.releaseUsedBlock
  simp only []
  have h1 : (decide ((t.hdr (metadataOf p)).next ≠ 0) &&
      (t.hdr (t.hdr (metadataOf p)).next).is_free) = false := by
    rcases hs with h | h
    · rw [h]; simp
    · rw [h]; simp
  have h2 : (decide ((t.hdr (metadataOf p)).prev ≠ 0) &&
      (t.hdr (t.hdr (metadataOf p)).prev).is_free) = true := by
    rw [hq2]; simp [hq1]
  rw [hlive, h1, h2]
  simp only [Bool.false_eq_true, if_false, Bool.false_and, if_true]

theorem releaseUsedBlock_with_succ_and_pred (p : Nat) (t : State)
    (hlive : (t.hdr (metadataOf p)).is_free = false)
    (hs1 : (t.hdr (metadataOf p)).next ≠ 0)
    (hs2 : (t.hdr (t.hdr (metadataOf p)).next).is_free = true)
    (hq1 : (t.hdr (metadataOf p)).prev ≠ 0)
    (hq2 : (t.hdr (t.hdr (metadataOf p)).prev).is_free = true) :
    HeapBlocksList.releaseUsedBlock p t = combineFreeBlockWithSuccAndPred (metadataOf p) t := by
  unfold HeapBlocksList.releaseUsedBlock
  simp only []
  have h1 : (decide ((t.hdr (metadataOf p)).next ≠ 0) &&
      (t.hdr (t.hdr (metadataOf p)).next).is_free) = true := by
    rw [hs2]; simp [hs1]
  have h2 : (decide ((t.hdr (metadataOf p)).prev ≠ 0) &&
      (t.hdr (t.hdr (metadataOf p)).prev).is_free) = true := by
    rw [hq2]; simp [hq1]
  rw [hlive, h1, h2]
  simp only [Bool.false_eq_true, if_false, Bool.and_self, if_true]

/-- The release of a block of the heap list goes to the list. -/
theorem sfree_of_list_block (p B : Nat) (s : State) (hp : p = B + sizeofMallocMetadata)
    (hact : (s.hdr B).size_ACTIVE_PAYLOAD < 128 * KB) :
    metadataOf p = B ∧ sfree p s = HeapBlocksList.releaseUsedBlock p s := by
  have hm : metadataOf p = B := by
    simp only [metadataOf, hp, sizeofMallocMetadata]
    omega
  refine ⟨hm, sfree_of_heap_block p _ s ?_ (by rw [hm]) ?_⟩
  · simp only [hp, sizeofMallocMetadata]; omega
  · simp only [KB] at hact; omega

/-- A block with a successor is not the last of the list: the successor follows it. -/
theorem listInvariant_succ (s : State) (l1 l2 : List Nat) (B : Nat)
    (inv : ListInvariant s (l1 ++ B :: l2)) (hn : (s.hdr B).next ≠ 0) :
    ∃ l3, l2 = (s.hdr B).next :: l3 := by
  cases l2 with
  | nil => exact absurd (isChain_last s.mem l1 _ B inv.chain) hn
  | cons S l3 =>
    refine ⟨l3, ?_⟩
    rw [show (s.hdr B).next = S from isChain_next s.mem l1 _ B S l3 inv.chain]

/-- A block with a `prev` pointer is not the first of the list: the block that `prev`
names comes just before it. -/
theorem listInvariant_pred (s : State) (l1 l2 : List Nat) (B : Nat)
    (inv : ListInvariant s (l1 ++ B :: l2)) (hq : (s.hdr B).prev ≠ 0) :
    ∃ l0, l1 = l0 ++ [(s.hdr B).prev] := by
  have hB0 : B ≠ 0 := isChain_ne_zero s.mem _ _ inv.chain B (by simp)
  rcases List.eq_nil_or_concat l1 with e | ⟨l0, P, e⟩
  · subst e
    have hh : s.head = B := inv.chain.1
    have := inv.prev_of_head (by rw [hh]; exact hB0)
    rw [hh] at this
    exact absurd this hq
  · subst e
    refine ⟨l0, ?_⟩
    have hc := inv.chain
    have e1 : l0.concat P ++ B :: l2 = l0 ++ P :: B :: l2 := by simp
    rw [e1] at hc
    have hPB : (s.hdr P).next = B := isChain_next s.mem l0 _ P B l2 hc
    have := inv.prev_of_next P (by simp) (by rw [hPB]; exact hB0)
    rw [hPB] at this
    rw [this, List.concat_eq_append]

/-- The block before a block of the list is its `prev`. -/
theorem listInvariant_prev (s : State) (l1 l2 : List Nat) (P B : Nat)
    (inv : ListInvariant s (l1 ++ P :: B :: l2)) :
    (s.hdr P).next = B ∧ (s.hdr B).prev = P ∧ P ≠ 0 ∧ B ≠ 0 ∧ P < B := by
  have hPB : (s.hdr P).next = B := isChain_next s.mem l1 _ P B l2 inv.chain
  have hB0 : B ≠ 0 := isChain_ne_zero s.mem _ _ inv.chain B (by simp)
  have hP0 : P ≠ 0 := isChain_ne_zero s.mem _ _ inv.chain P (by simp)
  have h1 := inv.prev_of_next P (by simp) (by rw [hPB]; exact hB0)
  have h2 := listInvariant_lt_next s _ inv P (by simp) (by rw [hPB]; exact hB0)
  rw [hPB] at h1 h2
  exact ⟨hPB, h1, hP0, hB0, h2⟩

/-- The checks on the list, from the invariant read block by block. -/
theorem checks_of_listInvariant_noAdjacentFree (fuel : Nat) (s : State) (l : List Nat)
    (inv : ListInvariant s l) (hlen : l.length ≤ fuel)
    (naf : ∀ a ∈ l, (s.hdr a).next ≠ 0 →
      ¬ ((s.hdr a).is_free = true ∧ (s.hdr (s.hdr a).next).is_free = true)) :
    heapList fuel s = some l ∧ contiguousList s l = true ∧ noAdjacentFree s l = true ∧
      prevLinked s 0 l = true ∧
      (∀ a ∈ l, a + sizeofMallocMetadata + (s.hdr a).size_TOTAL_PAYLOAD < W) := by
  obtain ⟨h1, h2, h3⟩ := checks_of_listInvariant fuel s l inv hlen
  exact ⟨h1, h2, (noAdjacentFree_iff s l _ inv.chain).mpr naf, h3, inv.bounded⟩

end Malloc3

/-! ## `sfree` keeps the list in good order -/

namespace Malloc3
open HeapBlocksList

/-- C25: in a heap list in good order (the blocks reached from `head` by `next` end at
`NULL`, each `prev` names the block before, every block ends below `2^64`) in which
adjacent blocks are contiguous and no two adjacent blocks are both free, `sfree(p)` of a
live block of the list (with `active_payload` below 128 KiB, so that the release goes to
the heap list) leaves a list that is again in good order, with contiguous adjacent blocks
and no two adjacent free blocks. -/
theorem sfree_preserves_contiguity_and_no_adjacent_free (fuel : Nat) (s : State)
    (l : List Nat) (p B : Nat)
    (hl : heapList fuel s = some l)
    (hcont : contiguousList s l = true)
    (hnaf : noAdjacentFree s l = true)
    (hprev : prevLinked s 0 l = true)
    (hbound : ∀ a ∈ l, a + sizeofMallocMetadata + (s.hdr a).size_TOTAL_PAYLOAD < W)
    (hmem : B ∈ l)
    (hp : p = B + sizeofMallocMetadata)
    (hlive : (s.hdr B).is_free = false)
    (hact : (s.hdr B).size_ACTIVE_PAYLOAD < 128 * KB) :
    ∃ l1, heapList fuel (sfree p s) = some l1 ∧
      contiguousList (sfree p s) l1 = true ∧
      noAdjacentFree (sfree p s) l1 = true ∧
      prevLinked (sfree p s) 0 l1 = true ∧
      (∀ a ∈ l1, a + sizeofMallocMetadata + ((sfree p s).hdr a).size_TOTAL_PAYLOAD < W) := by
  obtain ⟨inv, hlen⟩ := listInvariant_of_checks fuel s l hl hcont hprev hbound
  have naf := (noAdjacentFree_iff s l _ inv.chain).mp hnaf
  obtain ⟨hm, hsf⟩ := sfree_of_list_block p B s hp hact
  obtain ⟨l1, l2, e⟩ := List.append_of_mem hmem
  subst e
  have hliveM : (s.hdr (metadataOf p)).is_free = false := by rw [hm]; exact hlive
  by_cases hs : (s.hdr B).next ≠ 0 ∧ (s.hdr (s.hdr B).next).is_free = true
  · obtain ⟨hs1, hs2⟩ := hs
    obtain ⟨l3, e3⟩ := listInvariant_succ s l1 l2 B inv hs1
    subst e3
    by_cases hq : (s.hdr B).prev ≠ 0 ∧ (s.hdr (s.hdr B).prev).is_free = true
    · obtain ⟨hq1, hq2⟩ := hq
      obtain ⟨l0, e0⟩ := listInvariant_pred s l1 _ B inv hq1
      subst e0
      have e1 : l0 ++ [(s.hdr B).prev] ++ B :: (s.hdr B).next :: l3
          = l0 ++ (s.hdr B).prev :: B :: (s.hdr B).next :: l3 := by simp
      rw [e1] at inv naf hlen
      have hR : sfree p s = combineFreeBlockWithSuccAndPred B s := by
        rw [hsf, releaseUsedBlock_with_succ_and_pred p s hliveM (by rw [hm]; exact hs1)
          (by rw [hm]; exact hs2) (by rw [hm]; exact hq1) (by rw [hm]; exact hq2), hm]
      rw [hR]
      exact ⟨_, checks_of_listInvariant_noAdjacentFree fuel _ _
        (combineFreeBlockWithSuccAndPred_invariant s l0 l3 _ B _ inv)
        (by simp only [List.length_append, List.length_cons] at hlen ⊢; omega)
        (combineFreeBlockWithSuccAndPred_noAdjacentFree s l0 l3 _ B _ inv naf hs2)⟩
    · have hq1 : (s.hdr B).prev = 0 ∨ (s.hdr (s.hdr B).prev).is_free = false := by
        by_cases h : (s.hdr B).prev = 0
        · exact Or.inl h
        · right
          cases hf : (s.hdr (s.hdr B).prev).is_free
          · rfl
          · exact absurd ⟨h, hf⟩ hq
      have hR : sfree p s = combineFreeBlockWithSucc B s := by
        rw [hsf, releaseUsedBlock_with_succ p s hliveM (by rw [hm]; exact hs1)
          (by rw [hm]; exact hs2) (by rw [hm]; exact hq1), hm]
      rw [hR]
      exact ⟨_, checks_of_listInvariant_noAdjacentFree fuel _ _
        (combineFreeBlockWithSucc_invariant s l1 l3 B _ inv)
        (by simp only [List.length_append, List.length_cons] at hlen ⊢; omega)
        (combineFreeBlockWithSucc_noAdjacentFree s l1 l3 B _ inv naf hs2 hq1)⟩
  · have hs1 : (s.hdr B).next = 0 ∨ (s.hdr (s.hdr B).next).is_free = false := by
      by_cases h : (s.hdr B).next = 0
      · exact Or.inl h
      · right
        cases hf : (s.hdr (s.hdr B).next).is_free
        · rfl
        · exact absurd ⟨h, hf⟩ hs
    by_cases hq : (s.hdr B).prev ≠ 0 ∧ (s.hdr (s.hdr B).prev).is_free = true
    · obtain ⟨hq1, hq2⟩ := hq
      obtain ⟨l0, e0⟩ := listInvariant_pred s l1 _ B inv hq1
      subst e0
      have e1 : l0 ++ [(s.hdr B).prev] ++ B :: l2 = l0 ++ (s.hdr B).prev :: B :: l2 := by simp
      rw [e1] at inv naf hlen
      have hR : sfree p s = combineFreeBlockWithPred B s := by
        rw [hsf, releaseUsedBlock_with_pred p s hliveM (by rw [hm]; exact hs1)
          (by rw [hm]; exact hq1) (by rw [hm]; exact hq2), hm]
      rw [hR]
      exact ⟨_, checks_of_listInvariant_noAdjacentFree fuel _ _
        (combineFreeBlockWithPred_invariant s l0 l2 _ B inv)
        (by simp only [List.length_append, List.length_cons] at hlen ⊢; omega)
        (combineFreeBlockWithPred_noAdjacentFree s l0 l2 _ B inv naf hs1)⟩
    · have hq1 : (s.hdr B).prev = 0 ∨ (s.hdr (s.hdr B).prev).is_free = false := by
        by_cases h : (s.hdr B).prev = 0
        · exact Or.inl h
        · right
          cases hf : (s.hdr (s.hdr B).prev).is_free
          · rfl
          · exact absurd ⟨h, hf⟩ hq
      have hR : sfree p s = freeBlockWithoutCombining B s := by
        rw [hsf, releaseUsedBlock_without_combining p s hliveM (by rw [hm]; exact hs1)
          (by rw [hm]; exact hq1), hm]
      rw [hR]
      exact ⟨_, checks_of_listInvariant_noAdjacentFree fuel _ _
        (freeBlockWithoutCombining_invariant s _ B inv) hlen
        (freeBlockWithoutCombining_noAdjacentFree s _ B inv naf (by simp) hs1 hq1)⟩

end Malloc3

/-! ## `tail` and the payload of the merged block -/

namespace Malloc3
open HeapBlocksList

theorem getLastD_append_cons (l1 : List Nat) (a : Nat) (l2 : List Nat) (d : Nat) :
    (l1 ++ a :: l2).getLastD d = (a :: l2).getLastD d := by
  induction l1 generalizing d with
  | nil => rfl
  | cons x l ih =>
    rw [List.cons_append, List.getLastD_cons, ih, List.getLastD_cons, List.getLastD_cons]

theorem getLastD_cons_mem (l : List Nat) (a d : Nat) : (a :: l).getLastD d ∈ a :: l := by
  induction l generalizing a d with
  | nil => simp
  | cons b l ih =>
    rw [List.getLastD_cons]
    exact List.mem_cons_of_mem a (ih b a)

/-- The last block of the list after `Y` is taken out of it: the block `X` before `Y`
when `Y` was the last one, and the same block as before otherwise. -/
theorem getLastD_unlink (l1 l2 : List Nat) (X Y t : Nat)
    (hnd : (l1 ++ X :: Y :: l2).Nodup) (ht : t = (l1 ++ X :: Y :: l2).getLastD 0) :
    (if t = Y then X else t) = (l1 ++ X :: l2).getLastD 0 := by
  cases l2 with
  | nil =>
    rw [getLastD_append_cons] at ht ⊢
    simp only [List.getLastD_cons, List.getLastD_nil] at ht ⊢
    rw [if_pos ht]
  | cons c l =>
    rw [getLastD_append_cons] at ht ⊢
    simp only [List.getLastD_cons] at ht ⊢
    have hm : t ∈ c :: l := by
      rw [ht, ← List.getLastD_cons 0 c l]
      exact getLastD_cons_mem l c 0
    have hne : t ≠ Y := by
      rintro rfl
      simp only [List.nodup_append, List.nodup_cons, not_or] at hnd
      exact hnd.2.1.2.1 hm
    rw [if_neg hne, ht]

/-- The bytes of two neighbours and of the header between them, without wrapping. -/
theorem listInvariant_sum (s : State) (l1 l2 : List Nat) (X Y : Nat)
    (inv : ListInvariant s (l1 ++ X :: Y :: l2)) :
    add64 (s.hdr X).size_TOTAL_PAYLOAD
      (add64 sizeofMallocMetadata (s.hdr Y).size_TOTAL_PAYLOAD)
      = (s.hdr X).size_TOTAL_PAYLOAD + sizeofMallocMetadata + (s.hdr Y).size_TOTAL_PAYLOAD := by
  have hXY : (s.hdr X).next = Y := isChain_next s.mem l1 _ X Y l2 inv.chain
  have hY0 : Y ≠ 0 := isChain_ne_zero s.mem _ _ inv.chain Y (by simp)
  have cX := inv.contiguous X (by simp) (by rw [hXY]; exact hY0)
  rw [hXY] at cX
  have bY := inv.bounded Y (by simp)
  simp only [add64, sizeofMallocMetadata, W] at cX bY ⊢
  omega

end Malloc3

/-! ## `sfree` of a block with at most one free neighbour -/

namespace Malloc3
open HeapBlocksList

/-- C24: `sfree(p)` of a live block `B` of a heap list in good order, with 64-bit
counters.  When the successor `S` is free and the predecessor is not, the list loses `S`,
`B` is free with `total_payload = B.total_payload + H + S.total_payload` and
`active_payload = 0`.  When the predecessor `P` is free and the successor is not, the
list loses `B` and `P` has `total_payload = P.total_payload + H + B.total_payload`.  In
both cases no other block changes, `tail` is the last block of the new list, the block
count goes down by one, the free-block count stays and the free bytes grow by
`H + B.total_payload`.  With no free neighbour the list stays, `B` is marked free with
`active_payload = 0`, the free-block count grows by one and the free bytes by
`B.total_payload`. -/
theorem sfree_with_at_most_one_free_neighbour (fuel : Nat) (s : State) (l : List Nat)
    (p B : Nat)
    (hl : heapList fuel s = some l)
    (hcont : contiguousList s l = true)
    (hprev : prevLinked s 0 l = true)
    (hbound : ∀ a ∈ l, a + sizeofMallocMetadata + (s.hdr a).size_TOTAL_PAYLOAD < W)
    (htail : s.tail = l.getLastD 0)
    (hmem : B ∈ l)
    (hp : p = B + sizeofMallocMetadata)
    (hlive : (s.hdr B).is_free = false)
    (hact : (s.hdr B).size_ACTIVE_PAYLOAD < 128 * KB)
    (hT : 1 ≤ s.heap_blocks_list.blocks_count_TOTAL)
    (hTW : s.heap_blocks_list.blocks_count_TOTAL < W)
    (hFW : s.heap_blocks_list.blocks_count_FREE + 1 < W)
    (hbytes : s.heap_blocks_list.bytes_count_FREE + sizeofMallocMetadata
      + (s.hdr B).size_TOTAL_PAYLOAD < W) :
    (∀ l1 S l2, l = l1 ++ B :: S :: l2 → (s.hdr S).is_free = true →
      ((s.hdr B).prev = 0 ∨ (s.hdr (s.hdr B).prev).is_free = false) →
      heapList fuel (sfree p s) = some (l1 ++ B :: l2) ∧
      blockView (sfree p s) B = (B, (s.hdr B).size_TOTAL_PAYLOAD + sizeofMallocMetadata
        + (s.hdr S).size_TOTAL_PAYLOAD, 0, true) ∧
      (∀ x, x ≠ B → blockView (sfree p s) x = blockView s x) ∧
      (sfree p s).tail = (l1 ++ B :: l2).getLastD 0 ∧
      (sfree p s).heap_blocks_list.blocks_count_TOTAL + 1
        = s.heap_blocks_list.blocks_count_TOTAL ∧
      (sfree p s).heap_blocks_list.blocks_count_FREE = s.heap_blocks_list.blocks_count_FREE ∧
      (sfree p s).heap_blocks_list.bytes_count_FREE
        = s.heap_blocks_list.bytes_count_FREE
          + (sizeofMallocMetadata + (s.hdr B).size_TOTAL_PAYLOAD)) ∧
    (∀ l1 P l2, l = l1 ++ P :: B :: l2 → (s.hdr P).is_free = true →
      ((s.hdr B).next = 0 ∨ (s.hdr (s.hdr B).next).is_free = false) →
      heapList fuel (sfree p s) = some (l1 ++ P :: l2) ∧
      blockView (sfree p s) P = (P, (s.hdr P).size_TOTAL_PAYLOAD + sizeofMallocMetadata
        + (s.hdr B).size_TOTAL_PAYLOAD, (s.hdr P).size_ACTIVE_PAYLOAD, true) ∧
      (∀ x, x ≠ P → blockView (sfree p s) x = blockView s x) ∧
      (sfree p s).tail = (l1 ++ P :: l2).getLastD 0 ∧
      (sfree p s).heap_blocks_list.blocks_count_TOTAL + 1
        = s.heap_blocks_list.blocks_count_TOTAL ∧
      (sfree p s).heap_blocks_list.blocks_count_FREE = s.heap_blocks_list.blocks_count_FREE ∧
      (sfree p s).heap_blocks_list.bytes_count_FREE
        = s.heap_blocks_list.bytes_count_FREE
          + (sizeofMallocMetadata + (s.hdr B).size_TOTAL_PAYLOAD)) ∧
    (((s.hdr B).next = 0 ∨ (s.hdr (s.hdr B).next).is_free = false) →
      ((s.hdr B).prev = 0 ∨ (s.hdr (s.hdr B).prev).is_free = false) →
      heapList fuel (sfree p s) = some l ∧
      blockView (sfree p s) B = (B, (s.hdr B).size_TOTAL_PAYLOAD, 0, true) ∧
      (∀ x, x ≠ B → blockView (sfree p s) x = blockView s x) ∧
      (sfree p s).tail = s.tail ∧
      (sfree p s).heap_blocks_list.blocks_count_TOTAL = s.heap_blocks_list.blocks_count_TOTAL ∧
      (sfree p s).heap_blocks_list.blocks_count_FREE
        = s.heap_blocks_list.blocks_count_FREE + 1 ∧
      (sfree p s).heap_blocks_list.bytes_count_FREE
        = s.heap_blocks_list.bytes_count_FREE + (s.hdr B).size_TOTAL_PAYLOAD) := by
  obtain ⟨inv, hlen⟩ := listInvariant_of_checks fuel s l hl hcont hprev hbound
  obtain ⟨hm, hsf⟩ := sfree_of_list_block p B s hp hact
  have hliveM : (s.hdr (metadataOf p)).is_free = false := by rw [hm]; exact hlive
  have hsubT : sub64 s.heap_blocks_list.blocks_count_TOTAL 1 + 1
      = s.heap_blocks_list.blocks_count_TOTAL := by
    rw [sub64_small _ _ hT hTW]; omega
  have haddB : add64 s.heap_blocks_list.bytes_count_FREE
      (add64 sizeofMallocMetadata (s.hdr B).size_TOTAL_PAYLOAD)
      = s.heap_blocks_list.bytes_count_FREE
        + (sizeofMallocMetadata + (s.hdr B).size_TOTAL_PAYLOAD) := by
    simp only [add64, sizeofMallocMetadata, W] at hbytes ⊢
    omega
  refine ⟨?_, ?_, ?_⟩
  · intro l1 S l2 e hS hq
    subst e
    have hBS : (s.hdr B).next = S := isChain_next s.mem l1 _ B S l2 inv.chain
    have hS0 : S ≠ 0 := isChain_ne_zero s.mem _ _ inv.chain S (by simp)
    have hR : sfree p s = combineFreeBlockWithSucc B s := by
      rw [hsf, releaseUsedBlock_with_succ p s hliveM (by rw [hm, hBS]; exact hS0)
        (by rw [hm, hBS]; exact hS) (by rw [hm]; exact hq), hm]
    rw [hR]
    have inv1 := combineFreeBlockWithSucc_invariant s l1 l2 B S inv
    have hc := combineFreeBlockWithSucc_counters B s
    refine ⟨?_, ?_, ?_, ?_, ?_, ?_, ?_⟩
    · exact (checks_of_listInvariant fuel _ _ inv1
        (by simp only [List.length_append, List.length_cons] at hlen ⊢; omega)).1
    · unfold blockView
      rw [(combineFreeBlockWithSucc_fields B s B).2.2.1,
        (combineFreeBlockWithSucc_fields B s B).2.2.2.1,
        (combineFreeBlockWithSucc_fields B s B).2.2.2.2, if_pos rfl, if_pos rfl, if_pos rfl,
        hBS, listInvariant_sum s l1 l2 B S inv]
    · intro x hx
      unfold blockView
      rw [(combineFreeBlockWithSucc_fields B s x).2.2.1,
        (combineFreeBlockWithSucc_fields B s x).2.2.2.1,
        (combineFreeBlockWithSucc_fields B s x).2.2.2.2, if_neg hx, if_neg hx, if_neg hx]
    · rw [(combineFreeBlockWithSucc_ends B s).2, hBS]
      exact getLastD_unlink l1 l2 B S _ (isChain_nodup s.mem _ _ inv.chain) htail
    · rw [hc.2.2.1]; exact hsubT
    · exact hc.1
    · rw [hc.2.1]; exact haddB
  · intro l1 P l2 e hP hs
    subst e
    obtain ⟨hPB, hBP, hP0, hB0, hlt⟩ := listInvariant_prev s l1 l2 P B inv
    have hR : sfree p s = combineFreeBlockWithPred B s := by
      rw [hsf, releaseUsedBlock_with_pred p s hliveM (by rw [hm]; exact hs)
        (by rw [hm, hBP]; exact hP0) (by rw [hm, hBP]; exact hP), hm]
    rw [hR]
    have inv1 := combineFreeBlockWithPred_invariant s l1 l2 P B inv
    have hc := combineFreeBlockWithPred_counters B s (by rw [hBP]; omega)
    refine ⟨?_, ?_, ?_, ?_, ?_, ?_, ?_⟩
    · exact (checks_of_listInvariant fuel _ _ inv1
        (by simp only [List.length_append, List.length_cons] at hlen ⊢; omega)).1
    · unfold blockView
      rw [(combineFreeBlockWithPred_fields B s P).2.2.1,
        (combineFreeBlockWithPred_fields B s P).2.2.2.1,
        (combineFreeBlockWithPred_fields B s P).2.2.2.2, hBP, if_pos rfl,
        listInvariant_sum s l1 l2 P B inv, hP]
    · intro x hx
      unfold blockView
      rw [(combineFreeBlockWithPred_fields B s x).2.2.1,
        (combineFreeBlockWithPred_fields B s x).2.2.2.1,
        (combineFreeBlockWithPred_fields B s x).2.2.2.2, hBP, if_neg hx]
    · rw [(combineFreeBlockWithPred_ends B s).2, hBP]
      exact getLastD_unlink l1 l2 P B _ (isChain_nodup s.mem _ _ inv.chain) htail
    · rw [hc.2.2.1]; exact hsubT
    · exact hc.1
    · rw [hc.2.1]; exact haddB
  · intro hs hq
    have hR : sfree p s = freeBlockWithoutCombining B s := by
      rw [hsf, releaseUsedBlock_without_combining p s hliveM (by rw [hm]; exact hs)
        (by rw [hm]; exact hq), hm]
    rw [hR]
    have inv1 := freeBlockWithoutCombining_invariant s l B inv
    have hc := freeBlockWithoutCombining_counters B s
    refine ⟨?_, ?_, ?_, ?_, ?_, ?_, ?_⟩
    · exact (checks_of_listInvariant fuel _ _ inv1 hlen).1
    · unfold blockView
      rw [(freeBlockWithoutCombining_fields B s B).2.2.1,
        (freeBlockWithoutCombining_fields B s B).2.2.2.1,
        (freeBlockWithoutCombining_fields B s B).2.2.2.2, if_pos rfl, if_pos rfl]
    · intro x hx
      unfold blockView
      rw [(freeBlockWithoutCombining_fields B s x).2.2.1,
        (freeBlockWithoutCombining_fields B s x).2.2.2.1,
        (freeBlockWithoutCombining_fields B s x).2.2.2.2, if_neg hx, if_neg hx]
    · exact (freeBlockWithoutCombining_ends B s).2
    · exact hc.2.2.1
    · rw [hc.1]
      simp only [add64, W] at hFW ⊢
      omega
    · rw [hc.2.1]
      simp only [add64, sizeofMallocMetadata, W] at hbytes ⊢
      omega

end Malloc3

/-! ## `sfree` of a block between two free blocks -/

namespace Malloc3
open HeapBlocksList

/-- C23: `sfree(p)` of a live block `B` of a heap list in good order, with 64-bit
counters, whose predecessor `P` and successor `S` are both free (`P` with
`active_payload = 0`, which the code leaves as it is): the list loses `B` and `S`; `P` is
free with `total_payload = P.total_payload + H + B.total_payload + H + S.total_payload`
and `active_payload = 0`; no block other than `P` and `B` changes; `tail` is the last
block of the new list; the block count goes down by two, the free-block count by one,
and the free bytes grow by `B.total_payload + 2H`. -/
theorem sfree_between_two_free_blocks (fuel : Nat) (s : State) (l1 l2 : List Nat)
    (P B S p : Nat)
    (hl : heapList fuel s = some (l1 ++ P :: B :: S :: l2))
    (hcont : contiguousList s (l1 ++ P :: B :: S :: l2) = true)
    (hprev : prevLinked s 0 (l1 ++ P :: B :: S :: l2) = true)
    (hbound : ∀ a ∈ l1 ++ P :: B :: S :: l2,
      a + sizeofMallocMetadata + (s.hdr a).size_TOTAL_PAYLOAD < W)
    (htail : s.tail = (l1 ++ P :: B :: S :: l2).getLastD 0)
    (hp : p = B + sizeofMallocMetadata)
    (hlive : (s.hdr B).is_free = false)
    (hact : (s.hdr B).size_ACTIVE_PAYLOAD < 128 * KB)
    (hP : (s.hdr P).is_free = true)
    (hPact : (s.hdr P).size_ACTIVE_PAYLOAD = 0)
    (hS : (s.hdr S).is_free = true)
    (hT : 2 ≤ s.heap_blocks_list.blocks_count_TOTAL)
    (hTW : s.heap_blocks_list.blocks_count_TOTAL < W)
    (hF : 1 ≤ s.heap_blocks_list.blocks_count_FREE)
    (hFW : s.heap_blocks_list.blocks_count_FREE < W)
    (hbytes : s.heap_blocks_list.bytes_count_FREE + (s.hdr B).size_TOTAL_PAYLOAD
      + 2 * sizeofMallocMetadata < W) :
    heapList fuel (sfree p s) = some (l1 ++ P :: l2) ∧
    blockView (sfree p s) P = (P, (s.hdr P).size_TOTAL_PAYLOAD + sizeofMallocMetadata
      + (s.hdr B).size_TOTAL_PAYLOAD + sizeofMallocMetadata + (s.hdr S).size_TOTAL_PAYLOAD,
      0, true) ∧
    (∀ x, x ≠ P → x ≠ B → blockView (sfree p s) x = blockView s x) ∧
    (sfree p s).tail = (l1 ++ P :: l2).getLastD 0 ∧
    (sfree p s).heap_blocks_list.blocks_count_TOTAL + 2
      = s.heap_blocks_list.blocks_count_TOTAL ∧
    (sfree p s).heap_blocks_list.blocks_count_FREE + 1
      = s.heap_blocks_list.blocks_count_FREE ∧
    (sfree p s).heap_blocks_list.bytes_count_FREE
      = s.heap_blocks_list.bytes_count_FREE
        + ((s.hdr B).size_TOTAL_PAYLOAD + 2 * sizeofMallocMetadata) := by
  obtain ⟨inv, hlen⟩ := listInvariant_of_checks fuel s _ hl hcont hprev hbound
  obtain ⟨hm, hsf⟩ := sfree_of_list_block p B s hp hact
  have hliveM : (s.hdr (metadataOf p)).is_free = false := by rw [hm]; exact hlive
  obtain ⟨hPB, hBP, hP0, hB0, hltP⟩ := listInvariant_prev s l1 (S :: l2) P B inv
  have e : l1 ++ P :: B :: S :: l2 = (l1 ++ [P]) ++ B :: S :: l2 := by simp
  have inve := inv
  rw [e] at inve
  obtain ⟨hBS, _, _, hS0, hltB⟩ := listInvariant_prev s (l1 ++ [P]) l2 B S inve
  have hR : sfree p s = combineFreeBlockWithSuccAndPred B s := by
    rw [hsf, releaseUsedBlock_with_succ_and_pred p s hliveM (by rw [hm, hBS]; exact hS0)
      (by rw [hm, hBS]; exact hS) (by rw [hm, hBP]; exact hP0) (by rw [hm, hBP]; exact hP), hm]
  rw [hR]
  have inv1 := combineFreeBlockWithSucc_invariant s (l1 ++ [P]) l2 B S inve
  have e1 : (l1 ++ [P]) ++ B :: l2 = l1 ++ P :: B :: l2 := by simp
  rw [e1] at inv1
  obtain ⟨_, hBP1, _, _, _⟩ := listInvariant_prev _ l1 l2 P B inv1
  have hPneB : P ≠ B := by omega
  have hBneP : B ≠ P := by omega
  have hsum := listInvariant_sum s (l1 ++ [P]) l2 B S inve
  have hsum1 := listInvariant_sum _ l1 l2 P B inv1
  have ht1B : ((combineFreeBlockWithSucc B s).hdr B).size_TOTAL_PAYLOAD
      = (s.hdr B).size_TOTAL_PAYLOAD + sizeofMallocMetadata + (s.hdr S).size_TOTAL_PAYLOAD := by
    rw [(combineFreeBlockWithSucc_fields B s B).2.2.1, if_pos rfl, hBS, hsum]
  have ht1P : ((combineFreeBlockWithSucc B s).hdr P).size_TOTAL_PAYLOAD
      = (s.hdr P).size_TOTAL_PAYLOAD := by
    rw [(combineFreeBlockWithSucc_fields B s P).2.2.1, if_neg hPneB]
  have hb1B := inv1.bounded B (by simp)
  rw [ht1B] at hb1B
  have c1 := combineFreeBlockWithSucc_counters B s
  have c2 := combineFreeBlockWithPred_counters B (combineFreeBlockWithSucc B s)
    (by rw [hBP1]; exact hPneB)
  have c3 := combineFreeBlockWithSuccAndPred_counters B s
  refine ⟨?_, ?_, ?_, ?_, ?_, ?_, ?_⟩
  · exact (checks_of_listInvariant fuel _ _
      (combineFreeBlockWithSuccAndPred_invariant s l1 l2 P B S inv)
      (by simp only [List.length_append, List.length_cons] at hlen ⊢; omega)).1
  · unfold blockView
    rw [combineFreeBlockWithSuccAndPred_hdr,
      (combineFreeBlockWithPred_fields B _ P).2.2.1,
      (combineFreeBlockWithPred_fields B _ P).2.2.2.1,
      (combineFreeBlockWithPred_fields B _ P).2.2.2.2, hBP1, if_pos rfl, hsum1, ht1B, ht1P,
      (combineFreeBlockWithSucc_fields B s P).2.2.2.1,
      (combineFreeBlockWithSucc_fields B s P).2.2.2.2, if_neg hPneB, if_neg hPneB, hP, hPact]
    simp only [Prod.mk.injEq, and_true, true_and]
    omega
  · intro x hxP hxB
    unfold blockView
    rw [combineFreeBlockWithSuccAndPred_hdr,
      (combineFreeBlockWithPred_fields B _ x).2.2.1,
      (combineFreeBlockWithPred_fields B _ x).2.2.2.1,
      (combineFreeBlockWithPred_fields B _ x).2.2.2.2, hBP1, if_neg hxP,
      (combineFreeBlockWithSucc_fields B s x).2.2.1,
      (combineFreeBlockWithSucc_fields B s x).2.2.2.1,
      (combineFreeBlockWithSucc_fields B s x).2.2.2.2, if_neg hxB, if_neg hxB, if_neg hxB]
  · rw [(combineFreeBlockWithSuccAndPred_ends B s).2,
      (combineFreeBlockWithPred_ends B _).2, hBP1]
    refine getLastD_unlink l1 l2 P B _ (isChain_nodup _ _ _ inv1.chain) ?_
    rw [(combineFreeBlockWithSucc_ends B s).2, hBS, ← e1]
    refine getLastD_unlink (l1 ++ [P]) l2 B S _ (isChain_nodup _ _ _ inve.chain) ?_
    rw [← e]
    exact htail
  · rw [c3.2.2.1, c2.2.2.1, c1.2.2.1]
    simp only [sub64, W] at hTW ⊢
    omega
  · rw [c3.1, c2.1, c1.1]
    simp only [sub64, W] at hFW ⊢
    omega
  · have ht2B : ((combineFreeBlockWithPred B (combineFreeBlockWithSucc B s)).hdr
        B).size_TOTAL_PAYLOAD
        = (s.hdr B).size_TOTAL_PAYLOAD + sizeofMallocMetadata
          + (s.hdr S).size_TOTAL_PAYLOAD := by
      rw [(combineFreeBlockWithPred_fields B _ B).2.2.1, hBP1, if_neg hBneP, ht1B]
    rw [c3.2.1, c2.2.1, c1.2.1, ht2B, ht1B]
    simp only [add64, sub64, sizeofMallocMetadata, W] at hbytes hb1B ⊢
    omega

end Malloc3

/-! ## The theorems on `sfree` at concrete inputs -/

namespace Malloc3
open HeapBlocksList

/-- C23 at concrete inputs: four blocks of `64` bytes `a`, `b`, `c`, `d`, then
`sfree(a)`, `sfree(c)` and `sfree(b)`: the list goes from four blocks to two, the first
one free with `64 + 40 + 64 + 40 + 64 = 272` bytes, `d` is still live, and there are
`1` free block, `272` free bytes and `2` blocks. -/
theorem sfree_between_two_free_blocks_witness :
    heapList 4 (sfree 4096248 (sfree 4096040 fourBlocks))
      = some [4096000, 4096104, 4096208, 4096312] ∧
    heapList 4 (sfree 4096144 (sfree 4096248 (sfree 4096040 fourBlocks)))
      = some [4096000, 4096312] ∧
    blockView (sfree 4096144 (sfree 4096248 (sfree 4096040 fourBlocks))) 4096000
      = (4096000, 272, 0, true) ∧
    blockView (sfree 4096144 (sfree 4096248 (sfree 4096040 fourBlocks))) 4096312
      = (4096312, 64, 64, false) ∧
    (sfree 4096144 (sfree 4096248 (sfree 4096040 fourBlocks))).tail = 4096312 ∧
    (sfree 4096144 (sfree 4096248
      (sfree 4096040 fourBlocks))).heap_blocks_list.blocks_count_TOTAL = 2 ∧
    (sfree 4096144 (sfree 4096248
      (sfree 4096040 fourBlocks))).heap_blocks_list.blocks_count_FREE = 1 ∧
    (sfree 4096144 (sfree 4096248
      (sfree 4096040 fourBlocks))).heap_blocks_list.bytes_count_FREE = 272 := by
  have hl : heapList 4 (sfree 4096248 (sfree 4096040 fourBlocks))
      = some ([] ++ 4096000 :: 4096104 :: 4096208 :: [4096312]) := by decide!
  have hP : ((sfree 4096248 (sfree 4096040 fourBlocks)).hdr 4096000).size_TOTAL_PAYLOAD = 64 := by
    decide!
  have hB : ((sfree 4096248 (sfree 4096040 fourBlocks)).hdr 4096104).size_TOTAL_PAYLOAD = 64 := by
    decide!
  have hS : ((sfree 4096248 (sfree 4096040 fourBlocks)).hdr 4096208).size_TOTAL_PAYLOAD = 64 := by
    decide!
  have hT : (sfree 4096248 (sfree 4096040 fourBlocks)).heap_blocks_list.blocks_count_TOTAL = 4 := by
    decide!
  have hF : (sfree 4096248 (sfree 4096040 fourBlocks)).heap_blocks_list.blocks_count_FREE = 2 := by
    decide!
  have hY : (sfree 4096248 (sfree 4096040 fourBlocks)).heap_blocks_list.bytes_count_FREE = 128 := by
    decide!
  have hd : blockView (sfree 4096248 (sfree 4096040 fourBlocks)) 4096312
      = (4096312, 64, 64, false) := by decide!
  obtain ⟨a1, a2, a3, a4, a5, a6, a7⟩ :=
    sfree_between_two_free_blocks 4 (sfree 4096248 (sfree 4096040 fourBlocks)) [] [4096312]
      4096000 4096104 4096208 4096144 hl (by decide!) (by decide!) (by decide!) (by decide!)
      (by decide) (by decide!) (by decide!) (by decide!) (by decide!) (by decide!) (by decide!)
      (by decide!) (by decide!) (by decide!) (by decide!)
  rw [hP, hB, hS] at a2
  rw [hT] at a5
  rw [hF] at a6
  rw [hY, hB] at a7
  refine ⟨hl, a1, a2, (a3 4096312 (by decide) (by decide)).trans hd, a4, ?_, ?_, a7⟩
  · omega
  · omega

end Malloc3

namespace Malloc3
open HeapBlocksList

/-- C24 at concrete inputs, on four blocks of `64` bytes `a`, `b`, `c`, `d`.  After
`sfree(d)`, `sfree(c)` merges `c` with its successor `d`, the old tail: three blocks are
left, `c` is free with `64 + 40 + 64 = 168` bytes and is the new tail.  After `sfree(a)`,
`sfree(b)` merges `b` into its predecessor `a`: three blocks are left and `a` is free
with `168` bytes.  In both runs there are `1` free block, `3` blocks and `168` free
bytes.  With no free block, `sfree(b)` leaves the four blocks, `b` free with `64` bytes,
`1` free block and `64` free bytes. -/
theorem sfree_with_at_most_one_free_neighbour_witness :
    (heapList 4 (sfree 4096248 (sfree 4096352 fourBlocks))
        = some [4096000, 4096104, 4096208] ∧
      blockView (sfree 4096248 (sfree 4096352 fourBlocks)) 4096208
        = (4096208, 168, 0, true) ∧
      (sfree 4096352 fourBlocks).tail = 4096312 ∧
      (sfree 4096248 (sfree 4096352 fourBlocks)).tail = 4096208 ∧
      (sfree 4096248 (sfree 4096352 fourBlocks)).heap_blocks_list.blocks_count_TOTAL = 3 ∧
      (sfree 4096248 (sfree 4096352 fourBlocks)).heap_blocks_list.blocks_count_FREE = 1 ∧
      (sfree 4096248 (sfree 4096352 fourBlocks)).heap_blocks_list.bytes_count_FREE = 168) ∧
    (heapList 4 (sfree 4096144 (sfree 4096040 fourBlocks))
        = some [4096000, 4096208, 4096312] ∧
      blockView (sfree 4096144 (sfree 4096040 fourBlocks)) 4096000
        = (4096000, 168, 0, true) ∧
      (sfree 4096144 (sfree 4096040 fourBlocks)).tail = 4096312 ∧
      (sfree 4096144 (sfree 4096040 fourBlocks)).heap_blocks_list.blocks_count_TOTAL = 3 ∧
      (sfree 4096144 (sfree 4096040 fourBlocks)).heap_blocks_list.blocks_count_FREE = 1 ∧
      (sfree 4096144 (sfree 4096040 fourBlocks)).heap_blocks_list.bytes_count_FREE = 168) ∧
    (heapList 4 (sfree 4096144 fourBlocks)
        = some [4096000, 4096104, 4096208, 4096312] ∧
      blockView (sfree 4096144 fourBlocks) 4096104 = (4096104, 64, 0, true) ∧
      (sfree 4096144 fourBlocks).heap_blocks_list.blocks_count_TOTAL = 4 ∧
      (sfree 4096144 fourBlocks).heap_blocks_list.blocks_count_FREE = 1 ∧
      (sfree 4096144 fourBlocks).heap_blocks_list.bytes_count_FREE = 64) := by
  have h1 := (sfree_with_at_most_one_free_neighbour 4 (sfree 4096352 fourBlocks)
    [4096000, 4096104, 4096208, 4096312] 4096248 4096208 (by decide!) (by decide!) (by decide!)
    (by decide!) (by decide!) (by decide) (by decide) (by decide!) (by decide!) (by decide!)
    (by decide!) (by decide!) (by decide!)).1 [4096000, 4096104] 4096312 [] (by decide)
    (by decide!) (Or.inr (by decide!))
  have h2 := (sfree_with_at_most_one_free_neighbour 4 (sfree 4096040 fourBlocks)
    [4096000, 4096104, 4096208, 4096312] 4096144 4096104 (by decide!) (by decide!) (by decide!)
    (by decide!) (by decide!) (by decide) (by decide) (by decide!) (by decide!) (by decide!)
    (by decide!) (by decide!) (by decide!)).2.1 [] 4096000 [4096208, 4096312] (by decide)
    (by decide!) (Or.inr (by decide!))
  have h3 := (sfree_with_at_most_one_free_neighbour 4 fourBlocks
    [4096000, 4096104, 4096208, 4096312] 4096144 4096104 (by decide!) (by decide!) (by decide!)
    (by decide!) (by decide!) (by decide) (by decide) (by decide!) (by decide!) (by decide!)
    (by decide!) (by decide!) (by decide!)).2.2 (Or.inr (by decide!)) (Or.inr (by decide!))
  have u1 : ((sfree 4096352 fourBlocks).hdr 4096208).size_TOTAL_PAYLOAD = 64 := by decide!
  have u2 : ((sfree 4096352 fourBlocks).hdr 4096312).size_TOTAL_PAYLOAD = 64 := by decide!
  have u3 : (sfree 4096352 fourBlocks).heap_blocks_list.blocks_count_TOTAL = 4 := by decide!
  have u4 : (sfree 4096352 fourBlocks).heap_blocks_list.blocks_count_FREE = 1 := by decide!
  have u5 : (sfree 4096352 fourBlocks).heap_blocks_list.bytes_count_FREE = 64 := by decide!
  have v1 : ((sfree 4096040 fourBlocks).hdr 4096000).size_TOTAL_PAYLOAD = 64 := by decide!
  have v2 : ((sfree 4096040 fourBlocks).hdr 4096104).size_TOTAL_PAYLOAD = 64 := by decide!
  have v3 : (sfree 4096040 fourBlocks).heap_blocks_list.blocks_count_TOTAL = 4 := by decide!
  have v4 : (sfree 4096040 fourBlocks).heap_blocks_list.blocks_count_FREE = 1 := by decide!
  have v5 : (sfree 4096040 fourBlocks).heap_blocks_list.bytes_count_FREE = 64 := by decide!
  have v6 : ((sfree 4096040 fourBlocks).hdr 4096000).size_ACTIVE_PAYLOAD = 0 := by decide!
  have w1 : (fourBlocks.hdr 4096104).size_TOTAL_PAYLOAD = 64 := by decide!
  have w2 : fourBlocks.heap_blocks_list.blocks_count_TOTAL = 4 := by decide!
  have w3 : fourBlocks.heap_blocks_list.blocks_count_FREE = 0 := by decide!
  have w4 : fourBlocks.heap_blocks_list.bytes_count_FREE = 0 := by decide!
  obtain ⟨a1, a2, _, a4, a5, a6, a7⟩ := h1
  obtain ⟨b1, b2, _, b4, b5, b6, b7⟩ := h2
  obtain ⟨c1, c2, _, _, c5, c6, c7⟩ := h3
  rw [u1, u2] at a2
  rw [u3] at a5
  rw [u4] at a6
  rw [u5, u1] at a7
  rw [v1, v2, v6] at b2
  rw [v3] at b5
  rw [v4] at b6
  rw [v5, v2] at b7
  rw [w1] at c2
  rw [w2] at c5
  rw [w3] at c6
  rw [w4, w1] at c7
  refine ⟨⟨a1, a2, by decide!, a4, ?_, a6, a7⟩, ⟨b1, b2, b4, ?_, b6, b7⟩, ⟨c1, c2, c5, c6, c7⟩⟩
  · omega
  · omega

/-- C25 at concrete inputs: after four blocks of `64` bytes `a`, `b`, `c`, `d`,
`sfree(a)` and `sfree(c)`, the list is contiguous with no two free neighbours, and so is
the list of two blocks left by `sfree(b)`. -/
theorem sfree_preserves_contiguity_and_no_adjacent_free_witness :
    contiguousList (sfree 4096248 (sfree 4096040 fourBlocks))
      [4096000, 4096104, 4096208, 4096312] = true ∧
    noAdjacentFree (sfree 4096248 (sfree 4096040 fourBlocks))
      [4096000, 4096104, 4096208, 4096312] = true ∧
    heapList 4 (sfree 4096144 (sfree 4096248 (sfree 4096040 fourBlocks)))
      = some [4096000, 4096312] ∧
    contiguousList (sfree 4096144 (sfree 4096248 (sfree 4096040 fourBlocks)))
      [4096000, 4096312] = true ∧
    noAdjacentFree (sfree 4096144 (sfree 4096248 (sfree 4096040 fourBlocks)))
      [4096000, 4096312] = true := by
  have hc : contiguousList (sfree 4096248 (sfree 4096040 fourBlocks))
      [4096000, 4096104, 4096208, 4096312] = true := by decide!
  have hn : noAdjacentFree (sfree 4096248 (sfree 4096040 fourBlocks))
      [4096000, 4096104, 4096208, 4096312] = true := by decide!
  have hl : heapList 4 (sfree 4096144 (sfree 4096248 (sfree 4096040 fourBlocks)))
      = some [4096000, 4096312] := by decide!
  obtain ⟨l1, a1, a2, a3, _⟩ :=
    sfree_preserves_contiguity_and_no_adjacent_free 4 (sfree 4096248 (sfree 4096040 fourBlocks))
      [4096000, 4096104, 4096208, 4096312] 4096144 4096104 (by decide!) hc hn (by decide!)
      (by decide!) (by decide) (by decide) (by decide!) (by decide!)
  have e : l1 = [4096000, 4096312] := Option.some.inj (a1.symm.trans hl)
  rw [e] at a2 a3
  exact ⟨hc, hn, hl, a2, a3⟩

end Malloc3

/-! ## Runs on which the routing of `sfree` and the block counters go wrong -/

namespace Malloc3
open HeapBlocksList

/-- C31 on the code: after `p = smalloc(200000)`, which maps a block at `4096000000`,
`srealloc(p, 100)` returns `p`; the mapping is still held and counted, and its header
is live with `active_payload = 100`, below `131072`.  `sfree(p)` is then the release of
the heap list: after it the mapping is still held and still counted, and the counters of
the heap list show one free block of `200000` bytes and no block. -/
theorem mapped_block_released_through_the_heap_list :
    runShrinkMapped.map (fun r => (r.1, r.2.1)) = some (4096000040, 4096000040) ∧
    (afterShrinkMapped.mappings, afterShrinkMapped.mmapped_blocks.total_blocks_count)
      = ([(4096000000, 200040)], 1) ∧
    (afterShrinkMapped.hdr 4096000000).is_free = false ∧
    (afterShrinkMapped.hdr 4096000000).size_ACTIVE_PAYLOAD = 100 ∧
    sfree 4096000040 afterShrinkMapped
      = HeapBlocksList.releaseUsedBlock 4096000040 afterShrinkMapped ∧
    ((sfree 4096000040 afterShrinkMapped).mappings,
      (sfree 4096000040 afterShrinkMapped).mmapped_blocks.total_blocks_count)
      = ([(4096000000, 200040)], 1) ∧
    heapCounters (sfree 4096000040 afterShrinkMapped) = (1, 0, 200000, 0) := by
  refine ⟨by decide!, by decide!, by decide!, by decide!, ?_, by decide!, by decide!⟩
  exact sfree_of_heap_block 4096000040 100 afterShrinkMapped (by decide) (by decide!)
    (by decide)

/-- C33 on the code, heap-sized requests only: `a = smalloc(100)`, `b = smalloc(1000)`,
`c = smalloc(10)`, `sfree(b)`, `srealloc(a, 200)`, `srealloc(a, 300)`,
`p = smalloc(850)`.  The heap list then has four blocks, one of them free, as the
counters say.  After `srealloc(p, 60)`, which returns `p`, the heap list has three
blocks, one of them free, while `blocks_count[TOTAL]` is `5` and `blocks_count[FREE]`
is `2`. -/
theorem block_counters_differ_from_the_heap_list :
    beforeSplitOntoListedBlock.map (fun r => r.1) = some 4096280 ∧
    beforeSplitOntoListedBlock.map (fun r => (heapList 8 r.2).map (fun l => l.map (blockView r.2)))
      = some (some [(4096000, 300, 300, false), (4096340, 800, 0, true),
          (4096240, 900, 850, false), (4097180, 10, 10, false)]) ∧
    beforeSplitOntoListedBlock.map (fun r =>
      (r.2.heap_blocks_list.blocks_count_TOTAL, r.2.heap_blocks_list.blocks_count_FREE))
      = some (4, 1) ∧
    runSplitOntoListedBlock.map (fun r => r.1) = some 4096280 ∧
    runSplitOntoListedBlock.map (fun r => (heapList 8 r.2).map (fun l => l.map (blockView r.2)))
      = some (some [(4096000, 300, 300, false), (4096340, 800, 0, true),
          (4097180, 10, 10, false)]) ∧
    runSplitOntoListedBlock.map (fun r =>
      (r.2.heap_blocks_list.blocks_count_TOTAL, (heapList 8 r.2).map List.length,
        r.2.heap_blocks_list.blocks_count_FREE,
        (heapList 8 r.2).map (fun l => (l.filter (fun a => (r.2.hdr a).is_free)).length)))
      = some (5, some 3, 2, some 1) := by
  refine ⟨?_, ?_, ?_, ?_, ?_, ?_⟩ <;> decide!

end Malloc3

/-! ## The headers after a free block is reused -/

namespace Malloc3
open HeapBlocksList

theorem useFreeBlockWithoutSplit_fields (fb n : Nat) (s : State) (x : Nat) :
    ((useFreeBlockWithoutSplit fb n s).hdr x).next = (s.hdr x).next ∧
    ((useFreeBlockWithoutSplit fb n s).hdr x).size_TOTAL_PAYLOAD
      = (s.hdr x).size_TOTAL_PAYLOAD ∧
    ((useFreeBlockWithoutSplit fb n s).hdr x).is_free
      = (if x = fb then false else (s.hdr x).is_free) ∧
    ((useFreeBlockWithoutSplit fb n s).hdr x).size_ACTIVE_PAYLOAD
      = (if x = fb then n else (s.hdr x).size_ACTIVE_PAYLOAD) := by
  simp [useFreeBlockWithoutSplit]

theorem useFreeBlockWithoutSplit_ends (fb n : Nat) (s : State) :
    (useFreeBlockWithoutSplit fb n s).head = s.head ∧
    (useFreeBlockWithoutSplit fb n s).tail = s.tail ∧
    (useFreeBlockWithoutSplit fb n s).heap_blocks_list.bytes_count_TOTAL
      = s.heap_blocks_list.bytes_count_TOTAL := by
  simp [useFreeBlockWithoutSplit]

theorem useFreeBlockWithSplit_fields (fb n r : Nat) (s : State) (x : Nat) :
    ((useFreeBlockWithSplit fb n r s).hdr x).next
      = (if x = fb then fb + sizeofMallocMetadata + n
          else if x = fb + sizeofMallocMetadata + n then (s.hdr fb).next
          else (s.hdr x).next) ∧
    ((useFreeBlockWithSplit fb n r s).hdr x).size_TOTAL_PAYLOAD
      = (if x = fb + sizeofMallocMetadata + n then r
          else if x = fb then n else (s.hdr x).size_TOTAL_PAYLOAD) ∧
    ((useFreeBlockWithSplit fb n r s).hdr x).is_free
      = (if x = fb + sizeofMallocMetadata + n then true
          else if x = fb then false else (s.hdr x).is_free) ∧
    ((useFreeBlockWithSplit fb n r s).hdr x).size_ACTIVE_PAYLOAD
      = (if x = fb + sizeofMallocMetadata + n then 0
          else if x = fb then n else (s.hdr x).size_ACTIVE_PAYLOAD) := by
  have hne : fb ≠ fb + sizeofMallocMetadata + n := by
    simp only [sizeofMallocMetadata]; omega
  have hne2 : fb + sizeofMallocMetadata + n ≠ fb := fun h => hne h.symm
  unfold useFreeBlockWithSplit updateMetaDataAfterFreeBlockSplit
  simp only []
  refine ⟨?_, ?_, ?_, ?_⟩
  · by_cases h1 : (s.hdr fb).next = 0 <;> by_cases h2 : s.tail = fb <;>
      by_cases h3 : x = fb <;> simp [h1, h2, h3, hne, hne2]
  · by_cases h1 : (s.hdr fb).next = 0 <;> by_cases h2 : s.tail = fb <;>
      by_cases h3 : x = fb <;> simp [h1, h2, h3, hne, hne2]
  · by_cases h1 : (s.hdr fb).next = 0 <;> by_cases h2 : s.tail = fb <;>
      by_cases h3 : x = fb <;> simp [h1, h2, h3, hne, hne2]
  · by_cases h1 : (s.hdr fb).next = 0 <;> by_cases h2 : s.tail = fb <;>
      by_cases h3 : x = fb <;> simp [h1, h2, h3, hne, hne2]

theorem useFreeBlockWithSplit_ends (fb n r : Nat) (s : State) :
    (useFreeBlockWithSplit fb n r s).head = s.head ∧
    (useFreeBlockWithSplit fb n r s).tail
      = (if s.tail = fb then fb + sizeofMallocMetadata + n else s.tail) ∧
    (useFreeBlockWithSplit fb n r s).heap_blocks_list.bytes_count_TOTAL
      = s.heap_blocks_list.bytes_count_TOTAL := by
  unfold useFreeBlockWithSplit updateMetaDataAfterFreeBlockSplit
  simp only []
  refine ⟨?_, ?_, ?_⟩
  · by_cases h1 : (s.hdr fb).next = 0 <;> by_cases h2 : s.tail = fb <;> simp [h1, h2]
  · by_cases h1 : (s.hdr fb).next = 0 <;> by_cases h2 : s.tail = fb <;> simp [h1, h2]
  · by_cases h1 : (s.hdr fb).next = 0 <;> by_cases h2 : s.tail = fb <;> simp [h1, h2]

theorem combineFreeBlockWithSucc_bytes_total (b : Nat) (s : State) :
    (combineFreeBlockWithSucc b s).heap_blocks_list.bytes_count_TOTAL
      = s.heap_blocks_list.bytes_count_TOTAL := by
  unfold combineFreeBlockWithSucc
  simp only []
  by_cases h1 : (s.hdr (s.hdr b).next).next = 0 <;>
    by_cases h2 : s.tail = (s.hdr b).next <;> simp [h1, h2]

theorem freeBlockWithoutCombining_bytes_total (b : Nat) (s : State) :
    (freeBlockWithoutCombining b s).heap_blocks_list.bytes_count_TOTAL
      = s.heap_blocks_list.bytes_count_TOTAL := by
  simp [freeBlockWithoutCombining]

end Malloc3

/-! ## The order of the blocks of a contiguous list -/

namespace Malloc3
open HeapBlocksList

/-- In a contiguous chain every block after the first starts at or above the end of the
first. -/
theorem isChain_above (s : State) :
    ∀ (l : List Nat) (x : Nat), isChain s.mem x (x :: l) →
      (∀ a ∈ x :: l, (s.hdr a).next ≠ 0 →
        a + sizeofMallocMetadata + (s.hdr a).size_TOTAL_PAYLOAD = (s.hdr a).next) →
      ∀ b ∈ l, x + sizeofMallocMetadata + (s.hdr x).size_TOTAL_PAYLOAD ≤ b := by
  intro l
  induction l with
  | nil => intro x _ _ b hb; simp at hb
  | cons y l ih =>
    intro x h hc b hb
    obtain ⟨_, _, e, hy, h4⟩ := h
    have e1 : (s.hdr x).next = y := e
    have hxy := hc x (List.mem_cons_self x _) (by rw [e1]; exact hy)
    rw [e1] at hxy
    rcases List.mem_cons.mp hb with e2 | e2
    · rw [e2]; omega
    · have := ih y ⟨rfl, hy, h4⟩ (fun a ha => hc a (List.mem_cons_of_mem x ha)) b e2
      simp only [sizeofMallocMetadata] at this hxy ⊢
      omega

/-- No block of a list in good order starts inside another block of the list. -/
theorem listInvariant_not_inside (s : State) (l1 l2 : List Nat) (fb : Nat)
    (inv : ListInvariant s (l1 ++ fb :: l2)) :
    ∀ x ∈ l1 ++ fb :: l2,
      x ≤ fb ∨ fb + sizeofMallocMetadata + (s.hdr fb).size_TOTAL_PAYLOAD ≤ x := by
  intro x hx
  rcases List.mem_append.mp hx with h | h
  · left
    obtain ⟨u, v, e⟩ := List.append_of_mem h
    have hc := inv.chain
    have e1 : l1 ++ fb :: l2 = u ++ x :: (v ++ fb :: l2) := by rw [e]; simp
    rw [e1] at hc
    have hs := isChain_suffix s.mem u _ x (v ++ fb :: l2) hc
    have := isChain_above s (v ++ fb :: l2) x hs
      (fun a ha => inv.contiguous a (by rw [e1]; simp only [List.mem_append]; exact Or.inr ha))
      fb (by simp)
    omega
  · rcases List.mem_cons.mp h with h1 | h1
    · left; omega
    · right
      have hs := isChain_suffix s.mem l1 _ fb l2 inv.chain
      exact isChain_above s l2 fb hs
        (fun a ha => inv.contiguous a (List.mem_append.mpr (Or.inr ha))) x h1

end Malloc3

/-! ## `smalloc` from a free block followed by `sfree` -/

namespace Malloc3
open HeapBlocksList

theorem smalloc_reuses_found_block (fuel : Nat) (os : OS) (n fb : Nat) (s : State)
    (h1 : 1 ≤ n) (h2 : n ≤ 131071) (hfb : fb ≠ 0)
    (h : findFreeBlock fuel n s = some fb) :
    smalloc fuel os n s = some (fb + sizeofMallocMetadata, (useFreeBlock fb n s).2) := by
  have hv : ¬ (n = 0 ∨ n > maxSize) := by simp only [maxSize]; omega
  have hk : ¬ n ≥ 128 * KB := by simp only [KB]; omega
  unfold smalloc
  rw [if_neg hv]
  unfold MemoryManager.allocateBlock
  rw [if_neg hk]
  unfold HeapBlocksList.allocateBlock
  rw [h]
  simp only []
  rw [if_neg (fun hc => hfb hc.1), if_neg hfb]
  rfl

theorem useFreeBlock_cases (fb n : Nat) (s : State) :
    ((if sub64 (s.hdr fb).size_TOTAL_PAYLOAD n > sizeofMallocMetadata then
        sub64 (sub64 (s.hdr fb).size_TOTAL_PAYLOAD n) sizeofMallocMetadata else 0)
        < SPLITTING_THRESHOLD ∧
      (useFreeBlock fb n s).2 = useFreeBlockWithoutSplit fb n s) ∨
    (SPLITTING_THRESHOLD ≤
      (if sub64 (s.hdr fb).size_TOTAL_PAYLOAD n > sizeofMallocMetadata then
        sub64 (sub64 (s.hdr fb).size_TOTAL_PAYLOAD n) sizeofMallocMetadata else 0) ∧
      (useFreeBlock fb n s).2 = useFreeBlockWithSplit fb n
        (if sub64 (s.hdr fb).size_TOTAL_PAYLOAD n > sizeofMallocMetadata then
          sub64 (sub64 (s.hdr fb).size_TOTAL_PAYLOAD n) sizeofMallocMetadata else 0) s) := by
  unfold useFreeBlock
  simp only []
  generalize (if sub64 (s.hdr fb).size_TOTAL_PAYLOAD n > sizeofMallocMetadata then
      sub64 (sub64 (s.hdr fb).size_TOTAL_PAYLOAD n) sizeofMallocMetadata else 0) = r
  by_cases hr : r < SPLITTING_THRESHOLD
  · left; rw [if_pos hr]; exact ⟨hr, Eq.refl _⟩
  · right; rw [if_neg hr]; exact ⟨by omega, Eq.refl _⟩

/-- A state that reads the same `head` and the same `next` pointers on the blocks of
the list has the same list. -/
theorem heapList_of_same_next (fuel : Nat) (s t : State) (l : List Nat)
    (hl : heapList fuel s = some l) (hhead : t.head = s.head)
    (hnext : ∀ a ∈ l, (t.hdr a).next = (s.hdr a).next) :
    heapList fuel t = some l := by
  obtain ⟨hc, hlen⟩ := heapListFrom_isChain s.mem fuel s.head l hl
  have := isChain_congr s.mem t.mem l _ hnext hc
  unfold heapList
  rw [hhead]
  exact isChain_heapListFrom t.mem l _ fuel this hlen

/-- C32: in a heap list in good order (the blocks reached from `head` by `next` end at
`NULL`, each `prev` names the block before, every block ends below `2^64`, `tail` is
the last block) with contiguous blocks, no two adjacent free blocks and 64-bit counters,
let `findFreeBlock(n)` find the free block `fb`, with `active_payload = 0`, for a
heap-sized `n`.  Then `smalloc(n)` returns the payload of `fb`, and after the `sfree` of
that pointer the list has the same blocks, each with the same `total_payload`,
`active_payload` and `is_free`, `head` and `tail` are the same, and the four counters
of the heap list have their values from before the `smalloc`. -/
theorem smalloc_then_sfree_restores_the_list (fuel : Nat) (os : OS) (n fb : Nat)
    (s : State) (l : List Nat)
    (hl : heapList fuel s = some l)
    (hcont : contiguousList s l = true)
    (hnaf : noAdjacentFree s l = true)
    (hprev : prevLinked s 0 l = true)
    (hbound : ∀ a ∈ l, a + sizeofMallocMetadata + (s.hdr a).size_TOTAL_PAYLOAD < W)
    (htail : s.tail = l.getLastD 0)
    (hn1 : 1 ≤ n) (hn2 : n ≤ 131071)
    (hfind : findFreeBlock fuel n s = some fb) (hfb : fb ≠ 0)
    (hact : (s.hdr fb).size_ACTIVE_PAYLOAD = 0)
    (hc1 : s.heap_blocks_list.blocks_count_FREE < W)
    (hc2 : s.heap_blocks_list.bytes_count_FREE < W)
    (hc3 : s.heap_blocks_list.blocks_count_TOTAL < W) :
    ∃ s1, smalloc fuel os n s = some (fb + sizeofMallocMetadata, s1) ∧
      heapList fuel (sfree (fb + sizeofMallocMetadata) s1) = some l ∧
      (∀ a ∈ l, blockView (sfree (fb + sizeofMallocMetadata) s1) a = blockView s a) ∧
      (sfree (fb + sizeofMallocMetadata) s1).head = s.head ∧
      (sfree (fb + sizeofMallocMetadata) s1).tail = s.tail ∧
      heapCounters (sfree (fb + sizeofMallocMetadata) s1) = heapCounters s := by
  obtain ⟨inv, hlen⟩ := listInvariant_of_checks fuel s l hl hcont hprev hbound
  have naf := (noAdjacentFree_iff s l _ inv.chain).mp hnaf
  obtain ⟨fb1, hf, hcase⟩ := findFreeBlockLoop_first_fit s.mem n fuel s.head l hl
  have efb : fb1 = fb := Option.some.inj (hf.symm.trans hfind)
  subst efb
  rcases hcase with ⟨h0, _⟩ | ⟨_, l1, l2, e, ⟨hfree, hfit⟩, _⟩
  · exact absurd h0 hfb
  subst e
  have hfree1 : (s.hdr fb1).is_free = true := hfree
  have hfit1 : n ≤ (s.hdr fb1).size_TOTAL_PAYLOAD := hfit
  have hmem : fb1 ∈ l1 ++ fb1 :: l2 := by simp
  have hC := inv.bounded fb1 hmem
  have hs : (s.hdr fb1).next = 0 ∨ (s.hdr (s.hdr fb1).next).is_free = false := by
    by_cases h : (s.hdr fb1).next = 0
    · exact Or.inl h
    · right
      cases hf2 : (s.hdr (s.hdr fb1).next).is_free
      · rfl
      · exact absurd ⟨hfree1, hf2⟩ (naf fb1 hmem h)
  have hq : (s.hdr fb1).prev = 0 ∨
      ((s.hdr fb1).prev < fb1 ∧ (s.hdr (s.hdr fb1).prev).is_free = false) := by
    by_cases h : (s.hdr fb1).prev = 0
    · exact Or.inl h
    · right
      obtain ⟨l0, e0⟩ := listInvariant_pred s l1 l2 fb1 inv h
      have inv0 := inv
      have e1 : l1 ++ fb1 :: l2 = l0 ++ (s.hdr fb1).prev :: fb1 :: l2 := by rw [e0]; simp
      rw [e1] at inv0
      obtain ⟨hPB, _, _, hB0, hlt⟩ := listInvariant_prev s l0 l2 _ fb1 inv0
      refine ⟨hlt, ?_⟩
      cases hf2 : (s.hdr (s.hdr fb1).prev).is_free
      · rfl
      · have := naf (s.hdr fb1).prev (by rw [e1]; simp) (by rw [hPB]; exact hB0)
        rw [hPB] at this
        exact absurd ⟨hf2, hfree1⟩ this
  have hq2 : (s.hdr fb1).prev = 0 ∨ (s.hdr (s.hdr fb1).prev).is_free = false := by
    rcases hq with h | ⟨_, h⟩
    · exact Or.inl h
    · exact Or.inr h
  have hm : metadataOf (fb1 + sizeofMallocMetadata) = fb1 := by
    unfold metadataOf; omega
  refine ⟨(useFreeBlock fb1 n s).2, smalloc_reuses_found_block fuel os n fb1 s hn1 hn2 hfb hfind,
    ?_⟩
  have hsf : sfree (fb1 + sizeofMallocMetadata) (useFreeBlock fb1 n s).2
      = HeapBlocksList.releaseUsedBlock (fb1 + sizeofMallocMetadata)
          (useFreeBlock fb1 n s).2 :=
    sfree_of_heap_block _ n _ (by simp only [sizeofMallocMetadata]; omega)
      (by rw [hm]; exact (useFreeBlock_hdr fb1 n s hfit1).2.2.2) hn2
  rw [hsf]
  have hrem := remaining_payload_size_eq (s.hdr fb1).size_TOTAL_PAYLOAD n hfit1
    (by simp only [sizeofMallocMetadata] at hC; omega)
  rcases useFreeBlock_cases fb1 n s with ⟨_, hU⟩ | ⟨hr, hU⟩
  · rw [hU]
    obtain ⟨hR, k1, k2, k3, _⟩ := roundtrip_without_split fb1 n s hfree1 hs hq2 hc1 hc2
    have k4 : (HeapBlocksList.releaseUsedBlock (fb1 + sizeofMallocMetadata)
        (useFreeBlockWithoutSplit fb1 n s)).heap_blocks_list.bytes_count_TOTAL
        = s.heap_blocks_list.bytes_count_TOTAL := by
      rw [hR, freeBlockWithoutCombining_bytes_total, (useFreeBlockWithoutSplit_ends fb1 n s).2.2]
    refine ⟨?_, ?_, ?_, ?_, ?_⟩
    · refine heapList_of_same_next fuel s _ _ hl ?_ ?_
      · rw [hR, (freeBlockWithoutCombining_ends fb1 _).1, (useFreeBlockWithoutSplit_ends fb1 n s).1]
      · intro a _
        rw [hR, (freeBlockWithoutCombining_fields fb1 _ a).1,
          (useFreeBlockWithoutSplit_fields fb1 n s a).1]
    · intro a _
      unfold blockView
      rw [hR, (freeBlockWithoutCombining_fields fb1 _ a).2.2.1,
        (freeBlockWithoutCombining_fields fb1 _ a).2.2.2.1,
        (freeBlockWithoutCombining_fields fb1 _ a).2.2.2.2,
        (useFreeBlockWithoutSplit_fields fb1 n s a).2.1,
        (useFreeBlockWithoutSplit_fields fb1 n s a).2.2.1,
        (useFreeBlockWithoutSplit_fields fb1 n s a).2.2.2]
      by_cases ha : a = fb1
      · rw [if_pos ha, if_pos ha, ha, hfree1, hact]
      · rw [if_neg ha, if_neg ha, if_neg ha, if_neg ha]
    · rw [hR, (freeBlockWithoutCombining_ends fb1 _).1, (useFreeBlockWithoutSplit_ends fb1 n s).1]
    · rw [hR, (freeBlockWithoutCombining_ends fb1 _).2, (useFreeBlockWithoutSplit_ends fb1 n s).2.1]
    · unfold heapCounters
      rw [k1, k2, k3, k4]
  · rw [hU]
    rw [hrem] at hr ⊢
    have hgt : (s.hdr fb1).size_TOTAL_PAYLOAD - n > 40 := by
      by_cases hh : (s.hdr fb1).size_TOTAL_PAYLOAD - n > 40
      · exact hh
      · rw [if_neg hh] at hr
        simp only [SPLITTING_THRESHOLD] at hr
        omega
    rw [if_pos hgt] at hr ⊢
    simp only [SPLITTING_THRESHOLD] at hr
    obtain ⟨hR, k1, k2, k3, _⟩ := roundtrip_with_split fb1 n
      ((s.hdr fb1).size_TOTAL_PAYLOAD - n - 40) s hfb hfree1 hs hq hc2 hc3
    have hrb : ∀ a ∈ l1 ++ fb1 :: l2, a ≠ fb1 + sizeofMallocMetadata + n := by
      intro a ha e
      have := listInvariant_not_inside s l1 l2 fb1 inv a ha
      simp only [sizeofMallocMetadata] at this e
      omega
    have hne : fb1 + sizeofMallocMetadata + n ≠ fb1 := by
      simp only [sizeofMallocMetadata]; omega
    have hn1f : ((useFreeBlockWithSplit fb1 n ((s.hdr fb1).size_TOTAL_PAYLOAD - n - 40) s).hdr
        fb1).next = fb1 + sizeofMallocMetadata + n := by
      rw [(useFreeBlockWithSplit_fields fb1 n _ s fb1).1, if_pos rfl]
    have k4 : (HeapBlocksList.releaseUsedBlock (fb1 + sizeofMallocMetadata)
        (useFreeBlockWithSplit fb1 n ((s.hdr fb1).size_TOTAL_PAYLOAD - n - 40)
          s)).heap_blocks_list.bytes_count_TOTAL
        = s.heap_blocks_list.bytes_count_TOTAL := by
      rw [hR, combineFreeBlockWithSucc_bytes_total, (useFreeBlockWithSplit_ends fb1 n _ s).2.2]
    refine ⟨?_, ?_, ?_, ?_, ?_⟩
    · refine heapList_of_same_next fuel s _ _ hl ?_ ?_
      · rw [hR, (combineFreeBlockWithSucc_ends fb1 _).1, (useFreeBlockWithSplit_ends fb1 n _ s).1]
      · intro a ha
        rw [hR, (combineFreeBlockWithSucc_fields fb1 _ a).1, hn1f]
        by_cases hafb : a = fb1
        · rw [if_pos hafb, (useFreeBlockWithSplit_fields fb1 n _ s _).1, if_neg hne, if_pos rfl,
            hafb]
        · rw [if_neg hafb, (useFreeBlockWithSplit_fields fb1 n _ s a).1, if_neg hafb,
            if_neg (hrb a ha)]
    · intro a ha
      unfold blockView
      rw [hR, (combineFreeBlockWithSucc_fields fb1 _ a).2.2.1,
        (combineFreeBlockWithSucc_fields fb1 _ a).2.2.2.1,
        (combineFreeBlockWithSucc_fields fb1 _ a).2.2.2.2, hn1f]
      by_cases hafb : a = fb1
      · rw [if_pos hafb, if_pos hafb, if_pos hafb,
          (useFreeBlockWithSplit_fields fb1 n _ s fb1).2.1,
          (useFreeBlockWithSplit_fields fb1 n _ s (fb1 + sizeofMallocMetadata + n)).2.1,
          if_neg (Ne.symm hne), if_pos rfl, if_pos rfl, hafb, hfree1, hact]
        have : add64 n (add64 sizeofMallocMetadata ((s.hdr fb1).size_TOTAL_PAYLOAD - n - 40))
            = (s.hdr fb1).size_TOTAL_PAYLOAD := by
          simp only [add64, sizeofMallocMetadata, W] at hC ⊢
          omega
        rw [this]
      · rw [if_neg hafb, if_neg hafb, if_neg hafb,
          (useFreeBlockWithSplit_fields fb1 n _ s a).2.1,
          (useFreeBlockWithSplit_fields fb1 n _ s a).2.2.1,
          (useFreeBlockWithSplit_fields fb1 n _ s a).2.2.2,
          if_neg (hrb a ha), if_neg (hrb a ha), if_neg (hrb a ha), if_neg hafb, if_neg hafb,
          if_neg hafb]
    · rw [hR, (combineFreeBlockWithSucc_ends fb1 _).1, (useFreeBlockWithSplit_ends fb1 n _ s).1]
    · rw [hR, (combineFreeBlockWithSucc_ends fb1 _).2, hn1f,
        (useFreeBlockWithSplit_ends fb1 n _ s).2.1]
      by_cases ht : s.tail = fb1
      · rw [if_pos ht, if_pos rfl, ht]
      · rw [if_neg ht, if_neg]
        intro e
        have hnd := isChain_nodup s.mem _ _ inv.chain
        rw [htail, getLastD_append_cons] at e
        have hm2 := getLastD_cons_mem l2 fb1 0
        rw [e] at hm2
        exact hrb _ (List.mem_append.mpr (Or.inr hm2)) rfl
    · unfold heapCounters
      rw [k1, k2, k3, k4]

end Malloc3

namespace Malloc3
open HeapBlocksList

/-- C32 at concrete inputs: after `a = smalloc(1000)`, `c = smalloc(10)` and `sfree(a)`
the list is a free block of `1000` bytes at `4096000` and the block of `c`.
`smalloc(832)` splits the free block (three blocks), `smalloc(900)` takes it whole; in
both cases the `sfree` of the pointer returned leaves the two blocks, the free block of
`1000` bytes and the counters as before the `smalloc`. -/
theorem smalloc_then_sfree_restores_the_list_witness :
    heapList 4 beforeSplitReuse = some [4096000, 4097040] ∧
    blockView beforeSplitReuse 4096000 = (4096000, 1000, 0, true) ∧
    heapCounters beforeSplitReuse = (1, 2, 1000, 1090) ∧
    (smalloc 4 os0 832 beforeSplitReuse).map (fun r => heapList 4 r.2)
      = some (some [4096000, 4096872, 4097040]) ∧
    (smalloc 4 os0 900 beforeSplitReuse).map (fun r => heapList 4 r.2)
      = some (some [4096000, 4097040]) ∧
    (∃ s1, smalloc 4 os0 832 beforeSplitReuse = some (4096040, s1) ∧
      heapList 4 (sfree 4096040 s1) = some [4096000, 4097040] ∧
      blockView (sfree 4096040 s1) 4096000 = (4096000, 1000, 0, true) ∧
      heapCounters (sfree 4096040 s1) = (1, 2, 1000, 1090)) ∧
    (∃ s1, smalloc 4 os0 900 beforeSplitReuse = some (4096040, s1) ∧
      heapList 4 (sfree 4096040 s1) = some [4096000, 4097040] ∧
      blockView (sfree 4096040 s1) 4096000 = (4096000, 1000, 0, true) ∧
      heapCounters (sfree 4096040 s1) = (1, 2, 1000, 1090)) := by
  have hl : heapList 4 beforeSplitReuse = some [4096000, 4097040] := by decide!
  have hv : blockView beforeSplitReuse 4096000 = (4096000, 1000, 0, true) := by decide!
  have hc : heapCounters beforeSplitReuse = (1, 2, 1000, 1090) := by decide!
  obtain ⟨s1, a1, a2, a3, _, _, a6⟩ :=
    smalloc_then_sfree_restores_the_list 4 os0 832 4096000 beforeSplitReuse
      [4096000, 4097040] hl (by decide!) (by decide!) (by decide!) (by decide!) (by decide!)
      (by decide) (by decide) (by decide!) (by decide) (by decide!) (by decide!) (by decide!)
      (by decide!)
  obtain ⟨s2, b1, b2, b3, _, _, b6⟩ :=
    smalloc_then_sfree_restores_the_list 4 os0 900 4096000 beforeSplitReuse
      [4096000, 4097040] hl (by decide!) (by decide!) (by decide!) (by decide!) (by decide!)
      (by decide) (by decide) (by decide!) (by decide) (by decide!) (by decide!) (by decide!)
      (by decide!)
  exact ⟨hl, hv, hc, by decide!, by decide!,
    ⟨s1, a1, a2, (a3 4096000 (by decide)).trans hv, a6.trans hc⟩,
    ⟨s2, b1, b2, (b3 4096000 (by decide)).trans hv, b6.trans hc⟩⟩

end Malloc3

/-! ## Reading a state of `malloc_2` after one store -/

namespace Malloc2

@[simp] theorem bl_hdr_setTotal_size_TOTAL_PAYLOAD (s : State) (p : Nat) (v : Nat) (x : Nat) :
    ((s.setTotal p v).hdr x).size_TOTAL_PAYLOAD = if x = p then v else (s.hdr x).size_TOTAL_PAYLOAD := by
  simp only [State.setTotal, Memory.setTotal, State.hdr]
  split <;> simp_all

@[simp] theorem bl_hdr_setTotal_size_ACTIVE_PAYLOAD (s : State) (p : Nat) (v : Nat) (x : Nat) :
    ((s.setTotal p v).hdr x).size_ACTIVE_PAYLOAD = (s.hdr x).size_ACTIVE_PAYLOAD := by
  simp only [State.setTotal, Memory.setTotal, State.hdr]
  split <;> simp_all

@[simp] theorem bl_hdr_setTotal_is_free (s : State) (p : Nat) (v : Nat) (x : Nat) :
    ((s.setTotal p v).hdr x).is_free = (s.hdr x).is_free := by
  simp only [State.setTotal, Memory.setTotal, State.hdr]
  split <;> simp_all

@[simp] theorem bl_hdr_setTotal_next (s : State) (p : Nat) (v : Nat) (x : Nat) :
    ((s.setTotal p v).hdr x).next = (s.hdr x).next := by
  simp only [State.setTotal, Memory.setTotal, State.hdr]
  split <;> simp_all

@[simp] theorem bl_hdr_setTotal_prev (s : State) (p : Nat) (v : Nat) (x : Nat) :
    ((s.setTotal p v).hdr x).prev = (s.hdr x).prev := by
  simp only [State.setTotal, Memory.setTotal, State.hdr]
  split <;> simp_all

theorem bl_hdr_setTotal_of_ne (s : State) (p : Nat) (v : Nat) (x : Nat) (h : x ≠ p) :
    (s.setTotal p v).hdr x = s.hdr x := by
  simp [State.setTotal, Memory.setTotal, State.hdr, h]

@[simp] theorem bl_brk_setTotal (s : State) (p : Nat) (v : Nat) :
    (s.setTotal p v).brk = s.brk := Eq.trans rfl rfl

@[simp] theorem bl_blocks_list_setTotal (s : State) (p : Nat) (v : Nat) :
    (s.setTotal p v).blocks_list = s.blocks_list := Eq.trans rfl rfl

@[simp] theorem bl_head_setTotal (s : State) (p : Nat) (v : Nat) :
    (s.setTotal p v).head = s.head := Eq.trans rfl rfl

@[simp] theorem bl_tail_setTotal (s : State) (p : Nat) (v : Nat) :
    (s.setTotal p v).tail = s.tail := Eq.trans rfl rfl

@[simp] theorem bl_hdr_setActive_size_TOTAL_PAYLOAD (s : State) (p : Nat) (v : Nat) (x : Nat) :
    ((s.setActive p v).hdr x).size_TOTAL_PAYLOAD = (s.hdr x).size_TOTAL_PAYLOAD := by
  simp only [State.setActive, Memory.setActive, State.hdr]
  split <;> simp_all

@[simp] theorem bl_hdr_setActive_size_ACTIVE_PAYLOAD (s : State) (p : Nat) (v : Nat) (x : Nat) :
    ((s.setActive p v).hdr x).size_ACTIVE_PAYLOAD = if x = p then v else (s.hdr x).size_ACTIVE_PAYLOAD := by
  simp only [State.setActive, Memory.setActive, State.hdr]
  split <;> simp_all

@[simp] theorem bl_hdr_setActive_is_free (s : State) (p : Nat) (v : Nat) (x : Nat) :
    ((s.setActive p v).hdr x).is_free = (s.hdr x).is_free := by
  simp only [State.setActive, Memory.setActive, State.hdr]
  split <;> simp_all

@[simp] theorem bl_hdr_setActive_next (s : State) (p : Nat) (v : Nat) (x : Nat) :
    ((s.setActive p v).hdr x).next = (s.hdr x).next := by
  simp only [State.setActive, Memory.setActive, State.hdr]
  split <;> simp_all

@[simp] theorem bl_hdr_setActive_prev (s : State) (p : Nat) (v : Nat) (x : Nat) :
    ((s.setActive p v).hdr x).prev = (s.hdr x).prev := by
  simp only [State.setActive, Memory.setActive, State.hdr]
  split <;> simp_all

theorem bl_hdr_setActive_of_ne (s : State) (p : Nat) (v : Nat) (x : Nat) (h : x ≠ p) :
    (s.setActive p v).hdr x = s.hdr x := by
  simp [State.setActive, Memory.setActive, State.hdr, h]

@[simp] theorem bl_brk_setActive (s : State) (p : Nat) (v : Nat) :
    (s.setActive p v).brk = s.brk := Eq.trans rfl rfl

@[simp] theorem bl_blocks_list_setActive (s : State) (p : Nat) (v : Nat) :
    (s.setActive p v).blocks_list = s.blocks_list := Eq.trans rfl rfl

@[simp] theorem bl_head_setActive (s : State) (p : Nat) (v : Nat) :
    (s.setActive p v).head = s.head := Eq.trans rfl rfl

@[simp] theorem bl_tail_setActive (s : State) (p : Nat) (v : Nat) :
    (s.setActive p v).tail = s.tail := Eq.trans rfl rfl

@[simp] theorem bl_hdr_setIsFree_size_TOTAL_PAYLOAD (s : State) (p : Nat) (v : Bool) (x : Nat) :
    ((s.setIsFree p v).hdr x).size_TOTAL_PAYLOAD = (s.hdr x).size_TOTAL_PAYLOAD := by
  simp only [State.setIsFree, Memory.setIsFree, State.hdr]
  split <;> simp_all

@[simp] theorem bl_hdr_setIsFree_size_ACTIVE_PAYLOAD (s : State) (p : Nat) (v : Bool) (x : Nat) :
    ((s.setIsFree p v).hdr x).size_ACTIVE_PAYLOAD = (s.hdr x).size_ACTIVE_PAYLOAD := by
  simp only [State.setIsFree, Memory.setIsFree, State.hdr]
  split <;> simp_all

@[simp] theorem bl_hdr_setIsFree_is_free (s : State) (p : Nat) (v : Bool) (x : Nat) :
    ((s.setIsFree p v).hdr x).is_free = if x = p then v else (s.hdr x).is_free := by
  simp only [State.setIsFree, Memory.setIsFree, State.hdr]
  split <;> simp_all

@[simp] theorem bl_hdr_setIsFree_next (s : State) (p : Nat) (v : Bool) (x : Nat) :
    ((s.setIsFree p v).hdr x).next = (s.hdr x).next := by
  simp only [State.setIsFree, Memory.setIsFree, State.hdr]
  split <;> simp_all

@[simp] theorem bl_hdr_setIsFree_prev (s : State) (p : Nat) (v : Bool) (x : Nat) :
    ((s.setIsFree p v).hdr x).prev = (s.hdr x).prev := by
  simp only [State.setIsFree, Memory.setIsFree, State.hdr]
  split <;> simp_all

theorem bl_hdr_setIsFree_of_ne (s : State) (p : Nat) (v : Bool) (x : Nat) (h : x ≠ p) :
    (s.setIsFree p v).hdr x = s.hdr x := by
  simp [State.setIsFree, Memory.setIsFree, State.hdr, h]

@[simp] theorem bl_brk_setIsFree (s : State) (p : Nat) (v : Bool) :
    (s.setIsFree p v).brk = s.brk := Eq.trans rfl rfl

@[simp] theorem bl_blocks_list_setIsFree (s : State) (p : Nat) (v : Bool) :
    (s.setIsFree p v).blocks_list = s.blocks_list := Eq.trans rfl rfl

@[simp] theorem bl_head_setIsFree (s : State) (p : Nat) (v : Bool) :
    (s.setIsFree p v).head = s.head := Eq.trans rfl rfl

@[simp] theorem bl_tail_setIsFree (s : State) (p : Nat) (v : Bool) :
    (s.setIsFree p v).tail = s.tail := Eq.trans rfl rfl

@[simp] theorem bl_hdr_setNext_size_TOTAL_PAYLOAD (s : State) (p : Nat) (v : Nat) (x : Nat) :
    ((s.setNext p v).hdr x).size_TOTAL_PAYLOAD = (s.hdr x).size_TOTAL_PAYLOAD := by
  simp only [State.setNext, Memory.setNext, State.hdr]
  split <;> simp_all

@[simp] theorem bl_hdr_setNext_size_ACTIVE_PAYLOAD (s : State) (p : Nat) (v : Nat) (x : Nat) :
    ((s.setNext p v).hdr x).size_ACTIVE_PAYLOAD = (s.hdr x).size_ACTIVE_PAYLOAD := by
  simp only [State.setNext, Memory.setNext, State.hdr]
  split <;> simp_all

@[simp] theorem bl_hdr_setNext_is_free (s : State) (p : Nat) (v : Nat) (x : Nat) :
    ((s.setNext p v).hdr x).is_free = (s.hdr x).is_free := by
  simp only [State.setNext, Memory.setNext, State.hdr]
  split <;> simp_all

@[simp] theorem bl_hdr_setNext_next (s : State) (p : Nat) (v : Nat) (x : Nat) :
    ((s.setNext p v).hdr x).next = if x = p then v else (s.hdr x).next := by
  simp only [State.setNext, Memory.setNext, State.hdr]
  split <;> simp_all

@[simp] theorem bl_hdr_setNext_prev (s : State) (p : Nat) (v : Nat) (x : Nat) :
    ((s.setNext p v).hdr x).prev = (s.hdr x).prev := by
  simp only [State.setNext, Memory.setNext, State.hdr]
  split <;> simp_all

theorem bl_hdr_setNext_of_ne (s : State) (p : Nat) (v : Nat) (x : Nat) (h : x ≠ p) :
    (s.setNext p v).hdr x = s.hdr x := by
  simp [State.setNext, Memory.setNext, State.hdr, h]

@[simp] theorem bl_brk_setNext (s : State) (p : Nat) (v : Nat) :
    (s.setNext p v).brk = s.brk := Eq.trans rfl rfl

@[simp] theorem bl_blocks_list_setNext (s : State) (p : Nat) (v : Nat) :
    (s.setNext p v).blocks_list = s.blocks_list := Eq.trans rfl rfl

@[simp] theorem bl_head_setNext (s : State) (p : Nat) (v : Nat) :
    (s.setNext p v).head = s.head := Eq.trans rfl rfl

@[simp] theorem bl_tail_setNext (s : State) (p : Nat) (v : Nat) :
    (s.setNext p v).tail = s.tail := Eq.trans rfl rfl

@[simp] theorem bl_hdr_setPrev_size_TOTAL_PAYLOAD (s : State) (p : Nat) (v : Nat) (x : Nat) :
    ((s.setPrev p v).hdr x).size_TOTAL_PAYLOAD = (s.hdr x).size_TOTAL_PAYLOAD := by
  simp only [State.setPrev, Memory.setPrev, State.hdr]
  split <;> simp_all

@[simp] theorem bl_hdr_setPrev_size_ACTIVE_PAYLOAD (s : State) (p : Nat) (v : Nat) (x : Nat) :
    ((s.setPrev p v).hdr x).size_ACTIVE_PAYLOAD = (s.hdr x).size_ACTIVE_PAYLOAD := by
  simp only [State.setPrev, Memory.setPrev, State.hdr]
  split <;> simp_all

@[simp] theorem bl_hdr_setPrev_is_free (s : State) (p : Nat) (v : Nat) (x : Nat) :
    ((s.setPrev p v).hdr x).is_free = (s.hdr x).is_free := by
  simp only [State.setPrev, Memory.setPrev, State.hdr]
  split <;> simp_all

@[simp] theorem bl_hdr_setPrev_next (s : State) (p : Nat) (v : Nat) (x : Nat) :
    ((s.setPrev p v).hdr x).next = (s.hdr x).next := by
  simp only [State.setPrev, Memory.setPrev, State.hdr]
  split <;> simp_all

@[simp] theorem bl_hdr_setPrev_prev (s : State) (p : Nat) (v : Nat) (x : Nat) :
    ((s.setPrev p v).hdr x).prev = if x = p then v else (s.hdr x).prev := by
  simp only [State.setPrev, Memory.setPrev, State.hdr]
  split <;> simp_all

theorem bl_hdr_setPrev_of_ne (s : State) (p : Nat) (v : Nat) (x : Nat) (h : x ≠ p) :
    (s.setPrev p v).hdr x = s.hdr x := by
  simp [State.setPrev, Memory.setPrev, State.hdr, h]

@[simp] theorem bl_brk_setPrev (s : State) (p : Nat) (v : Nat) :
    (s.setPrev p v).brk = s.brk := Eq.trans rfl rfl

@[simp] theorem bl_blocks_list_setPrev (s : State) (p : Nat) (v : Nat) :
    (s.setPrev p v).blocks_list = s.blocks_list := Eq.trans rfl rfl

@[simp] theorem bl_head_setPrev (s : State) (p : Nat) (v : Nat) :
    (s.setPrev p v).head = s.head := Eq.trans rfl rfl

@[simp] theorem bl_tail_setPrev (s : State) (p : Nat) (v : Nat) :
    (s.setPrev p v).tail = s.tail := Eq.trans rfl rfl

@[simp] theorem bl_hdr_setHead (s : State) (v x : Nat) : (s.setHead v).hdr x = s.hdr x := Eq.trans rfl rfl

@[simp] theorem bl_mem_setHead (s : State) (v : Nat) : (s.setHead v).mem = s.mem := Eq.trans rfl rfl

@[simp] theorem bl_brk_setHead (s : State) (v : Nat) : (s.setHead v).brk = s.brk := Eq.trans rfl rfl

@[simp] theorem bl_head_setHead (s : State) (v : Nat) :
    (s.setHead v).blocks_list.head = v := Eq.trans rfl rfl

@[simp] theorem bl_tail_setHead (s : State) (v : Nat) :
    (s.setHead v).blocks_list.tail = s.blocks_list.tail := Eq.trans rfl rfl

@[simp] theorem bl_blocks_count_FREE_setHead (s : State) (v : Nat) :
    (s.setHead v).blocks_list.blocks_count_FREE = s.blocks_list.blocks_count_FREE := Eq.trans rfl rfl

@[simp] theorem bl_blocks_count_TOTAL_setHead (s : State) (v : Nat) :
    (s.setHead v).blocks_list.blocks_count_TOTAL = s.blocks_list.blocks_count_TOTAL := Eq.trans rfl rfl

@[simp] theorem bl_bytes_count_FREE_setHead (s : State) (v : Nat) :
    (s.setHead v).blocks_list.bytes_count_FREE = s.blocks_list.bytes_count_FREE := Eq.trans rfl rfl

@[simp] theorem bl_bytes_count_TOTAL_setHead (s : State) (v : Nat) :
    (s.setHead v).blocks_list.bytes_count_TOTAL = s.blocks_list.bytes_count_TOTAL := Eq.trans rfl rfl

@[simp] theorem bl_st_head_setHead (s : State) (v : Nat) : (s.setHead v).head = v := Eq.trans rfl rfl

@[simp] theorem bl_st_tail_setHead (s : State) (v : Nat) : (s.setHead v).tail = s.tail := Eq.trans rfl rfl

@[simp] theorem bl_hdr_setTail (s : State) (v x : Nat) : (s.setTail v).hdr x = s.hdr x := Eq.trans rfl rfl

@[simp] theorem bl_mem_setTail (s : State) (v : Nat) : (s.setTail v).mem = s.mem := Eq.trans rfl rfl

@[simp] theorem bl_brk_setTail (s : State) (v : Nat) : (s.setTail v).brk = s.brk := Eq.trans rfl rfl

@[simp] theorem bl_head_setTail (s : State) (v : Nat) :
    (s.setTail v).blocks_list.head = s.blocks_list.head := Eq.trans rfl rfl

@[simp] theorem bl_tail_setTail (s : State) (v : Nat) :
    (s.setTail v).blocks_list.tail = v := Eq.trans rfl rfl

@[simp] theorem bl_blocks_count_FREE_setTail (s : State) (v : Nat) :
    (s.setTail v).blocks_list.blocks_count_FREE = s.blocks_list.blocks_count_FREE := Eq.trans rfl rfl

@[simp] theorem bl_blocks_count_TOTAL_setTail (s : State) (v : Nat) :
    (s.setTail v).blocks_list.blocks_count_TOTAL = s.blocks_list.blocks_count_TOTAL := Eq.trans rfl rfl

@[simp] theorem bl_bytes_count_FREE_setTail (s : State) (v : Nat) :
    (s.setTail v).blocks_list.bytes_count_FREE = s.blocks_list.bytes_count_FREE := Eq.trans rfl rfl

@[simp] theorem bl_bytes_count_TOTAL_setTail (s : State) (v : Nat) :
    (s.setTail v).blocks_list.bytes_count_TOTAL = s.blocks_list.bytes_count_TOTAL := Eq.trans rfl rfl

@[simp] theorem bl_st_head_setTail (s : State) (v : Nat) : (s.setTail v).head = s.head := Eq.trans rfl rfl

@[simp] theorem bl_st_tail_setTail (s : State) (v : Nat) : (s.setTail v).tail = v := Eq.trans rfl rfl

@[simp] theorem bl_hdr_setBlocksFREE (s : State) (v x : Nat) : (s.setBlocksFREE v).hdr x = s.hdr x := Eq.trans rfl rfl

@[simp] theorem bl_mem_setBlocksFREE (s : State) (v : Nat) : (s.setBlocksFREE v).mem = s.mem := Eq.trans rfl rfl

@[simp] theorem bl_brk_setBlocksFREE (s : State) (v : Nat) : (s.setBlocksFREE v).brk = s.brk := Eq.trans rfl rfl

@[simp] theorem bl_head_setBlocksFREE (s : State) (v : Nat) :
    (s.setBlocksFREE v).blocks_list.head = s.blocks_list.head := Eq.trans rfl rfl

@[simp] theorem bl_tail_setBlocksFREE (s : State) (v : Nat) :
    (s.setBlocksFREE v).blocks_list.tail = s.blocks_list.tail := Eq.trans rfl rfl

@[simp] theorem bl_blocks_count_FREE_setBlocksFREE (s : State) (v : Nat) :
    (s.setBlocksFREE v).blocks_list.blocks_count_FREE = v := Eq.trans rfl rfl

@[simp] theorem bl_blocks_count_TOTAL_setBlocksFREE (s : State) (v : Nat) :
    (s.setBlocksFREE v).blocks_list.blocks_count_TOTAL = s.blocks_list.blocks_count_TOTAL := Eq.trans rfl rfl

@[simp] theorem bl_bytes_count_FREE_setBlocksFREE (s : State) (v : Nat) :
    (s.setBlocksFREE v).blocks_list.bytes_count_FREE = s.blocks_list.bytes_count_FREE := Eq.trans rfl rfl

@[simp] theorem bl_bytes_count_TOTAL_setBlocksFREE (s : State) (v : Nat) :
    (s.setBlocksFREE v).blocks_list.bytes_count_TOTAL = s.blocks_list.bytes_count_TOTAL := Eq.trans rfl rfl

@[simp] theorem bl_st_head_setBlocksFREE (s : State) (v : Nat) : (s.setBlocksFREE v).head = s.head := Eq.trans rfl rfl

@[simp] theorem bl_st_tail_setBlocksFREE (s : State) (v : Nat) : (s.setBlocksFREE v).tail = s.tail := Eq.trans rfl rfl

@[simp] theorem bl_hdr_setBlocksTOTAL (s : State) (v x : Nat) : (s.setBlocksTOTAL v).hdr x = s.hdr x := Eq.trans rfl rfl

@[simp] theorem bl_mem_setBlocksTOTAL (s : State) (v : Nat) : (s.setBlocksTOTAL v).mem = s.mem := Eq.trans rfl rfl

@[simp] theorem bl_brk_setBlocksTOTAL (s : State) (v : Nat) : (s.setBlocksTOTAL v).brk = s.brk := Eq.trans rfl rfl

@[simp] theorem bl_head_setBlocksTOTAL (s : State) (v : Nat) :
    (s.setBlocksTOTAL v).blocks_list.head = s.blocks_list.head := Eq.trans rfl rfl

@[simp] theorem bl_tail_setBlocksTOTAL (s : State) (v : Nat) :
    (s.setBlocksTOTAL v).blocks_list.tail = s.blocks_list.tail := Eq.trans rfl rfl

@[simp] theorem bl_blocks_count_FREE_setBlocksTOTAL (s : State) (v : Nat) :
    (s.setBlocksTOTAL v).blocks_list.blocks_count_FREE = s.blocks_list.blocks_count_FREE := Eq.trans rfl rfl

@[simp] theorem bl_blocks_count_TOTAL_setBlocksTOTAL (s : State) (v : Nat) :
    (s.setBlocksTOTAL v).blocks_list.blocks_count_TOTAL = v := Eq.trans rfl rfl

@[simp] theorem bl_bytes_count_FREE_setBlocksTOTAL (s : State) (v : Nat) :
    (s.setBlocksTOTAL v).blocks_list.bytes_count_FREE = s.blocks_list.bytes_count_FREE := Eq.trans rfl rfl

@[simp] theorem bl_bytes_count_TOTAL_setBlocksTOTAL (s : State) (v : Nat) :
    (s.setBlocksTOTAL v).blocks_list.bytes_count_TOTAL = s.blocks_list.bytes_count_TOTAL := Eq.trans rfl rfl

@[simp] theorem bl_st_head_setBlocksTOTAL (s : State) (v : Nat) : (s.setBlocksTOTAL v).head = s.head := Eq.trans rfl rfl

@[simp] theorem bl_st_tail_setBlocksTOTAL (s : State) (v : Nat) : (s.setBlocksTOTAL v).tail = s.tail := Eq.trans rfl rfl

@[simp] theorem bl_hdr_setBytesFREE (s : State) (v x : Nat) : (s.setBytesFREE v).hdr x = s.hdr x := Eq.trans rfl rfl

@[simp] theorem bl_mem_setBytesFREE (s : State) (v : Nat) : (s.setBytesFREE v).mem = s.mem := Eq.trans rfl rfl

@[simp] theorem bl_brk_setBytesFREE (s : State) (v : Nat) : (s.setBytesFREE v).brk = s.brk := Eq.trans rfl rfl

@[simp] theorem bl_head_setBytesFREE (s : State) (v : Nat) :
    (s.setBytesFREE v).blocks_list.head = s.blocks_list.head := Eq.trans rfl rfl

@[simp] theorem bl_tail_setBytesFREE (s : State) (v : Nat) :
    (s.setBytesFREE v).blocks_list.tail = s.blocks_list.tail := Eq.trans rfl rfl

@[simp] theorem bl_blocks_count_FREE_setBytesFREE (s : State) (v : Nat) :
    (s.setBytesFREE v).blocks_list.blocks_count_FREE = s.blocks_list.blocks_count_FREE := Eq.trans rfl rfl

@[simp] theorem bl_blocks_count_TOTAL_setBytesFREE (s : State) (v : Nat) :
    (s.setBytesFREE v).blocks_list.blocks_count_TOTAL = s.blocks_list.blocks_count_TOTAL := Eq.trans rfl rfl

@[simp] theorem bl_bytes_count_FREE_setBytesFREE (s : State) (v : Nat) :
    (s.setBytesFREE v).blocks_list.bytes_count_FREE = v := Eq.trans rfl rfl

@[simp] theorem bl_bytes_count_TOTAL_setBytesFREE (s : State) (v : Nat) :
    (s.setBytesFREE v).blocks_list.bytes_count_TOTAL = s.blocks_list.bytes_count_TOTAL := Eq.trans rfl rfl

@[simp] theorem bl_st_head_setBytesFREE (s : State) (v : Nat) : (s.setBytesFREE v).head = s.head := Eq.trans rfl rfl

@[simp] theorem bl_st_tail_setBytesFREE (s : State) (v : Nat) : (s.setBytesFREE v).tail = s.tail := Eq.trans rfl rfl

@[simp] theorem bl_hdr_setBytesTOTAL (s : State) (v x : Nat) : (s.setBytesTOTAL v).hdr x = s.hdr x := Eq.trans rfl rfl

@[simp] theorem bl_mem_setBytesTOTAL (s : State) (v : Nat) : (s.setBytesTOTAL v).mem = s.mem := Eq.trans rfl rfl

@[simp] theorem bl_brk_setBytesTOTAL (s : State) (v : Nat) : (s.setBytesTOTAL v).brk = s.brk := Eq.trans rfl rfl

@[simp] theorem bl_head_setBytesTOTAL (s : State) (v : Nat) :
    (s.setBytesTOTAL v).blocks_list.head = s.blocks_list.head := Eq.trans rfl rfl

@[simp] theorem bl_tail_setBytesTOTAL (s : State) (v : Nat) :
    (s.setBytesTOTAL v).blocks_list.tail = s.blocks_list.tail := Eq.trans rfl rfl

@[simp] theorem bl_blocks_count_FREE_setBytesTOTAL (s : State) (v : Nat) :
    (s.setBytesTOTAL v).blocks_list.blocks_count_FREE = s.blocks_list.blocks_count_FREE := Eq.trans rfl rfl

@[simp] theorem bl_blocks_count_TOTAL_setBytesTOTAL (s : State) (v : Nat) :
    (s.setBytesTOTAL v).blocks_list.blocks_count_TOTAL = s.blocks_list.blocks_count_TOTAL := Eq.trans rfl rfl

@[simp] theorem bl_bytes_count_FREE_setBytesTOTAL (s : State) (v : Nat) :
    (s.setBytesTOTAL v).blocks_list.bytes_count_FREE = s.blocks_list.bytes_count_FREE := Eq.trans rfl rfl

@[simp] theorem bl_bytes_count_TOTAL_setBytesTOTAL (s : State) (v : Nat) :
    (s.setBytesTOTAL v).blocks_list.bytes_count_TOTAL = v := Eq.trans rfl rfl

@[simp] theorem bl_st_head_setBytesTOTAL (s : State) (v : Nat) : (s.setBytesTOTAL v).head = s.head := Eq.trans rfl rfl

@[simp] theorem bl_st_tail_setBytesTOTAL (s : State) (v : Nat) : (s.setBytesTOTAL v).tail = s.tail := Eq.trans rfl rfl

end Malloc2

/-! ## Counting the free blocks of a list -/

namespace Malloc2
open BlocksList

/-- Two flag functions that differ on one block `b` of a list without repetition, set
in `f` and clear in `g`: `f` counts one block more, and `t b` bytes more. -/
theorem filter_flag_cleared (t : Nat → Nat) (f g : Nat → Bool) (b : Nat) :
    ∀ l : List Nat, l.Nodup → b ∈ l → f b = true → g b = false →
      (∀ x ∈ l, x ≠ b → g x = f x) →
      (l.filter g).length + 1 = (l.filter f).length ∧
      ((l.filter g).map t).sum + t b = ((l.filter f).map t).sum := by
  intro l
  induction l with
  | nil => intro _ hb; simp at hb
  | cons a l ih =>
    intro hnd hb hf hg hne
    obtain ⟨ha, hnd1⟩ := List.nodup_cons.mp hnd
    by_cases hab : a = b
    · subst hab
      have hsame : l.filter g = l.filter f :=
        List.filter_congr (fun x hx => hne x (List.mem_cons_of_mem a hx)
          (fun e => ha (e ▸ hx)))
      rw [List.filter_cons_of_neg (by simp [hg]), List.filter_cons_of_pos (by simp [hf]), hsame]
      simp only [List.length_cons, List.map_cons, List.sum_cons]
      exact ⟨trivial, by omega⟩
    · have hb1 : b ∈ l := by
        rcases List.mem_cons.mp hb with e | e
        · exact absurd e.symm hab
        · exact e
      obtain ⟨i1, i2⟩ := ih hnd1 hb1 hf hg (fun x hx => hne x (List.mem_cons_of_mem a hx))
      have hga : g a = f a := hne a (List.mem_cons_self a l) hab
      cases hfa : f a
      · rw [List.filter_cons_of_neg (by simp [hga, hfa]),
          List.filter_cons_of_neg (by simp [hfa])]
        exact ⟨i1, i2⟩
      · rw [List.filter_cons_of_pos (by simp [hga, hfa]),
          List.filter_cons_of_pos (by simp [hfa])]
        simp only [List.length_cons, List.map_cons, List.sum_cons]
        exact ⟨by omega, by omega⟩

/-- Flags and sizes that agree on the blocks of a list give the same free blocks and
the same sums. -/
theorem filter_flag_same (t u : Nat → Nat) (f g : Nat → Bool) (l : List Nat)
    (hf : ∀ x ∈ l, g x = f x) (ht : ∀ x ∈ l, u x = t x) :
    (l.filter g).length = (l.filter f).length ∧
    ((l.filter g).map u).sum = ((l.filter f).map t).sum ∧
    (l.map (fun b => sizeofMallocMetadata + u b)).sum
      = (l.map (fun b => sizeofMallocMetadata + t b)).sum ∧
    (l.map u).sum = (l.map t).sum := by
  have hsame : l.filter g = l.filter f := List.filter_congr (fun x hx => by rw [hf x hx])
  refine ⟨by rw [hsame], ?_, ?_, ?_⟩
  · rw [hsame]
    exact congrArg List.sum (List.map_congr_left
      (fun x hx => ht x (List.mem_of_mem_filter hx)))
  · exact congrArg List.sum (List.map_congr_left (fun x hx => by rw [ht x hx]))
  · exact congrArg List.sum (List.map_congr_left (fun x hx => ht x hx))

/-- The free blocks are among the blocks, and the headers among the bytes. -/
theorem filter_le_sum (t : Nat → Nat) (f : Nat → Bool) :
    ∀ l : List Nat,
      (l.filter f).length ≤ l.length ∧
      l.length * sizeofMallocMetadata + (l.map t).sum
        = (l.map (fun b => sizeofMallocMetadata + t b)).sum ∧
      ((l.filter f).map t).sum ≤ (l.map t).sum := by
  intro l
  induction l with
  | nil => simp
  | cons a l ih =>
    obtain ⟨i1, i2, i3⟩ := ih
    simp only [List.length_cons, List.map_cons, List.sum_cons]
    refine ⟨?_, ?_, ?_⟩
    · cases hfa : f a
      · rw [List.filter_cons_of_neg (by simp [hfa])]; omega
      · rw [List.filter_cons_of_pos (by simp [hfa])]; simp only [List.length_cons]; omega
    · rw [← i2]; simp only [sizeofMallocMetadata]; omega
    · cases hfa : f a
      · rw [List.filter_cons_of_neg (by simp [hfa])]; omega
      · rw [List.filter_cons_of_pos (by simp [hfa])]
        simp only [List.map_cons, List.sum_cons]; omega

end Malloc2

/-! ## The search of `findFreeBlock` along the chain -/

namespace Malloc2
open BlocksList

theorem findFreeBlockLoop_mem (m : Memory) (n : Nat) :
    ∀ (fuel c : Nat) (l : List Nat) (fb : Nat), Malloc3.isChain m c l →
      findFreeBlockLoop m n fuel c = some fb → fb ≠ 0 →
      fb ∈ l ∧ (m.hdr fb).is_free = true ∧ n ≤ (m.hdr fb).size_TOTAL_PAYLOAD := by
  intro fuel
  induction fuel with
  | zero =>
    intro c l fb _ h hfb
    unfold findFreeBlockLoop at h
    split at h
    · simp only [Option.some.injEq] at h; exact absurd h.symm hfb
    · simp at h
  | succ k ih =>
    intro c l fb hc h hfb
    unfold findFreeBlockLoop at h
    split at h
    · simp only [Option.some.injEq] at h; exact absurd h.symm hfb
    · rename_i hc0
      cases l with
      | nil => exact absurd hc hc0
      | cons a l =>
        obtain ⟨e, _, h3⟩ := hc
        subst e
        split at h
        · rename_i hfit
          simp only [Option.some.injEq] at h
          subst h
          exact ⟨List.mem_cons_self _ _, hfit.1, hfit.2⟩
        · obtain ⟨i1, i2⟩ := ih _ l fb h3 h hfb
          exact ⟨List.mem_cons_of_mem _ i1, i2⟩

theorem findFreeBlockLoop_enough_fuel (m : Memory) (n : Nat) :
    ∀ (l : List Nat) (c fuel : Nat), Malloc3.isChain m c l → l.length ≤ fuel →
      ∃ fb, findFreeBlockLoop m n fuel c = some fb := by
  intro l
  induction l with
  | nil =>
    intro c fuel hc _
    have h0 : c = 0 := hc
    cases fuel with
    | zero => exact ⟨0, by unfold findFreeBlockLoop; rw [if_pos h0]⟩
    | succ k => exact ⟨0, by unfold findFreeBlockLoop; rw [if_pos h0]⟩
  | cons a l ih =>
    intro c fuel hc hlen
    obtain ⟨e, ha, h3⟩ := hc
    subst e
    cases fuel with
    | zero => simp at hlen
    | succ k =>
      unfold findFreeBlockLoop
      rw [if_neg ha]
      by_cases hfit : (m.hdr c).is_free = true ∧ (m.hdr c).size_TOTAL_PAYLOAD ≥ n
      · exact ⟨c, by rw [if_pos hfit]⟩
      · rw [if_neg hfit]
        exact ih _ k h3 (by simp only [List.length_cons] at hlen; omega)

theorem blocksListFrom_of_isChain (m : Memory) :
    ∀ (l : List Nat) (c : Nat), Malloc3.isChain m c l → blocksListFrom m l.length c = some l := by
  intro l
  induction l with
  | nil =>
    intro c hc
    have h0 : c = 0 := hc
    unfold blocksListFrom
    simp only [List.length_nil]
    rw [if_pos h0]
  | cons a l ih =>
    intro c hc
    obtain ⟨e, ha, h3⟩ := hc
    subst e
    simp only [List.length_cons]
    unfold blocksListFrom
    rw [if_neg ha, ih _ h3]
    rfl

end Malloc2

/-! ## The bounds that the break puts on the counters -/

namespace Malloc2
open BlocksList

theorem consistent_bounds (brk0 : Nat) (s : State) (ps l : List Nat)
    (inv : Consistent brk0 s ps l) :
    (l.map (fun b => sizeofMallocMetadata + (s.hdr b).size_TOTAL_PAYLOAD)).sum < W ∧
    l.length * sizeofMallocMetadata + (l.map (fun b => (s.hdr b).size_TOTAL_PAYLOAD)).sum
      = (l.map (fun b => sizeofMallocMetadata + (s.hdr b).size_TOTAL_PAYLOAD)).sum ∧
    (l.filter (fun b => (s.hdr b).is_free)).length ≤ l.length ∧
    ((l.filter (fun b => (s.hdr b).is_free)).map
      (fun b => (s.hdr b).size_TOTAL_PAYLOAD)).sum
      ≤ (l.map (fun b => (s.hdr b).size_TOTAL_PAYLOAD)).sum := by
  obtain ⟨i1, i2, i3⟩ := filter_le_sum (fun b => (s.hdr b).size_TOTAL_PAYLOAD)
    (fun b => (s.hdr b).is_free) l
  have h1 := inv.brk_sum
  have h2 := inv.brk_lt
  exact ⟨by omega, i2, i1, i3⟩

/-- A state that reads the same list, break, sizes and block counters, and whose free
counters follow its flags, is consistent. -/
theorem consistent_same_list (brk0 : Nat) (s t : State) (ps l : List Nat)
    (inv : Consistent brk0 s ps l)
    (hhead : t.head = s.head) (htail : t.tail = s.tail) (hbrk : t.brk = s.brk)
    (hnext : ∀ b ∈ l, (t.hdr b).next = (s.hdr b).next)
    (htot : ∀ b ∈ l, (t.hdr b).size_TOTAL_PAYLOAD = (s.hdr b).size_TOTAL_PAYLOAD)
    (hact : ∀ b ∈ l, (t.hdr b).size_ACTIVE_PAYLOAD ≤ (s.hdr b).size_TOTAL_PAYLOAD)
    (hT : t.blocks_list.blocks_count_TOTAL = s.blocks_list.blocks_count_TOTAL)
    (hB : t.blocks_list.bytes_count_TOTAL = s.blocks_list.bytes_count_TOTAL)
    (hF : t.blocks_list.blocks_count_FREE = (l.filter (fun b => (t.hdr b).is_free)).length)
    (hFB : t.blocks_list.bytes_count_FREE
      = ((l.filter (fun b => (t.hdr b).is_free)).map
          (fun b => (s.hdr b).size_TOTAL_PAYLOAD)).sum) :
    Consistent brk0 t ps l := by
  obtain ⟨_, _, j3, _⟩ := filter_flag_same (fun b => (s.hdr b).size_TOTAL_PAYLOAD)
    (fun b => (t.hdr b).size_TOTAL_PAYLOAD) (fun b => (t.hdr b).is_free)
    (fun b => (t.hdr b).is_free) l (fun _ _ => rfl) htot
  obtain ⟨_, j2, _, _⟩ := filter_flag_same (fun b => (s.hdr b).size_TOTAL_PAYLOAD)
    (fun b => (t.hdr b).size_TOTAL_PAYLOAD) (fun b => (t.hdr b).is_free)
    (fun b => (t.hdr b).is_free) l (fun _ _ => rfl) htot
  refine ⟨?_, ?_, ?_, ?_, ?_, ?_, ?_, ?_, hF, ?_, ?_, inv.pointers⟩
  · rw [hhead]
    exact Malloc3.isChain_congr s.mem t.mem l _ hnext inv.chain
  · rw [htail]; exact inv.tail_last
  · intro b hb; rw [hbrk]; exact inv.below b hb
  · rw [hbrk]; exact inv.brk_pos
  · rw [hbrk, j3]; exact inv.brk_sum
  · rw [hbrk]; exact inv.brk_lt
  · rw [hT]; exact inv.blocks_total
  · rw [hB, j3]; exact inv.bytes_total
  · rw [hFB, j2]
  · intro b hb; rw [htot b hb]; exact hact b hb

end Malloc2

/-! ## The operations of `BlocksList` on a consistent state -/

namespace Malloc2
open BlocksList

theorem useFreeBlock_fields (fb n : Nat) (s : State) :
    (useFreeBlock fb n s).1 = fb + sizeofMallocMetadata ∧
    (∀ x, ((useFreeBlock fb n s).2.hdr x).next = (s.hdr x).next) ∧
    (∀ x, ((useFreeBlock fb n s).2.hdr x).size_TOTAL_PAYLOAD = (s.hdr x).size_TOTAL_PAYLOAD) ∧
    (∀ x, ((useFreeBlock fb n s).2.hdr x).is_free
      = if x = fb then false else (s.hdr x).is_free) ∧
    (∀ x, ((useFreeBlock fb n s).2.hdr x).size_ACTIVE_PAYLOAD
      = if x = fb then n else (s.hdr x).size_ACTIVE_PAYLOAD) ∧
    (useFreeBlock fb n s).2.head = s.head ∧ (useFreeBlock fb n s).2.tail = s.tail ∧
    (useFreeBlock fb n s).2.brk = s.brk ∧
    (useFreeBlock fb n s).2.blocks_list.blocks_count_TOTAL = s.blocks_list.blocks_count_TOTAL ∧
    (useFreeBlock fb n s).2.blocks_list.bytes_count_TOTAL = s.blocks_list.bytes_count_TOTAL ∧
    (useFreeBlock fb n s).2.blocks_list.blocks_count_FREE
      = sub64 s.blocks_list.blocks_count_FREE 1 ∧
    (useFreeBlock fb n s).2.blocks_list.bytes_count_FREE
      = sub64 s.blocks_list.bytes_count_FREE (s.hdr fb).size_TOTAL_PAYLOAD := by
  simp [useFreeBlock, getPayloadBlockAddr]

theorem consistent_useFreeBlock (brk0 : Nat) (s : State) (ps l : List Nat) (fb n : Nat)
    (inv : Consistent brk0 s ps l) (hfb : fb ∈ l) (hfree : (s.hdr fb).is_free = true)
    (hfit : n ≤ (s.hdr fb).size_TOTAL_PAYLOAD) :
    Consistent brk0 (useFreeBlock fb n s).2 ps l := by
  obtain ⟨_, v1, v2, v3, v4, v5, v6, v7, v8, v9, v10, v11⟩ := useFreeBlock_fields fb n s
  obtain ⟨b1, b2, b3, b4⟩ := consistent_bounds brk0 s ps l inv
  have hg : ((useFreeBlock fb n s).2.hdr fb).is_free = false := by rw [v3, if_pos rfl]
  have hne : ∀ x ∈ l, x ≠ fb → ((useFreeBlock fb n s).2.hdr x).is_free = (s.hdr x).is_free :=
    fun x _ hx => by rw [v3, if_neg hx]
  obtain ⟨f1, f2⟩ := filter_flag_cleared (fun b => (s.hdr b).size_TOTAL_PAYLOAD)
    (fun b => (s.hdr b).is_free) (fun b => ((useFreeBlock fb n s).2.hdr b).is_free) fb l
    (Malloc3.isChain_nodup s.mem l _ inv.chain) hfb hfree hg hne
  have hF := inv.blocks_free
  have hFB := inv.bytes_free
  refine consistent_same_list brk0 s _ ps l inv v5 v6 v7 (fun b _ => v1 b) (fun b _ => v2 b)
    ?_ v8 v9 ?_ ?_
  · intro b hb
    rw [v4]
    by_cases h : b = fb
    · rw [if_pos h, h]; exact hfit
    · rw [if_neg h]; exact inv.active_le b hb
  · simp only [sizeofMallocMetadata] at b1 b2
    rw [v10, Malloc3.sub64_small _ _ (by omega) (by omega)]
    omega
  · simp only [sizeofMallocMetadata] at b1 b2
    rw [v11, Malloc3.sub64_small _ _ (by omega) (by omega)]
    omega

theorem releaseUsedBlock_fields (p : Nat) (s : State)
    (hlive : (s.hdr (metadataOf p)).is_free = false) :
    (∀ x, ((releaseUsedBlock p s).hdr x).next = (s.hdr x).next) ∧
    (∀ x, ((releaseUsedBlock p s).hdr x).size_TOTAL_PAYLOAD = (s.hdr x).size_TOTAL_PAYLOAD) ∧
    (∀ x, ((releaseUsedBlock p s).hdr x).is_free
      = if x = metadataOf p then true else (s.hdr x).is_free) ∧
    (∀ x, ((releaseUsedBlock p s).hdr x).size_ACTIVE_PAYLOAD
      = if x = metadataOf p then 0 else (s.hdr x).size_ACTIVE_PAYLOAD) ∧
    (releaseUsedBlock p s).head = s.head ∧ (releaseUsedBlock p s).tail = s.tail ∧
    (releaseUsedBlock p s).brk = s.brk ∧
    (releaseUsedBlock p s).blocks_list.blocks_count_TOTAL = s.blocks_list.blocks_count_TOTAL ∧
    (releaseUsedBlock p s).blocks_list.bytes_count_TOTAL = s.blocks_list.bytes_count_TOTAL ∧
    (releaseUsedBlock p s).blocks_list.blocks_count_FREE
      = add64 s.blocks_list.blocks_count_FREE 1 ∧
    (releaseUsedBlock p s).blocks_list.bytes_count_FREE
      = add64 s.blocks_list.bytes_count_FREE (s.hdr (metadataOf p)).size_TOTAL_PAYLOAD := by
  simp [releaseUsedBlock, hlive]

theorem consistent_releaseUsedBlock (brk0 : Nat) (s : State) (ps l : List Nat) (p : Nat)
    (inv : Consistent brk0 s ps l) (hb : metadataOf p ∈ l) :
    Consistent brk0 (releaseUsedBlock p s) ps l ∧
    (∀ x, ((releaseUsedBlock p s).hdr x).size_TOTAL_PAYLOAD = (s.hdr x).size_TOTAL_PAYLOAD) ∧
    (releaseUsedBlock p s).blocks_list.blocks_count_TOTAL
      = s.blocks_list.blocks_count_TOTAL := by
  cases hlive : (s.hdr (metadataOf p)).is_free
  · obtain ⟨v1, v2, v3, v4, v5, v6, v7, v8, v9, v10, v11⟩ := releaseUsedBlock_fields p s hlive
    obtain ⟨b1, b2, b3, b4⟩ := consistent_bounds brk0 s ps l inv
    have hg : ((releaseUsedBlock p s).hdr (metadataOf p)).is_free = true := by
      rw [v3, if_pos rfl]
    have hne : ∀ x ∈ l, x ≠ metadataOf p →
        (s.hdr x).is_free = ((releaseUsedBlock p s).hdr x).is_free :=
      fun x _ hx => by rw [v3, if_neg hx]
    obtain ⟨f1, f2⟩ := filter_flag_cleared (fun b => (s.hdr b).size_TOTAL_PAYLOAD)
      (fun b => ((releaseUsedBlock p s).hdr b).is_free) (fun b => (s.hdr b).is_free)
      (metadataOf p) l (Malloc3.isChain_nodup s.mem l _ inv.chain) hb hg hlive hne
    have hF := inv.blocks_free
    have hFB := inv.bytes_free
    obtain ⟨g1, _, g3⟩ := filter_le_sum (fun b => (s.hdr b).size_TOTAL_PAYLOAD)
      (fun b => ((releaseUsedBlock p s).hdr b).is_free) l
    refine ⟨consistent_same_list brk0 s _ ps l inv v5 v6 v7 (fun b _ => v1 b)
      (fun b _ => v2 b) ?_ v8 v9 ?_ ?_, v2, v8⟩
    · intro b hb1
      rw [v4]
      by_cases h : b = metadataOf p
      · rw [if_pos h]; exact Nat.zero_le _
      · rw [if_neg h]; exact inv.active_le b hb1
    · simp only [sizeofMallocMetadata] at b1 b2
      rw [v10, Malloc3.add64_small _ _ (by omega)]
      omega
    · simp only [sizeofMallocMetadata] at b1 b2
      rw [v11, Malloc3.add64_small _ _ (by omega)]
      omega
  · have e : releaseUsedBlock p s = s := by
      unfold releaseUsedBlock
      simp only []
      rw [if_pos hlive]
    rw [e]
    exact ⟨inv, fun _ => rfl, rfl⟩

/-- A state that differs by its payload bytes only is consistent. -/
theorem consistent_with_bytes (brk0 : Nat) (s : State) (ps l : List Nat) (m : Memory)
    (inv : Consistent brk0 s ps l) (hm : m.hdr = s.mem.hdr) :
    Consistent brk0 { s with mem := m } ps l := by
  have hh : ∀ x, ({ s with mem := m } : State).hdr x = s.hdr x := by
    intro x
    exact congrFun hm x
  have e1 : ({ s with mem := m } : State).blocks_list = s.blocks_list := Eq.trans rfl rfl
  have e2 : ({ s with mem := m } : State).brk = s.brk := Eq.trans rfl rfl
  have e3 : ({ s with mem := m } : State).head = s.head := Eq.trans rfl rfl
  have e4 : ({ s with mem := m } : State).tail = s.tail := Eq.trans rfl rfl
  refine consistent_same_list brk0 s _ ps l inv e3 e4 e2 (fun b _ => by rw [hh])
    (fun b _ => by rw [hh]) (fun b hb => by rw [hh]; exact inv.active_le b hb)
    (by rw [e1]) (by rw [e1]) ?_ ?_
  · rw [e1, inv.blocks_free]
    exact congrArg List.length (List.filter_congr (fun x _ => by rw [hh]))
  · rw [e1, inv.bytes_free]
    exact congrArg (fun k => (List.map (fun b => (s.hdr b).size_TOTAL_PAYLOAD) k).sum)
      (List.filter_congr (fun x _ => by rw [hh]))

theorem consistent_setActive (brk0 : Nat) (s : State) (ps l : List Nat) (b n : Nat)
    (inv : Consistent brk0 s ps l) (hfit : n ≤ (s.hdr b).size_TOTAL_PAYLOAD) :
    Consistent brk0 (s.setActive b n) ps l := by
  refine consistent_same_list brk0 s _ ps l inv (by simp) (by simp) (by simp)
    (fun x _ => by simp) (fun x _ => by simp) ?_ (by simp) (by simp) ?_ ?_
  · intro x hx
    rw [bl_hdr_setActive_size_ACTIVE_PAYLOAD]
    by_cases h : x = b
    · rw [if_pos h, h]; exact hfit
    · rw [if_neg h]; exact inv.active_le x hx
  · rw [bl_blocks_list_setActive, inv.blocks_free]
    exact congrArg List.length (List.filter_congr (fun x _ => by simp))
  · rw [bl_blocks_list_setActive, inv.bytes_free]
    exact congrArg (fun k => (List.map (fun b => (s.hdr b).size_TOTAL_PAYLOAD) k).sum)
      (List.filter_congr (fun x _ => by simp))

end Malloc2

/-! ## A new block at the program break -/

namespace Malloc2
open BlocksList

theorem bl_sbrk_mem (os : OS) (d : Nat) (s : State) : (sbrk os d s).2.mem = s.mem := by
  unfold sbrk; split
  · exact Eq.trans rfl rfl
  · split <;> exact Eq.trans rfl rfl

theorem bl_sbrk_blocks_list (os : OS) (d : Nat) (s : State) :
    (sbrk os d s).2.blocks_list = s.blocks_list := by
  unfold sbrk; split
  · exact Eq.trans rfl rfl
  · split <;> exact Eq.trans rfl rfl

theorem bl_sbrk_hdr (os : OS) (d : Nat) (s : State) (x : Nat) :
    (sbrk os d s).2.hdr x = s.hdr x := by
  unfold State.hdr
  rw [bl_sbrk_mem]

theorem bl_sbrk_head (os : OS) (d : Nat) (s : State) : (sbrk os d s).2.head = s.head := by
  unfold State.head
  rw [bl_sbrk_blocks_list]

theorem bl_sbrk_tail (os : OS) (d : Nat) (s : State) : (sbrk os d s).2.tail = s.tail := by
  unfold State.tail
  rw [bl_sbrk_blocks_list]

theorem bl_sbrk_zero (os : OS) (s : State) : (sbrk os 0 s).1 = s.brk := by
  unfold sbrk; rw [if_pos rfl]

/-- The two outcomes of `sbrk` with a non-zero increment. -/
theorem bl_sbrk_cases (os : OS) (d : Nat) (s : State) (hd : d ≠ 0) :
    (os.sbrk_ok d = true ∧ (sbrk os d s).1 = s.brk ∧ (sbrk os d s).2.brk = (s.brk + d) % W) ∨
    (os.sbrk_ok d = false ∧ sbrk os d s = (voidMinusOne, s)) := by
  unfold sbrk
  rw [if_neg hd]
  cases h : os.sbrk_ok d
  · right; exact ⟨rfl, by simp⟩
  · left; exact ⟨rfl, by simp, by simp⟩

theorem castInt_request (n : Nat) (hn : n ≤ maxSize) :
    castInt (add64 getMetaDataSize n) = sizeofMallocMetadata + n ∧
    add64 getMetaDataSize n = sizeofMallocMetadata + n := by
  simp only [castInt, add64, getMetaDataSize, sizeofMallocMetadata, maxSize, W] at hn ⊢
  have h1 : (40 + n) % 18446744073709551616 = 40 + n := Nat.mod_eq_of_lt (by omega)
  have h2 : (40 + n) % 4294967296 = 40 + n := Nat.mod_eq_of_lt (by omega)
  rw [h1, h2, if_pos (by omega)]
  exact ⟨rfl, rfl⟩

theorem bl_setNewBlockMetaData_fields (n b : Nat) (s : State) :
    (∀ x, ((setNewBlockMetaData n b s).hdr x).next = if x = b then 0 else (s.hdr x).next) ∧
    (∀ x, ((setNewBlockMetaData n b s).hdr x).size_TOTAL_PAYLOAD
      = if x = b then n else (s.hdr x).size_TOTAL_PAYLOAD) ∧
    (∀ x, ((setNewBlockMetaData n b s).hdr x).is_free
      = if x = b then false else (s.hdr x).is_free) ∧
    (∀ x, ((setNewBlockMetaData n b s).hdr x).size_ACTIVE_PAYLOAD
      = if x = b then n else (s.hdr x).size_ACTIVE_PAYLOAD) ∧
    (setNewBlockMetaData n b s).blocks_list = s.blocks_list ∧
    (setNewBlockMetaData n b s).head = s.head ∧ (setNewBlockMetaData n b s).tail = s.tail ∧
    (setNewBlockMetaData n b s).brk = s.brk := by
  simp [setNewBlockMetaData]

/-- The state after `createNewBlock` has made a block. -/
theorem bl_createNewBlock_fields (os : OS) (n : Nat) (s s1 : State) (p : Nat)
    (h : createNewBlock os n s = some (p, s1)) (hp : p ≠ 0) :
    p = s.brk + sizeofMallocMetadata ∧
    (sbrk os (castInt (add64 getMetaDataSize n)) s).1 ≠ voidMinusOne ∧
    s1.brk = (sbrk os (castInt (add64 getMetaDataSize n)) s).2.brk ∧
    (∀ x, (s1.hdr x).next = if s.head ≠ 0 ∧ x = s.tail then s.brk
      else if x = s.brk then 0 else (s.hdr x).next) ∧
    (∀ x, (s1.hdr x).size_TOTAL_PAYLOAD
      = if x = s.brk then n else (s.hdr x).size_TOTAL_PAYLOAD) ∧
    (∀ x, (s1.hdr x).is_free = if x = s.brk then false else (s.hdr x).is_free) ∧
    (∀ x, (s1.hdr x).size_ACTIVE_PAYLOAD
      = if x = s.brk then n else (s.hdr x).size_ACTIVE_PAYLOAD) ∧
    s1.head = (if s.head = 0 then s.brk else s.head) ∧ s1.tail = s.brk ∧
    s1.blocks_list.blocks_count_TOTAL = add64 s.blocks_list.blocks_count_TOTAL 1 ∧
    s1.blocks_list.bytes_count_TOTAL
      = add64 s.blocks_list.bytes_count_TOTAL (add64 getMetaDataSize n) ∧
    s1.blocks_list.blocks_count_FREE = s.blocks_list.blocks_count_FREE ∧
    s1.blocks_list.bytes_count_FREE = s.blocks_list.bytes_count_FREE := by
  obtain ⟨w1, w2, w3, w4, w5, w6, w7, w8⟩ := bl_setNewBlockMetaData_fields n s.brk
    (sbrk os (castInt (add64 getMetaDataSize n)) s).2
  unfold createNewBlock at h
  simp only [] at h
  rw [bl_sbrk_zero] at h
  split at h
  · simp only [Option.some.injEq, Prod.mk.injEq] at h
    exact absurd h.1.symm hp
  · rename_i hv
    rw [w6, bl_sbrk_head] at h
    split at h
    · rename_i hh
      simp only [Option.some.injEq, Prod.mk.injEq] at h
      obtain ⟨h1, h2⟩ := h
      subst h1 h2
      simp only [getPayloadBlockAddr]
      refine ⟨trivial, hv, ?_, ?_, ?_, ?_, ?_, ?_, ?_, ?_, ?_, ?_, ?_⟩
      · simp [w8]
      · intro x; simp [w1, bl_sbrk_hdr, bl_sbrk_zero, hh]
      · intro x; simp [w2, bl_sbrk_hdr, bl_sbrk_zero]
      · intro x; simp [w3, bl_sbrk_hdr, bl_sbrk_zero]
      · intro x; simp [w4, bl_sbrk_hdr, bl_sbrk_zero]
      · simp [hh, bl_sbrk_zero]
      · simp [bl_sbrk_zero]
      · simp [w5, bl_sbrk_blocks_list]
      · simp [w5, bl_sbrk_blocks_list]
      · simp [w5, bl_sbrk_blocks_list]
      · simp [w5, bl_sbrk_blocks_list]
    · rename_i hh
      rw [w7, bl_sbrk_tail] at h
      split at h
      · simp at h
      · rename_i ht
        simp only [Option.some.injEq, Prod.mk.injEq] at h
        obtain ⟨h1, h2⟩ := h
        subst h1 h2
        simp only [getPayloadBlockAddr]
        refine ⟨trivial, hv, ?_, ?_, ?_, ?_, ?_, ?_, ?_, ?_, ?_, ?_, ?_⟩
        · simp [w8]
        · intro x
          by_cases hx : x = s.tail
          · simp [w1, w7, bl_sbrk_tail, bl_sbrk_hdr, bl_sbrk_zero, hh, hx]
          · simp [w1, w7, bl_sbrk_tail, bl_sbrk_hdr, bl_sbrk_zero, hh, hx]
        · intro x; simp [w2, bl_sbrk_hdr, bl_sbrk_zero]
        · intro x; simp [w3, bl_sbrk_hdr, bl_sbrk_zero]
        · intro x; simp [w4, bl_sbrk_hdr, bl_sbrk_zero]
        · simp [hh, w6, bl_sbrk_head]
        · simp
        · simp [w5, bl_sbrk_blocks_list]
        · simp [w5, bl_sbrk_blocks_list]
        · simp [w5, bl_sbrk_blocks_list]
        · simp [w5, bl_sbrk_blocks_list]

/-- The state after `createNewBlock` has returned `NULL`. -/
theorem bl_createNewBlock_null (os : OS) (n : Nat) (s s1 : State)
    (h : createNewBlock os n s = some (0, s1)) :
    (sbrk os (castInt (add64 getMetaDataSize n)) s).1 = voidMinusOne ∧
    s1 = (sbrk os (castInt (add64 getMetaDataSize n)) s).2 := by
  unfold createNewBlock at h
  simp only [] at h
  rw [bl_sbrk_zero] at h
  split at h
  · rename_i hv
    simp only [Option.some.injEq, Prod.mk.injEq] at h
    exact ⟨hv, h.2.symm⟩
  · split at h
    · simp only [Option.some.injEq, Prod.mk.injEq, getPayloadBlockAddr, sizeofMallocMetadata] at h
      omega
    · split at h
      · simp at h
      · simp only [Option.some.injEq, Prod.mk.injEq, getPayloadBlockAddr,
          sizeofMallocMetadata] at h
        omega

theorem bl_createNewBlock_isSome (os : OS) (n : Nat) (s : State)
    (h : s.head = 0 ∨ s.tail ≠ 0) : ∃ r, createNewBlock os n s = some r := by
  obtain ⟨_, _, _, _, _, w6, w7, _⟩ := bl_setNewBlockMetaData_fields n s.brk
    (sbrk os (castInt (add64 getMetaDataSize n)) s).2
  unfold createNewBlock
  simp only []
  rw [bl_sbrk_zero]
  split
  · exact ⟨_, rfl⟩
  · rw [w6, bl_sbrk_head]
    split
    · exact ⟨_, rfl⟩
    · rename_i hh
      have ht : s.tail ≠ 0 := by
        cases h with
        | inl h0 => exact absurd h0 hh
        | inr h1 => exact h1
      rw [w7, bl_sbrk_tail, if_neg ht]
      exact ⟨_, rfl⟩

end Malloc2

namespace Malloc2
open BlocksList

/-- One more pointer, `NULL` or the payload of a block. -/
theorem consistent_add_pointer (brk0 : Nat) (s : State) (ps l : List Nat) (p : Nat)
    (inv : Consistent brk0 s ps l) (hp : p = 0 ∨ ∃ b ∈ l, p = b + sizeofMallocMetadata) :
    Consistent brk0 s (p :: ps) l :=
  ⟨inv.chain, inv.tail_last, inv.below, inv.brk_pos, inv.brk_sum, inv.brk_lt, inv.blocks_total,
    inv.bytes_total, inv.blocks_free, inv.bytes_free, inv.active_le,
    fun q hq => by
      rcases List.mem_cons.mp hq with e | e
      · rw [e]; exact hp
      · exact inv.pointers q e⟩

theorem breakStays_granted (os : OS) (n : Nat) (s : State) (hn : n ≤ maxSize)
    (henv : breakStays os n s = true)
    (hok : os.sbrk_ok (castInt (add64 getMetaDataSize n)) = true) :
    s.brk + (sizeofMallocMetadata + n) < W := by
  unfold breakStays at henv
  rw [hok] at henv
  simp only [Bool.not_true, Bool.false_or, decide_eq_true_eq] at henv
  rw [(castInt_request n hn).1] at henv
  exact henv

/-- The block that `createNewBlock` makes goes to the end of a consistent list. -/
theorem consistent_createNewBlock (brk0 : Nat) (s s1 : State) (ps l : List Nat) (os : OS)
    (n p : Nat) (inv : Consistent brk0 s ps l) (hn : n ≤ maxSize)
    (henv : breakStays os n s = true)
    (h : createNewBlock os n s = some (p, s1)) :
    ∃ l1, Consistent brk0 s1 (p :: ps) l1 ∧ l <+: l1 ∧
      (∀ b ∈ l, (s1.hdr b).size_TOTAL_PAYLOAD = (s.hdr b).size_TOTAL_PAYLOAD) ∧
      s.blocks_list.blocks_count_TOTAL ≤ s1.blocks_list.blocks_count_TOTAL := by
  obtain ⟨hd, ha⟩ := castInt_request n hn
  have hd0 : castInt (add64 getMetaDataSize n) ≠ 0 := by
    rw [hd]; simp only [sizeofMallocMetadata]; omega
  by_cases hp : p = 0
  · subst hp
    obtain ⟨hv, e⟩ := bl_createNewBlock_null os n s s1 h
    rcases bl_sbrk_cases os _ s hd0 with ⟨hok, r1, _⟩ | ⟨_, r⟩
    · have := breakStays_granted os n s hn henv hok
      rw [r1] at hv
      simp only [voidMinusOne, sizeofMallocMetadata, W] at hv this
      omega
    · rw [r] at e
      subst e
      exact ⟨l, consistent_add_pointer brk0 _ ps l 0 inv (Or.inl rfl), List.prefix_refl l,
        fun _ _ => rfl, Nat.le_refl _⟩
  · obtain ⟨e1, e2, e3, v1, v2, v3, v4, v5, v6, v7, v8, v9, v10⟩ :=
      bl_createNewBlock_fields os n s s1 p h hp
    have hok : os.sbrk_ok (castInt (add64 getMetaDataSize n)) = true := by
      rcases bl_sbrk_cases os _ s hd0 with ⟨hok, _, _⟩ | ⟨_, r⟩
      · exact hok
      · rw [r] at e2; exact absurd rfl e2
    have hlt := breakStays_granted os n s hn henv hok
    have hbrk1 : s1.brk = s.brk + (sizeofMallocMetadata + n) := by
      rcases bl_sbrk_cases os _ s hd0 with ⟨_, _, r2⟩ | ⟨hno, _⟩
      · rw [e3, r2, hd]; exact Nat.mod_eq_of_lt hlt
      · rw [hno] at hok; exact absurd hok (by decide)
    have hpos := inv.brk_pos
    have hb0 : s.brk ≠ 0 := by omega
    have hnotin : ∀ b ∈ l, b ≠ s.brk := fun b hb e => by
      have := inv.below b hb
      omega
    have hnd := Malloc3.isChain_nodup s.mem l _ inv.chain
    obtain ⟨b1, b2, b3, b4⟩ := consistent_bounds brk0 s ps l inv
    have hsum := inv.brk_sum
    have htot : ∀ b ∈ l, (s1.hdr b).size_TOTAL_PAYLOAD = (s.hdr b).size_TOTAL_PAYLOAD :=
      fun b hb => by rw [v2, if_neg (hnotin b hb)]
    have hfl : ∀ b ∈ l, (s1.hdr b).is_free = (s.hdr b).is_free :=
      fun b hb => by rw [v3, if_neg (hnotin b hb)]
    obtain ⟨k1, k2, k3, _⟩ := filter_flag_same (fun b => (s.hdr b).size_TOTAL_PAYLOAD)
      (fun b => (s1.hdr b).size_TOTAL_PAYLOAD) (fun b => (s.hdr b).is_free)
      (fun b => (s1.hdr b).is_free) l hfl htot
    have hnew_free : (s1.hdr s.brk).is_free = false := by rw [v3, if_pos rfl]
    have hnew_tot : (s1.hdr s.brk).size_TOTAL_PAYLOAD = n := by rw [v2, if_pos rfl]
    have hfilter : (l ++ [s.brk]).filter (fun b => (s1.hdr b).is_free)
        = l.filter (fun b => (s1.hdr b).is_free) := by
      rw [List.filter_append, List.filter_cons_of_neg (by simp [hnew_free]), List.filter_nil,
        List.append_nil]
    have hmapsum : ((l ++ [s.brk]).map
        (fun b => sizeofMallocMetadata + (s1.hdr b).size_TOTAL_PAYLOAD)).sum
        = (l.map (fun b => sizeofMallocMetadata + (s.hdr b).size_TOTAL_PAYLOAD)).sum
          + (sizeofMallocMetadata + n) := by
      rw [List.map_append, List.sum_append, k3]
      simp only [List.map_cons, List.map_nil, List.sum_cons, List.sum_nil, hnew_tot]
      omega
    have hchain : Malloc3.isChain s1.mem s1.head (l ++ [s.brk]) := by
      rcases List.eq_nil_or_concat l with e | ⟨l0, t, e⟩
      · subst e
        have hh : s.head = 0 := inv.chain
        rw [v5, if_pos hh]
        refine ⟨rfl, hb0, ?_⟩
        have : (s1.hdr s.brk).next = 0 := by
          rw [v1, if_neg (fun hc => hc.1 hh), if_pos rfl]
        exact this
      · rw [List.concat_eq_append] at e
        subst e
        have hc := inv.chain
        obtain ⟨_, ht0, _⟩ := Malloc3.isChain_suffix s.mem l0 _ t [] hc
        have hh : s.head ≠ 0 := by
          intro h0
          have := Malloc3.isChain_ne_zero s.mem _ _ hc
          cases l0 with
          | nil => exact ht0 (hc.1.symm.trans h0)
          | cons a l0 => exact this a (by simp) (hc.1.symm.trans h0)
        have htail : s.tail = t := by
          rw [inv.tail_last, Malloc3.getLastD_append_cons]
          rfl
        rw [v5, if_neg hh]
        have e1 : l0 ++ [t] ++ [s.brk] = l0 ++ t :: [s.brk] := by simp
        rw [e1]
        refine Malloc3.isChain_replace_suffix s.mem s1.mem l0 _ t [] [s.brk] ?_ hc
          ⟨rfl, ht0, ?_, hb0, ?_⟩
        · intro a ha
          have hat : a ≠ t := by
            intro e2
            rw [List.nodup_append] at hnd
            exact hnd.2.2 ha (by simp [e2])
          have := v1 a
          rw [htail, if_neg (fun hc2 => hat hc2.2),
            if_neg (hnotin a (List.mem_append.mpr (Or.inl ha)))] at this
          exact this
        · have := v1 t
          rw [htail, if_pos ⟨hh, rfl⟩] at this
          exact this
        · have := v1 s.brk
          rw [htail, if_neg (fun hc2 => hnotin t (by simp) hc2.2.symm), if_pos rfl] at this
          exact this
    refine ⟨l ++ [s.brk], ⟨hchain, ?_, ?_, ?_, ?_, ?_, ?_, ?_, ?_, ?_, ?_, ?_⟩,
      List.prefix_append l _, htot, ?_⟩
    · rw [v6, Malloc3.getLastD_append_cons]; rfl
    · intro b hb
      rw [hbrk1]
      rcases List.mem_append.mp hb with hb1 | hb1
      · have := inv.below b hb1
        omega
      · simp only [List.mem_singleton] at hb1
        simp only [sizeofMallocMetadata]
        omega
    · rw [hbrk1]; omega
    · rw [hmapsum, hbrk1]; omega
    · rw [hbrk1]; exact hlt
    · rw [v7, inv.blocks_total, List.length_append]
      simp only [sizeofMallocMetadata] at b1 b2
      rw [Malloc3.add64_small _ _ (by omega)]
      rfl
    · rw [v8, ha, inv.bytes_total, hmapsum]
      exact Malloc3.add64_small _ _ (by omega)
    · rw [v9, inv.blocks_free, hfilter, k1]
    · rw [v10, inv.bytes_free, hfilter, k2]
    · intro b hb
      rcases List.mem_append.mp hb with hb1 | hb1
      · rw [v4, v2, if_neg (hnotin b hb1), if_neg (hnotin b hb1)]
        exact inv.active_le b hb1
      · simp only [List.mem_singleton] at hb1
        rw [v4, v2, if_pos hb1, if_pos hb1]
    · intro q hq
      rcases List.mem_cons.mp hq with e | e
      · right
        exact ⟨s.brk, by simp, by rw [e, e1]⟩
      · rcases inv.pointers q e with h0 | ⟨b, hb, hq2⟩
        · exact Or.inl h0
        · exact Or.inr ⟨b, List.mem_append.mpr (Or.inl hb), hq2⟩
    · rw [v7, inv.blocks_total]
      simp only [sizeofMallocMetadata] at b1 b2
      rw [Malloc3.add64_small _ _ (by omega)]
      omega

end Malloc2

/-! ## The public calls of `malloc_2` on a consistent state -/

namespace Malloc2
open BlocksList

theorem consistent_head_or_tail (brk0 : Nat) (s : State) (ps l : List Nat)
    (inv : Consistent brk0 s ps l) : s.head = 0 ∨ s.tail ≠ 0 := by
  cases l with
  | nil => exact Or.inl inv.chain
  | cons a l =>
    right
    rw [inv.tail_last]
    exact Malloc3.isChain_ne_zero s.mem _ _ inv.chain _ (Malloc3.getLastD_cons_mem l a 0)

/-- The block that serves a request, found or made. -/
theorem consistent_allocated (brk0 : Nat) (s s1 : State) (ps l : List Nat) (fuel : Nat)
    (os : OS) (n fb p : Nat) (inv : Consistent brk0 s ps l) (hn : n ≤ maxSize)
    (henv : breakStays os n s = true)
    (hfind : findFreeBlock fuel n s = some fb)
    (h : (if fb = 0 then createNewBlock os n s else some (useFreeBlock fb n s))
      = some (p, s1)) :
    ∃ l1, Consistent brk0 s1 (p :: ps) l1 ∧ l <+: l1 ∧
      (∀ b ∈ l, (s1.hdr b).size_TOTAL_PAYLOAD = (s.hdr b).size_TOTAL_PAYLOAD) ∧
      s.blocks_list.blocks_count_TOTAL ≤ s1.blocks_list.blocks_count_TOTAL := by
  by_cases hfb : fb = 0
  · rw [if_pos hfb] at h
    exact consistent_createNewBlock brk0 s s1 ps l os n p inv hn henv h
  · rw [if_neg hfb] at h
    simp only [Option.some.injEq] at h
    obtain ⟨m1, m2, m3⟩ := findFreeBlockLoop_mem s.mem n fuel s.head l fb inv.chain hfind hfb
    obtain ⟨v0, _, v2, _, _, _, _, _, v8, _⟩ := useFreeBlock_fields fb n s
    have hc := consistent_useFreeBlock brk0 s ps l fb n inv m1 m2 m3
    have e1 : p = (useFreeBlock fb n s).1 := (congrArg Prod.fst h).symm
    have e2 : s1 = (useFreeBlock fb n s).2 := (congrArg Prod.snd h).symm
    subst e2
    refine ⟨l, consistent_add_pointer brk0 _ ps l p hc (Or.inr ⟨fb, m1, by rw [e1, v0]⟩),
      List.prefix_refl l, fun b _ => v2 b, by rw [v8]⟩

theorem consistent_allocateBlock (brk0 : Nat) (s s1 : State) (ps l : List Nat) (fuel : Nat)
    (os : OS) (n p : Nat) (inv : Consistent brk0 s ps l) (hn : n ≤ maxSize)
    (henv : breakStays os n s = true)
    (h : allocateBlock fuel os n s = some (p, s1)) :
    ∃ l1, Consistent brk0 s1 (p :: ps) l1 ∧ l <+: l1 ∧
      (∀ b ∈ l, (s1.hdr b).size_TOTAL_PAYLOAD = (s.hdr b).size_TOTAL_PAYLOAD) ∧
      s.blocks_list.blocks_count_TOTAL ≤ s1.blocks_list.blocks_count_TOTAL := by
  unfold allocateBlock at h
  cases hf : findFreeBlock fuel n s with
  | none => rw [hf] at h; simp at h
  | some fb =>
    rw [hf] at h
    exact consistent_allocated brk0 s s1 ps l fuel os n fb p inv hn henv hf h

theorem allocateBlock_enough_fuel (brk0 : Nat) (s : State) (ps l : List Nat) (fuel : Nat)
    (os : OS) (n : Nat) (inv : Consistent brk0 s ps l) (hfuel : l.length ≤ fuel) :
    ∃ r, allocateBlock fuel os n s = some r := by
  obtain ⟨fb, hf⟩ := findFreeBlockLoop_enough_fuel s.mem n l s.head fuel inv.chain hfuel
  have hf1 : findFreeBlock fuel n s = some fb := hf
  unfold allocateBlock
  rw [hf1]
  by_cases hfb : fb = 0
  · simp only [if_pos hfb]
    exact bl_createNewBlock_isSome os n s (consistent_head_or_tail brk0 s ps l inv)
  · simp only [if_neg hfb]
    exact ⟨_, rfl⟩

theorem consistent_smalloc (brk0 : Nat) (s s1 : State) (ps l : List Nat) (fuel : Nat)
    (os : OS) (n p : Nat) (inv : Consistent brk0 s ps l)
    (henv : breakStays os n s = true)
    (h : smalloc fuel os n s = some (p, s1)) :
    ∃ l1, Consistent brk0 s1 (p :: ps) l1 ∧ l <+: l1 ∧
      (∀ b ∈ l, (s1.hdr b).size_TOTAL_PAYLOAD = (s.hdr b).size_TOTAL_PAYLOAD) ∧
      s.blocks_list.blocks_count_TOTAL ≤ s1.blocks_list.blocks_count_TOTAL := by
  unfold smalloc at h
  by_cases hv : n = 0 ∨ n > maxSize
  · rw [if_pos hv] at h
    simp only [Option.some.injEq, Prod.mk.injEq] at h
    obtain ⟨e1, e2⟩ := h
    subst e1 e2
    exact ⟨l, consistent_add_pointer brk0 _ ps l 0 inv (Or.inl rfl), List.prefix_refl l,
      fun _ _ => rfl, Nat.le_refl _⟩
  · rw [if_neg hv] at h
    exact consistent_allocateBlock brk0 s s1 ps l fuel os n p inv (by omega) henv h

theorem consistent_scalloc (brk0 : Nat) (s s1 : State) (ps l : List Nat) (fuel : Nat)
    (os : OS) (num size p : Nat) (inv : Consistent brk0 s ps l)
    (henv : breakStays os (mul64 size num) s = true)
    (h : scalloc fuel os num size s = some (p, s1)) :
    ∃ l1, Consistent brk0 s1 (p :: ps) l1 ∧ l <+: l1 ∧
      (∀ b ∈ l, (s1.hdr b).size_TOTAL_PAYLOAD = (s.hdr b).size_TOTAL_PAYLOAD) ∧
      s.blocks_list.blocks_count_TOTAL ≤ s1.blocks_list.blocks_count_TOTAL := by
  unfold scalloc at h
  by_cases hv : size = 0 ∨ num = 0 ∨ mul64 size num > maxSize
  · rw [if_pos hv] at h
    simp only [Option.some.injEq, Prod.mk.injEq] at h
    obtain ⟨e1, e2⟩ := h
    subst e1 e2
    exact ⟨l, consistent_add_pointer brk0 _ ps l 0 inv (Or.inl rfl), List.prefix_refl l,
      fun _ _ => rfl, Nat.le_refl _⟩
  · rw [if_neg hv] at h
    have hn : mul64 size num ≤ maxSize := by
      by_contra hc
      exact hv (Or.inr (Or.inr (by omega)))
    unfold allocateZeroedBlock at h
    cases ha : allocateBlock fuel os (mul64 size num) s with
    | none => rw [ha] at h; simp at h
    | some r =>
      obtain ⟨q, s2⟩ := r
      rw [ha] at h
      simp only [] at h
      obtain ⟨l1, c1, c2, c3, c4⟩ :=
        consistent_allocateBlock brk0 s s2 ps l fuel os _ q inv hn henv ha
      by_cases hq : q ≠ 0
      · rw [if_pos hq] at h
        simp only [Option.some.injEq, Prod.mk.injEq] at h
        obtain ⟨e1, e2⟩ := h
        subst e1 e2
        exact ⟨l1, consistent_with_bytes brk0 s2 _ l1 _ c1 rfl, c2, c3, c4⟩
      · rw [if_neg hq] at h
        simp only [Option.some.injEq, Prod.mk.injEq] at h
        obtain ⟨e1, e2⟩ := h
        subst e1 e2
        exact ⟨l1, c1, c2, c3, c4⟩

/-- A pointer returned by an earlier call names a block of the list. -/
theorem consistent_pointer (brk0 : Nat) (s : State) (ps l : List Nat) (p : Nat)
    (inv : Consistent brk0 s ps l) (hp : p ≠ 0) (hmem : p = 0 ∨ p ∈ ps) :
    metadataOf p ∈ l := by
  rcases hmem with h0 | h1
  · exact absurd h0 hp
  · rcases inv.pointers p h1 with h0 | ⟨b, hb, e⟩
    · exact absurd h0 hp
    · have : metadataOf p = b := by
        unfold metadataOf
        omega
      rw [this]
      exact hb

theorem consistent_sfree (brk0 : Nat) (s : State) (ps l : List Nat) (p : Nat)
    (inv : Consistent brk0 s ps l) (hmem : p = 0 ∨ p ∈ ps) :
    Consistent brk0 (sfree p s) (0 :: ps) l ∧
    (∀ b ∈ l, ((sfree p s).hdr b).size_TOTAL_PAYLOAD = (s.hdr b).size_TOTAL_PAYLOAD) ∧
    s.blocks_list.blocks_count_TOTAL ≤ (sfree p s).blocks_list.blocks_count_TOTAL := by
  unfold sfree
  by_cases hp : p = 0
  · rw [if_pos hp]
    exact ⟨consistent_add_pointer brk0 _ ps l 0 inv (Or.inl rfl), fun _ _ => rfl, Nat.le_refl _⟩
  · rw [if_neg hp]
    obtain ⟨c1, c2, c3⟩ := consistent_releaseUsedBlock brk0 s ps l p inv
      (consistent_pointer brk0 s ps l p inv hp hmem)
    exact ⟨consistent_add_pointer brk0 _ ps l 0 c1 (Or.inl rfl), fun b _ => c2 b, by rw [c3]⟩

theorem consistent_srealloc (brk0 : Nat) (s s1 : State) (ps l : List Nat) (fuel : Nat)
    (os : OS) (oldp n p : Nat) (inv : Consistent brk0 s ps l)
    (hmem : oldp = 0 ∨ oldp ∈ ps)
    (henv : breakStays os n s = true)
    (h : srealloc fuel os oldp n s = some (p, s1)) :
    ∃ l1, Consistent brk0 s1 (p :: ps) l1 ∧ l <+: l1 ∧
      (∀ b ∈ l, (s1.hdr b).size_TOTAL_PAYLOAD = (s.hdr b).size_TOTAL_PAYLOAD) ∧
      s.blocks_list.blocks_count_TOTAL ≤ s1.blocks_list.blocks_count_TOTAL := by
  unfold srealloc at h
  by_cases hv : n = 0 ∨ n > maxSize
  · rw [if_pos hv] at h
    simp only [Option.some.injEq, Prod.mk.injEq] at h
    obtain ⟨e1, e2⟩ := h
    subst e1 e2
    exact ⟨l, consistent_add_pointer brk0 _ ps l 0 inv (Or.inl rfl), List.prefix_refl l,
      fun _ _ => rfl, Nat.le_refl _⟩
  · rw [if_neg hv] at h
    have hn : n ≤ maxSize := by omega
    unfold reallocateActiveBlock at h
    by_cases hp : oldp = 0
    · rw [if_pos hp] at h
      exact consistent_allocateBlock brk0 s s1 ps l fuel os n p inv hn henv h
    · rw [if_neg hp] at h
      simp only [] at h
      have hb := consistent_pointer brk0 s ps l oldp inv hp hmem
      have hptr : oldp = metadataOf oldp + sizeofMallocMetadata := by
        rcases hmem with h0 | h1
        · exact absurd h0 hp
        · rcases inv.pointers oldp h1 with h0 | ⟨b, _, e⟩
          · exact absurd h0 hp
          · unfold metadataOf; omega
      by_cases hfit : (s.hdr (metadataOf oldp)).size_TOTAL_PAYLOAD ≥ n
      · rw [if_pos hfit] at h
        simp only [Option.some.injEq, Prod.mk.injEq] at h
        obtain ⟨e1, e2⟩ := h
        subst e1 e2
        refine ⟨l, consistent_add_pointer brk0 _ ps l oldp
          (consistent_setActive brk0 s ps l _ n inv hfit) (Or.inr ⟨_, hb, hptr⟩),
          List.prefix_refl l, fun b _ => by simp, by simp⟩
      · rw [if_neg hfit] at h
        unfold reallocateBlockToOtherBlock at h
        cases hf : findFreeBlock fuel n s with
        | none => rw [hf] at h; simp at h
        | some fb =>
          rw [hf] at h
          simp only [] at h
          cases ha : (if fb = 0 then createNewBlock os n s
              else some (useFreeBlock fb n s)) with
          | none => rw [ha] at h; simp at h
          | some r =>
            obtain ⟨q, s2⟩ := r
            rw [ha] at h
            simp only [] at h
            obtain ⟨l1, c1, c2, c3, c4⟩ :=
              consistent_allocated brk0 s s2 ps l fuel os n fb q inv hn henv hf ha
            by_cases hq : fb = 0 ∧ q = 0
            · rw [if_pos hq] at h
              simp only [Option.some.injEq, Prod.mk.injEq] at h
              obtain ⟨e1, e2⟩ := h
              subst e1 e2
              rw [hq.2] at c1
              exact ⟨l1, c1, c2, c3, c4⟩
            · rw [if_neg hq] at h
              simp only [Option.some.injEq, Prod.mk.injEq] at h
              obtain ⟨e1, e2⟩ := h
              subst e1 e2
              have c5 := consistent_with_bytes brk0 s2 (q :: ps) l1
                (s2.mem.memmove q oldp (s2.hdr (metadataOf oldp)).size_ACTIVE_PAYLOAD) c1 rfl
              obtain ⟨c6, c7, c8⟩ := consistent_releaseUsedBlock brk0 _ (q :: ps) l1 oldp c5
                (c2.subset hb)
              refine ⟨l1, c6, c2, ?_, ?_⟩
              · intro b hb1
                rw [c7 b]
                exact c3 b hb1
              · rw [c8]
                exact c4

end Malloc2

/-! ## Sequences of calls of `malloc_2` -/

namespace Malloc2
open BlocksList

/-- With a loop bound of at least the number of blocks, a call returns. -/
theorem call_enough_fuel (brk0 : Nat) (s : State) (ps l : List Nat) (c : Call)
    (inv : Consistent brk0 s ps l) (hfuel : l.length ≤ c.fuel) :
    ∃ r, c.apply s = some r := by
  cases c with
  | smalloc fuel os n =>
    simp only [Call.apply]
    unfold smalloc
    by_cases hv : n = 0 ∨ n > maxSize
    · rw [if_pos hv]; exact ⟨_, rfl⟩
    · rw [if_neg hv]
      exact allocateBlock_enough_fuel brk0 s ps l fuel os n inv hfuel
  | scalloc fuel os num size =>
    simp only [Call.apply]
    unfold scalloc
    by_cases hv : size = 0 ∨ num = 0 ∨ mul64 size num > maxSize
    · rw [if_pos hv]; exact ⟨_, rfl⟩
    · rw [if_neg hv]
      unfold allocateZeroedBlock
      obtain ⟨r, hr⟩ := allocateBlock_enough_fuel brk0 s ps l fuel os (mul64 size num) inv hfuel
      obtain ⟨q, s2⟩ := r
      rw [hr]
      simp only []
      by_cases hq : q ≠ 0
      · rw [if_pos hq]; exact ⟨_, rfl⟩
      · rw [if_neg hq]; exact ⟨_, rfl⟩
  | sfree p => exact ⟨_, rfl⟩
  | srealloc fuel os oldp n =>
    simp only [Call.apply]
    unfold srealloc
    by_cases hv : n = 0 ∨ n > maxSize
    · rw [if_pos hv]; exact ⟨_, rfl⟩
    · rw [if_neg hv]
      unfold reallocateActiveBlock
      by_cases hp : oldp = 0
      · rw [if_pos hp]
        exact allocateBlock_enough_fuel brk0 s ps l fuel os n inv hfuel
      · rw [if_neg hp]
        simp only []
        by_cases hfit : (s.hdr (metadataOf oldp)).size_TOTAL_PAYLOAD ≥ n
        · rw [if_pos hfit]; exact ⟨_, rfl⟩
        · rw [if_neg hfit]
          unfold reallocateBlockToOtherBlock
          obtain ⟨fb, hf⟩ := findFreeBlockLoop_enough_fuel s.mem n l s.head fuel inv.chain hfuel
          have hf1 : findFreeBlock fuel n s = some fb := hf
          rw [hf1]
          simp only []
          have ha : ∃ r, (if fb = 0 then createNewBlock os n s
              else some (useFreeBlock fb n s)) = some r := by
            by_cases hfb : fb = 0
            · rw [if_pos hfb]
              exact bl_createNewBlock_isSome os n s (consistent_head_or_tail brk0 s ps l inv)
            · rw [if_neg hfb]; exact ⟨_, rfl⟩
          obtain ⟨r, hr⟩ := ha
          rw [hr]
          simp only []
          by_cases hq : fb = 0 ∧ r.1 = 0
          · rw [if_pos hq]; exact ⟨_, rfl⟩
          · rw [if_neg hq]; exact ⟨_, rfl⟩

/-- One admissible call on a consistent state. -/
theorem consistent_call (brk0 : Nat) (s s1 : State) (ps l : List Nat) (c : Call) (p : Nat)
    (inv : Consistent brk0 s ps l) (hadm : c.admissible s ps = true)
    (h : c.apply s = some (p, s1)) :
    ∃ l1, Consistent brk0 s1 (p :: ps) l1 ∧ l <+: l1 ∧
      (∀ b ∈ l, (s1.hdr b).size_TOTAL_PAYLOAD = (s.hdr b).size_TOTAL_PAYLOAD) ∧
      s.blocks_list.blocks_count_TOTAL ≤ s1.blocks_list.blocks_count_TOTAL := by
  cases c with
  | smalloc fuel os n =>
    exact consistent_smalloc brk0 s s1 ps l fuel os n p inv hadm h
  | scalloc fuel os num size =>
    exact consistent_scalloc brk0 s s1 ps l fuel os num size p inv hadm h
  | sfree q =>
    simp only [Call.admissible, decide_eq_true_eq] at hadm
    simp only [Call.apply, Option.some.injEq, Prod.mk.injEq] at h
    obtain ⟨e1, e2⟩ := h
    subst e1 e2
    obtain ⟨c1, c2, c3⟩ := consistent_sfree brk0 s ps l q inv hadm
    exact ⟨l, c1, List.prefix_refl l, c2, c3⟩
  | srealloc fuel os oldp n =>
    simp only [Call.admissible, Bool.and_eq_true, decide_eq_true_eq] at hadm
    exact consistent_srealloc brk0 s s1 ps l fuel os oldp n p inv hadm.1 hadm.2 h

theorem consistent_init (brk0 : Nat) (h0 : 0 < brk0) (hW : brk0 < W) :
    Consistent brk0 (State.init brk0) [] [] :=
  ⟨rfl, rfl, fun _ hb => absurd hb (List.not_mem_nil _), h0, rfl, hW, rfl, rfl, rfl, rfl,
    fun _ hb => absurd hb (List.not_mem_nil _), fun _ hp => absurd hp (List.not_mem_nil _)⟩

/-- A sequence of admissible calls on a consistent state: the state after them is
consistent with a list that extends the list before them, the blocks there before keep
their initial payload sizes and the number of blocks does not decrease. -/
theorem consistent_runCalls (brk0 : Nat) :
    ∀ (cs : List Call) (s s1 : State) (ps ps1 l : List Nat), Consistent brk0 s ps l →
      runCalls cs (s, ps) = some (s1, ps1) →
      ∃ l1, Consistent brk0 s1 ps1 l1 ∧ l <+: l1 ∧
        (∀ b ∈ l, (s1.hdr b).size_TOTAL_PAYLOAD = (s.hdr b).size_TOTAL_PAYLOAD) ∧
        s.blocks_list.blocks_count_TOTAL ≤ s1.blocks_list.blocks_count_TOTAL := by
  intro cs
  induction cs with
  | nil =>
    intro s s1 ps ps1 l inv h
    simp only [runCalls, Option.some.injEq, Prod.mk.injEq] at h
    obtain ⟨e1, e2⟩ := h
    subst e1 e2
    exact ⟨l, inv, List.prefix_refl l, fun _ _ => rfl, Nat.le_refl _⟩
  | cons c cs ih =>
    intro s s1 ps ps1 l inv h
    unfold runCalls at h
    simp only [] at h
    by_cases hadm : c.admissible s ps = true
    · rw [if_pos hadm] at h
      cases ha : c.apply s with
      | none => rw [ha] at h; simp at h
      | some r =>
        obtain ⟨p, s2⟩ := r
        rw [ha] at h
        simp only [] at h
        obtain ⟨l2, c1, c2, c3, c4⟩ := consistent_call brk0 s s2 ps l c p inv hadm ha
        obtain ⟨l1, d1, d2, d3, d4⟩ := ih s2 s1 (p :: ps) ps1 l2 c1 h
        refine ⟨l1, d1, c2.trans d2, ?_, Nat.le_trans c4 d4⟩
        intro b hb
        rw [d3 b (c2.subset hb)]
        exact c3 b hb
    · rw [if_neg hadm] at h
      simp at h

/-- The statistics of a consistent state. -/
theorem consistent_statistics (brk0 : Nat) (s : State) (ps l : List Nat)
    (inv : Consistent brk0 s ps l) :
    blocksList l.length s = some l ∧
    _num_free_blocks s = (l.filter (fun b => (s.hdr b).is_free)).length ∧
    _num_free_bytes s
      = ((l.filter (fun b => (s.hdr b).is_free)).map
          (fun b => (s.hdr b).size_TOTAL_PAYLOAD)).sum ∧
    _num_allocated_bytes s = (l.map (fun b => (s.hdr b).size_TOTAL_PAYLOAD)).sum ∧
    _num_allocated_blocks s = l.length := by
  obtain ⟨b1, b2, _, _⟩ := consistent_bounds brk0 s ps l inv
  refine ⟨blocksListFrom_of_isChain s.mem l s.head inv.chain, inv.blocks_free, inv.bytes_free,
    ?_, inv.blocks_total⟩
  unfold _num_allocated_bytes _num_meta_data_bytes
  rw [inv.bytes_total, inv.blocks_total]
  have hm : mul64 l.length getMetaDataSize = l.length * sizeofMallocMetadata := by
    unfold mul64 getMetaDataSize
    apply Nat.mod_eq_of_lt
    omega
  rw [hm]
  simp only [sub64, W] at b1 ⊢
  omega

theorem isSome_eq_some (α : Type) (o : Option α) (d : α) (h : o.isSome = true) :
    o = some (match o with
      | none => d
      | some r => r) := by
  cases o with
  | none => simp at h
  | some r => rfl

/-- C34: in `malloc_2`, let `s` be the state after any finite sequence `cs` of
`smalloc`, `scalloc`, `sfree` and `srealloc` calls from the empty allocator, and `s1`
the state after any further calls `cs1`, where every pointer passed to `sfree` or
`srealloc` is `NULL` or was returned by an earlier call and the program break stays
below `2^64`. Then the blocks reached from `head` form a list `l` in `s` and `l1` in
`s1`; in `s`, `_num_free_blocks` is the number of blocks of `l` with `is_free` set,
`_num_free_bytes` is the sum of their initial payload sizes, `_num_allocated_bytes` is
the sum of the initial payload sizes of all blocks of `l` and `_num_allocated_blocks`
is the length of `l`; `l1` begins with `l`, every block of `l` has the same initial
payload size in `s1` as in `s`, and `_num_allocated_blocks` is not smaller in `s1`;
and every next call whose loop bound is at least the number of blocks returns. -/
theorem counters_agree_with_the_list_after_any_calls (brk0 : Nat) (h0 : 0 < brk0)
    (hW : brk0 < W) (cs cs1 : List Call) (s s1 : State) (ps ps1 : List Nat)
    (h1 : runCalls cs (State.init brk0, []) = some (s, ps))
    (h2 : runCalls cs1 (s, ps) = some (s1, ps1)) :
    ∃ l l1, blocksList l.length s = some l ∧ blocksList l1.length s1 = some l1 ∧
      _num_free_blocks s = (l.filter (fun b => (s.hdr b).is_free)).length ∧
      _num_free_bytes s
        = ((l.filter (fun b => (s.hdr b).is_free)).map
            (fun b => (s.hdr b).size_TOTAL_PAYLOAD)).sum ∧
      _num_allocated_bytes s = (l.map (fun b => (s.hdr b).size_TOTAL_PAYLOAD)).sum ∧
      _num_allocated_blocks s = l.length ∧
      l <+: l1 ∧
      (∀ b ∈ l, (s1.hdr b).size_TOTAL_PAYLOAD = (s.hdr b).size_TOTAL_PAYLOAD) ∧
      _num_allocated_blocks s ≤ _num_allocated_blocks s1 ∧
      (∀ c : Call, l.length ≤ c.fuel → ∃ r, c.apply s = some r) := by
  obtain ⟨l, c1, _, _, _⟩ :=
    consistent_runCalls brk0 cs (State.init brk0) s [] ps [] (consistent_init brk0 h0 hW) h1
  obtain ⟨l1, d1, d2, d3, d4⟩ := consistent_runCalls brk0 cs1 s s1 ps ps1 l c1 h2
  obtain ⟨e1, e2, e3, e4, e5⟩ := consistent_statistics brk0 s ps l c1
  obtain ⟨f1, _, _, _, _⟩ := consistent_statistics brk0 s1 ps1 l1 d1
  exact ⟨l, l1, e1, f1, e2, e3, e4, e5, d2, d3, d4,
    fun c hc => call_enough_fuel brk0 s ps l c c1 hc⟩

/-- Witness for C34: after `a = smalloc(200)`, `b = scalloc(10, 30)`, `sfree(a)` the
list has a free block of `200` bytes and a live block of `300` bytes and the statistics
are `1`, `200`, `2`, `500`; after `srealloc(b, 500)`, `smalloc(150)`, `smalloc(400)` the
list has four blocks, of which the first two are the blocks of before with the same
sizes. -/
theorem counters_agree_with_the_list_after_any_calls_witness :
    runCalls callsA (State.init 4096000, []) = some afterCallsA ∧
    runCalls callsB afterCallsA = some afterCallsB ∧
    (blocksList 4 afterCallsA.1).map (blockSizes afterCallsA.1)
      = some [(200, true), (300, false)] ∧
    _num_free_blocks afterCallsA.1 = 1 ∧ _num_free_bytes afterCallsA.1 = 200 ∧
    _num_allocated_blocks afterCallsA.1 = 2 ∧ _num_allocated_bytes afterCallsA.1 = 500 ∧
    (blocksList 4 afterCallsB.1).map (blockSizes afterCallsB.1)
      = some [(200, false), (300, true), (500, false), (400, false)] ∧
    ∃ l l1, blocksList l.length afterCallsA.1 = some l ∧
      blocksList l1.length afterCallsB.1 = some l1 ∧
      _num_free_blocks afterCallsA.1
        = (l.filter (fun b => (afterCallsA.1.hdr b).is_free)).length ∧
      _num_free_bytes afterCallsA.1
        = ((l.filter (fun b => (afterCallsA.1.hdr b).is_free)).map
            (fun b => (afterCallsA.1.hdr b).size_TOTAL_PAYLOAD)).sum ∧
      _num_allocated_bytes afterCallsA.1
        = (l.map (fun b => (afterCallsA.1.hdr b).size_TOTAL_PAYLOAD)).sum ∧
      _num_allocated_blocks afterCallsA.1 = l.length ∧
      l <+: l1 ∧
      (∀ b ∈ l, (afterCallsB.1.hdr b).size_TOTAL_PAYLOAD
        = (afterCallsA.1.hdr b).size_TOTAL_PAYLOAD) ∧
      _num_allocated_blocks afterCallsA.1 ≤ _num_allocated_blocks afterCallsB.1 ∧
      (∀ c : Call, l.length ≤ c.fuel → ∃ r, c.apply afterCallsA.1 = some r) :=
  have hA : runCalls callsA (State.init 4096000, []) = some afterCallsA :=
    isSome_eq_some _ _ (State.init 4096000, []) (by decide!)
  have hB : runCalls callsB afterCallsA = some afterCallsB :=
    isSome_eq_some _ _ afterCallsA (by decide!)
  ⟨hA, hB, by decide!, by decide!, by decide!, by decide!, by decide!, by decide!,
    counters_agree_with_the_list_after_any_calls 4096000 (by decide) (by decide)
      callsA callsB afterCallsA.1 afterCallsB.1 afterCallsA.2 afterCallsB.2 hA hB⟩

end Malloc2

/-! ## `smalloc` followed by `sfree`: the counters -/

namespace Malloc3
open HeapBlocksList

/-- In a list in good order in which no two adjacent blocks are both free, a free block
has no free neighbour, and its predecessor lies below it. -/
theorem free_block_neighbours (s : State) (l : List Nat) (inv : ListInvariant s l)
    (naf : ∀ a ∈ l, (s.hdr a).next ≠ 0 →
      ¬ ((s.hdr a).is_free = true ∧ (s.hdr (s.hdr a).next).is_free = true)) :
    ∀ b ∈ l, (s.hdr b).is_free = true →
      ((s.hdr b).next = 0 ∨ (s.hdr (s.hdr b).next).is_free = false) ∧
      ((s.hdr b).prev = 0 ∨
        ((s.hdr b).prev < b ∧ (s.hdr (s.hdr b).prev).is_free = false)) := by
  intro b hb hfree
  refine ⟨?_, ?_⟩
  · by_cases hn : (s.hdr b).next = 0
    · exact Or.inl hn
    · refine Or.inr ?_
      cases hf : (s.hdr (s.hdr b).next).is_free with
      | false => rfl
      | true => exact absurd ⟨hfree, hf⟩ (naf b hb hn)
  · by_cases hq : (s.hdr b).prev = 0
    · exact Or.inl hq
    · refine Or.inr ?_
      obtain ⟨l1, l2, e⟩ := List.append_of_mem hb
      subst e
      obtain ⟨l0, e0⟩ := listInvariant_pred s l1 l2 b inv hq
      subst e0
      have inv2 : ListInvariant s (l0 ++ (s.hdr b).prev :: b :: l2) := by
        have e : l0 ++ [(s.hdr b).prev] ++ b :: l2 = l0 ++ (s.hdr b).prev :: b :: l2 := by simp
        rw [← e]; exact inv
      obtain ⟨p1, _, _, p4, p5⟩ := listInvariant_prev s l0 l2 _ b inv2
      refine ⟨p5, ?_⟩
      cases hf : (s.hdr (s.hdr b).prev).is_free with
      | false => rfl
      | true =>
        have := naf (s.hdr b).prev (by simp) (by rw [p1]; exact p4)
        rw [p1] at this
        exact absurd ⟨hf, hfree⟩ this

/-- C19: `p = smalloc(n)` with `1 ≤ n ≤ 131071`, then `sfree(p)`, on a heap list `l` in
good order (the blocks reached from `head` by `next` end at `NULL`, each `prev` names
the block before, adjacent blocks are contiguous, `tail` is the last block, every block
ends at or below the program break, and a new block at the break ends below `2^64`) with
64-bit counters, in which no two adjacent blocks are both free.  `_num_free_blocks` and
`_num_free_bytes` are back at their values before the `smalloc` exactly when
`findFreeBlock(n)` found a block `fb` to reuse; then the block count is back too, and
when the block was split, the `sfree` is a merge with the remainder.  When the free
tail was extended instead, the free-block count and the block count are back and the
free bytes have grown by `n` minus the old payload of the tail; when a new block was
made, free blocks, free bytes and blocks have grown by `1`, `n` and `1`. -/
theorem smalloc_then_sfree_counters (fuel : Nat) (os : OS) (n : Nat) (s s1 : State)
    (p fb : Nat) (l : List Nat) (hn1 : 1 ≤ n) (hn2 : n ≤ 131071)
    (hl : heapList fuel s = some l)
    (hcont : contiguousList s l = true)
    (hnaf : noAdjacentFree s l = true)
    (hprev : prevLinked s 0 l = true)
    (htail : s.tail = l.getLastD 0)
    (hbrk : ∀ a ∈ l, a + sizeofMallocMetadata + (s.hdr a).size_TOTAL_PAYLOAD ≤ s.brk)
    (hbrkW : s.brk + sizeofMallocMetadata + n < W)
    (hc1 : s.heap_blocks_list.blocks_count_FREE < W)
    (hc2 : s.heap_blocks_list.bytes_count_FREE < W)
    (hc3 : s.heap_blocks_list.blocks_count_TOTAL < W)
    (hfind : findFreeBlock fuel n s = some fb)
    (h : smalloc fuel os n s = some (p, s1)) (hp : p ≠ 0) :
    ((_num_free_blocks (sfree p s1) = _num_free_blocks s ∧
      _num_free_bytes (sfree p s1) = _num_free_bytes s) ↔ fb ≠ 0) ∧
    (fb ≠ 0 → _num_allocated_blocks (sfree p s1) = _num_allocated_blocks s) ∧
    (fb ≠ 0 →
      (if sub64 (s.hdr fb).size_TOTAL_PAYLOAD n > sizeofMallocMetadata then
        sub64 (sub64 (s.hdr fb).size_TOTAL_PAYLOAD n) sizeofMallocMetadata else 0)
        ≥ SPLITTING_THRESHOLD →
      sfree p s1 = combineFreeBlockWithSucc fb s1) ∧
    (fb = 0 → s.tail ≠ 0 → (s.hdr s.tail).is_free = true →
      (s.hdr s.tail).size_TOTAL_PAYLOAD < n ∧
      _num_free_blocks (sfree p s1) = _num_free_blocks s ∧
      _num_free_bytes (sfree p s1)
        = add64 (sub64 (_num_free_bytes s) (s.hdr s.tail).size_TOTAL_PAYLOAD) n ∧
      _num_allocated_blocks (sfree p s1) = _num_allocated_blocks s) ∧
    (fb = 0 → (s.tail = 0 ∨ (s.hdr s.tail).is_free = false) →
      _num_free_blocks (sfree p s1) = add64 (_num_free_blocks s) 1 ∧
      _num_free_bytes (sfree p s1) = add64 (_num_free_bytes s) n ∧
      _num_allocated_blocks (sfree p s1) = add64 (_num_allocated_blocks s) 1) := by
  have hbound : ∀ a ∈ l, a + sizeofMallocMetadata + (s.hdr a).size_TOTAL_PAYLOAD < W := by
    intro a ha
    have := hbrk a ha
    omega
  obtain ⟨inv, _⟩ := listInvariant_of_checks fuel s l hl hcont hprev hbound
  have naf := (noAdjacentFree_iff s l _ inv.chain).mp hnaf
  have htl : s.tail = 0 ∨ s.tail ∈ l := by
    cases l with
    | nil => exact Or.inl htail
    | cons a l => exact Or.inr (by rw [htail]; exact getLastD_cons_mem l a 0)
  exact smalloc_then_sfree_counters_of_neighbours fuel os n s s1 p fb l hn1 hn2 hl htl
    (free_block_neighbours s l inv naf) hc1 hc2 hc3 hfind h hp

/-- C19 at concrete inputs.  On the free block of `1000` bytes left by
`a = smalloc(1000)`, `c = smalloc(10)`, `sfree(a)`, the call `smalloc(100)` returns `a`
after a split, and `sfree(a)` is the merge with the remainder; free blocks, free bytes
and blocks are `1`, `1000` and `2` before and after.  After `p = smalloc(50)` and
`sfree(p)`, the call `smalloc(500)` extends the free tail, and after `sfree` the free
bytes are `500` where they were `50`.  From the empty allocator, `smalloc(100)` makes a
new block, and after `sfree` free blocks, free bytes and blocks are `1`, `100`, `1`. -/
theorem smalloc_then_sfree_counters_witness :
    (∃ s1, smalloc 4 os0 100 beforeSplitReuse = some (4096040, s1) ∧
      reportedCounters beforeSplitReuse = (1, 1000, 2) ∧
      (_num_free_blocks (sfree 4096040 s1) = _num_free_blocks beforeSplitReuse ∧
        _num_free_bytes (sfree 4096040 s1) = _num_free_bytes beforeSplitReuse) ∧
      _num_allocated_blocks (sfree 4096040 s1) = _num_allocated_blocks beforeSplitReuse ∧
      sfree 4096040 s1 = combineFreeBlockWithSucc 4096000 s1) ∧
    (∃ s1, smalloc 4 os0 500 afterAllocFree50 = some (4096040, s1) ∧
      reportedCounters afterAllocFree50 = (1, 50, 1) ∧
      _num_free_blocks (sfree 4096040 s1) = 1 ∧
      _num_free_bytes (sfree 4096040 s1) = 500 ∧
      _num_allocated_blocks (sfree 4096040 s1) = 1) ∧
    (∃ s1, smalloc 4 os0 100 s0 = some (4096040, s1) ∧
      reportedCounters s0 = (0, 0, 0) ∧
      _num_free_blocks (sfree 4096040 s1) = 1 ∧
      _num_free_bytes (sfree 4096040 s1) = 100 ∧
      _num_allocated_blocks (sfree 4096040 s1) = 1) := by
  have hA := smalloc_then_sfree_counters 4 os0 100 beforeSplitReuse _ 4096040 4096000
    [4096000, 4097040] (by decide) (by decide) (by decide!) (by decide!) (by decide!)
    (by decide!) (by decide!) (by decide!) (by decide!) (by decide!) (by decide!) (by decide!)
    (by decide!) rfl (by decide)
  have hB := smalloc_then_sfree_counters 4 os0 500 afterAllocFree50 _ 4096040 0
    [4096000] (by decide) (by decide) (by decide!) (by decide!) (by decide!)
    (by decide!) (by decide!) (by decide!) (by decide!) (by decide!) (by decide!) (by decide!)
    (by decide!) rfl (by decide)
  have hC := smalloc_then_sfree_counters 4 os0 100 s0 _ 4096040 0
    [] (by decide) (by decide) (by decide!) (by decide!) (by decide!)
    (by decide!) (by decide!) (by decide!) (by decide!) (by decide!) (by decide!) (by decide!)
    (by decide!) rfl (by decide)
  have hB2 := hB.2.2.2.1 rfl (by decide!) (by decide!)
  have hC2 := hC.2.2.2.2 rfl (Or.inl (by decide!))
  have e1 : _num_free_blocks afterAllocFree50 = 1 := by decide!
  have e2 : _num_free_bytes afterAllocFree50 = 50 := by decide!
  have e3 : _num_allocated_blocks afterAllocFree50 = 1 := by decide!
  have e4 : (afterAllocFree50.hdr afterAllocFree50.tail).size_TOTAL_PAYLOAD = 50 := by decide!
  have f1 : _num_free_blocks s0 = 0 := by decide!
  have f2 : _num_free_bytes s0 = 0 := by decide!
  have f3 : _num_allocated_blocks s0 = 0 := by decide!
  rw [e1, e2, e3, e4] at hB2
  rw [f1, f2, f3] at hC2
  exact ⟨⟨_, rfl, by decide!, hA.1.2 (by decide), hA.2.1 (by decide),
      hA.2.2.1 (by decide) (by decide!)⟩,
    ⟨_, rfl, by decide!, hB2.2.1, hB2.2.2.1, hB2.2.2.2⟩,
    ⟨_, rfl, by decide!, hC2.1, hC2.2.1, hC2.2.2⟩⟩

end Malloc3

/-! ## Runs on a memory of bytes -/

namespace Malloc3Bytes
open HeapBlocksList

/-- C1 on the code: after `a = smalloc(100)`, `b = smalloc(1000)`, `c = smalloc(10)`,
`sfree(b)`, `srealloc(a, 200)` and `srealloc(a, 224)`, the list starts with the live
block at `4096000`, the free block of `876` bytes at `4096264` and the free block at
`4096240`, whose header lies `24` bytes before the header at `4096264`.  `smalloc(50)`
splits the block at `4096264` and returns its payload `4096304`.  The statement
`original->next->prev = remaining` of the split stores the address `4096354` of the
remainder in the `prev` field of the block at `4096240`, that is in the bytes
`4096272 .. 4096279`, which are the `active_payload` field of the block returned: the
block returned is live with `total_payload = 50` and `active_payload = 4096354`. -/
theorem active_payload_of_returned_block_overwritten :
    beforeSmallRequest.map (fun s => s.head) = some 4096000 ∧
    beforeSmallRequest.map (fun s => blockView s 4096000)
      = some (4096000, 224, 224, false, 4096264, 0) ∧
    beforeSmallRequest.map (fun s => blockView s 4096264)
      = some (4096264, 876, 4096264, true, 4096240, 4096000) ∧
    beforeSmallRequest.map (fun s => findFreeBlock 4 50 s) = some (some 4096264) ∧
    (beforeSmallRequest.bind (fun s => smalloc 4 os0 50 s)).map (fun r => r.1)
      = some 4096304 ∧
    (beforeSmallRequest.bind (fun s => smalloc 4 os0 50 s)).map (fun r =>
      blockView r.2 (metadataOf r.1))
      = some (4096264, 50, 4096354, false, 4096354, 4096000) ∧
    (beforeSmallRequest.bind (fun s => smalloc 4 os0 50 s)).map (fun r =>
      ((r.2.hdr 4096354).next, (r.2.hdr 4096240).prev)) = some (4096240, 4096354) ∧
    4096240 + 32 = 4096264 + 8 := by
  refine ⟨?_, ?_, ?_, ?_, ?_, ?_, ?_, ?_⟩ <;> decide!

/-- C15 on the code: after `a = smalloc(100)`, `b = smalloc(1000)`, `c = smalloc(10)`,
`sfree(b)`, `srealloc(a, 200)` and `srealloc(a, 232)`, the free block at `4096272` is
the first that fits and `scalloc(1, 50)` returns its payload `4096312` after a split.
The bytes at offsets `0 .. 49` of the payload are zero.  The `prev` field of the block
at `4096240` is the `total_payload` field of the block returned, and the split stores
the address of the remainder there: the block returned is live with
`active_payload = 50` and `total_payload = 4096362`.  The header of the remainder is
written at offset `50` of the payload: the bytes at offsets `50`, `66` and `82`, which
were `0` before the call, are `182`, `1` and `16` after it. -/
theorem payload_bytes_changed_beyond_the_zeroed_request :
    beforeZeroedRequest.map (fun s => findFreeBlock 4 50 s) = some (some 4096272) ∧
    (beforeZeroedRequest.bind (fun s => scalloc 4 os0 1 50 s)).map (fun r => r.1)
      = some 4096312 ∧
    (beforeZeroedRequest.bind (fun s => scalloc 4 os0 1 50 s)).map (fun r =>
      (List.range 50).all (fun i => r.2.mem.byte (r.1 + i) == 0)) = some true ∧
    (beforeZeroedRequest.bind (fun s => scalloc 4 os0 1 50 s)).map (fun r =>
      blockView r.2 (metadataOf r.1))
      = some (4096272, 4096362, 50, false, 4096362, 4096000) ∧
    beforeZeroedRequest.map (fun s =>
      (s.mem.byte (4096312 + 50), s.mem.byte (4096312 + 66), s.mem.byte (4096312 + 82)))
      = some (0, 0, 0) ∧
    (beforeZeroedRequest.bind (fun s => scalloc 4 os0 1 50 s)).map (fun r =>
      (r.2.mem.byte (r.1 + 50), r.2.mem.byte (r.1 + 66), r.2.mem.byte (r.1 + 82)))
      = some (182, 1, 16) ∧
    4096240 + 32 = 4096272 := by
  refine ⟨?_, ?_, ?_, ?_, ?_, ?_, ?_⟩ <;> decide!

/-- C26 on the code: after `a = smalloc(100)`, `b = smalloc(1000)`, `c = smalloc(10)`,
`sfree(b)`, `srealloc(a, 200)`, `srealloc(a, 224)` and `g = smalloc(50)`, the block of
`g` at `4096264` is live with `total_payload = 50`, and the list goes from the head
`4096000` to `4096264`, to the free block at `4096354` and to the free block at
`4096240`, whose `prev` is `4096354`.  `srealloc(g, 20)` returns `g` without a split
(`50 - 20 < 40 + 128`) and leaves the four counters as they were; its only store,
`active_payload = 20`, goes to the bytes `4096272 .. 4096279`, which are the `prev`
field of the block at `4096240`: that block of the list has `prev = 20` after the
call. -/
theorem prev_of_listed_block_changed_by_resize_in_place :
    beforeShrinkInPlace.map (fun r => (r.1, r.2.head)) = some (4096304, 4096000) ∧
    beforeShrinkInPlace.map (fun r => ((r.2.hdr 4096264).is_free,
      (r.2.hdr 4096264).size_TOTAL_PAYLOAD)) = some (false, 50) ∧
    beforeShrinkInPlace.map (fun r => ((r.2.hdr 4096000).next, (r.2.hdr 4096264).next,
      (r.2.hdr 4096354).next)) = some (4096264, 4096354, 4096240) ∧
    beforeShrinkInPlace.map (fun r => ((r.2.hdr 4096240).is_free, (r.2.hdr 4096240).prev))
      = some (true, 4096354) ∧
    beforeShrinkInPlace.map (fun r => heapCounters r.2) = some (2, 5, 1686, 1230) ∧
    (beforeShrinkInPlace.bind (fun r => srealloc 4 os0 r.1 20 r.2)).map (fun q => q.1)
      = some 4096304 ∧
    (beforeShrinkInPlace.bind (fun r => srealloc 4 os0 r.1 20 r.2)).map (fun q =>
      ((q.2.hdr 4096264).size_ACTIVE_PAYLOAD, (q.2.hdr 4096264).size_TOTAL_PAYLOAD))
      = some (20, 50) ∧
    (beforeShrinkInPlace.bind (fun r => srealloc 4 os0 r.1 20 r.2)).map (fun q =>
      heapCounters q.2) = some (2, 5, 1686, 1230) ∧
    (beforeShrinkInPlace.bind (fun r => srealloc 4 os0 r.1 20 r.2)).map (fun q =>
      ((q.2.hdr 4096000).next, (q.2.hdr 4096264).next, (q.2.hdr 4096354).next))
      = some (4096264, 4096354, 4096240) ∧
    (beforeShrinkInPlace.bind (fun r => srealloc 4 os0 r.1 20 r.2)).map (fun q =>
      ((q.2.hdr 4096240).is_free, (q.2.hdr 4096240).prev)) = some (true, 20) ∧
    4096240 + 32 = 4096264 + 8 := by
  refine ⟨?_, ?_, ?_, ?_, ?_, ?_, ?_, ?_, ?_, ?_, ?_⟩ <;> decide!

/-- C27 on the code: after `a = smalloc(1000)`, `b = smalloc(500)`, `c = smalloc(10)` and
`sfree(a)`, the list is the free block of `1000` bytes at `4096000`, the live block of
`b` at `4097040` with `500` bytes and the tail at `4097580`; the break is `4097630`.
For `srealloc(b, 1004)` the block of `b` is too small and is not the tail, and its
predecessor is free with `1000 + 40 + 500 ≥ 1004`: the call is
`reallocateUsingPredOnly`.  The remainder of `496` bytes is split off and its header is
written at `4096000 + 40 + 1004 = 4097044`, four bytes into the header of `b`, before the
`memmove`.  When `memmove` is called, the field `size[TOTAL_PAYLOAD]` of the header of
`b`, which is the length of the copy, holds `2130303779316`: the copy is to read the
bytes from `4097080` to far beyond the break. -/
theorem copy_length_overwritten_in_merge_into_predecessor :
    beforeGrowIntoPred.map (fun r => (r.1, r.2.head, r.2.tail, r.2.brk))
      = some (4097080, 4096000, 4097580, 4097630) ∧
    blockView stateBeforeGrowIntoPred 4096000 = (4096000, 1000, 0, true, 4097040, 0) ∧
    blockView stateBeforeGrowIntoPred 4097040 = (4097040, 500, 500, false, 4097580, 4096000) ∧
    blockView stateBeforeGrowIntoPred 4097580 = (4097580, 10, 10, false, 0, 4097040) ∧
    canReallocateUsingPredOnly 4097040 1004 stateBeforeGrowIntoPred = true ∧
    srealloc 4 os0 4097080 1004 stateBeforeGrowIntoPred
      = reallocateUsingPredOnly 4097040 1004 stateBeforeGrowIntoPred ∧
    (reallocateUsingPredOnlyHeaders 4097040 1004 stateBeforeGrowIntoPred).map (fun t =>
      blockView t 4096000) = some (4096000, 1540, 1004, false, 4097044, 0) ∧
    (reallocateUsingPredOnlyHeaders 4097040 1004 stateBeforeGrowIntoPred).map (fun t =>
      ((t.hdr 4097044).is_free, (t.hdr 4097044).size_TOTAL_PAYLOAD, t.brk))
      = some (true, 496, 4097630) ∧
    (reallocateUsingPredOnlyHeaders 4097040 1004 stateBeforeGrowIntoPred).map (fun t =>
      (t.hdr 4097040).size_TOTAL_PAYLOAD) = some 2130303779316 ∧
    4097080 + 2130303779316 > 4097630 := by
  refine ⟨?_, ?_, ?_, ?_, ?_, ?_, ?_, ?_, ?_, ?_⟩
  · decide!
  · decide!
  · decide!
  · decide!
  · decide!
  · have h1 : ¬ (stateBeforeGrowIntoPred.hdr (metadataOf 4097080)).size_TOTAL_PAYLOAD ≥ 1004 := by
      decide!
    have h2 : ¬ stateBeforeGrowIntoPred.tail = metadataOf 4097080 := by decide!
    have h3 : canReallocateUsingPredOnly (metadataOf 4097080) 1004 stateBeforeGrowIntoPred
        = true := by decide!
    have hm : metadataOf 4097080 = 4097040 := by decide
    unfold srealloc
    rw [if_neg (by decide)]
    unfold MemoryManager.reallocateActiveBlock
    rw [if_neg (by decide)]
    unfold HeapBlocksList.reallocateActiveBlock
    rw [if_neg (by decide)]
    simp only []
    rw [if_neg h1, if_neg h2]
    simp only [h2, false_and, if_false]
    unfold canReallocateUsingPredOrSucc reallocateUsingPredOrSucc
    simp only [h3, Bool.true_or, if_true]
    rw [hm]
  · decide!
  · decide!
  · decide!
  · decide

end Malloc3Bytes
